import Mathlib

/-!
The tile-deferred rasterisation and memory-coherency engine (RDP::Renderer)

A shallow embedding of `mupen64plus-video-paraLLEl/rdp/rdp.cpp`.

Conventions of the embedding.

* `int` values are `Int`: signed overflow is undefined in C++, so the model agrees with the
  code wherever the code has a defined meaning.  `>>` on an `int` is the arithmetic shift
  (`Int.shiftRight`, with the shift count a natural number), `/` on `int` operands is the truncating division (`Int.tdiv`).
* Bitwise operators on an `int` act on the 32 bits of its two's complement form (`to_u32`,
  `to_i32`).
* `uint32_t` values are `Nat`, reduced modulo `2 ^ 32` where a shift or an addition can leave
  the 32-bit range.  Container sizes are not reduced.
* The constants of `rdp.hpp` and `common.hpp` (tile size, capacity limits, flag bits, the
  64-bit hash) are not among the sources; they are the fields of `Config`.
* The GPU backend is an abstract substrate.  Handles (buffers, fences) are natural numbers
  handed out by a counter, and every backend call that matters for ordering (wait, submit,
  staging copy, copy-back, batch upload) is appended to the field `log` of the renderer.
  The log and the field `ghost_resolved` are history variables: no modelled code reads them
  (the log entry of a batch upload takes a copy of `ghost_resolved`).
* Every write to `framebuffer.color_state` and `framebuffer.depth_state` is appended to the log
  as a `residency` entry holding the value before and the value after the write.
* `assert` behaves as in a release build: a failing check is appended to the log under the
  line number of the assertion and execution goes on.  An out-of-range `tile_lists[...]`
  access, undefined in C++, reads a default `TileInfo` and writes nothing.
* The texture memory model `tmem` is an external collaborator: what it answers during a call
  is an argument of that call.
-/

namespace RDP

/-! ## Plain data -/

/-- The value `-1u` that marks an empty tile list and the end of a chain. -/
def SENTINEL : Nat := 4294967295

/-- Truncation to `uint32_t`. -/
def u32 (n : Nat) : Nat := n % 4294967296

/-- Truncation to `uint16_t`. -/
def u16 (n : Nat) : Nat := n % 65536

/-- Truncation to `uint8_t`. -/
def u8 (n : Nat) : Nat := n % 256

/-- Conversion of an `int` to `uint32_t`: the 32 bits of its two's complement form. -/
def to_u32 (i : Int) : Nat := (i % 4294967296).toNat

/-- Conversion of a `uint32_t` to `int`: the value of 32 bits read as two's complement. -/
def to_i32 (n : Nat) : Int :=
  if n % 4294967296 < 2147483648 then (n % 4294967296 : Nat) else (n % 4294967296 : Nat) - 4294967296

/-- Pixel size code of an 8-bit surface (the `case 1` of the switch in `sync_gpu_to_vi`). -/
def PIXEL_SIZE_8BPP : Nat := 1

/-- Pixel size code of a 16-bit surface (the `case 2` of the switch in `sync_gpu_to_vi`). -/
def PIXEL_SIZE_16BPP : Nat := 2

/-- Pixel size code of a 32-bit surface (the `case 3` of the switch in `sync_gpu_to_vi`). -/
def PIXEL_SIZE_32BPP : Nat := 3

/-- Four lanes of a resolved combiner operand: red, green, blue, alpha. -/
structure Vec4 where
  e0 : Nat
  e1 : Nat
  e2 : Nat
  e3 : Nat
deriving DecidableEq, Repr

/-- Operand selectors of one combiner cycle, `c.color[base]` and `c.alpha[base]`. -/
structure CombinerInputs where
  sub_a : Nat
  sub_b : Nat
  mul : Nat
  add : Nat
deriving DecidableEq, Repr

/-- Resolved operands of one combiner cycle, `c.cycle[base]`. -/
structure CombinerCycle where
  sub_a : Vec4
  sub_b : Vec4
  mul : Vec4
  add : Vec4
deriving DecidableEq, Repr

/-- The block `state.combiners`: the arrays of two are pairs, index 0 first. -/
structure Combiners where
  cycle : CombinerCycle × CombinerCycle
  color : CombinerInputs × CombinerInputs
  alpha : CombinerInputs × CombinerInputs
deriving DecidableEq, Repr

/-- The three residency states of a surface. -/
inductive FramebufferState where
  | FRAMEBUFFER_CPU
  | FRAMEBUFFER_STALE_GPU
  | FRAMEBUFFER_GPU
deriving DecidableEq, Repr

export FramebufferState (FRAMEBUFFER_CPU FRAMEBUFFER_STALE_GPU FRAMEBUFFER_GPU)

/-- The member `framebuffer`: the descriptor of the colour and depth surfaces. -/
structure Framebuffer where
  addr : Nat
  depth_addr : Nat
  format : Nat
  pixel_size : Nat
  width : Nat
  allocated_width : Nat
  allocated_height : Nat
  color_state : FramebufferState
  depth_state : FramebufferState
deriving DecidableEq, Repr

/-- Constants and helpers declared outside the sources at hand, taken as parameters. -/
structure Config where
  TILE_SIZE_X : Nat
  TILE_SIZE_Y : Nat
  RDP_MAX_PRIMITIVES_LOG2 : Nat
  RDP_MAX_PRIMITIVES : Nat
  RDP_MAX_COMBINERS : Nat
  FlushBufferTileCount : Nat
  TMEM_TILES : Nat
  RDP_FLAG_FLIP : Nat
  RDP_FLAG_CYCLE_TYPE_SHIFT : Nat
  RDP_FLAG_Z_UPDATE : Nat
  RDP_FLAG_Z_COMPARE : Nat
  RDP_FLAG_INTERPOLATE_Z : Nat
  RDP_FLAG_DO_OFFSET : Nat
  CYCLE_TYPE_1 : Nat
  CYCLE_TYPE_2 : Nat
  CYCLE_TYPE_FILL : Nat
  RDRAM_SIZE : Nat
  WRAP_ADDR : Nat → Nat
  color_size : Framebuffer → Nat
  depth_size : Framebuffer → Nat
  hash64 : Combiners → Nat

/-- The member `scissor`, in quarter pixels. -/
structure Scissor where
  xh : Int
  yh : Int
  xl : Int
  yl : Int
deriving DecidableEq, Repr

/-- The edge description of a primitive as `draw_primitive` receives it. -/
structure Primitive where
  xl : Int
  xm : Int
  xh : Int
  yl : Int
  ym : Int
  yh : Int
  DxLDy : Int
  DxMDy : Int
  DxHDy : Int
  flags : Nat
deriving DecidableEq, Repr

/-- The interpolated attributes as `draw_primitive` receives them: arrays of four `int32_t`. -/
structure Attribute where
  rgba : List Int
  d_rgba_dx : List Int
  d_rgba_de : List Int
  d_rgba_dy : List Int
  stwz : List Int
  d_stwz_dx : List Int
  d_stwz_de : List Int
  d_stwz_dy : List Int
deriving DecidableEq, Repr

/-- The attribute block of a primitive record. -/
structure BufferAttribute where
  rgba : List Int
  d_rgba_dx : List Int
  d_rgba_de : List Int
  d_rgba_dy : List Int
  d_rgba_diff : List Int
  stwz : List Int
  d_stwz_dx : List Int
  d_stwz_de : List Int
  d_stwz_dy : List Int
  d_stwz_diff : List Int
  tile_descriptors : List Nat
deriving DecidableEq, Repr

/-- A primitive record of the batch.  `combiner` is `none` where the code leaves the field
unwritten (fill and copy mode). -/
structure BufferPrimitive where
  xl : Int
  xm : Int
  xh : Int
  yl : Int
  ym : Int
  yh : Int
  DxLDy : Int
  DxMDy : Int
  DxHDy : Int
  flags : Nat
  scissor_x : Nat
  scissor_y : Nat
  fill_color_blend : Nat
  blend_color : Nat
  primitive_z : Nat
  attr : BufferAttribute
  combiner : Option Nat
deriving DecidableEq, Repr

/-- Head and tail of one screen tile's list; a fresh element holds the sentinel twice. -/
structure TileInfo where
  head : Nat
  tail : Nat
deriving DecidableEq, Repr

/-- A node of the pool: the packed word `primitive | (tile << RDP_MAX_PRIMITIVES_LOG2)` and
the link to the next node. -/
structure TileNode where
  value : Nat
  next : Nat
deriving DecidableEq, Repr

/-- A work item: tile coordinates, primitive index, fog colour. -/
structure BufferWorkDescriptor where
  x : Nat
  y : Nat
  primitive : Nat
  fog_color : Nat
deriving DecidableEq, Repr

/-- A record of the ledger `async_transfers`. -/
structure AsyncFramebuffer where
  sync_index : Nat
  framebuffer : Framebuffer
  color_buffer : Option Nat
  depth_buffer : Option Nat
  fence : Nat
deriving DecidableEq, Repr

/-- The member `state`: the registers the setters write and the combiner cache. -/
structure RegisterState where
  combiners : Combiners
  combiners_dirty : Bool
  combiner_map : List (Nat × Nat)
  last_combiner : Nat
  prim_color : Nat
  prim_lod_frac : Nat
  env_color : Nat
  fog_color : Nat
  k4 : Nat
  k5 : Nat
  fill_color : Nat
  blend_word : Nat
  blend_color : Nat
  primitive_z : Nat
  combiner_reads_tile : Bool × Bool
  combiner_reads_secondary_tile : Bool × Bool
  combiner_reads_pipelined_tile : Bool
deriving DecidableEq, Repr

/-- The part of the member `vulkan` that the engine tests: whether a command buffer is open,
and the two staged device buffers (`none` is a buffer without a memory block). -/
structure VulkanState where
  cmd : Bool
  framebuffer : Option Nat
  framebuffer_depth : Option Nat
deriving DecidableEq, Repr

/-- The two surfaces of a framebuffer descriptor. -/
inductive Surface where
  | color
  | depth
deriving DecidableEq, Repr

/-- What a batch upload hands to the GPU.  The field `resolved` is a history variable: for
every record, the combiner state it was resolved to when it was pushed (see
`Renderer.ghost_resolved`). -/
structure FlushedBatch where
  primitives : List BufferPrimitive
  heads : List Nat
  nodes : List TileNode
  combiners : List Combiners
  work : List BufferWorkDescriptor
  tile_count : Nat
  resolved : List (Option Combiners)
deriving DecidableEq, Repr

/-- Entries of the log. -/
inductive Event where
  | wait (fence : Nat)
  | copy_color_to_dram (record : AsyncFramebuffer)
  | copy_depth_to_dram (record : AsyncFramebuffer)
  | stage_color_from_dram (fb : Framebuffer)
  | stage_color_from_record (index : Nat) (record : AsyncFramebuffer)
  | stage_depth_from_dram (fb : Framebuffer)
  | stage_depth_from_record (index : Nat) (record : AsyncFramebuffer) (from_depth : Bool)
  | flush (batch : FlushedBatch)
  | submit (fence : Nat)
  | residency (surface : Surface) (old : FramebufferState) (new : FramebufferState)
  | fill_rect (addr : Nat) (stride : Nat) (xmin xmax ymin ymax : Int) (nowrap : Bool)
  | assertion_failed (line : Nat)
deriving DecidableEq, Repr

/-- The renderer. -/
structure Renderer where
  framebuffer : Framebuffer
  scissor : Scissor
  state : RegisterState
  vulkan : VulkanState
  tiles_x : Nat
  tiles_y : Nat
  tile_lists : List TileInfo
  tile_nodes : List TileNode
  primitive_data : List BufferPrimitive
  combiner_data : List Combiners
  work_data : List BufferWorkDescriptor
  tile_descriptors : List Nat
  tile_instances : List Nat
  tile_count : Nat
  tile_hw_fbe : Bool
  raster_tile_count : Nat
  reject_tile_count : Nat
  rng_frame_count : Nat
  async_transfers : List AsyncFramebuffer
  current_sync_index : Nat
  next_handle : Nat
  ghost_resolved : List (Option Combiners)
  log : List Event
deriving DecidableEq, Repr

/-! ## Setters -/

/-- State before any call: what the constructor leaves after its `reset_buffers()`, with an
empty ledger, both surfaces CPU-resident and no open command buffer. -/
def Renderer.init (cfg : Config) : Renderer :=
  { framebuffer :=
      { addr := 0, depth_addr := 0, format := 0, pixel_size := 0, width := 0,
        allocated_width := 0, allocated_height := 0,
        color_state := FRAMEBUFFER_CPU, depth_state := FRAMEBUFFER_CPU },
    scissor := { xh := 0, yh := 0, xl := 0, yl := 0 },
    state :=
      { combiners :=
          { cycle := (⟨⟨0, 0, 0, 0⟩, ⟨0, 0, 0, 0⟩, ⟨0, 0, 0, 0⟩, ⟨0, 0, 0, 0⟩⟩,
                      ⟨⟨0, 0, 0, 0⟩, ⟨0, 0, 0, 0⟩, ⟨0, 0, 0, 0⟩, ⟨0, 0, 0, 0⟩⟩),
            color := (⟨0, 0, 0, 0⟩, ⟨0, 0, 0, 0⟩),
            alpha := (⟨0, 0, 0, 0⟩, ⟨0, 0, 0, 0⟩) },
        combiners_dirty := true, combiner_map := [], last_combiner := 0,
        prim_color := 0, prim_lod_frac := 0, env_color := 0, fog_color := 0, k4 := 0, k5 := 0,
        fill_color := 0, blend_word := 0, blend_color := 0, primitive_z := 0,
        combiner_reads_tile := (false, false),
        combiner_reads_secondary_tile := (false, false),
        combiner_reads_pipelined_tile := false },
    vulkan := { cmd := false, framebuffer := none, framebuffer_depth := none },
    tiles_x := 0, tiles_y := 0, tile_lists := [], tile_nodes := [], primitive_data := [],
    combiner_data := [], work_data := [], tile_descriptors := [],
    tile_instances := List.replicate cfg.TMEM_TILES 0, tile_count := 0, tile_hw_fbe := false, raster_tile_count := 0, reject_tile_count := 0,
    rng_frame_count := 0, async_transfers := [], current_sync_index := 0, next_handle := 0,
    ghost_resolved := [], log := [] }

/-- Appends one entry to the log. -/
def Renderer.emit (r : Renderer) (e : Event) : Renderer :=
  { r with log := r.log ++ [e] }

/-- The statement `assert(c)` at the given source line. -/
def Renderer.assert (r : Renderer) (line : Nat) (c : Bool) : Renderer :=
  if c then r else r.emit (Event.assertion_failed line)

/-- The assignment `framebuffer.color_state = v`. -/
def Renderer.set_color_state (r : Renderer) (v : FramebufferState) : Renderer :=
  { r with framebuffer := { r.framebuffer with color_state := v },
           log := r.log ++ [Event.residency Surface.color r.framebuffer.color_state v] }

/-- The assignment `framebuffer.depth_state = v`. -/
def Renderer.set_depth_state (r : Renderer) (v : FramebufferState) : Renderer :=
  { r with framebuffer := { r.framebuffer with depth_state := v },
           log := r.log ++ [Event.residency Surface.depth r.framebuffer.depth_state v] }

/-- The method `Renderer::set_scissor`. -/
def set_scissor (r : Renderer) (xh yh xl yl : Int) : Renderer :=
  { r with scissor := { xh := xh, yh := yh, xl := xl, yl := yl } }

/-- The lambda `color_is_secondary` of `set_combine`. -/
def color_is_secondary (c cycle : Nat) : Bool := c == 2 - cycle || c == 9 - cycle

/-- The lambda `alpha_is_secondary` of `set_combine`. -/
def alpha_is_secondary (c cycle : Nat) : Bool := c == 2 - cycle

/-- The lambda `color_is_pipelined` of `set_combine`. -/
def color_is_pipelined (c : Nat) : Bool := c == 2 || c == 9

/-- The lambda `alpha_is_pipelined` of `set_combine`. -/
def alpha_is_pipelined (c : Nat) : Bool := c == 2

/-- The lambda `color_is_tex` of `set_combine`. -/
def color_is_tex (c : Nat) : Bool := c == 2 || c == 1 || c == 9 || c == 8

/-- The lambda `alpha_is_tex` of `set_combine`. -/
def alpha_is_tex (c : Nat) : Bool := c == 2 || c == 1

/-- The sixteen selector assignments of `Renderer::set_combine`. -/
def decode_combine (w1 w2 : Nat) : (CombinerInputs × CombinerInputs) × (CombinerInputs × CombinerInputs) :=
  (({ sub_a := (w1 &&& 0x00f00000) >>> 20, sub_b := (w2 &&& 0xf0000000) >>> 28,
      mul := (w1 &&& 0x000f8000) >>> 15, add := (w2 &&& 0x00038000) >>> 15 },
    { sub_a := (w1 &&& 0x000001e0) >>> 5, sub_b := (w2 &&& 0x0f000000) >>> 24,
      mul := (w1 &&& 0x0000001f) >>> 0, add := (w2 &&& 0x000001c0) >>> 6 }),
   ({ sub_a := (w1 &&& 0x00007000) >>> 12, sub_b := (w2 &&& 0x00007000) >>> 12,
      mul := (w1 &&& 0x00000e00) >>> 9, add := (w2 &&& 0x00000e00) >>> 9 },
    { sub_a := (w2 &&& 0x00e00000) >>> 21, sub_b := (w2 &&& 0x00000038) >>> 3,
      mul := (w2 &&& 0x001c0000) >>> 18, add := (w2 &&& 0x00000007) >>> 0 }))

/-- The method `Renderer::set_combine`. -/
def set_combine (r : Renderer) (w1 w2 : Nat) : Renderer :=
  let color := (decode_combine w1 w2).1
  let alpha := (decode_combine w1 w2).2
  let reads (c a : CombinerInputs) : Bool :=
    color_is_tex c.sub_a || color_is_tex c.sub_b || color_is_tex c.mul || color_is_tex c.add ||
    alpha_is_tex a.sub_a || alpha_is_tex a.sub_b || alpha_is_tex a.mul || alpha_is_tex a.add
  let secondary (c a : CombinerInputs) (cycle : Nat) : Bool :=
    color_is_secondary c.sub_a cycle || color_is_secondary c.sub_b cycle ||
    color_is_secondary c.mul cycle || color_is_secondary c.add cycle ||
    alpha_is_secondary a.sub_a cycle || alpha_is_secondary a.sub_b cycle ||
    alpha_is_secondary a.mul cycle || alpha_is_secondary a.add cycle
  let pipelined : Bool :=
    color_is_pipelined color.2.sub_a || color_is_pipelined color.2.sub_b ||
    color_is_pipelined color.2.mul || color_is_pipelined color.2.add ||
    alpha_is_pipelined alpha.2.sub_a || alpha_is_pipelined alpha.2.sub_b ||
    alpha_is_pipelined alpha.2.mul || alpha_is_pipelined alpha.2.add
  { r with state :=
      { r.state with
        combiners := { r.state.combiners with color := color, alpha := alpha },
        combiners_dirty := true,
        combiner_reads_tile := (reads color.1 alpha.1, reads color.2 alpha.2),
        combiner_reads_secondary_tile := (secondary color.1 alpha.1 0, secondary color.2 alpha.2 1),
        combiner_reads_pipelined_tile := pipelined } }

/-- The method `Renderer::set_primitive_z`. -/
def set_primitive_z (r : Renderer) (w2 : Nat) : Renderer :=
  { r with state := { r.state with primitive_z := w2 &&& 0x7fffffff } }

/-- The method `Renderer::set_prim_color`. -/
def set_prim_color (r : Renderer) (w1 w2 : Nat) : Renderer :=
  { r with state := { r.state with prim_color := w2, prim_lod_frac := w1 &&& 0xff,
                                   combiners_dirty := true } }

/-- The method `Renderer::set_env_color`. -/
def set_env_color (r : Renderer) (w2 : Nat) : Renderer :=
  { r with state := { r.state with env_color := w2, combiners_dirty := true } }

/-- The method `Renderer::set_fog_color`. -/
def set_fog_color (r : Renderer) (w2 : Nat) : Renderer :=
  { r with state := { r.state with fog_color := w2 } }

/-- The method `Renderer::set_convert`; the first word is ignored. -/
def set_convert (r : Renderer) (_w1 w2 : Nat) : Renderer :=
  { r with state := { r.state with k4 := (w2 >>> 9) &&& 0x1ff, k5 := w2 &&& 0x1ff,
                                   combiners_dirty := true } }

/-! ## Combiner resolution -/

/-- The three colour lanes of a 32-bit colour register. -/
def color_lanes (c : Nat) (v : Vec4) : Vec4 :=
  { v with e0 := u8 (c >>> 24), e1 := u8 (c >>> 16), e2 := u8 (c >>> 8) }

/-- One value in the three colour lanes. -/
def splat3 (x : Nat) (v : Vec4) : Vec4 :=
  { v with e0 := x, e1 := x, e2 := x }

/-- The `switch (color.sub_a)` of `update_static_combiner`. -/
def resolve_color_sub_a (st : RegisterState) (sel : Nat) (v : Vec4) : Vec4 :=
  if sel = 3 then color_lanes st.prim_color v
  else if sel = 5 then color_lanes st.env_color v
  else if sel = 6 then splat3 0x100 v
  else splat3 0 v

/-- The `switch (color.sub_b)` of `update_static_combiner`: selector 6 only prints a message
and leaves the three lanes as they are. -/
def resolve_color_sub_b (st : RegisterState) (sel : Nat) (v : Vec4) : Vec4 :=
  if sel = 3 then color_lanes st.prim_color v
  else if sel = 5 then color_lanes st.env_color v
  else if sel = 6 then v
  else if sel = 7 then splat3 st.k4 v
  else splat3 0 v

/-- The `switch (color.mul)` of `update_static_combiner`: selector 6 only prints a message
and leaves the three lanes as they are. -/
def resolve_color_mul (st : RegisterState) (sel : Nat) (v : Vec4) : Vec4 :=
  if sel = 3 then color_lanes st.prim_color v
  else if sel = 5 then color_lanes st.env_color v
  else if sel = 6 then v
  else if sel = 10 then splat3 (u8 (st.prim_color >>> 0)) v
  else if sel = 12 then splat3 (u8 (st.env_color >>> 0)) v
  else if sel = 14 then splat3 st.prim_lod_frac v
  else if sel = 15 then splat3 st.k5 v
  else splat3 0 v

/-- The `switch (color.add)` of `update_static_combiner`. -/
def resolve_color_add (st : RegisterState) (sel : Nat) (v : Vec4) : Vec4 :=
  if sel = 3 then color_lanes st.prim_color v
  else if sel = 5 then color_lanes st.env_color v
  else if sel = 6 then splat3 0x100 v
  else splat3 0 v

/-- The switches on `alpha.sub_a`, `alpha.sub_b` and `alpha.add`, which are alike. -/
def resolve_alpha (st : RegisterState) (sel : Nat) (v : Vec4) : Vec4 :=
  if sel = 3 then { v with e3 := u8 (st.prim_color >>> 0) }
  else if sel = 5 then { v with e3 := u8 (st.env_color >>> 0) }
  else if sel = 6 then { v with e3 := 0x100 }
  else { v with e3 := 0 }

/-- The `switch (alpha.mul)` of `update_static_combiner`. -/
def resolve_alpha_mul (st : RegisterState) (sel : Nat) (v : Vec4) : Vec4 :=
  if sel = 3 then { v with e3 := u8 (st.prim_color >>> 0) }
  else if sel = 5 then { v with e3 := u8 (st.env_color >>> 0) }
  else if sel = 6 then { v with e3 := st.prim_lod_frac }
  else { v with e3 := 0 }

/-- One round of the loop over `base` in `update_static_combiner`. -/
def resolve_cycle (st : RegisterState) (color alpha : CombinerInputs) (cycle : CombinerCycle) :
    CombinerCycle :=
  { sub_a := resolve_alpha st alpha.sub_a (resolve_color_sub_a st color.sub_a cycle.sub_a),
    sub_b := resolve_alpha st alpha.sub_b (resolve_color_sub_b st color.sub_b cycle.sub_b),
    mul := resolve_alpha_mul st alpha.mul (resolve_color_mul st color.mul cycle.mul),
    add := resolve_alpha st alpha.add (resolve_color_add st color.add cycle.add) }

/-- The block `state.combiners` as `Renderer::update_static_combiner` leaves it; the value the
method returns is `hash64` of this block. -/
def update_static_combiner (st : RegisterState) : Combiners :=
  { st.combiners with
    cycle := (resolve_cycle st st.combiners.color.1 st.combiners.alpha.1 st.combiners.cycle.1,
              resolve_cycle st st.combiners.color.2 st.combiners.alpha.2 st.combiners.cycle.2) }

/-- The call `state.combiner_map.find(hash)`: the index stored under the hash, if any. -/
def combiner_map_find : List (Nat × Nat) → Nat → Option Nat
  | [], _ => none
  | (k, v) :: rest, hash => if k = hash then some v else combiner_map_find rest hash

/-! ## Scissor and coarse coverage -/

/-- The method `Renderer::clip_scissor`: the box `(min_x, max_x, min_y, max_y)` after clipping. -/
def clip_scissor (sc : Scissor) (min_x max_x min_y max_y : Int) : Int × Int × Int × Int :=
  (max min_x (sc.xh >>> (2 : Nat)), min max_x (sc.xl >>> (2 : Nat)), max min_y (sc.yh >>> (2 : Nat)),
   min max_y ((sc.yl - 1) >>> (2 : Nat)))

/-- The expression `prim.yh & ~3` on 32-bit two's complement integers. -/
def yh_base (prim : Primitive) : Int := to_i32 (to_u32 prim.yh &&& 0xfffffffc)

/-- The method `Renderer::coarse_conservative_raster`. -/
def coarse_conservative_raster (cfg : Config) (x y min_x max_x min_y max_y : Int)
    (prim : Primitive) : Bool :=
  let min_x := max ((x + 0) * cfg.TILE_SIZE_X) min_x
  let max_x := min ((x + 1) * cfg.TILE_SIZE_X - 1) max_x
  let min_y := max ((y + 0) * cfg.TILE_SIZE_Y) min_y * 4
  let max_y := min ((y + 1) * cfg.TILE_SIZE_Y - 1) max_y * 4 + 3
  let flip : Bool := prim.flags &&& cfg.RDP_FLAG_FLIP != 0
  let xh0 := (prim.xh + (min_y - yh_base prim) * prim.DxHDy) >>> (16 : Nat)
  let xh1 := (prim.xh + (max_y - yh_base prim) * prim.DxHDy) >>> (16 : Nat)
  let xm0 := (prim.xm + (min_y - yh_base prim) * prim.DxMDy) >>> (16 : Nat)
  let xm1 := (prim.xm + (max_y - yh_base prim) * prim.DxMDy) >>> (16 : Nat)
  let xl0 := (prim.xl + (min_y - prim.ym) * prim.DxLDy) >>> (16 : Nat)
  let xl1 := (prim.xl + (max_y - prim.ym) * prim.DxLDy) >>> (16 : Nat)
  let skip_m : Bool := decide (min_y ≥ prim.ym)
  let skip_l : Bool := decide (max_y < prim.ym)
  if flip then
    let xh := min xh0 xh1
    let xm := max xm0 xm1
    let xl := max xl0 xl1
    if xh > max_x then false
    else
      let cull_m := skip_m || decide (xm < min_x)
      let cull_l := skip_l || decide (xl < min_x)
      !cull_m || !cull_l
  else
    let xh := max xh0 xh1
    let xm := min xm0 xm1
    let xl := min xl0 xl1
    if xh < min_x then false
    else
      let cull_m := skip_m || decide (xm > max_x)
      let cull_l := skip_l || decide (xl > max_x)
      !cull_m || !cull_l

/-! ## The batch: tile lists, node pool, reset -/

/-- A default-constructed `TileInfo`. -/
def TileInfo.fresh : TileInfo := { head := SENTINEL, tail := SENTINEL }

/-- The element `tile_lists[idx]` as the code reads it. -/
def read_tile (tiles : List TileInfo) (idx : Int) : TileInfo :=
  if 0 ≤ idx then tiles.getD idx.toNat TileInfo.fresh else TileInfo.fresh

/-- The element `tile_lists[idx]` overwritten through the reference. -/
def write_tile (tiles : List TileInfo) (idx : Int) (t : TileInfo) : List TileInfo :=
  if 0 ≤ idx then tiles.set idx.toNat t else tiles

/-- The method `Renderer::append_tile_list`, applied to the element `tile_lists[idx]`. -/
def append_tile_list (cfg : Config) (r : Renderer) (idx : Int) (primitive tile : Nat) : Renderer :=
  let tile_info := read_tile r.tile_lists idx
  let size := r.tile_nodes.length
  let node : TileNode :=
    { value := u32 (primitive ||| (tile <<< cfg.RDP_MAX_PRIMITIVES_LOG2)), next := SENTINEL }
  if tile_info.head = SENTINEL then
    { r with tile_lists := write_tile r.tile_lists idx { head := size, tail := size },
             tile_nodes := r.tile_nodes ++ [node] }
  else
    { r with tile_lists := write_tile r.tile_lists idx { tile_info with tail := size },
             tile_nodes :=
               List.modify (fun n => { n with next := size }) tile_info.tail r.tile_nodes ++ [node] }

/-- The method `Renderer::reset_buffers`. -/
def reset_buffers (cfg : Config) (r : Renderer) : Renderer :=
  { r with primitive_data := [], combiner_data := [], tile_descriptors := [], work_data := [],
           state := { r.state with combiner_map := [], last_combiner := 0, combiners_dirty := true },
           tile_count := 0, tile_hw_fbe := false,
           tile_instances := List.replicate cfg.TMEM_TILES 0,
           tile_lists := r.tile_lists.map (fun _ => TileInfo.fresh),
           tile_nodes := [], ghost_resolved := [] }

/-- The part of `Renderer::update_tiles` that touches the renderer: every dirty tile of the
mask gets a new descriptor, and `tile_instances` points at it.  The decoded texels and the
framebuffer-effect flag belong to `tmem` and are left out. -/
def update_tiles (cfg : Config) (r : Renderer) (tile_mask dirty_tiles : Nat) : Renderer :=
  let needs_update := dirty_tiles &&& tile_mask
  if needs_update = 0 then r
  else
    (List.range cfg.TMEM_TILES).foldl
      (fun r i =>
        if needs_update &&& (1 <<< i) = 0 then r
        else { r with tile_instances := r.tile_instances.set i r.tile_descriptors.length,
                      tile_descriptors := r.tile_descriptors ++ [i] })
      r

/-! ## Residency: staging, read-back, the ledger -/

/-- The method `Renderer::begin_framebuffer`. -/
def begin_framebuffer (r : Renderer) : Renderer :=
  if r.vulkan.framebuffer.isNone then
    { r with vulkan := { r.vulkan with framebuffer := some r.next_handle },
             next_handle := r.next_handle + 1 }
  else r

/-- The method `Renderer::begin_framebuffer_depth`. -/
def begin_framebuffer_depth (r : Renderer) : Renderer :=
  if r.vulkan.framebuffer_depth.isNone then
    { r with vulkan := { r.vulkan with framebuffer_depth := some r.next_handle },
             next_handle := r.next_handle + 1 }
  else r

/-- The method `Renderer::begin_command_buffer`. -/
def begin_command_buffer (r : Renderer) : Renderer :=
  if r.vulkan.cmd then r else { r with vulkan := { r.vulkan with cmd := true } }

/-- The loop `for (int i = size - 1; i >= 0; i--)` with a `break` at the first record that
satisfies the test; the argument counts the records not yet visited. -/
def search_down (p : AsyncFramebuffer → Bool) (l : List AsyncFramebuffer) : Nat → Option Nat
  | 0 => none
  | i + 1 =>
    match l[i]? with
    | some a => if p a then some i else search_down p l i
    | none => search_down p l i

/-- The test of the search loop in `sync_color_dram_to_gpu`. -/
def color_record_matches (fb : Framebuffer) (a : AsyncFramebuffer) : Bool :=
  a.framebuffer.addr == fb.addr && a.framebuffer.pixel_size == fb.pixel_size &&
  a.framebuffer.allocated_width == fb.allocated_width &&
  a.framebuffer.allocated_height == fb.allocated_height && a.color_buffer.isSome

/-- The local `matches_depth` of `sync_depth_dram_to_gpu`. -/
def matches_depth (fb : Framebuffer) (a : AsyncFramebuffer) : Bool :=
  a.framebuffer.depth_addr == fb.depth_addr && a.depth_buffer.isSome

/-- The local `matches_color` of `sync_depth_dram_to_gpu`. -/
def matches_color (fb : Framebuffer) (a : AsyncFramebuffer) : Bool :=
  a.framebuffer.addr == fb.depth_addr && a.color_buffer.isSome &&
  a.framebuffer.pixel_size == PIXEL_SIZE_16BPP

/-- The test of the search loop in `sync_depth_dram_to_gpu`. -/
def depth_record_matches (fb : Framebuffer) (a : AsyncFramebuffer) : Bool :=
  (matches_depth fb a || matches_color fb a) &&
  a.framebuffer.allocated_width == fb.allocated_width &&
  a.framebuffer.allocated_height == fb.allocated_height

/-- The method `Renderer::sync_color_dram_to_gpu`. -/
def sync_color_dram_to_gpu (r : Renderer) : Renderer :=
  if r.framebuffer.color_state ≠ FRAMEBUFFER_STALE_GPU then r
  else
    let staged :=
      match search_down (color_record_matches r.framebuffer) r.async_transfers
          r.async_transfers.length with
      | some old_index =>
        if r.vulkan.framebuffer.isNone then
          match r.async_transfers[old_index]? with
          | some a => (begin_framebuffer r).emit (Event.stage_color_from_record old_index a)
          | none => begin_framebuffer r
        else r
      | none =>
        let r1 := begin_framebuffer r
        let r2 :=
          if r1.framebuffer.pixel_size = PIXEL_SIZE_32BPP then
            r1.assert 1245 (r1.framebuffer.addr &&& 3 == 0)
          else if r1.framebuffer.pixel_size = PIXEL_SIZE_16BPP then
            r1.assert 1259 (r1.framebuffer.addr &&& 1 == 0)
          else r1
        r2.emit (Event.stage_color_from_dram r2.framebuffer)
    staged.set_color_state FRAMEBUFFER_GPU

/-- The method `Renderer::sync_depth_dram_to_gpu`. -/
def sync_depth_dram_to_gpu (r : Renderer) : Renderer :=
  if r.framebuffer.depth_state ≠ FRAMEBUFFER_STALE_GPU then r
  else
    let staged :=
      match search_down (depth_record_matches r.framebuffer) r.async_transfers
          r.async_transfers.length with
      | some old_index =>
        if r.vulkan.framebuffer_depth.isNone then
          match r.async_transfers[old_index]? with
          | some a =>
            if matches_depth r.framebuffer a then
              (begin_framebuffer_depth r).emit (Event.stage_depth_from_record old_index a true)
            else if matches_color r.framebuffer a then
              (begin_framebuffer_depth r).emit (Event.stage_depth_from_record old_index a false)
            else begin_framebuffer_depth r
          | none => begin_framebuffer_depth r
        else r
      | none => (begin_framebuffer_depth r).emit (Event.stage_depth_from_dram r.framebuffer)
    staged.set_depth_state FRAMEBUFFER_GPU

/-- The method `Renderer::sync_framebuffer_to_cpu`: wait for the fence of the record, then copy
back the surfaces that the snapshot of the record holds as GPU-resident. -/
def sync_framebuffer_to_cpu (r : Renderer) (async : AsyncFramebuffer) : Renderer :=
  let r1 := r.emit (Event.wait async.fence)
  let r2 :=
    if async.framebuffer.color_state = FRAMEBUFFER_GPU then
      let ra :=
        if async.framebuffer.pixel_size = PIXEL_SIZE_16BPP then
          r1.assert 1422 (async.framebuffer.addr &&& 1 == 0)
        else r1
      ra.emit (Event.copy_color_to_dram async)
    else r1
  if async.framebuffer.depth_state = FRAMEBUFFER_GPU then
    (r2.assert 1457 (async.framebuffer.depth_addr &&& 1 == 0)).emit (Event.copy_depth_to_dram async)
  else r2

/-- The method `Renderer::submit`: the renderer afterwards and the fence it returns. -/
def submit (r : Renderer) : Renderer × Nat :=
  let r1 := r.assert 1669 r.vulkan.cmd
  ({ r1 with vulkan := { cmd := false, framebuffer := none, framebuffer_depth := none },
             next_handle := r1.next_handle + 1,
             log := r1.log ++ [Event.submit r1.next_handle] },
   r1.next_handle)

/-- The method `Renderer::sync_gpu_to_dram`.  The presentation copy `sync_gpu_to_vi` is left
out. -/
def sync_gpu_to_dram (r : Renderer) (blocking : Bool) : Renderer :=
  if r.vulkan.cmd = false then r
  else
    let r1 := r.assert 1526 (r.framebuffer.color_state != FRAMEBUFFER_STALE_GPU)
    let r2 := r1.assert 1527 (r1.framebuffer.depth_state != FRAMEBUFFER_STALE_GPU)
    let color_buffer := r2.vulkan.framebuffer
    let depth_buffer :=
      if r2.framebuffer.depth_state = FRAMEBUFFER_GPU then r2.vulkan.framebuffer_depth else none
    let sub := submit r2
    let async : AsyncFramebuffer :=
      { sync_index := r2.current_sync_index, framebuffer := r2.framebuffer,
        color_buffer := color_buffer, depth_buffer := depth_buffer, fence := sub.2 }
    let r3 :=
      if blocking then sync_framebuffer_to_cpu sub.1 async
      else { sub.1 with async_transfers := sub.1.async_transfers ++ [async] }
    (r3.set_color_state FRAMEBUFFER_CPU).set_depth_state FRAMEBUFFER_CPU

/-- The method `Renderer::flush_tile_lists`: stage the surfaces, upload the batch, issue the
dispatches, reset the batch. -/
def flush_tile_lists (cfg : Config) (r : Renderer) : Renderer :=
  if r.primitive_data.isEmpty || r.work_data.isEmpty then r
  else
    let r1 := begin_command_buffer r
    let r2 := sync_color_dram_to_gpu r1
    let r3 := sync_depth_dram_to_gpu r2
    let r4 := r3.emit (Event.flush
      { primitives := r3.primitive_data, heads := r3.tile_lists.map (fun t => t.head),
        nodes := r3.tile_nodes, combiners := r3.combiner_data, work := r3.work_data,
        tile_count := r3.tile_count, resolved := r3.ghost_resolved })
    reset_buffers cfg { r4 with rng_frame_count := r4.rng_frame_count + 1 }

/-- The method `Renderer::sync_full`. -/
def sync_full (cfg : Config) (r : Renderer) : Renderer :=
  let r1 := r.async_transfers.foldl sync_framebuffer_to_cpu r
  let r2 := { r1 with async_transfers := [] }
  sync_gpu_to_dram (flush_tile_lists cfg r2) true

/-- The method `Renderer::complete_frame`; the flag is what `is_parallel_rdp_synchronous()`
answers during the call. -/
def complete_frame (cfg : Config) (r : Renderer) (synchronous : Bool) : Renderer :=
  if synchronous then sync_full cfg r
  else sync_gpu_to_dram (flush_tile_lists cfg r) false

/-- The loop of `begin_index` that computes `end`: one past the last record tagged with the
index, 0 when there is none. -/
def begin_index_end (l : List AsyncFramebuffer) (index : Nat) : Nat :=
  (List.range l.length).foldl
    (fun e i => match l[i]? with
      | some a => if a.sync_index = index then i + 1 else e
      | none => e)
    0

/-- The method `Renderer::begin_index`. -/
def begin_index (r : Renderer) (index : Nat) : Renderer :=
  let e := begin_index_end r.async_transfers index
  let r1 := (r.async_transfers.take e).foldl sync_framebuffer_to_cpu r
  let r2 := if e ≠ 0 then { r1 with async_transfers := r1.async_transfers.drop e } else r1
  { r2 with current_sync_index := index }

/-- The vector operation `resize(n)` on `tile_lists`. -/
def resize_tiles (tiles : List TileInfo) (n : Nat) : List TileInfo :=
  tiles.take n ++ List.replicate (n - tiles.length) TileInfo.fresh

/-- The method `Renderer::set_framebuffer_size`. -/
def set_framebuffer_size (cfg : Config) (r : Renderer) (width height : Nat) : Renderer :=
  let r1 :=
    if r.framebuffer.color_state = FRAMEBUFFER_GPU ∨ r.framebuffer.depth_state = FRAMEBUFFER_GPU
    then sync_full cfg r else r
  let r2 := { r1 with framebuffer :=
    { r1.framebuffer with allocated_width := width, allocated_height := height } }
  let r3 := r2.assert 277
    (r2.framebuffer.color_state != FRAMEBUFFER_GPU && r2.framebuffer.depth_state != FRAMEBUFFER_GPU)
  let old_tiles_x := r3.tiles_x
  let tiles_x := (width + cfg.TILE_SIZE_X - 1) / cfg.TILE_SIZE_X
  let tiles_y := (height + cfg.TILE_SIZE_Y - 1) / cfg.TILE_SIZE_Y
  let lists :=
    if (r3.framebuffer.color_state = FRAMEBUFFER_CPU ∧ r3.framebuffer.depth_state = FRAMEBUFFER_CPU)
        ∨ tiles_x ≠ old_tiles_x
    then [] else r3.tile_lists
  { r3 with tiles_x := tiles_x, tiles_y := tiles_y,
            tile_lists := resize_tiles lists (tiles_x * tiles_y) }

/-- The method `Renderer::set_depth_image`. -/
def set_depth_image (cfg : Config) (r : Renderer) (addr : Nat) (synchronous : Bool) : Renderer :=
  if r.framebuffer.depth_addr = addr then r
  else
    let r1 :=
      if r.framebuffer.depth_state = FRAMEBUFFER_GPU then complete_frame cfg r synchronous else r
    { r1 with framebuffer := { r1.framebuffer with depth_addr := addr } }

/-- The method `Renderer::set_color_image`. -/
def set_color_image (cfg : Config) (r : Renderer) (addr format pixel_size width : Nat)
    (synchronous : Bool) : Renderer :=
  if r.framebuffer.addr = addr ∧ r.framebuffer.format = format ∧ r.framebuffer.width = width ∧
      r.framebuffer.pixel_size = pixel_size then r
  else
    let r1 := complete_frame cfg r synchronous
    let r2 := { r1 with framebuffer :=
      { r1.framebuffer with addr := addr, format := format, width := width,
                            pixel_size := pixel_size } }
    let max_height := if width > 320 then 480 else if width = 320 then 240 else width
    if r2.framebuffer.allocated_width ≠ width ∨ r2.framebuffer.allocated_height ≠ max_height then
      set_framebuffer_size cfg r2 width max_height
    else r2

/-! ## Drawing -/

/-- The function `normalize_dz`: the loop over `count`, with the number of rounds left. -/
def normalize_dz_loop (dz : Nat) : Nat → Nat → Nat
  | 0, _ => 0
  | fuel + 1, count =>
    if count = 0 then 0
    else if dz &&& count ≠ 0 then u16 (count <<< 1)
    else normalize_dz_loop dz fuel (count >>> 1)

/-- The function `normalize_dz` on a 16-bit argument. -/
def normalize_dz (dz : Nat) : Nat :=
  if dz &&& 0xc000 ≠ 0 then 0x8000
  else if dz = 0 then 1
  else if dz = 1 then 3
  else normalize_dz_loop dz 15 0x2000

/-- The arguments of one `draw_primitive` call; `attr` is `none` for a null pointer, and
`dirty_tiles` is what `tmem.get_dirty_tiles()` answers during the call. -/
structure DrawCall where
  prim : Primitive
  attr : Option Attribute
  tile_mask : Nat
  min_x : Int
  max_x : Int
  min_y : Int
  max_y : Int
  dirty_tiles : Nat
deriving DecidableEq, Repr

/-- The expression `v & ~0x1ff` on 32-bit two's complement integers. -/
def clear_low9 (v : Int) : Int := to_i32 (to_u32 v &&& 0xfffffe00)

/-- The 3/4 pixel offset of one attribute lane: `d = (de & ~0x1ff) - (dy & ~0x1ff)`, then
`d -= d >> 2`. -/
def diff_lane (de dy : Int) : Int :=
  (clear_low9 de - clear_low9 dy) - ((clear_low9 de - clear_low9 dy) >>> (2 : Nat))

/-- The update `dz ^= dz >> 31` on 32-bit two's complement integers. -/
def fold_sign (v : Int) : Int := to_i32 (to_u32 v ^^^ to_u32 (v >>> (31 : Nat)))

/-- The attribute block, the flags and the primitive Z of the record, as the `if (attr)`
statement of `draw_primitive` builds them. -/
def build_attr (cfg : Config) (prim : Primitive) (attr : Option Attribute) (primitive_z : Nat) :
    BufferAttribute × Nat × Nat :=
  match attr with
  | none =>
    ({ rgba := [0, 0, 0, 0], d_rgba_dx := [0, 0, 0, 0], d_rgba_de := [0, 0, 0, 0],
       d_rgba_dy := [0, 0, 0, 0], d_rgba_diff := [0, 0, 0, 0], stwz := [0, 0, 0, 0],
       d_stwz_dx := [0, 0, 0, 0], d_stwz_de := [0, 0, 0, 0], d_stwz_dy := [0, 0, 0, 0],
       d_stwz_diff := [0, 0, 0, 0], tile_descriptors := [] },
     prim.flags, primitive_z)
  | some a =>
    let sign : Bool := xor (decide (prim.DxHDy < 0)) (prim.flags &&& cfg.RDP_FLAG_FLIP != 0)
    let d_rgba_diff := if sign then [0, 0, 0, 0] else List.zipWith diff_lane a.d_rgba_de a.d_rgba_dy
    let d_stwz_diff := if sign then [0, 0, 0, 0] else List.zipWith diff_lane a.d_stwz_de a.d_stwz_dy
    let flags := if sign then prim.flags else prim.flags ||| cfg.RDP_FLAG_DO_OFFSET
    let dzdx := fold_sign (a.d_stwz_dx.getD 3 0 >>> (16 : Nat))
    let dzdy := fold_sign (a.d_stwz_dy.getD 3 0 >>> (16 : Nat))
    let dz := normalize_dz (((dzdx + dzdy) % 65536).toNat)
    let z := if flags &&& cfg.RDP_FLAG_INTERPOLATE_Z ≠ 0 then (primitive_z &&& 0x7fff0000) ||| dz
             else primitive_z
    ({ rgba := a.rgba, d_rgba_dx := a.d_rgba_dx, d_rgba_de := a.d_rgba_de,
       d_rgba_dy := a.d_rgba_dy, d_rgba_diff := d_rgba_diff, stwz := a.stwz,
       d_stwz_dx := a.d_stwz_dx, d_stwz_de := a.d_stwz_de, d_stwz_dy := a.d_stwz_dy,
       d_stwz_diff := d_stwz_diff, tile_descriptors := [] },
     flags, z)

/-- The block "Create a new combiner instance if necessary" of `draw_primitive`: the renderer
afterwards, the index stored in the record (`none` when the field is not written), and
whether a flush was requested. -/
def draw_combiner (cfg : Config) (r : Renderer) (cycle_type : Nat) :
    Renderer × Option Nat × Bool :=
  if cycle_type = cfg.CYCLE_TYPE_1 ∨ cycle_type = cfg.CYCLE_TYPE_2 then
    let res :=
      if r.state.combiners_dirty then
        let c := update_static_combiner r.state
        let hash := cfg.hash64 c
        match combiner_map_find r.state.combiner_map hash with
        | some index =>
          ({ r with state := { r.state with combiners := c, combiners_dirty := false,
                                            last_combiner := index } }, index, false)
        | none =>
          let index := (r.combiner_data ++ [c]).length - 1
          ({ r with combiner_data := r.combiner_data ++ [c],
                    state := { r.state with combiners := c, combiners_dirty := false,
                                            last_combiner := index,
                                            combiner_map := r.state.combiner_map ++ [(hash, index)] } },
           index, decide ((r.combiner_data ++ [c]).length ≥ cfg.RDP_MAX_COMBINERS))
      else (r, r.state.last_combiner, false)
    (res.1.assert 753 (decide (res.2.1 < res.1.combiner_data.length)), some res.2.1, res.2.2)
  else (r, none, false)

/-- The integers `a, a + 1, ..., b`, the values a `for` loop from `a` to `b` inclusive runs
through. -/
def int_range (a b : Int) : List Int :=
  (List.range (b + 1 - a).toNat).map (fun (i : Nat) => a + Int.ofNat i)

/-- One round of the inner binning loop of `draw_primitive`, for tile `(x, y)`; the flag is the
local `flush`. -/
def bin_tile (cfg : Config) (prim : Primitive) (min_x max_x min_y max_y : Int) (num_tris : Nat)
    (y : Int) (acc : Renderer × Bool) (x : Int) : Renderer × Bool :=
  if coarse_conservative_raster cfg x y min_x max_x min_y max_y prim then
    let r1 := { acc.1 with raster_tile_count := acc.1.raster_tile_count + 1 }
    let r2 := append_tile_list cfg r1 (y * r1.tiles_x + x) num_tris r1.tile_count
    let r3 := { r2 with
      work_data := r2.work_data ++
        [{ x := to_u32 x, y := to_u32 y, primitive := num_tris, fog_color := r2.state.fog_color }],
      tile_count := r2.tile_count + 1 }
    (r3, acc.2 || decide (r3.tile_count > cfg.FlushBufferTileCount))
  else
    ({ acc.1 with reject_tile_count := acc.1.reject_tile_count + 1 }, acc.2)

/-- The two nested binning loops of `draw_primitive`. -/
def bin_tiles (cfg : Config) (prim : Primitive) (min_x max_x min_y max_y : Int) (num_tris : Nat)
    (min_tile_x max_tile_x min_tile_y max_tile_y : Int) (acc : Renderer × Bool) : Renderer × Bool :=
  (int_range min_tile_y max_tile_y).foldl
    (fun acc y =>
      (int_range min_tile_x max_tile_x).foldl
        (bin_tile cfg prim min_x max_x min_y max_y num_tris y) acc)
    acc

/-- The method `Renderer::draw_primitive`, first part (up to the two assertions on the tile
rows): clip the box, grow the surface when the box reaches below it, update the texture tiles,
check the tile rows. -/
def draw_begin (cfg : Config) (r : Renderer) (d : DrawCall) : Renderer :=
  let box := clip_scissor r.scissor d.min_x d.max_x d.min_y d.max_y
  let min_y := box.2.2.1
  let max_y := box.2.2.2
  let min_tile_y := Int.tdiv min_y cfg.TILE_SIZE_Y
  let max_tile_y := Int.tdiv max_y cfg.TILE_SIZE_Y
  let r1 :=
    if max_y ≥ (r.framebuffer.allocated_height : Int) then
      set_framebuffer_size cfg r r.framebuffer.allocated_width (max_y + 1).toNat
    else r
  let r2 := update_tiles cfg r1 d.tile_mask d.dirty_tiles
  let r3 := r2.assert 620 (decide (min_tile_y ≥ 0))
  r3.assert 624 (decide (max_tile_y < (r3.tiles_y : Int)))

/-- The method `Renderer::draw_primitive`, second part (from "Push out data to buffer" to
"Push primitive to buffer"): build the record, mark the surfaces, pick the combiner, push the
record.  The flag is the local `flush` at that point. -/
def draw_record (cfg : Config) (r4 : Renderer) (d : DrawCall) : Renderer × Bool :=
  let cycle_type := (d.prim.flags >>> cfg.RDP_FLAG_CYCLE_TYPE_SHIFT) &&& 3
  let built := build_attr cfg d.prim d.attr r4.state.primitive_z
  let flags := built.2.1
  let r5 :=
    if r4.framebuffer.color_state = FRAMEBUFFER_CPU then r4.set_color_state FRAMEBUFFER_STALE_GPU
    else r4
  let r6 :=
    if r5.framebuffer.depth_state = FRAMEBUFFER_CPU ∧
        flags &&& (cfg.RDP_FLAG_Z_UPDATE ||| cfg.RDP_FLAG_Z_COMPARE) ≠ 0
    then r5.set_depth_state FRAMEBUFFER_STALE_GPU else r5
  let comb := draw_combiner cfg r6 cycle_type
  let r7 := comb.1
  let buffer_prim : BufferPrimitive :=
    { xl := d.prim.xl, xm := d.prim.xm, xh := d.prim.xh, yl := d.prim.yl, ym := d.prim.ym,
      yh := d.prim.yh, DxLDy := d.prim.DxLDy, DxMDy := d.prim.DxMDy, DxHDy := d.prim.DxHDy,
      flags := flags,
      scissor_x := to_u32 r7.scissor.xh ||| u32 (to_u32 r7.scissor.xl <<< 16),
      scissor_y := to_u32 r7.scissor.yh ||| u32 (to_u32 r7.scissor.yl <<< 16),
      fill_color_blend :=
        if cycle_type = cfg.CYCLE_TYPE_FILL then r7.state.fill_color else r7.state.blend_word,
      blend_color := r7.state.blend_color,
      primitive_z := built.2.2,
      attr := { built.1 with tile_descriptors := r7.tile_instances },
      combiner := comb.2.1 }
  ({ r7 with
      primitive_data := r7.primitive_data ++ [buffer_prim],
      ghost_resolved := r7.ghost_resolved ++
        [if comb.2.1.isSome then some r7.state.combiners else none] },
   comb.2.2 || decide ((r7.primitive_data ++ [buffer_prim]).length ≥ cfg.RDP_MAX_PRIMITIVES))

/-- The method `Renderer::draw_primitive`: the two parts above, the binning loops over the
tile range of the clipped box (`num_tris` is the number of records before the push), and the
flush when one was requested. -/
def draw_primitive (cfg : Config) (r : Renderer) (d : DrawCall) : Renderer :=
  let box := clip_scissor r.scissor d.min_x d.max_x d.min_y d.max_y
  let min_x := box.1
  let max_x := box.2.1
  let min_y := box.2.2.1
  let max_y := box.2.2.2
  let r4 := draw_begin cfg r d
  let min_tile_x := max (Int.tdiv min_x cfg.TILE_SIZE_X) 0
  let max_tile_x := min (Int.tdiv max_x cfg.TILE_SIZE_X) ((r4.tiles_x : Int) - 1)
  let min_tile_y := Int.tdiv min_y cfg.TILE_SIZE_Y
  let max_tile_y := Int.tdiv max_y cfg.TILE_SIZE_Y
  let num_tris := r4.primitive_data.length
  let binned := bin_tiles cfg d.prim min_x max_x min_y max_y num_tris
    min_tile_x max_tile_x min_tile_y max_tile_y (draw_record cfg r4 d)
  if binned.2 then flush_tile_lists cfg binned.1 else binned.1

/-! ## Texture feedback and the software clear -/

/-- The method `Renderer::check_tmem_feedback`; `addr` is what
`tmem.get_texture_image_offset()` answers during the call. -/
def check_tmem_feedback (cfg : Config) (r : Renderer) (addr : Nat) (synchronous : Bool) :
    Renderer :=
  if r.framebuffer.color_state ≠ FRAMEBUFFER_CPU ∧
      cfg.WRAP_ADDR (u32 (addr + 4294967296 - r.framebuffer.addr)) < cfg.color_size r.framebuffer
  then complete_frame cfg r synchronous
  else if r.framebuffer.depth_state ≠ FRAMEBUFFER_CPU ∧
      cfg.WRAP_ADDR (u32 (addr + 4294967296 - r.framebuffer.depth_addr))
        < cfg.depth_size r.framebuffer
  then complete_frame cfg r synchronous
  else r

/-- The method `Renderer::fill_rect_cpu`: the ledger records aimed at the colour address are
dropped, then the rectangle is written to memory; the write is a log entry holding the first
address, the stride, the bounds in 32-bit words and scanlines, and the path taken. -/
def fill_rect_cpu (cfg : Config) (r : Renderer) (xmin xmax ymin ymax : Int) : Renderer :=
  let kept := r.async_transfers.filter
    (fun async => !(async.framebuffer.addr == r.framebuffer.addr ||
                    async.framebuffer.depth_addr == r.framebuffer.addr))
  let r1 := { r with async_transfers := kept }
  let box := clip_scissor r1.scissor xmin xmax ymin ymax
  let xmin1 := max 0 box.1
  let xmax1 := min ((r1.framebuffer.width : Int) - 1) box.2.1
  let ymin1 := box.2.2.1
  let ymax1 := box.2.2.2
  let shift : Nat :=
    if r1.framebuffer.pixel_size = 1 then 2 else if r1.framebuffer.pixel_size = 2 then 1 else 0
  let xmin2 := xmin1 >>> shift
  let xmax2 := xmax1 >>> shift
  let stride := u32 (r1.framebuffer.width <<< (2 - shift))
  let addr := to_u32 ((r1.framebuffer.addr : Int) + ymin1 * (stride : Int))
  let r2 := r1.assert 577 (addr &&& 3 == 0)
  let max_addr := to_u32 ((addr : Int) + (ymax1 + ymin1 - 1) * (stride : Int) + 4 * xmax2)
  r2.emit (Event.fill_rect addr stride xmin2 xmax2 ymin1 ymax1 (decide (max_addr ≤ cfg.RDRAM_SIZE)))

/-! ## Runs -/

/-- The calls the command decoder makes. -/
inductive Op where
  | set_scissor (xh yh xl yl : Int)
  | set_combine (w1 w2 : Nat)
  | set_primitive_z (w2 : Nat)
  | set_prim_color (w1 w2 : Nat)
  | set_env_color (w2 : Nat)
  | set_fog_color (w2 : Nat)
  | set_convert (w1 w2 : Nat)
  | set_depth_image (addr : Nat) (synchronous : Bool)
  | set_color_image (addr format pixel_size width : Nat) (synchronous : Bool)
  | set_framebuffer_size (width height : Nat)
  | draw_primitive (d : DrawCall)
  | flush_tile_lists
  | complete_frame (synchronous : Bool)
  | sync_full
  | begin_index (index : Nat)
  | check_tmem_feedback (addr : Nat) (synchronous : Bool)
  | fill_rect_cpu (xmin xmax ymin ymax : Int)
deriving DecidableEq, Repr

/-- One call. -/
def step (cfg : Config) (r : Renderer) : Op → Renderer
  | Op.set_scissor xh yh xl yl => set_scissor r xh yh xl yl
  | Op.set_combine w1 w2 => set_combine r w1 w2
  | Op.set_primitive_z w2 => set_primitive_z r w2
  | Op.set_prim_color w1 w2 => set_prim_color r w1 w2
  | Op.set_env_color w2 => set_env_color r w2
  | Op.set_fog_color w2 => set_fog_color r w2
  | Op.set_convert w1 w2 => set_convert r w1 w2
  | Op.set_depth_image addr synchronous => set_depth_image cfg r addr synchronous
  | Op.set_color_image addr format pixel_size width synchronous =>
    set_color_image cfg r addr format pixel_size width synchronous
  | Op.set_framebuffer_size width height => set_framebuffer_size cfg r width height
  | Op.draw_primitive d => draw_primitive cfg r d
  | Op.flush_tile_lists => flush_tile_lists cfg r
  | Op.complete_frame synchronous => complete_frame cfg r synchronous
  | Op.sync_full => sync_full cfg r
  | Op.begin_index index => begin_index r index
  | Op.check_tmem_feedback addr synchronous => check_tmem_feedback cfg r addr synchronous
  | Op.fill_rect_cpu xmin xmax ymin ymax => fill_rect_cpu cfg r xmin xmax ymin ymax

/-- A sequence of calls, first call first. -/
def run (cfg : Config) (r : Renderer) (ops : List Op) : Renderer :=
  ops.foldl (step cfg) r

/-! ## Pixel conversions of staging and read-back -/

/-- The word `sync_color_dram_to_gpu` stages for a 16-bit pixel `c` read from memory:
`(c << 2) | ((c & 1) * 3)`, on 32 bits. -/
def stage_color_16 (c : Nat) : Nat := u32 ((c <<< 2) ||| ((c &&& 1) * 3))

/-- The word `sync_color_dram_to_gpu` stages for an 8-bit pixel `c` read from memory:
`(c << 3) | ((c & 1) * 7)`, on 32 bits. -/
def stage_color_8 (c : Nat) : Nat := u32 ((c <<< 3) ||| ((c &&& 1) * 7))

/-- The word `sync_depth_dram_to_gpu` stages for a 16-bit depth value `c` read from memory:
`c << 2`, on 32 bits. -/
def stage_depth_16 (c : Nat) : Nat := u32 (c <<< 2)

/-- The 16-bit cell `sync_framebuffer_to_cpu` writes for the staged word `v` of a 16-bit colour
pixel or of a depth value: `v >> 2`, stored in 16 bits. -/
def copy_back_16 (v : Nat) : Nat := u16 (v >>> 2)

/-- The 8-bit cell `sync_framebuffer_to_cpu` writes for the staged word `v` of an 8-bit pixel:
`v >> 3`, stored in 8 bits. -/
def copy_back_8 (v : Nat) : Nat := u8 (v >>> 3)

/-- The loop of `sync_color_dram_to_gpu` that fills the staging buffer from memory, on the
cells of the surface in address order: a plain copy for 32-bit pixels, `stage_color_16` or
`stage_color_8` per pixel for 16-bit and 8-bit pixels; for any other pixel size nothing is
written and the buffer stays as it was. -/
def stage_color (pixel_size : Nat) (cells buffer : List Nat) : List Nat :=
  if pixel_size = PIXEL_SIZE_32BPP then cells
  else if pixel_size = PIXEL_SIZE_16BPP then cells.map stage_color_16
  else if pixel_size = PIXEL_SIZE_8BPP then cells.map stage_color_8
  else buffer

/-- The loop of `sync_framebuffer_to_cpu` that writes the colour buffer back, as the new cells
of the surface in address order; for a pixel size other than the three nothing is written and
the cells stay as they were. -/
def copy_back_color (pixel_size : Nat) (buffer cells : List Nat) : List Nat :=
  if pixel_size = PIXEL_SIZE_32BPP then buffer
  else if pixel_size = PIXEL_SIZE_16BPP then buffer.map copy_back_16
  else if pixel_size = PIXEL_SIZE_8BPP then buffer.map copy_back_8
  else cells

/-! ## The combine words as the display-list decoder lays them out (`gDP.h`) -/

/-- The bit-fields of `gDPCombine`, in the order of the declaration. -/
structure gDPCombine where
  aA1 : Nat
  sbA1 : Nat
  aRGB1 : Nat
  aA0 : Nat
  sbA0 : Nat
  aRGB0 : Nat
  mA1 : Nat
  saA1 : Nat
  sbRGB1 : Nat
  sbRGB0 : Nat
  mRGB1 : Nat
  saRGB1 : Nat
  mA0 : Nat
  saA0 : Nat
  mRGB0 : Nat
  saRGB0 : Nat
deriving DecidableEq, Repr

/-- The bit-field of `width` bits at bit `offset` of a word. -/
def bit_field (word offset width : Nat) : Nat := (word / 2 ^ offset) % 2 ^ width

/-- The fields of the union `gDPCombine` whose members `muxs0` and `muxs1` hold the two words.
Bit-fields are allocated from the least significant bit of their word in declaration order
(the layout of the little-endian targets of the code): `muxs1` holds the first ten fields,
`muxs0` the last six in its 24 low bits. -/
def gDPCombine.of_mux (muxs0 muxs1 : Nat) : gDPCombine :=
  { aA1 := bit_field muxs1 0 3, sbA1 := bit_field muxs1 3 3, aRGB1 := bit_field muxs1 6 3,
    aA0 := bit_field muxs1 9 3, sbA0 := bit_field muxs1 12 3, aRGB0 := bit_field muxs1 15 3,
    mA1 := bit_field muxs1 18 3, saA1 := bit_field muxs1 21 3, sbRGB1 := bit_field muxs1 24 4,
    sbRGB0 := bit_field muxs1 28 4,
    mRGB1 := bit_field muxs0 0 5, saRGB1 := bit_field muxs0 5 4, mA0 := bit_field muxs0 9 3,
    saA0 := bit_field muxs0 12 3, mRGB0 := bit_field muxs0 15 5, saRGB0 := bit_field muxs0 20 4 }

/-- The member `muxs1` of a `gDPCombine` whose fields are given. -/
def gDPCombine.muxs1 (c : gDPCombine) : Nat :=
  c.aA1 + c.sbA1 * 2 ^ 3 + c.aRGB1 * 2 ^ 6 + c.aA0 * 2 ^ 9 + c.sbA0 * 2 ^ 12 +
  c.aRGB0 * 2 ^ 15 + c.mA1 * 2 ^ 18 + c.saA1 * 2 ^ 21 + c.sbRGB1 * 2 ^ 24 + c.sbRGB0 * 2 ^ 28

/-- The member `muxs0` of a `gDPCombine` whose fields are given; the bits 24 to 31 are the
padding of the struct, written here as zero. -/
def gDPCombine.muxs0 (c : gDPCombine) : Nat :=
  c.mRGB1 + c.saRGB1 * 2 ^ 5 + c.mA0 * 2 ^ 9 + c.saA0 * 2 ^ 12 + c.mRGB0 * 2 ^ 15 +
  c.saRGB0 * 2 ^ 20

/-- Every field fits its width. -/
def gDPCombine.in_range (c : gDPCombine) : Prop :=
  c.aA1 < 2 ^ 3 ∧ c.sbA1 < 2 ^ 3 ∧ c.aRGB1 < 2 ^ 3 ∧ c.aA0 < 2 ^ 3 ∧ c.sbA0 < 2 ^ 3 ∧
  c.aRGB0 < 2 ^ 3 ∧ c.mA1 < 2 ^ 3 ∧ c.saA1 < 2 ^ 3 ∧ c.sbRGB1 < 2 ^ 4 ∧ c.sbRGB0 < 2 ^ 4 ∧
  c.mRGB1 < 2 ^ 5 ∧ c.saRGB1 < 2 ^ 4 ∧ c.mA0 < 2 ^ 3 ∧ c.saA0 < 2 ^ 3 ∧ c.mRGB0 < 2 ^ 5 ∧
  c.saRGB0 < 2 ^ 4

/-- The sixteen selectors `set_combine` stores, named as the fields of `gDPCombine`: `sa`,
`sb`, `m` and `a` are `sub_a`, `sub_b`, `mul` and `add`; `RGB` and `A` are `color` and `alpha`;
the digit is the cycle. -/
def combine_fields (c : (CombinerInputs × CombinerInputs) × (CombinerInputs × CombinerInputs)) :
    gDPCombine :=
  { aA1 := c.2.2.add, sbA1 := c.2.2.sub_b, aRGB1 := c.1.2.add, aA0 := c.2.1.add,
    sbA0 := c.2.1.sub_b, aRGB0 := c.1.1.add, mA1 := c.2.2.mul, saA1 := c.2.2.sub_a,
    sbRGB1 := c.1.2.sub_b, sbRGB0 := c.1.1.sub_b,
    mRGB1 := c.1.2.mul, saRGB1 := c.1.2.sub_a, mA0 := c.2.1.mul, saA0 := c.2.1.sub_a,
    mRGB0 := c.1.1.mul, saRGB0 := c.1.1.sub_a }

/-! ## The branch-and-link emitter of the recompiler (`gregimm.c`) -/

/-- The instructions `genbranchlink` emits.  The emitters of `assemble.h` are not among the
sources; each constructor is the call of the emitter of that name with its arguments.  The
memory operand of `mov_m32rel_imm32` is a 32-bit word of `reg[31]`: word 0 is
`(unsigned int *)&reg[31]`, word 1 is `((unsigned int *)&reg[31]) + 1`. -/
inductive X86 where
  | mov_reg32_imm32 (reg : Nat) (imm : Nat)
  | mov_m32rel_imm32 (word : Nat) (imm : Nat)
  | movsxd_reg64_reg32 (dst : Nat) (src : Nat)
deriving DecidableEq, Repr

/-- The function `genbranchlink`: `r31_64bit` is what `is64(&reg[31])` answers, `r31` the host
register that `allocate_register_32_w` or `allocate_register_64_w` returns, `addr` the member
`dst->addr`, an `unsigned int`. -/
def genbranchlink (r31_64bit : Int) (r31 : Nat) (addr : Nat) : List X86 :=
  if r31_64bit = 0 then [X86.mov_reg32_imm32 r31 (u32 (addr + 8))]
  else if r31_64bit = -1 then
    [X86.mov_m32rel_imm32 0 (u32 (addr + 8)),
     if addr &&& 0x80000000 ≠ 0 then X86.mov_m32rel_imm32 1 0xFFFFFFFF
     else X86.mov_m32rel_imm32 1 0]
  else [X86.mov_reg32_imm32 r31 (u32 (addr + 8)), X86.movsxd_reg64_reg32 r31 r31]

/-- The part of the host machine the emitted code touches: the 64-bit host registers and the
two 32-bit words of `reg[31]` in memory (little-endian: word 0 is the low word). -/
structure Host where
  regs : Nat → Nat
  low : Nat
  high : Nat

/-- The 64-bit value whose low word is `w` and whose high word repeats bit 31 of `w`. -/
def sign_extend_32 (w : Nat) : Nat :=
  if w % 4294967296 < 2147483648 then w % 4294967296
  else w % 4294967296 + 4294967295 * 4294967296

/-- Modelled from the spec: the x86-64 instructions behind the emitters, which are not among
the sources.  A 32-bit move of an immediate to a register clears the upper half of the
register, `movsxd` writes the sign extension of the low half of the source, and a 32-bit move
to memory writes one word. -/
def X86.exec (h : Host) : X86 → Host
  | X86.mov_reg32_imm32 reg imm =>
    { h with regs := fun k => if k = reg then imm % 4294967296 else h.regs k }
  | X86.mov_m32rel_imm32 word imm =>
    if word = 0 then { h with low := imm % 4294967296 }
    else { h with high := imm % 4294967296 }
  | X86.movsxd_reg64_reg32 dst src =>
    { h with regs := fun k => if k = dst then sign_extend_32 (h.regs src) else h.regs k }

/-- The emitted instructions run in order. -/
def X86.run (h : Host) (code : List X86) : Host := code.foldl X86.exec h

/-- The 64-bit value of `reg[31]` in memory. -/
def Host.reg31 (h : Host) : Nat := h.low + h.high * 4294967296

/-! ## Reference notions used to state the properties -/

/-- The major edge of the exact edge walk at sub-scanline `Y`:
`(xh + (Y - (yh & ~3)) * DxHDy) >> 16`. -/
def edge_xh (prim : Primitive) (Y : Int) : Int :=
  (prim.xh + (Y - yh_base prim) * prim.DxHDy) >>> (16 : Nat)

/-- The first minor edge of the exact edge walk at sub-scanline `Y`:
`(xm + (Y - (yh & ~3)) * DxMDy) >> 16`. -/
def edge_xm (prim : Primitive) (Y : Int) : Int :=
  (prim.xm + (Y - yh_base prim) * prim.DxMDy) >>> (16 : Nat)

/-- The second minor edge of the exact edge walk at sub-scanline `Y`:
`(xl + (Y - ym) * DxLDy) >> 16`. -/
def edge_xl (prim : Primitive) (Y : Int) : Int :=
  (prim.xl + (Y - prim.ym) * prim.DxLDy) >>> (16 : Nat)

/-- Modelled from the spec: the pixel-exact rasteriser runs on the GPU and is not among the
sources.  Pixel column `X` is covered on sub-scanline `Y` when it lies between the major edge
and the active minor edge (the `xm` edge above `ym`, the `xl` edge from `ym` on); with the
flip flag the major edge is the lower bound, without it the upper bound, the sides on which
`coarse_conservative_raster` tests them. -/
def exact_coverage (cfg : Config) (prim : Primitive) (X Y : Int) : Prop :=
  let minor := if Y < prim.ym then edge_xm prim Y else edge_xl prim Y
  if prim.flags &&& cfg.RDP_FLAG_FLIP ≠ 0 then edge_xh prim Y ≤ X ∧ X ≤ minor
  else minor ≤ X ∧ X ≤ edge_xh prim Y

/-- The log entries one call of `sync_framebuffer_to_cpu` on a record appends: the wait on the
fence of the record, then the copy-back of each surface its snapshot holds as GPU-resident
(each preceded by the entry of the alignment assertion, should it fail). -/
def copy_back_log (a : AsyncFramebuffer) : List Event :=
  [Event.wait a.fence] ++
  (if a.framebuffer.color_state = FRAMEBUFFER_GPU then
    (if a.framebuffer.pixel_size = PIXEL_SIZE_16BPP ∧ ¬ (a.framebuffer.addr &&& 1 == 0) = true
      then [Event.assertion_failed 1422] else []) ++ [Event.copy_color_to_dram a]
   else []) ++
  (if a.framebuffer.depth_state = FRAMEBUFFER_GPU then
    (if ¬ (a.framebuffer.depth_addr &&& 1 == 0) = true
      then [Event.assertion_failed 1457] else []) ++ [Event.copy_depth_to_dram a]
   else [])

/-- The second renderer differs from the first at most in the residency side of the engine:
the framebuffer descriptor, the backend handles, the ledger, the sync index and the log.
The batch, the registers, the scissor and the tile grid are the same. -/
def ResidencyOnly (r r' : Renderer) : Prop :=
  r' = { r with framebuffer := r'.framebuffer, vulkan := r'.vulkan,
                next_handle := r'.next_handle, async_transfers := r'.async_transfers,
                current_sync_index := r'.current_sync_index, log := r'.log }

/-- No tile was bound on the way from the first renderer to the second: the counter of bound
tiles is the same, and the pending nodes, the pending work items and `tile_count` are the same
or were all emptied by a flush. -/
def BindsNothing (r r' : Renderer) : Prop :=
  r'.raster_tile_count = r.raster_tile_count ∧
  ((r'.tile_nodes = r.tile_nodes ∧ r'.work_data = r.work_data ∧ r'.tile_count = r.tile_count) ∨
   (r'.tile_nodes = [] ∧ r'.work_data = [] ∧ r'.tile_count = 0))

/-- Replays the residency entries of a log, starting from a pair of states (colour, depth):
the pair after the last entry, or `none` when the value an entry holds as the state before
the write is not the state replayed so far. -/
def replay_residency :
    FramebufferState × FramebufferState → List Event → Option (FramebufferState × FramebufferState)
  | st, [] => some st
  | st, Event.residency Surface.color old new :: rest =>
    if old = st.1 then replay_residency (new, st.2) rest else none
  | st, Event.residency Surface.depth old new :: rest =>
    if old = st.2 then replay_residency (st.1, new) rest else none
  | st, _ :: rest => replay_residency st rest

/-- The number of tile-list nodes that the batch uploads of a log handed to the GPU. -/
def flushed_nodes : List Event → Nat
  | [] => 0
  | Event.flush batch :: rest => batch.nodes.length + flushed_nodes rest
  | _ :: rest => flushed_nodes rest

/-- The residency entries of the log tell the history of the two surface states: replayed
from two CPU-resident surfaces they lead to the present states, and every entry that writes
GPU holds STALE_GPU as the state before the write. -/
def ResidencyTracked (r : Renderer) : Prop :=
  (∀ s old, Event.residency s old FRAMEBUFFER_GPU ∈ r.log → old = FRAMEBUFFER_STALE_GPU) ∧
  replay_residency (FRAMEBUFFER_CPU, FRAMEBUFFER_CPU) r.log =
    some (r.framebuffer.color_state, r.framebuffer.depth_state)

/-- The second renderer has the surface states of the first, and its log is the log of the
first followed by entries that are not residency entries. -/
def QuietStep (r r' : Renderer) : Prop :=
  r'.framebuffer.color_state = r.framebuffer.color_state ∧
  r'.framebuffer.depth_state = r.framebuffer.depth_state ∧
  ∃ es, r'.log = r.log ++ es ∧ ∀ e ∈ es, ∀ s old new, e ≠ Event.residency s old new

/-- No entry of the list is a batch upload. -/
def NoFlush (es : List Event) : Prop := ∀ e ∈ es, ∀ batch, e ≠ Event.flush batch

/-- Conservation of tile-list nodes on the way from the first renderer to the second: the
nodes handed to the GPU by the batch uploads of the log plus the pending nodes grew by as much
as the counter of bound tiles. -/
def NodeStep (r r' : Renderer) : Prop :=
  flushed_nodes r'.log + r'.tile_nodes.length + r.raster_tile_count =
    flushed_nodes r.log + r.tile_nodes.length + r'.raster_tile_count

/-- The tiles one `draw_primitive` call binds, in the order of the binning loops: the tiles of
the tile range of the clipped box that `coarse_conservative_raster` accepts. -/
def bound_tiles (cfg : Config) (r : Renderer) (d : DrawCall) : List (Int × Int) :=
  let box := clip_scissor r.scissor d.min_x d.max_x d.min_y d.max_y
  let min_tile_x := max (Int.tdiv box.1 cfg.TILE_SIZE_X) 0
  let max_tile_x := min (Int.tdiv box.2.1 cfg.TILE_SIZE_X) (((draw_begin cfg r d).tiles_x : Int) - 1)
  let min_tile_y := Int.tdiv box.2.2.1 cfg.TILE_SIZE_Y
  let max_tile_y := Int.tdiv box.2.2.2 cfg.TILE_SIZE_Y
  (int_range min_tile_y max_tile_y).flatMap (fun y =>
    ((int_range min_tile_x max_tile_x).filter (fun x =>
      coarse_conservative_raster cfg x y box.1 box.2.1 box.2.2.1 box.2.2.2 d.prim)).map
      (fun x => (x, y)))

/-- The calls of a sequence of draws, each preceded by the setting of an environment colour. -/
def env_draw_ops (l : List (Nat × DrawCall)) : List Op :=
  l.flatMap (fun p => [Op.set_env_color p.1, Op.draw_primitive p.2])

/-- Every draw of the sequence, run from the given renderer, binds exactly one tile. -/
def EachBindsOne (cfg : Config) : Renderer → List (Nat × DrawCall) → Prop
  | _, [] => True
  | r, p :: rest =>
    (bound_tiles cfg (set_env_color r p.1) p.2).length = 1 ∧
    EachBindsOne cfg (draw_primitive cfg (set_env_color r p.1) p.2) rest

/-- The second renderer differs from the first at most in what the binning loops write: the
tile lists, the node pool, the work items and the tile counters. -/
def BinOnly (r r' : Renderer) : Prop :=
  r' = { r with tile_lists := r'.tile_lists, tile_nodes := r'.tile_nodes,
                work_data := r'.work_data, tile_count := r'.tile_count,
                raster_tile_count := r'.raster_tile_count,
                reject_tile_count := r'.reject_tile_count }

/-- The combiner cache is consistent: every table entry is found in the map under its hash,
with its own index; while the combiner is not dirty the map sends the hash of `state.combiners`
to `last_combiner`; and every record that was pushed with a resolved combiner state stores the
index the map holds for the hash of that state. -/
def CombinerCacheInv (cfg : Config) (r : Renderer) : Prop :=
  (∀ (i : Nat) (c : Combiners), r.combiner_data[i]? = some c →
    combiner_map_find r.state.combiner_map (cfg.hash64 c) = some i) ∧
  (r.state.combiners_dirty = false →
    combiner_map_find r.state.combiner_map (cfg.hash64 r.state.combiners)
      = some r.state.last_combiner) ∧
  (∀ (i : Nat) (p : BufferPrimitive) (c : Combiners),
    r.primitive_data[i]? = some p → r.ghost_resolved[i]? = some (some c) →
    ∃ j, p.combiner = some j ∧
      combiner_map_find r.state.combiner_map (cfg.hash64 c) = some j) ∧
  r.ghost_resolved.length = r.primitive_data.length

/-- On the way from the first renderer to the second the combiner table did not grow, and
every batch uploaded on the way holds at most as many combiners as the table of the first. -/
def TableStep (r r' : Renderer) : Prop :=
  r'.combiner_data.length ≤ r.combiner_data.length ∧
  ∃ es, r'.log = r.log ++ es ∧
    ∀ b, Event.flush b ∈ es → b.combiners.length ≤ r.combiner_data.length

/-- The call, made on the given renderer, is not a `draw_primitive` call that binds no tile. -/
def binds_tile (cfg : Config) (r : Renderer) : Op → Prop
  | Op.draw_primitive d => bound_tiles cfg r d ≠ []
  | _ => True

/-- Every `draw_primitive` call of the sequence, run from the given renderer, binds at least
one tile. -/
def EveryDrawBinds (cfg : Config) : Renderer → List Op → Prop
  | _, [] => True
  | r, op :: rest => binds_tile cfg r op ∧ EveryDrawBinds cfg (step cfg r op) rest

/-- The combiner table is below its maximum and no uploaded batch held more than the maximum. -/
def CombinersBounded (cfg : Config) (r : Renderer) : Prop :=
  r.combiner_data.length < cfg.RDP_MAX_COMBINERS ∧
  ∀ b, Event.flush b ∈ r.log → b.combiners.length ≤ cfg.RDP_MAX_COMBINERS

/-- The register values the combiner block of `draw_primitive` is resolved from: the selectors
decoded from the combine words, the primitive colour and LOD fraction, the environment colour
and the convert constants K4 and K5. -/
def combiner_registers (st : RegisterState) :
    (CombinerInputs × CombinerInputs) × (CombinerInputs × CombinerInputs) ×
      Nat × Nat × Nat × Nat × Nat :=
  (st.combiners.color, st.combiners.alpha, st.prim_color, st.prim_lod_frac, st.env_color,
   st.k4, st.k5)

/-- The primitive index a node holds: the low `RDP_MAX_PRIMITIVES_LOG2` bits of its value, the
bits under which `append_tile_list` packs the second index
(`primitive | (tile << RDP_MAX_PRIMITIVES_LOG2)`). -/
def node_primitive (cfg : Config) (n : TileNode) : Nat :=
  n.value % 2 ^ cfg.RDP_MAX_PRIMITIVES_LOG2

/-- The walk along the `next` links of the node pool from index `i` to the sentinel: the nodes
visited, each with its index, first one first.  The first number bounds the nodes that may
still be visited; the answer is `none` when an index falls outside the pool or the walk does
not end in time. -/
def tile_chain (nodes : List TileNode) : Nat → Nat → Option (List (Nat × TileNode))
  | 0, i => if i = SENTINEL then some [] else none
  | fuel + 1, i =>
    if i = SENTINEL then some []
    else
      match nodes[i]? with
      | none => none
      | some n => (tile_chain nodes fuel n.next).map (fun l => (i, n) :: l)

/-- Node `b` of the pool is reached from node `a` by following `next` links. -/
inductive Reach (nodes : List TileNode) : Nat → Nat → Prop
  | here (a : Nat) (n : TileNode) : nodes[a]? = some n → Reach nodes a a
  | link (a b : Nat) (n : TileNode) : nodes[a]? = some n → Reach nodes n.next b → Reach nodes a b

/-- The shape of the tile lists while primitive `P` is binned.  Every node holds a primitive
index of at most `P`, and its `next` is the sentinel or a later node with a larger primitive
index.  The tail of every tile with a head is reached from the head and has the sentinel as
`next`; for the tiles from index `bound` on, which the loops have not visited yet, the tail
holds a primitive index below `P`.  No two tiles with a head share a tail. -/
def ChainInv (cfg : Config) (nodes : List TileNode) (lists : List TileInfo) (P : Nat)
    (bound : Int) : Prop :=
  (∀ (k : Nat) (n : TileNode), nodes[k]? = some n →
    node_primitive cfg n ≤ P ∧
    (n.next = SENTINEL ∨
      (k < n.next ∧ ∃ m, nodes[n.next]? = some m ∧ node_primitive cfg n < node_primitive cfg m))) ∧
  (∀ (t : Nat) (info : TileInfo), lists[t]? = some info → info.head ≠ SENTINEL →
    Reach nodes info.head info.tail ∧
    ∃ n, nodes[info.tail]? = some n ∧ n.next = SENTINEL ∧
      (bound ≤ (t : Int) → node_primitive cfg n < P)) ∧
  (∀ (t1 t2 : Nat) (i1 i2 : TileInfo), lists[t1]? = some i1 → lists[t2]? = some i2 →
    i1.head ≠ SENTINEL → i2.head ≠ SENTINEL → i1.tail = i2.tail → t1 = t2)

/-- The shape of the tile lists between two calls: there are as many work items as nodes;
pending nodes leave room for one more record; and, as long as the pool stays below the
sentinel, the lists have the shape above and every node holds the index of a record. -/
def TileInv (cfg : Config) (r : Renderer) : Prop :=
  r.work_data.length = r.tile_nodes.length ∧
  (r.tile_nodes ≠ [] → r.primitive_data.length < cfg.RDP_MAX_PRIMITIVES) ∧
  (r.tile_nodes.length < SENTINEL →
    ChainInv cfg r.tile_nodes r.tile_lists r.primitive_data.length (r.tile_lists.length : Int) ∧
    ∀ (k : Nat) (n : TileNode), r.tile_nodes[k]? = some n →
      node_primitive cfg n < r.primitive_data.length)

/-- In the batch, two records that were resolved to the same combiner state store the same
combiner index, and the combiner table holds no state twice. -/
def BatchShares (b : FlushedBatch) : Prop :=
  (∀ (i j : Nat) (p q : BufferPrimitive) (c : Combiners),
    b.primitives[i]? = some p → b.primitives[j]? = some q →
    b.resolved[i]? = some (some c) → b.resolved[j]? = some (some c) →
    p.combiner = q.combiner ∧ p.combiner.isSome = true) ∧
  b.combiners.Nodup

/-- On the way from the first renderer to the second the records, the combiner table and the
resolved states stayed as they were or the records were emptied, and every batch uploaded on
the way is the batch of the first. -/
def CacheStep (r r' : Renderer) : Prop :=
  ((r'.primitive_data = r.primitive_data ∧ r'.combiner_data = r.combiner_data ∧
      r'.ghost_resolved = r.ghost_resolved) ∨ r'.primitive_data = []) ∧
  ∃ es, r'.log = r.log ++ es ∧
    ∀ b, Event.flush b ∈ es →
      b.primitives ≠ [] ∧ b.primitives = r.primitive_data ∧
      b.combiners = r.combiner_data ∧ b.resolved = r.ghost_resolved

/-- The record `async` that `sync_gpu_to_dram` builds on a renderer whose command buffer is
open: the current sync index, the framebuffer descriptor as it stands, the staged colour
buffer, the staged depth buffer when the depth surface is GPU-resident, and the fence the
submission returns. -/
def sync_record (r : Renderer) : AsyncFramebuffer :=
  { sync_index := r.current_sync_index, framebuffer := r.framebuffer,
    color_buffer := r.vulkan.framebuffer,
    depth_buffer :=
      if r.framebuffer.depth_state = FRAMEBUFFER_GPU then r.vulkan.framebuffer_depth else none,
    fence := r.next_handle }

/-- The log entries of the two assertions of `sync_gpu_to_dram` on the transient state, should
they fail. -/
def sync_asserts (r : Renderer) : List Event :=
  (if r.framebuffer.color_state = FRAMEBUFFER_STALE_GPU then [Event.assertion_failed 1526]
   else []) ++
  (if r.framebuffer.depth_state = FRAMEBUFFER_STALE_GPU then [Event.assertion_failed 1527]
   else [])

/-- The entry is a wait on a completion handle. -/
def Event.is_wait : Event → Bool
  | Event.wait _ => true
  | _ => false

/-- The descriptor of the surfaces is the same in both renderers, the two residency states
apart. -/
def DescriptorKept (r r' : Renderer) : Prop :=
  r'.framebuffer.addr = r.framebuffer.addr ∧
  r'.framebuffer.depth_addr = r.framebuffer.depth_addr ∧
  r'.framebuffer.format = r.framebuffer.format ∧
  r'.framebuffer.pixel_size = r.framebuffer.pixel_size ∧
  r'.framebuffer.width = r.framebuffer.width ∧
  r'.framebuffer.allocated_width = r.framebuffer.allocated_width ∧
  r'.framebuffer.allocated_height = r.framebuffer.allocated_height

/-- A surface is GPU-resident only while a command buffer is open. -/
def GpuOpen (r : Renderer) : Prop :=
  (r.framebuffer.color_state = FRAMEBUFFER_GPU ∨ r.framebuffer.depth_state = FRAMEBUFFER_GPU) →
    r.vulkan.cmd = true

/-- What staging does on the way from the first renderer to the second: the descriptor, the
ledger and the sync index stay, an open command buffer stays open, and each residency state
either stays or becomes GPU-resident under an open command buffer. -/
def Staging (r r' : Renderer) : Prop :=
  DescriptorKept r r' ∧ r'.async_transfers = r.async_transfers ∧
  r'.current_sync_index = r.current_sync_index ∧
  (r.vulkan.cmd = true → r'.vulkan.cmd = true) ∧
  (r'.framebuffer.color_state = r.framebuffer.color_state ∨
    (r'.framebuffer.color_state = FRAMEBUFFER_GPU ∧ r'.vulkan.cmd = true)) ∧
  (r'.framebuffer.depth_state = r.framebuffer.depth_state ∨
    (r'.framebuffer.depth_state = FRAMEBUFFER_GPU ∧ r'.vulkan.cmd = true))

/-- The log of the second renderer is the log of the first with more entries, none of which is
a failure of the assertion of `set_framebuffer_size` (line 277). -/
def SizeSafe (r r' : Renderer) : Prop :=
  ∃ es, r'.log = r.log ++ es ∧ Event.assertion_failed 277 ∉ es

/-- The second renderer has the framebuffer and the Vulkan objects of the first, and its log is
the log of the first with more entries, none a failure of the assertion of line 277. -/
def SurfaceStep (r r' : Renderer) : Prop :=
  r'.framebuffer = r.framebuffer ∧ r'.vulkan = r.vulkan ∧ SizeSafe r r'

/-- When `GpuOpen` holds of the first renderer it holds of the second, and the entries logged
on the way hold no failure of the assertion of line 277. -/
def SizeStep (r r' : Renderer) : Prop := GpuOpen r → GpuOpen r' ∧ SizeSafe r r'

/-- The renderer after the first two statements of `sync_full`: every record of the ledger was
copied back in ledger order, and the ledger is empty. -/
def drained (r : Renderer) : Renderer :=
  { r with async_transfers := [], log := r.log ++ r.async_transfers.flatMap copy_back_log }

/-- The record `complete_frame` builds when it reaches `sync_gpu_to_dram` with an open command
buffer: the record `sync_gpu_to_dram` builds on the renderer that `flush_tile_lists` returns
(after the ledger was drained, in synchronous mode). -/
def frame_record (cfg : Config) (r : Renderer) (synchronous : Bool) : AsyncFramebuffer :=
  sync_record (flush_tile_lists cfg (if synchronous then drained r else r))

/-- Record `i` of the ledger is `a`, it satisfies the test, and no record with a larger index
does: the most recently appended record that satisfies the test. -/
def LatestMatch (p : AsyncFramebuffer → Bool) (l : List AsyncFramebuffer) (i : Nat)
    (a : AsyncFramebuffer) : Prop :=
  l[i]? = some a ∧ p a = true ∧ ∀ j b, i < j → l[j]? = some b → p b = false

/-- The three colour lanes of an operand. -/
def Vec4.rgb (v : Vec4) : Nat × Nat × Nat := (v.e0, v.e1, v.e2)

/-- The texture image address `addr`, taken relative to the base of a surface in 32-bit
arithmetic and wrapped by `WRAP_ADDR`, falls inside the `size` bytes of the surface. -/
def feeds_back (cfg : Config) (base size addr : Nat) : Prop :=
  cfg.WRAP_ADDR (u32 (addr + 4294967296 - base)) < size

/-- The addresses of the 32-bit words that the loops of `fill_rect_cpu` write on the path
without wrapping, in the order of the loops: scanline `y` starts at `addr` advanced `y - ymin`
times by `stride` (32-bit arithmetic), and the word of column `x` is at `addr + 4 * x`. -/
def fill_words (addr stride : Nat) (xmin xmax ymin ymax : Int) : List Nat :=
  (int_range ymin ymax).flatMap (fun y =>
    (int_range xmin xmax).map (fun x =>
      to_u32 ((u32 (addr + (y - ymin).toNat * stride) : Int) + 4 * x)))

/-- The byte address lies in one of the words. -/
def in_words (a : Nat) (words : List Nat) : Prop := ∃ w ∈ words, w ≤ a ∧ a < w + 4

/-! ## Concrete inputs -/

/-- An injective code of four lanes. -/
def Vec4.code (v : Vec4) : Nat := Nat.pair (Nat.pair v.e0 v.e1) (Nat.pair v.e2 v.e3)

/-- An injective code of the selectors of one cycle. -/
def CombinerInputs.code (c : CombinerInputs) : Nat :=
  Nat.pair (Nat.pair c.sub_a c.sub_b) (Nat.pair c.mul c.add)

/-- An injective code of the resolved operands of one cycle. -/
def CombinerCycle.code (c : CombinerCycle) : Nat :=
  Nat.pair (Nat.pair c.sub_a.code c.sub_b.code) (Nat.pair c.mul.code c.add.code)

/-- An injective code of the block `state.combiners`: a hash without collisions. -/
def Combiners.code (c : Combiners) : Nat :=
  Nat.pair (Nat.pair c.cycle.1.code c.cycle.2.code)
    (Nat.pair (Nat.pair c.color.1.code c.color.2.code) (Nat.pair c.alpha.1.code c.alpha.2.code))

/-- A configuration for concrete evaluations: 8 by 8 pixel tiles (the size `flush_tile_lists`
prints), the RDP cycle type codes, one bit per flag, an 8 MiB memory wrapped by reduction
modulo its size, and a hash without collisions.  The capacity limits are sample values. -/
def Config.sample : Config :=
  { TILE_SIZE_X := 8, TILE_SIZE_Y := 8, RDP_MAX_PRIMITIVES_LOG2 := 10,
    RDP_MAX_PRIMITIVES := 1024, RDP_MAX_COMBINERS := 64, FlushBufferTileCount := 16384,
    TMEM_TILES := 8, RDP_FLAG_FLIP := 1, RDP_FLAG_CYCLE_TYPE_SHIFT := 8, RDP_FLAG_Z_UPDATE := 2,
    RDP_FLAG_Z_COMPARE := 4, RDP_FLAG_INTERPOLATE_Z := 16, RDP_FLAG_DO_OFFSET := 32,
    CYCLE_TYPE_1 := 0, CYCLE_TYPE_2 := 1, CYCLE_TYPE_FILL := 3, RDRAM_SIZE := 8388608,
    WRAP_ADDR := fun a => a % 8388608,
    color_size := fun fb => fb.width * fb.allocated_height * 4,
    depth_size := fun fb => fb.width * fb.allocated_height * 2,
    hash64 := Combiners.code }

/-- A flipped rectangle in 1-cycle mode: columns `x0` to `x1`, scanlines `y0` to `y1`. -/
def rect_primitive (x0 x1 y0 y1 : Int) : Primitive :=
  { xl := x1 * 65536, xm := x1 * 65536, xh := x0 * 65536, yl := y1 * 4 + 3, ym := y1 * 4 + 3,
    yh := y0 * 4, DxLDy := 0, DxMDy := 0, DxHDy := 0, flags := 1 }

/-- The draw call of `rect_primitive` with its exact bounding box, no attributes, no texture. -/
def rect_draw (x0 x1 y0 y1 : Int) : DrawCall :=
  { prim := rect_primitive x0 x1 y0 y1, attr := none, tile_mask := 0,
    min_x := x0, max_x := x1, min_y := y0, max_y := y1, dirty_tiles := 0 }

/-- A 320 pixel wide 16-bit colour image at address 0, with the scissor on scanlines 0 to 3. -/
def scissored_session : Renderer :=
  run Config.sample (Renderer.init Config.sample)
    [Op.set_color_image 0 0 2 320 false, Op.set_scissor 0 0 1280 16]

/-- The sample configuration with small capacity limits: 4 primitives, 2 combiners. -/
def Config.small : Config :=
  { Config.sample with RDP_MAX_PRIMITIVES_LOG2 := 2, RDP_MAX_PRIMITIVES := 4,
                       RDP_MAX_COMBINERS := 2, FlushBufferTileCount := 100 }

/-- A 320 pixel wide 16-bit colour image at address 0 under the small configuration, with the
scissor on the whole image and a combine mode whose second cycle subtracts from the
environment colour. -/
def small_session : Renderer :=
  run Config.small (Renderer.init Config.small)
    [Op.set_color_image 0 0 2 320 false, Op.set_scissor 0 0 1280 960, Op.set_combine 160 0]

/-- A session under the sample configuration: a 320 pixel wide 16-bit colour image with the
scissor on the whole image, primitive colour `0x11223300`, environment colour `0x44556600`, and
one 1-cycle draw on one tile with the primitive colour as colour `sub_b` of both cycles. -/
def stale_lane_ops : List Op :=
  [Op.set_color_image 0 0 2 320 false, Op.set_scissor 0 0 1280 960,
   Op.set_prim_color 0 0x11223300, Op.set_env_color 0x44556600,
   Op.set_combine 0 0x33000000, Op.draw_primitive (rect_draw 0 3 0 3)]

/-- A session under the small configuration: a 320 pixel wide 16-bit colour image with the
scissor on the whole image, then two 1-cycle draws; the first covers the tile with index 0,
the second the tiles with index 0 and 1. -/
def two_draw_ops : List Op :=
  [Op.set_color_image 0 0 2 320 false, Op.set_scissor 0 0 1280 960, Op.set_combine 160 0,
   Op.draw_primitive (rect_draw 0 3 0 3), Op.draw_primitive (rect_draw 0 11 0 3)]

/-- A session under the sample configuration: three 1-cycle draws on one tile with the
environment colours 256, 512 and 256 again. -/
def shared_combiner_ops : List Op :=
  [Op.set_color_image 0 0 2 320 false, Op.set_scissor 0 0 1280 960, Op.set_combine 160 0,
   Op.set_env_color 256, Op.draw_primitive (rect_draw 0 3 0 3),
   Op.set_env_color 512, Op.draw_primitive (rect_draw 0 3 0 3),
   Op.set_env_color 256, Op.draw_primitive (rect_draw 0 3 0 3)]

/-- A session under the sample configuration: one draw and an explicit flush. -/
def draw_flush_ops : List Op :=
  [Op.set_color_image 0 0 2 320 false, Op.set_scissor 0 0 1280 960,
   Op.draw_primitive (rect_draw 0 10 0 7), Op.flush_tile_lists]

/-- A ledger record with the given sync index and fence. -/
def ledger_record (sync_index fence : Nat) : AsyncFramebuffer :=
  { sync_index := sync_index, framebuffer := (Renderer.init Config.sample).framebuffer,
    color_buffer := none, depth_buffer := none, fence := fence }

/-- A ledger record with the descriptor of the initial state that holds a colour buffer and a
depth buffer. -/
def staged_record (fence color_buffer depth_buffer : Nat) : AsyncFramebuffer :=
  { sync_index := 0, framebuffer := (Renderer.init Config.sample).framebuffer,
    color_buffer := some color_buffer, depth_buffer := some depth_buffer, fence := fence }

/-- A renderer with both surfaces stale and a ledger of three records: the first two hold
buffers for the current descriptor, the third holds none. -/
def reuse_session : Renderer :=
  { Renderer.init Config.sample with
    framebuffer := { (Renderer.init Config.sample).framebuffer with
      color_state := FRAMEBUFFER_STALE_GPU, depth_state := FRAMEBUFFER_STALE_GPU },
    async_transfers := [staged_record 1 10 11, staged_record 2 20 21, ledger_record 0 3] }

/-- A session under the sample configuration: a frame drawn to a 320 pixel wide 16-bit colour
image at address 1028 is completed without synchronous mode, so that its record stays in the
ledger; then the colour image moves to address 1024 and the first four pixels of scanline 0
are cleared by the CPU, which writes the words at 1024 and 1028. -/
def overlap_ops : List Op :=
  [Op.set_color_image 1028 0 2 320 false, Op.set_scissor 0 0 1280 960,
   Op.draw_primitive (rect_draw 0 10 0 7), Op.flush_tile_lists, Op.complete_frame false,
   Op.set_color_image 1024 0 2 320 false, Op.fill_rect_cpu 0 3 0 0]

/-- A session under the sample configuration (8 MiB of memory): a 320 pixel wide 16-bit colour
image whose first scanline is the last 640 bytes of memory, with the scissor on the whole
image; then the first four pixels of the scanlines 0 and 1 are cleared by the CPU. -/
def edge_fill_ops : List Op :=
  [Op.set_color_image 8387968 0 2 320 false, Op.set_scissor 0 0 1280 960,
   Op.fill_rect_cpu 0 3 0 1]

/-- The session `stale_lane_ops` followed by one more 1-cycle draw on the same tile with the
colour `sub_b` selector 6 in both cycles. -/
def key_center_ops : List Op :=
  stale_lane_ops ++ [Op.set_combine 0 0x66000000, Op.draw_primitive (rect_draw 0 3 0 3)]

/-- A session under the sample configuration: a 16 pixel wide 16-bit colour image (16 rows, a
grid of 2 by 2 tiles) with the scissor on the whole image, primitive colour `0x11223300`, one
1-cycle draw on one tile with the primitive colour as colour `sub_b` of both cycles, and then
the combine mode with the colour `sub_b` selector 6 in both cycles. -/
def key_batch_ops : List Op :=
  [Op.set_color_image 0 0 2 16 false, Op.set_scissor 0 0 64 64,
   Op.set_prim_color 0 0x11223300, Op.set_combine 0 0x33000000,
   Op.draw_primitive (rect_draw 0 3 0 3), Op.set_combine 0 0x66000000]

/-- The session `key_batch_ops` and a flush of its batch: the state right after a flush that
went through. -/
def flushed_key_ops : List Op := key_batch_ops ++ [Op.flush_tile_lists]

/-- A session from the initial state with the image, the scissor and the register values of
`flushed_key_ops` and no draw. -/
def fresh_key_ops : List Op :=
  [Op.set_color_image 0 0 2 16 false, Op.set_scissor 0 0 64 64,
   Op.set_prim_color 0 0x11223300, Op.set_combine 0 0x66000000]

/-- The registers outside the combiner: fog colour, fill colour, blend word, blend colour and
primitive depth. -/
def other_registers (st : RegisterState) : Nat × Nat × Nat × Nat × Nat :=
  (st.fog_color, st.fill_color, st.blend_word, st.blend_color, st.primitive_z)

end RDP

namespace RDP

/-! ## Further notions used to state the properties -/

/-- The log of the second renderer is the log of the first with more entries, none of which is
a failure of the first assertion of `sync_gpu_to_dram` (line 1526: the colour surface is not
in the transient state). -/
def ColorSafe (r r' : Renderer) : Prop :=
  ∃ es, r'.log = r.log ++ es ∧ Event.assertion_failed 1526 ∉ es

/-- How the two residency states, the command buffer and the pending batch hang together
between two calls: a GPU-resident surface has an open command buffer; under an open command
buffer the colour surface is GPU-resident; the depth surface leaves the CPU only after the
colour surface; and pending work items come with a colour surface that has left the CPU and
with at least one record. -/
def SurfaceInv (r : Renderer) : Prop :=
  GpuOpen r ∧
  (r.vulkan.cmd = true → r.framebuffer.color_state = FRAMEBUFFER_GPU) ∧
  (r.framebuffer.depth_state ≠ FRAMEBUFFER_CPU → r.framebuffer.color_state ≠ FRAMEBUFFER_CPU) ∧
  (r.work_data ≠ [] → r.framebuffer.color_state ≠ FRAMEBUFFER_CPU ∧ r.primitive_data ≠ [])

/-- When `SurfaceInv` holds of the first renderer it holds of the second, and the entries
logged on the way hold no failure of the assertion of line 1526. -/
def FrameStep (r r' : Renderer) : Prop := SurfaceInv r → SurfaceInv r' ∧ ColorSafe r r'

/-- The log of the second renderer is the log of the first with more entries, none of which is
a failure of the assertion `max_tile_y < tiles_y` of `draw_primitive` (line 624). -/
def RowSafe (r r' : Renderer) : Prop :=
  ∃ es, r'.log = r.log ++ es ∧ Event.assertion_failed 624 ∉ es

/-- The tile grid fits the allocated surface: `tiles_x` and `tiles_y` are the allocated width
and height divided by the tile size, rounded up, and there is one tile list per tile. -/
def GridInv (cfg : Config) (r : Renderer) : Prop :=
  r.tiles_x = (r.framebuffer.allocated_width + cfg.TILE_SIZE_X - 1) / cfg.TILE_SIZE_X ∧
  r.tiles_y = (r.framebuffer.allocated_height + cfg.TILE_SIZE_Y - 1) / cfg.TILE_SIZE_Y ∧
  r.tile_lists.length = r.tiles_x * r.tiles_y

/-- The second renderer has the allocated dimensions, the tile grid and the number of tile
lists of the first. -/
def GridKept (r r' : Renderer) : Prop :=
  r'.framebuffer.allocated_width = r.framebuffer.allocated_width ∧
  r'.framebuffer.allocated_height = r.framebuffer.allocated_height ∧
  r'.tiles_x = r.tiles_x ∧ r'.tiles_y = r.tiles_y ∧
  r'.tile_lists.length = r.tile_lists.length

/-- The node pool and the work items go together: there are `tile_count` nodes and
`tile_count` work items, and node `i` holds the word `primitive | (i << RDP_MAX_PRIMITIVES_LOG2)`
(on 32 bits) where `primitive` is the primitive index of work item `i`, an index below `P`. -/
def PoolShape (cfg : Config) (nodes : List TileNode) (work : List BufferWorkDescriptor)
    (tile_count P : Nat) : Prop :=
  nodes.length = tile_count ∧ work.length = tile_count ∧
  ∀ (i : Nat) (n : TileNode) (w : BufferWorkDescriptor),
    nodes[i]? = some n → work[i]? = some w →
    n.value = u32 (w.primitive ||| (i <<< cfg.RDP_MAX_PRIMITIVES_LOG2)) ∧ w.primitive < P

/-- The pending batch has the shape above, with the number of its records as the bound. -/
def PoolInv (cfg : Config) (r : Renderer) : Prop :=
  PoolShape cfg r.tile_nodes r.work_data r.tile_count r.primitive_data.length

/-- When the pending batch of the first renderer has the shape above, so has the pending batch
of the second, and so has every batch uploaded on the way. -/
def PoolStep (cfg : Config) (r r' : Renderer) : Prop :=
  PoolInv cfg r → PoolInv cfg r' ∧
    ∃ es, r'.log = r.log ++ es ∧
      ∀ b, Event.flush b ∈ es → PoolShape cfg b.nodes b.work b.tile_count b.primitives.length

/-- The pending batch stays within the capacities between two calls: at most
`FlushBufferTileCount` bound tiles, and fewer than `RDP_MAX_PRIMITIVES` records while a tile
is bound. -/
def PoolBounded (cfg : Config) (r : Renderer) : Prop :=
  r.tile_count ≤ cfg.FlushBufferTileCount ∧
  (r.tile_count ≠ 0 → r.primitive_data.length < cfg.RDP_MAX_PRIMITIVES)

/-- The hash `hash64` does not collide on the resolved states of the list: two of them with
the same hash are the same state. -/
def NoCollision (cfg : Config) (resolved : List (Option Combiners)) : Prop :=
  ∀ c1 c2 : Combiners, some c1 ∈ resolved → some c2 ∈ resolved →
    cfg.hash64 c1 = cfg.hash64 c2 → c1 = c2

/-- The combiner table is faithful to the records: provided the hash does not collide on the
resolved states, every record that was pushed with a resolved combiner state stores an index,
and the table entry at that index is that state. -/
def Faithful (cfg : Config) (prims : List BufferPrimitive) (table : List Combiners)
    (resolved : List (Option Combiners)) : Prop :=
  NoCollision cfg resolved →
    ∀ (i : Nat) (p : BufferPrimitive) (c : Combiners),
      prims[i]? = some p → resolved[i]? = some (some c) →
      ∃ j, p.combiner = some j ∧ table[j]? = some c

/-- The combiner map points into the table: an index the map holds for a hash is the index of
a table entry with that hash; every table entry is the resolved state of a record of the
batch; and while the combiner is not dirty, `state.combiners` is what a resolution gives. -/
def TableInv (cfg : Config) (r : Renderer) : Prop :=
  (∀ (h j : Nat), combiner_map_find r.state.combiner_map h = some j →
    ∃ c, r.combiner_data[j]? = some c ∧ cfg.hash64 c = h) ∧
  (∀ (j : Nat) (c : Combiners), r.combiner_data[j]? = some c → some c ∈ r.ghost_resolved) ∧
  (r.state.combiners_dirty = false → update_static_combiner r.state = r.state.combiners)

/-- The second renderer has the block `state.combiners` of the first and the registers a
resolution reads: primitive colour and LOD fraction, environment colour, K4 and K5. -/
def ResolveKept (r r' : Renderer) : Prop :=
  r'.state.combiners = r.state.combiners ∧ r'.state.prim_color = r.state.prim_color ∧
  r'.state.prim_lod_frac = r.state.prim_lod_frac ∧ r'.state.env_color = r.state.env_color ∧
  r'.state.k4 = r.state.k4 ∧ r'.state.k5 = r.state.k5

/-- On the way from the first renderer to the second a batch was uploaded, or the combiner
table of the first is a prefix of the table of the second: its entries are where they were
and hold what they held. -/
def TableGrows (r r' : Renderer) : Prop :=
  ∃ es, r'.log = r.log ++ es ∧
    ((∃ b, Event.flush b ∈ es) ∨ r.combiner_data <+: r'.combiner_data)

/-- The batches handed to the GPU, in the order of the log. -/
def flushed_batches : List Event → List FlushedBatch
  | [] => []
  | Event.flush batch :: rest => batch :: flushed_batches rest
  | _ :: rest => flushed_batches rest

/-! ## Further concrete inputs -/

/-- The draw call of `rect_draw` with the depth-update flag set in the flags of the primitive
(1-cycle mode, flipped). -/
def depth_rect_draw (x0 x1 y0 y1 : Int) : DrawCall :=
  { rect_draw x0 x1 y0 y1 with prim := { rect_primitive x0 x1 y0 y1 with flags := 3 } }

/-- A session under the small configuration (4 records per batch): a 16 pixel wide 16-bit
colour image with the scissor on the whole image; four draws without depth flags on one tile,
the fourth of which fills the record buffer and flushes the batch; then one draw with the
depth-update flag whose box lies to the right of the scissor and binds no tile. -/
def stale_depth_ops : List Op :=
  [Op.set_color_image 0 0 2 16 false, Op.set_scissor 0 0 64 64,
   Op.draw_primitive (rect_draw 0 3 0 3), Op.draw_primitive (rect_draw 0 3 0 3),
   Op.draw_primitive (rect_draw 0 3 0 3), Op.draw_primitive (rect_draw 0 3 0 3),
   Op.draw_primitive (depth_rect_draw 100 103 0 3)]

/-- A session under the sample configuration: a 16 pixel wide 16-bit colour image (16 rows are
allocated, a grid of 2 by 2 tiles) with the scissor on 16 columns and 32 scanlines. -/
def tall_scissor_ops : List Op :=
  [Op.set_color_image 0 0 2 16 false, Op.set_scissor 0 0 64 128]

/-- A session under the small configuration (2 combiners per batch): a 320 pixel wide 16-bit
colour image with the scissor on the whole image, then three 1-cycle draws with the
environment colours 256, 512 and 768 whose boxes lie to the right of the image, so that none
binds a tile. -/
def combiner_overflow_ops : List Op :=
  [Op.set_color_image 0 0 2 320 false, Op.set_scissor 0 0 1280 960, Op.set_combine 160 0,
   Op.set_env_color 256, Op.draw_primitive (rect_draw 400 410 0 3),
   Op.set_env_color 512, Op.draw_primitive (rect_draw 400 410 0 3),
   Op.set_env_color 768, Op.draw_primitive (rect_draw 400 410 0 3)]

/-- A session under the small configuration (4 records per batch, 2 primitive bits in a node
word): a 16 pixel wide 16-bit colour image with the scissor on the whole image, then four
draws whose boxes lie to the right of the scissor and bind no tile. -/
def unbound_draws_ops : List Op :=
  [Op.set_color_image 0 0 2 16 false, Op.set_scissor 0 0 64 64,
   Op.draw_primitive (rect_draw 100 103 0 3), Op.draw_primitive (rect_draw 100 103 0 3),
   Op.draw_primitive (rect_draw 100 103 0 3), Op.draw_primitive (rect_draw 100 103 0 3)]

/-- The session `unbound_draws_ops` followed by one draw on the tile with index 0. -/
def primitive_overflow_ops : List Op :=
  unbound_draws_ops ++ [Op.draw_primitive (rect_draw 0 3 0 3)]

end RDP

namespace RDP

/-! ## Coarse coverage -/

theorem shiftRight_mono (a b : Int) (n : Nat) (h : a ≤ b) : a >>> n ≤ b >>> n := by
  rw [Int.shiftRight_eq_div_pow, Int.shiftRight_eq_div_pow]
  exact Int.ediv_le_ediv (by positivity) h

/-- A linear edge, sampled at the two ends of an interval of sub-scanlines, encloses its value
at every sub-scanline of the interval. -/
theorem edge_enclosed (a b d Y0 Y Y1 : Int) (h0 : Y0 ≤ Y) (h1 : Y ≤ Y1) :
    min ((a + (Y0 - b) * d) >>> (16 : Nat)) ((a + (Y1 - b) * d) >>> (16 : Nat)) ≤ (a + (Y - b) * d) >>> (16 : Nat) ∧
    (a + (Y - b) * d) >>> (16 : Nat) ≤ max ((a + (Y0 - b) * d) >>> (16 : Nat)) ((a + (Y1 - b) * d) >>> (16 : Nat)) := by
  have key : ∀ u v : Int, u ≤ v → 0 ≤ d → (a + (u - b) * d) >>> (16 : Nat) ≤ (a + (v - b) * d) >>> (16 : Nat) :=
    fun u v huv hd => by
      have h : a + (u - b) * d ≤ a + (v - b) * d := by nlinarith
      exact shiftRight_mono _ _ 16 h
  have key' : ∀ u v : Int, u ≤ v → d ≤ 0 → (a + (v - b) * d) >>> (16 : Nat) ≤ (a + (u - b) * d) >>> (16 : Nat) :=
    fun u v huv hd => by
      have h : a + (v - b) * d ≤ a + (u - b) * d := by nlinarith
      exact shiftRight_mono _ _ 16 h
  rcases le_total 0 d with hd | hd
  · exact ⟨le_trans (min_le_left _ _) (key Y0 Y h0 hd), le_trans (key Y Y1 h1 hd) (le_max_right _ _)⟩
  · exact ⟨le_trans (min_le_right _ _) (key' Y Y1 h1 hd), le_trans (key' Y0 Y h0 hd) (le_max_left _ _)⟩

/-- C2. `coarse_conservative_raster` has no false negatives: if some sub-scanline `Y` and some
pixel column `X` of the tile's clipped ranges are covered by the exact edge walk, the function
returns `true`. -/
theorem coarse_conservative_raster_sound (cfg : Config) (x y min_x max_x min_y max_y : Int)
    (prim : Primitive) (X Y : Int)
    (hY0 : max ((y + 0) * cfg.TILE_SIZE_Y) min_y * 4 ≤ Y)
    (hY1 : Y ≤ min ((y + 1) * cfg.TILE_SIZE_Y - 1) max_y * 4 + 3)
    (hX0 : max ((x + 0) * cfg.TILE_SIZE_X) min_x ≤ X)
    (hX1 : X ≤ min ((x + 1) * cfg.TILE_SIZE_X - 1) max_x)
    (hcov : exact_coverage cfg prim X Y) :
    coarse_conservative_raster cfg x y min_x max_x min_y max_y prim = true := by
  have eh := edge_enclosed prim.xh (yh_base prim) prim.DxHDy _ _ _ hY0 hY1
  have em := edge_enclosed prim.xm (yh_base prim) prim.DxMDy _ _ _ hY0 hY1
  have el := edge_enclosed prim.xl prim.ym prim.DxLDy _ _ _ hY0 hY1
  unfold exact_coverage edge_xh edge_xm edge_xl at hcov
  unfold coarse_conservative_raster
  simp only [] at hcov ⊢
  by_cases hf : prim.flags &&& cfg.RDP_FLAG_FLIP ≠ 0
  · rw [if_pos hf] at hcov
    have hf' : (prim.flags &&& cfg.RDP_FLAG_FLIP != 0) = true := by simpa using hf
    rw [if_pos hf']
    obtain ⟨hl, hr⟩ := hcov
    rw [if_neg (by omega)]
    by_cases hym : Y < prim.ym
    · rw [if_pos hym] at hr
      simp only [Bool.or_eq_true, Bool.not_eq_true', Bool.or_eq_false_iff, decide_eq_false_iff_not,
        decide_eq_true_eq, not_lt, ge_iff_le, not_le]
      left; constructor <;> omega
    · rw [if_neg hym] at hr
      simp only [Bool.or_eq_true, Bool.not_eq_true', Bool.or_eq_false_iff, decide_eq_false_iff_not,
        decide_eq_true_eq, not_lt, ge_iff_le, not_le]
      right; constructor <;> omega
  · rw [if_neg hf] at hcov
    have hf' : ¬ (prim.flags &&& cfg.RDP_FLAG_FLIP != 0) = true := by simpa using hf
    rw [if_neg hf']
    obtain ⟨hl, hr⟩ := hcov
    rw [if_neg (by omega)]
    by_cases hym : Y < prim.ym
    · rw [if_pos hym] at hl
      simp only [Bool.or_eq_true, Bool.not_eq_true', Bool.or_eq_false_iff, decide_eq_false_iff_not,
        decide_eq_true_eq, not_lt, ge_iff_le, not_le, gt_iff_lt]
      left; constructor <;> omega
    · rw [if_neg hym] at hl
      simp only [Bool.or_eq_true, Bool.not_eq_true', Bool.or_eq_false_iff, decide_eq_false_iff_not,
        decide_eq_true_eq, not_lt, ge_iff_le, not_le, gt_iff_lt]
      right; constructor <;> omega

/-- C2, witness: column 1 on sub-scanline 21 of a rectangle that spans columns 0 to 100 and
scanlines 5 to 7, in tile (0, 0). -/
theorem coarse_conservative_raster_sound_witness :
    coarse_conservative_raster Config.sample 0 0 0 100 5 7 (rect_primitive 0 100 5 7) = true :=
  coarse_conservative_raster_sound Config.sample 0 0 0 100 5 7 (rect_primitive 0 100 5 7) 1 21
    (by decide) (by decide) (by decide) (by decide) (by unfold exact_coverage; decide)

end RDP

namespace RDP

/-! ## The ledger: `begin_index` -/

theorem emit_log (r : Renderer) (e : Event) : (r.emit e).log = r.log ++ [e] := rfl

theorem assert_eq (r : Renderer) (line : Nat) (c : Bool) :
    r.assert line c = { r with log := r.log ++ (if c then [] else [Event.assertion_failed line]) } := by
  cases c <;> simp [Renderer.assert, Renderer.emit]

/-- A call of `sync_framebuffer_to_cpu` changes nothing but the log, to which it appends the
entries of `copy_back_log`. -/
theorem sync_framebuffer_to_cpu_eq (r : Renderer) (a : AsyncFramebuffer) :
    sync_framebuffer_to_cpu r a = { r with log := r.log ++ copy_back_log a } := by
  unfold sync_framebuffer_to_cpu copy_back_log
  simp only [assert_eq, Renderer.emit]
  split_ifs <;> simp_all

theorem foldl_sync_framebuffer_to_cpu (l : List AsyncFramebuffer) (r : Renderer) :
    l.foldl sync_framebuffer_to_cpu r = { r with log := r.log ++ l.flatMap copy_back_log } := by
  induction l generalizing r with
  | nil => simp
  | cons a l ih => simp [ih, sync_framebuffer_to_cpu_eq, List.flatMap_cons]

/-- The value of `end` after the first `k` rounds of the loop of `begin_index`. -/
theorem begin_index_end_upto (l : List AsyncFramebuffer) (index : Nat) (k : Nat) :
    let e := (List.range k).foldl
      (fun e i => match l[i]? with
        | some a => if a.sync_index = index then i + 1 else e
        | none => e) 0
    e ≤ k ∧
    (∀ i a, e ≤ i → i < k → l[i]? = some a → a.sync_index ≠ index) ∧
    (e ≠ 0 → ∃ a, l[e - 1]? = some a ∧ a.sync_index = index) := by
  induction k with
  | zero => simp
  | succ k ih =>
    simp only [List.range_succ, List.foldl_append, List.foldl_cons, List.foldl_nil]
    obtain ⟨h1, h2, h3⟩ := ih
    cases hk : l[k]? with
    | none =>
      refine ⟨by simp only; omega, ?_, by simpa using h3⟩
      intro i a hi hik hia
      rcases Nat.lt_succ_iff_lt_or_eq.mp hik with h | h
      · exact h2 i a hi h hia
      · subst h; rw [hk] at hia; cases hia
    | some b =>
      by_cases hb : b.sync_index = index
      · simp only [hb, if_true]
        refine ⟨le_refl _, ?_, ?_⟩
        · intro i a hi hik _; exact absurd hi (Nat.not_le.mpr hik)
        · intro _; exact ⟨b, by simpa using hk, hb⟩
      · simp only [hb, if_false]
        refine ⟨by omega, ?_, h3⟩
        intro i a hi hik hia
        rcases Nat.lt_succ_iff_lt_or_eq.mp hik with h | h
        · exact h2 i a hi h hia
        · subst h; rw [hk] at hia; cases hia; exact hb

theorem begin_index_end_le (l : List AsyncFramebuffer) (index : Nat) :
    begin_index_end l index ≤ l.length :=
  (begin_index_end_upto l index l.length).1

theorem begin_index_end_after (l : List AsyncFramebuffer) (index : Nat) :
    ∀ a ∈ l.drop (begin_index_end l index), a.sync_index ≠ index := by
  intro a ha
  obtain ⟨i, hi⟩ := List.getElem?_of_mem ha
  rw [List.getElem?_drop] at hi
  have hlt : begin_index_end l index + i < l.length := by
    by_contra hc
    rw [List.getElem?_eq_none (by omega)] at hi
    cases hi
  exact (begin_index_end_upto l index l.length).2.1 _ a (Nat.le_add_right (begin_index_end l index) i) hlt hi

theorem begin_index_end_last (l : List AsyncFramebuffer) (index : Nat)
    (h : begin_index_end l index ≠ 0) :
    ∃ a, l[begin_index_end l index - 1]? = some a ∧ a.sync_index = index :=
  (begin_index_end_upto l index l.length).2.2 h

theorem begin_index_end_zero (l : List AsyncFramebuffer) (index : Nat)
    (h : ∀ a ∈ l, a.sync_index ≠ index) : begin_index_end l index = 0 := by
  by_contra hc
  obtain ⟨a, ha, hi⟩ := begin_index_end_last l index hc
  exact h a (List.mem_iff_getElem?.mpr ⟨_, ha⟩) hi

/-- The renderer after `begin_index`, in closed form. -/
theorem begin_index_eq (r : Renderer) (index : Nat) :
    begin_index r index =
      { r with async_transfers := r.async_transfers.drop (begin_index_end r.async_transfers index),
               current_sync_index := index,
               log := r.log ++
                 (r.async_transfers.take (begin_index_end r.async_transfers index)).flatMap
                   copy_back_log } := by
  unfold begin_index
  simp only [foldl_sync_framebuffer_to_cpu]
  by_cases h : begin_index_end r.async_transfers index = 0
  · simp [h]
  · simp [h]

end RDP

namespace RDP

/-! ## Frame properties of the residency side -/

theorem residencyOnly_refl (r : Renderer) : ResidencyOnly r r := rfl

theorem residencyOnly_trans {a b c : Renderer} (h1 : ResidencyOnly a b) (h2 : ResidencyOnly b c) :
    ResidencyOnly a c := by
  unfold ResidencyOnly at *
  rw [h2, h1]

theorem residencyOnly_emit {r r' : Renderer} (e : Event) (h : ResidencyOnly r r') :
    ResidencyOnly r (r'.emit e) := residencyOnly_trans h rfl

theorem residencyOnly_assert {r r' : Renderer} (line : Nat) (c : Bool) (h : ResidencyOnly r r') :
    ResidencyOnly r (r'.assert line c) := by
  cases c
  · exact residencyOnly_trans h rfl
  · exact h

theorem residencyOnly_set_color_state {r r' : Renderer} (v : FramebufferState)
    (h : ResidencyOnly r r') : ResidencyOnly r (r'.set_color_state v) := residencyOnly_trans h rfl

theorem residencyOnly_set_depth_state {r r' : Renderer} (v : FramebufferState)
    (h : ResidencyOnly r r') : ResidencyOnly r (r'.set_depth_state v) := residencyOnly_trans h rfl

theorem residencyOnly_begin_framebuffer {r r' : Renderer} (h : ResidencyOnly r r') :
    ResidencyOnly r (begin_framebuffer r') := by
  unfold RDP.begin_framebuffer; split_ifs
  · exact residencyOnly_trans h rfl
  · exact h

theorem residencyOnly_begin_framebuffer_depth {r r' : Renderer} (h : ResidencyOnly r r') :
    ResidencyOnly r (begin_framebuffer_depth r') := by
  unfold RDP.begin_framebuffer_depth; split_ifs
  · exact residencyOnly_trans h rfl
  · exact h

theorem residencyOnly_begin_command_buffer {r r' : Renderer} (h : ResidencyOnly r r') :
    ResidencyOnly r (begin_command_buffer r') := by
  unfold RDP.begin_command_buffer; split_ifs
  · exact h
  · exact residencyOnly_trans h rfl

theorem residencyOnly_sync_color_dram_to_gpu {r r' : Renderer} (h : ResidencyOnly r r') :
    ResidencyOnly r (sync_color_dram_to_gpu r') := by
  unfold RDP.sync_color_dram_to_gpu
  dsimp only
  repeat' split
  all_goals solve_by_elim [residencyOnly_emit, residencyOnly_assert,
    residencyOnly_set_color_state, residencyOnly_begin_framebuffer]

theorem residencyOnly_sync_depth_dram_to_gpu {r r' : Renderer} (h : ResidencyOnly r r') :
    ResidencyOnly r (sync_depth_dram_to_gpu r') := by
  unfold RDP.sync_depth_dram_to_gpu
  dsimp only
  repeat' split
  all_goals solve_by_elim [residencyOnly_emit, residencyOnly_assert,
    residencyOnly_set_depth_state, residencyOnly_begin_framebuffer_depth]

theorem residencyOnly_sync_framebuffer_to_cpu {r r' : Renderer} (a : AsyncFramebuffer)
    (h : ResidencyOnly r r') : ResidencyOnly r (sync_framebuffer_to_cpu r' a) := by
  rw [sync_framebuffer_to_cpu_eq]; exact residencyOnly_trans h rfl

theorem residencyOnly_foldl_sync {r r' : Renderer} (l : List AsyncFramebuffer)
    (h : ResidencyOnly r r') : ResidencyOnly r (l.foldl RDP.sync_framebuffer_to_cpu r') := by
  rw [foldl_sync_framebuffer_to_cpu]; exact residencyOnly_trans h rfl

theorem residencyOnly_submit {r r' : Renderer} (h : ResidencyOnly r r') :
    ResidencyOnly r (submit r').1 := by
  unfold RDP.submit
  exact residencyOnly_trans (residencyOnly_assert _ _ h) rfl

theorem residencyOnly_push_ledger {r r' : Renderer} (l : List AsyncFramebuffer)
    (h : ResidencyOnly r r') : ResidencyOnly r { r' with async_transfers := l } := residencyOnly_trans h rfl

theorem residencyOnly_sync_gpu_to_dram {r r' : Renderer} (blocking : Bool)
    (h : ResidencyOnly r r') : ResidencyOnly r (sync_gpu_to_dram r' blocking) := by
  unfold RDP.sync_gpu_to_dram
  split
  · exact h
  · apply residencyOnly_set_depth_state
    apply residencyOnly_set_color_state
    have hs := residencyOnly_submit (residencyOnly_assert 1527
      ((r'.assert 1526 (r'.framebuffer.color_state != FRAMEBUFFER_STALE_GPU)).framebuffer.depth_state
        != FRAMEBUFFER_STALE_GPU)
      (residencyOnly_assert 1526 (r'.framebuffer.color_state != FRAMEBUFFER_STALE_GPU) h))
    cases blocking
    · exact residencyOnly_push_ledger _ hs
    · exact residencyOnly_sync_framebuffer_to_cpu _ hs

theorem residencyOnly_begin_index {r r' : Renderer} (index : Nat) (h : ResidencyOnly r r') :
    ResidencyOnly r (begin_index r' index) := by
  rw [begin_index_eq]; exact residencyOnly_trans h rfl

end RDP

namespace RDP

/-! ## Binding of tiles -/

theorem bindsNothing_refl (r : Renderer) : BindsNothing r r := ⟨rfl, Or.inl ⟨rfl, rfl, rfl⟩⟩

theorem bindsNothing_trans {a b c : Renderer} (h1 : BindsNothing a b) (h2 : BindsNothing b c) :
    BindsNothing a c := by
  obtain ⟨h1c, h1b⟩ := h1
  obtain ⟨h2c, h2b⟩ := h2
  refine ⟨h2c.trans h1c, ?_⟩
  rcases h2b with ⟨x, y, z⟩ | h
  · rcases h1b with ⟨x', y', z'⟩ | ⟨x', y', z'⟩
    · exact Or.inl ⟨x.trans x', y.trans y', z.trans z'⟩
    · exact Or.inr ⟨x.trans x', y.trans y', z.trans z'⟩
  · exact Or.inr h

theorem bindsNothing_of_residencyOnly {r r' : Renderer} (h : ResidencyOnly r r') :
    BindsNothing r r' := by
  unfold ResidencyOnly at h
  rw [h]
  exact bindsNothing_refl _

theorem bindsNothing_reset_buffers (cfg : Config) (r : Renderer) :
    BindsNothing r (reset_buffers cfg r) := ⟨rfl, Or.inr ⟨rfl, rfl, rfl⟩⟩

/-- The renderer that `flush_tile_lists` resets, when the batch is not empty: the surfaces are
staged and the batch is in the log. -/
theorem flush_tile_lists_cases (cfg : Config) (r : Renderer) :
    flush_tile_lists cfg r = r ∨
    ∃ r1, ResidencyOnly r r1 ∧
      flush_tile_lists cfg r = reset_buffers cfg { r1 with rng_frame_count := r1.rng_frame_count + 1 } := by
  unfold flush_tile_lists
  split_ifs
  · exact Or.inl rfl
  · refine Or.inr ⟨_, ?_, rfl⟩
    exact residencyOnly_emit _ (residencyOnly_sync_depth_dram_to_gpu
      (residencyOnly_sync_color_dram_to_gpu (residencyOnly_begin_command_buffer (residencyOnly_refl r))))

theorem bindsNothing_flush_tile_lists (cfg : Config) (r : Renderer) :
    BindsNothing r (flush_tile_lists cfg r) := by
  rcases flush_tile_lists_cases cfg r with h | ⟨r1, h1, h2⟩
  · rw [h]; exact bindsNothing_refl r
  · rw [h2]
    exact ⟨by rw [h1]; rfl, Or.inr ⟨rfl, rfl, rfl⟩⟩

theorem bindsNothing_sync_full (cfg : Config) (r : Renderer) :
    BindsNothing r (sync_full cfg r) := by
  unfold RDP.sync_full
  refine bindsNothing_trans ?_ (bindsNothing_of_residencyOnly
    (residencyOnly_sync_gpu_to_dram true (residencyOnly_refl _)))
  refine bindsNothing_trans ?_ (bindsNothing_flush_tile_lists cfg _)
  exact bindsNothing_of_residencyOnly
    (residencyOnly_push_ledger _ (residencyOnly_foldl_sync _ (residencyOnly_refl r)))

theorem bindsNothing_complete_frame (cfg : Config) (r : Renderer) (synchronous : Bool) :
    BindsNothing r (complete_frame cfg r synchronous) := by
  unfold RDP.complete_frame
  split_ifs
  · exact bindsNothing_sync_full cfg r
  · exact bindsNothing_trans (bindsNothing_flush_tile_lists cfg r) (bindsNothing_of_residencyOnly
      (residencyOnly_sync_gpu_to_dram false (residencyOnly_refl _)))

theorem bindsNothing_set_framebuffer_size (cfg : Config) (r : Renderer) (width height : Nat) :
    BindsNothing r (set_framebuffer_size cfg r width height) := by
  unfold RDP.set_framebuffer_size
  have h1 : BindsNothing r
      (if r.framebuffer.color_state = FRAMEBUFFER_GPU ∨ r.framebuffer.depth_state = FRAMEBUFFER_GPU
       then RDP.sync_full cfg r else r) := by
    split_ifs
    · exact bindsNothing_sync_full cfg r
    · exact bindsNothing_refl r
  refine bindsNothing_trans h1 ?_
  generalize (if r.framebuffer.color_state = FRAMEBUFFER_GPU ∨
    r.framebuffer.depth_state = FRAMEBUFFER_GPU then RDP.sync_full cfg r else r) = r1
  dsimp only
  rw [assert_eq]
  exact ⟨rfl, Or.inl ⟨rfl, rfl, rfl⟩⟩

theorem update_tiles_frame (cfg : Config) (r : Renderer) (tile_mask dirty_tiles : Nat) :
    update_tiles cfg r tile_mask dirty_tiles =
      { r with tile_instances := (update_tiles cfg r tile_mask dirty_tiles).tile_instances,
               tile_descriptors := (update_tiles cfg r tile_mask dirty_tiles).tile_descriptors } := by
  unfold update_tiles
  dsimp only
  split_ifs
  · rfl
  · generalize List.range cfg.TMEM_TILES = l
    have key : ∀ (l : List Nat) (r0 : Renderer),
        (∃ ti td, r0 = { r with tile_instances := ti, tile_descriptors := td }) →
        ∃ ti td, l.foldl
          (fun r i =>
            if dirty_tiles &&& tile_mask &&& (1 <<< i) = 0 then r
            else { r with tile_instances := r.tile_instances.set i r.tile_descriptors.length,
                          tile_descriptors := r.tile_descriptors ++ [i] }) r0 =
          { r with tile_instances := ti, tile_descriptors := td } := by
      intro l
      induction l with
      | nil => intro r0 h; exact h
      | cons i l ih =>
        intro r0 ⟨ti, td, h0⟩
        rw [List.foldl_cons]
        apply ih
        split_ifs
        · exact ⟨ti, td, h0⟩
        · rw [h0]; exact ⟨_, _, rfl⟩
    obtain ⟨ti, td, h⟩ := key l r ⟨_, _, rfl⟩
    rw [h]

theorem bindsNothing_update_tiles (cfg : Config) (r : Renderer) (tile_mask dirty_tiles : Nat) :
    BindsNothing r (update_tiles cfg r tile_mask dirty_tiles) := by
  rw [update_tiles_frame]; exact ⟨rfl, Or.inl ⟨rfl, rfl, rfl⟩⟩

theorem bindsNothing_draw_begin (cfg : Config) (r : Renderer) (d : DrawCall) :
    BindsNothing r (draw_begin cfg r d) := by
  unfold RDP.draw_begin
  dsimp only
  rw [assert_eq, assert_eq]
  refine bindsNothing_trans ?_ (bindsNothing_trans (bindsNothing_update_tiles cfg _ _ _)
    ⟨rfl, Or.inl ⟨rfl, rfl, rfl⟩⟩)
  split_ifs
  · exact bindsNothing_set_framebuffer_size cfg r _ _
  · exact bindsNothing_refl r

theorem bindsNothing_draw_combiner (cfg : Config) (r : Renderer) (cycle_type : Nat) :
    BindsNothing r (draw_combiner cfg r cycle_type).1 := by
  unfold RDP.draw_combiner
  dsimp only
  split_ifs
  · rw [assert_eq]
    split <;> exact ⟨rfl, Or.inl ⟨rfl, rfl, rfl⟩⟩
  · rw [assert_eq]; exact ⟨rfl, Or.inl ⟨rfl, rfl, rfl⟩⟩
  · exact bindsNothing_refl r

theorem bindsNothing_draw_record (cfg : Config) (r : Renderer) (d : DrawCall) :
    BindsNothing r (draw_record cfg r d).1 := by
  unfold RDP.draw_record
  dsimp only
  refine bindsNothing_trans ?_ (bindsNothing_trans (bindsNothing_draw_combiner cfg _ _)
    ⟨rfl, Or.inl ⟨rfl, rfl, rfl⟩⟩)
  split_ifs <;> exact ⟨rfl, Or.inl ⟨rfl, rfl, rfl⟩⟩

end RDP

namespace RDP

theorem mem_int_range (a b x : Int) : x ∈ int_range a b ↔ a ≤ x ∧ x ≤ b := by
  unfold int_range
  simp only [List.mem_map, List.mem_range, Int.ofNat_eq_coe]
  constructor
  · rintro ⟨i, hi, rfl⟩
    omega
  · rintro ⟨h1, h2⟩
    exact ⟨(x - a).toNat, by omega, by omega⟩

/-- A round of the binning loop on a tile that the coarse test rejects only counts the
rejection. -/
theorem bin_tile_rejected (cfg : Config) (prim : Primitive) (min_x max_x min_y max_y : Int)
    (num_tris : Nat) (y : Int) (acc : Renderer × Bool) (x : Int)
    (h : coarse_conservative_raster cfg x y min_x max_x min_y max_y prim = false) :
    bin_tile cfg prim min_x max_x min_y max_y num_tris y acc x =
      ({ acc.1 with reject_tile_count := acc.1.reject_tile_count + 1 }, acc.2) := by
  unfold bin_tile
  rw [h]
  rfl

theorem bin_row_rejected (cfg : Config) (prim : Primitive) (min_x max_x min_y max_y : Int)
    (num_tris : Nat) (y : Int) (xs : List Int) (acc : Renderer × Bool)
    (h : ∀ x ∈ xs, coarse_conservative_raster cfg x y min_x max_x min_y max_y prim = false) :
    ∃ n, xs.foldl (bin_tile cfg prim min_x max_x min_y max_y num_tris y) acc =
      ({ acc.1 with reject_tile_count := n }, acc.2) := by
  induction xs generalizing acc with
  | nil => exact ⟨acc.1.reject_tile_count, rfl⟩
  | cons x xs ih =>
    rw [List.foldl_cons, bin_tile_rejected cfg prim _ _ _ _ _ _ _ _ (h x (List.mem_cons_self _ _))]
    obtain ⟨n, hn⟩ := ih _ (fun x' hx' => h x' (List.mem_cons_of_mem _ hx'))
    exact ⟨n, hn⟩

theorem bin_tiles_rejected (cfg : Config) (prim : Primitive) (min_x max_x min_y max_y : Int)
    (num_tris : Nat) (min_tile_x max_tile_x min_tile_y max_tile_y : Int) (acc : Renderer × Bool)
    (h : ∀ x y, min_tile_x ≤ x → x ≤ max_tile_x → min_tile_y ≤ y → y ≤ max_tile_y →
      coarse_conservative_raster cfg x y min_x max_x min_y max_y prim = false) :
    ∃ n, bin_tiles cfg prim min_x max_x min_y max_y num_tris
        min_tile_x max_tile_x min_tile_y max_tile_y acc =
      ({ acc.1 with reject_tile_count := n }, acc.2) := by
  unfold bin_tiles
  have key : ∀ (ys : List Int) (acc : Renderer × Bool),
      (∀ y ∈ ys, min_tile_y ≤ y ∧ y ≤ max_tile_y) →
      ∃ n, ys.foldl
        (fun acc y => (int_range min_tile_x max_tile_x).foldl
          (bin_tile cfg prim min_x max_x min_y max_y num_tris y) acc) acc =
        ({ acc.1 with reject_tile_count := n }, acc.2) := by
    intro ys
    induction ys with
    | nil => intro acc _; exact ⟨acc.1.reject_tile_count, rfl⟩
    | cons y ys ih =>
      intro acc hy
      rw [List.foldl_cons]
      obtain ⟨n, hn⟩ := bin_row_rejected cfg prim min_x max_x min_y max_y num_tris y
        (int_range min_tile_x max_tile_x) acc
        (fun x hx => h x y ((mem_int_range _ _ _).mp hx).1 ((mem_int_range _ _ _).mp hx).2
          (hy y (List.mem_cons_self _ _)).1 (hy y (List.mem_cons_self _ _)).2)
      rw [hn]
      obtain ⟨m, hm⟩ := ih _ (fun y' hy' => hy y' (List.mem_cons_of_mem _ hy'))
      exact ⟨m, hm⟩
  exact key _ acc (fun y hy => (mem_int_range _ _ _).mp hy)

/-- C1 (amended). For every scissor rectangle, every primitive and every bounding box such
that `coarse_conservative_raster` rejects every tile of the tile range of the clipped box (in
particular whenever that range is empty, in columns or in rows), `draw_primitive` binds zero
tiles: the counter of bound tiles is unchanged, no node and no work item is appended, and
`tile_count` is not increased; the pending nodes, work items and `tile_count` are unchanged,
or all emptied by a flush the call performs. -/
theorem draw_primitive_rejected_binds_nothing (cfg : Config) (r : Renderer) (d : DrawCall)
    (h : ∀ x y : Int,
      max (Int.tdiv (clip_scissor r.scissor d.min_x d.max_x d.min_y d.max_y).1 cfg.TILE_SIZE_X) 0 ≤ x →
      x ≤ Int.tdiv (clip_scissor r.scissor d.min_x d.max_x d.min_y d.max_y).2.1 cfg.TILE_SIZE_X →
      Int.tdiv (clip_scissor r.scissor d.min_x d.max_x d.min_y d.max_y).2.2.1 cfg.TILE_SIZE_Y ≤ y →
      y ≤ Int.tdiv (clip_scissor r.scissor d.min_x d.max_x d.min_y d.max_y).2.2.2 cfg.TILE_SIZE_Y →
      coarse_conservative_raster cfg x y
        (clip_scissor r.scissor d.min_x d.max_x d.min_y d.max_y).1
        (clip_scissor r.scissor d.min_x d.max_x d.min_y d.max_y).2.1
        (clip_scissor r.scissor d.min_x d.max_x d.min_y d.max_y).2.2.1
        (clip_scissor r.scissor d.min_x d.max_x d.min_y d.max_y).2.2.2 d.prim = false) :
    (draw_primitive cfg r d).raster_tile_count = r.raster_tile_count ∧
    (((draw_primitive cfg r d).tile_nodes = r.tile_nodes ∧
      (draw_primitive cfg r d).work_data = r.work_data ∧
      (draw_primitive cfg r d).tile_count = r.tile_count) ∨
     ((draw_primitive cfg r d).tile_nodes = [] ∧
      (draw_primitive cfg r d).work_data = [] ∧
      (draw_primitive cfg r d).tile_count = 0)) := by
  have pre : BindsNothing r (draw_record cfg (draw_begin cfg r d) d).1 :=
    bindsNothing_trans (bindsNothing_draw_begin cfg r d) (bindsNothing_draw_record cfg _ d)
  show BindsNothing r (draw_primitive cfg r d)
  unfold draw_primitive
  dsimp only
  obtain ⟨n, hn⟩ := bin_tiles_rejected cfg d.prim
    (clip_scissor r.scissor d.min_x d.max_x d.min_y d.max_y).1
    (clip_scissor r.scissor d.min_x d.max_x d.min_y d.max_y).2.1
    (clip_scissor r.scissor d.min_x d.max_x d.min_y d.max_y).2.2.1
    (clip_scissor r.scissor d.min_x d.max_x d.min_y d.max_y).2.2.2
    (draw_begin cfg r d).primitive_data.length
    (max (Int.tdiv (clip_scissor r.scissor d.min_x d.max_x d.min_y d.max_y).1 cfg.TILE_SIZE_X) 0)
    (min (Int.tdiv (clip_scissor r.scissor d.min_x d.max_x d.min_y d.max_y).2.1 cfg.TILE_SIZE_X)
      (((draw_begin cfg r d).tiles_x : Int) - 1))
    (Int.tdiv (clip_scissor r.scissor d.min_x d.max_x d.min_y d.max_y).2.2.1 cfg.TILE_SIZE_Y)
    (Int.tdiv (clip_scissor r.scissor d.min_x d.max_x d.min_y d.max_y).2.2.2 cfg.TILE_SIZE_Y)
    (draw_record cfg (draw_begin cfg r d) d)
    (fun x y h1 h2 h3 h4 => h x y h1 (le_trans h2 (min_le_left _ _)) h3 h4)
  rw [hn]
  have binned : BindsNothing r
      { (draw_record cfg (draw_begin cfg r d) d).1 with reject_tile_count := n } :=
    bindsNothing_trans pre ⟨rfl, Or.inl ⟨rfl, rfl, rfl⟩⟩
  split_ifs
  · exact bindsNothing_trans binned (bindsNothing_flush_tile_lists cfg _)
  · exact binned

/-- C1, witness: a rectangle on scanlines 40 to 47 under a scissor that ends at scanline 3. -/
theorem draw_primitive_rejected_binds_nothing_witness :
    (draw_primitive Config.sample scissored_session (rect_draw 0 100 40 47)).raster_tile_count
      = scissored_session.raster_tile_count ∧
    (((draw_primitive Config.sample scissored_session (rect_draw 0 100 40 47)).tile_nodes
        = scissored_session.tile_nodes ∧
      (draw_primitive Config.sample scissored_session (rect_draw 0 100 40 47)).work_data
        = scissored_session.work_data ∧
      (draw_primitive Config.sample scissored_session (rect_draw 0 100 40 47)).tile_count
        = scissored_session.tile_count) ∨
     ((draw_primitive Config.sample scissored_session (rect_draw 0 100 40 47)).tile_nodes = [] ∧
      (draw_primitive Config.sample scissored_session (rect_draw 0 100 40 47)).work_data = [] ∧
      (draw_primitive Config.sample scissored_session (rect_draw 0 100 40 47)).tile_count = 0)) :=
  draw_primitive_rejected_binds_nothing Config.sample scissored_session (rect_draw 0 100 40 47)
    (fun _ _ _ _ h3 h4 => absurd (le_trans h3 h4) (by decide))

set_option maxRecDepth 100000 in
/-- C1, counterexample: a rectangle on columns 0 to 100 and scanlines 5 to 7, drawn under a
scissor that covers scanlines 0 to 3 only.  The clipped box is empty (`min_y = 5 > max_y = 3`),
yet both bounds fall in tile row 0 and the call binds the 13 tiles of that row which the
rectangle spans. -/
theorem draw_primitive_binds_outside_scissor :
    (clip_scissor scissored_session.scissor 0 100 5 7).2.2.1
      > (clip_scissor scissored_session.scissor 0 100 5 7).2.2.2 ∧
    scissored_session.tile_count = 0 ∧
    (draw_primitive Config.sample scissored_session (rect_draw 0 100 5 7)).tile_count = 13 ∧
    (draw_primitive Config.sample scissored_session (rect_draw 0 100 5 7)).tile_nodes.length = 13 ∧
    (draw_primitive Config.sample scissored_session (rect_draw 0 100 5 7)).work_data.length = 13 := by
  decide

/-- C8 (amended). `begin_index(n)` removes a prefix of the ledger: the records up to and
including the last record tagged `n`, whatever their tags.  No record behind the prefix is
tagged `n`, the prefix is empty or ends with a record tagged `n`, and the records behind it
are left in the ledger in their order. -/
theorem begin_index_removes_prefix (r : Renderer) (n : Nat) :
    ∃ e, e ≤ r.async_transfers.length ∧
      (begin_index r n).async_transfers = r.async_transfers.drop e ∧
      (∀ a ∈ r.async_transfers.drop e, a.sync_index ≠ n) ∧
      (e ≠ 0 → ∃ a, r.async_transfers[e - 1]? = some a ∧ a.sync_index = n) := by
  refine ⟨begin_index_end r.async_transfers n, begin_index_end_le _ _, ?_,
    begin_index_end_after _ _, begin_index_end_last _ _⟩
  rw [begin_index_eq]

/-- C8, counterexample: with the ledger holding a record tagged 1 followed by a record tagged
2, `begin_index(2)` also removes the record tagged 1. -/
theorem begin_index_removes_other_tag :
    (ledger_record 1 10).sync_index ≠ 2 ∧
    ledger_record 1 10 ∉
      (begin_index { Renderer.init Config.sample with
        async_transfers := [ledger_record 1 10, ledger_record 2 11] } 2).async_transfers := by
  decide

/-- C9. After `begin_index(n)` no record tagged `n` remains; the ledger before the call is the
removed records followed by the remaining ledger; the log grew by the entries of the removed
records, oldest first, each record being waited on before its surfaces are copied back;
`current_sync_index` is `n`; and if no record is tagged `n` the ledger is unchanged. -/
theorem begin_index_drains (r : Renderer) (n : Nat) :
    (∀ a ∈ (begin_index r n).async_transfers, a.sync_index ≠ n) ∧
    (∃ removed, r.async_transfers = removed ++ (begin_index r n).async_transfers ∧
      (begin_index r n).log = r.log ++ removed.flatMap copy_back_log) ∧
    (∀ a : AsyncFramebuffer, ∃ copies, copy_back_log a = Event.wait a.fence :: copies ∧
      (a.framebuffer.color_state = FRAMEBUFFER_GPU → Event.copy_color_to_dram a ∈ copies) ∧
      (a.framebuffer.depth_state = FRAMEBUFFER_GPU → Event.copy_depth_to_dram a ∈ copies)) ∧
    (begin_index r n).current_sync_index = n ∧
    ((∀ a ∈ r.async_transfers, a.sync_index ≠ n) →
      (begin_index r n).async_transfers = r.async_transfers) := by
  rw [begin_index_eq]
  refine ⟨begin_index_end_after _ _, ⟨_, (List.take_append_drop _ _).symm, rfl⟩, ?_, rfl, ?_⟩
  · intro a
    unfold copy_back_log
    refine ⟨_, rfl, ?_, ?_⟩
    · intro h; simp [h]
    · intro h; simp [h]
  · intro h
    show r.async_transfers.drop _ = _
    rw [begin_index_end_zero _ _ h]
    rfl

end RDP

namespace RDP

/-! ## Residency transitions -/

theorem replay_residency_append (st : FramebufferState × FramebufferState) (l1 l2 : List Event) :
    replay_residency st (l1 ++ l2) =
      (replay_residency st l1).bind (fun st' => replay_residency st' l2) := by
  induction l1 generalizing st with
  | nil => simp [replay_residency]
  | cons e l1 ih =>
    cases e with
    | residency s old new =>
      cases s <;> simp only [List.cons_append, replay_residency] <;> split_ifs <;> simp [ih]
    | _ => simpa only [List.cons_append, replay_residency] using ih st

theorem replay_residency_quiet (st : FramebufferState × FramebufferState) (es : List Event)
    (h : ∀ e ∈ es, ∀ s old new, e ≠ Event.residency s old new) :
    replay_residency st es = some st := by
  induction es with
  | nil => rfl
  | cons e es ih =>
    have he := h e (List.mem_cons_self _ _)
    have ih' := ih (fun e' he' => h e' (List.mem_cons_of_mem _ he'))
    cases e with
    | residency s old new => exact absurd rfl (he s old new)
    | _ => simpa only [replay_residency] using ih'

theorem quietStep_refl (r : Renderer) : QuietStep r r :=
  ⟨rfl, rfl, [], by simp, by simp⟩

theorem quietStep_trans {a b c : Renderer} (h1 : QuietStep a b) (h2 : QuietStep b c) :
    QuietStep a c := by
  obtain ⟨c1, d1, es1, l1, q1⟩ := h1
  obtain ⟨c2, d2, es2, l2, q2⟩ := h2
  refine ⟨c2.trans c1, d2.trans d1, es1 ++ es2, by rw [l2, l1, List.append_assoc], ?_⟩
  intro e he
  rcases List.mem_append.mp he with h | h
  · exact q1 e h
  · exact q2 e h

/-- A change that leaves the log and the two surface states alone. -/
theorem quietStep_of_eq {r r' : Renderer} (hl : r'.log = r.log)
    (hc : r'.framebuffer.color_state = r.framebuffer.color_state)
    (hd : r'.framebuffer.depth_state = r.framebuffer.depth_state) : QuietStep r r' :=
  ⟨hc, hd, [], by simp [hl], by simp⟩

theorem quietStep_of_residencyOnly_log {r r' : Renderer} (es : List Event)
    (hl : r'.log = r.log ++ es) (hq : ∀ e ∈ es, ∀ s old new, e ≠ Event.residency s old new)
    (hf : r'.framebuffer = r.framebuffer) : QuietStep r r' :=
  ⟨by rw [hf], by rw [hf], es, hl, hq⟩

theorem quietStep_emit {r r' : Renderer} (e : Event)
    (he : ∀ s old new, e ≠ Event.residency s old new) (h : QuietStep r r') :
    QuietStep r (r'.emit e) :=
  quietStep_trans h ⟨rfl, rfl, [e], rfl, by simpa using he⟩

theorem quietStep_assert {r r' : Renderer} (line : Nat) (c : Bool) (h : QuietStep r r') :
    QuietStep r (r'.assert line c) := by
  cases c
  · exact quietStep_emit _ (by simp) h
  · exact h

theorem quietStep_begin_framebuffer {r r' : Renderer} (h : QuietStep r r') :
    QuietStep r (begin_framebuffer r') := by
  unfold begin_framebuffer; split_ifs
  · exact quietStep_trans h (quietStep_of_eq rfl rfl rfl)
  · exact h

theorem quietStep_begin_framebuffer_depth {r r' : Renderer} (h : QuietStep r r') :
    QuietStep r (begin_framebuffer_depth r') := by
  unfold begin_framebuffer_depth; split_ifs
  · exact quietStep_trans h (quietStep_of_eq rfl rfl rfl)
  · exact h

theorem quietStep_begin_command_buffer {r r' : Renderer} (h : QuietStep r r') :
    QuietStep r (begin_command_buffer r') := by
  unfold begin_command_buffer; split_ifs
  · exact h
  · exact quietStep_trans h (quietStep_of_eq rfl rfl rfl)

theorem copy_back_log_quiet (a : AsyncFramebuffer) :
    ∀ e ∈ copy_back_log a, ∀ s old new, e ≠ Event.residency s old new := by
  intro e he s old new heq
  subst heq
  unfold copy_back_log at he
  simp only [List.mem_append, List.mem_singleton] at he
  rcases he with (he | he) | he
  · cases he
  · split_ifs at he <;> simp at he
  · split_ifs at he <;> simp at he

theorem quietStep_sync_framebuffer_to_cpu {r r' : Renderer} (a : AsyncFramebuffer)
    (h : QuietStep r r') : QuietStep r (sync_framebuffer_to_cpu r' a) := by
  rw [sync_framebuffer_to_cpu_eq]
  exact quietStep_trans h ⟨rfl, rfl, copy_back_log a, rfl, copy_back_log_quiet a⟩

theorem quietStep_foldl_sync {r r' : Renderer} (l : List AsyncFramebuffer)
    (h : QuietStep r r') : QuietStep r (l.foldl sync_framebuffer_to_cpu r') := by
  induction l generalizing r' with
  | nil => exact h
  | cons a l ih => exact ih (quietStep_sync_framebuffer_to_cpu a h)

theorem quietStep_submit {r r' : Renderer} (h : QuietStep r r') : QuietStep r (submit r').1 := by
  unfold submit
  refine quietStep_trans (quietStep_assert _ _ h) ⟨rfl, rfl, [_], rfl, ?_⟩
  simp

theorem quietStep_reset_buffers {r r' : Renderer} (cfg : Config) (h : QuietStep r r') :
    QuietStep r (reset_buffers cfg r') :=
  quietStep_trans h (quietStep_of_eq rfl rfl rfl)

theorem quietStep_update_tiles {r r' : Renderer} (cfg : Config) (tile_mask dirty_tiles : Nat)
    (h : QuietStep r r') : QuietStep r (update_tiles cfg r' tile_mask dirty_tiles) := by
  rw [update_tiles_frame]
  exact quietStep_trans h (quietStep_of_eq rfl rfl rfl)

theorem quietStep_draw_combiner {r r' : Renderer} (cfg : Config) (cycle_type : Nat)
    (h : QuietStep r r') : QuietStep r (draw_combiner cfg r' cycle_type).1 := by
  unfold draw_combiner
  dsimp only
  split_ifs
  · apply quietStep_assert
    split <;> exact quietStep_trans h (quietStep_of_eq rfl rfl rfl)
  · exact quietStep_assert _ _ h
  · exact h

theorem quietStep_append_tile_list {r r' : Renderer} (cfg : Config) (idx : Int)
    (primitive tile : Nat) (h : QuietStep r r') :
    QuietStep r (append_tile_list cfg r' idx primitive tile) := by
  unfold append_tile_list
  dsimp only
  split_ifs <;> exact quietStep_trans h (quietStep_of_eq rfl rfl rfl)

theorem quietStep_bin_tile (cfg : Config) (prim : Primitive) (min_x max_x min_y max_y : Int)
    (num_tris : Nat) (y : Int) (acc : Renderer × Bool) (x : Int) {r : Renderer}
    (h : QuietStep r acc.1) :
    QuietStep r (bin_tile cfg prim min_x max_x min_y max_y num_tris y acc x).1 := by
  unfold bin_tile
  dsimp only
  split_ifs
  · refine quietStep_trans (quietStep_append_tile_list cfg _ _ _
      (quietStep_trans h (show QuietStep acc.1 { acc.1 with
        raster_tile_count := acc.1.raster_tile_count + 1 } from quietStep_of_eq rfl rfl rfl)))
      (quietStep_of_eq rfl rfl rfl)
  · exact quietStep_trans h (quietStep_of_eq rfl rfl rfl)

theorem quietStep_bin_tiles (cfg : Config) (prim : Primitive) (min_x max_x min_y max_y : Int)
    (num_tris : Nat) (min_tile_x max_tile_x min_tile_y max_tile_y : Int) (acc : Renderer × Bool)
    {r : Renderer} (h : QuietStep r acc.1) :
    QuietStep r (bin_tiles cfg prim min_x max_x min_y max_y num_tris
      min_tile_x max_tile_x min_tile_y max_tile_y acc).1 := by
  unfold bin_tiles
  have row : ∀ (y : Int) (xs : List Int) (acc : Renderer × Bool), QuietStep r acc.1 →
      QuietStep r (xs.foldl (bin_tile cfg prim min_x max_x min_y max_y num_tris y) acc).1 := by
    intro y xs
    induction xs with
    | nil => intro acc h; exact h
    | cons x xs ih => intro acc h; exact ih _ (quietStep_bin_tile cfg prim _ _ _ _ _ y acc x h)
  generalize int_range min_tile_y max_tile_y = ys
  induction ys generalizing acc with
  | nil => exact h
  | cons y ys ih => exact ih _ (row y _ acc h)

end RDP

namespace RDP

theorem tracked_quiet {r r' : Renderer} (h : ResidencyTracked r) (hq : QuietStep r r') :
    ResidencyTracked r' := by
  obtain ⟨hc, hd, es, hl, hes⟩ := hq
  obtain ⟨h1, h2⟩ := h
  constructor
  · intro s old hmem
    rw [hl] at hmem
    rcases List.mem_append.mp hmem with hm | hm
    · exact h1 s old hm
    · exact absurd rfl (hes _ hm s old FRAMEBUFFER_GPU)
  · rw [hl, replay_residency_append, h2, hc, hd]
    exact replay_residency_quiet _ es hes

theorem tracked_set_color_state {r : Renderer} (v : FramebufferState) (h : ResidencyTracked r)
    (hv : v = FRAMEBUFFER_GPU → r.framebuffer.color_state = FRAMEBUFFER_STALE_GPU) :
    ResidencyTracked (r.set_color_state v) := by
  obtain ⟨h1, h2⟩ := h
  constructor
  · intro s old hmem
    simp only [Renderer.set_color_state, List.mem_append, List.mem_singleton] at hmem
    rcases hmem with hm | hm
    · exact h1 s old hm
    · injection hm with hs ho hn
      rw [ho]
      exact hv hn.symm
  · simp only [Renderer.set_color_state]
    rw [replay_residency_append, h2]
    simp [replay_residency]

theorem tracked_set_depth_state {r : Renderer} (v : FramebufferState) (h : ResidencyTracked r)
    (hv : v = FRAMEBUFFER_GPU → r.framebuffer.depth_state = FRAMEBUFFER_STALE_GPU) :
    ResidencyTracked (r.set_depth_state v) := by
  obtain ⟨h1, h2⟩ := h
  constructor
  · intro s old hmem
    simp only [Renderer.set_depth_state, List.mem_append, List.mem_singleton] at hmem
    rcases hmem with hm | hm
    · exact h1 s old hm
    · injection hm with hs ho hn
      rw [ho]
      exact hv hn.symm
  · simp only [Renderer.set_depth_state]
    rw [replay_residency_append, h2]
    simp [replay_residency]

theorem tracked_sync_color_dram_to_gpu {r : Renderer} (h : ResidencyTracked r) :
    ResidencyTracked (sync_color_dram_to_gpu r) := by
  unfold sync_color_dram_to_gpu
  by_cases hs : r.framebuffer.color_state ≠ FRAMEBUFFER_STALE_GPU
  · rw [if_pos hs]; exact h
  · rw [if_neg hs]
    dsimp only
    have key : ∀ staged, QuietStep r staged →
        ResidencyTracked (staged.set_color_state FRAMEBUFFER_GPU) :=
      fun staged hq => tracked_set_color_state _ (tracked_quiet h hq)
        (fun _ => hq.1.trans (not_not.mp hs))
    apply key
    repeat' split
    all_goals first
      | exact quietStep_refl r
      | exact quietStep_begin_framebuffer (quietStep_refl r)
      | exact quietStep_emit _ (by simp) (quietStep_begin_framebuffer (quietStep_refl r))
      | exact quietStep_emit _ (by simp)
          (quietStep_assert _ _ (quietStep_begin_framebuffer (quietStep_refl r)))

theorem tracked_sync_depth_dram_to_gpu {r : Renderer} (h : ResidencyTracked r) :
    ResidencyTracked (sync_depth_dram_to_gpu r) := by
  unfold sync_depth_dram_to_gpu
  by_cases hs : r.framebuffer.depth_state ≠ FRAMEBUFFER_STALE_GPU
  · rw [if_pos hs]; exact h
  · rw [if_neg hs]
    dsimp only
    have key : ∀ staged, QuietStep r staged →
        ResidencyTracked (staged.set_depth_state FRAMEBUFFER_GPU) :=
      fun staged hq => tracked_set_depth_state _ (tracked_quiet h hq)
        (fun _ => hq.2.1.trans (not_not.mp hs))
    apply key
    repeat' split
    all_goals first
      | exact quietStep_refl r
      | exact quietStep_begin_framebuffer_depth (quietStep_refl r)
      | exact quietStep_emit _ (by simp) (quietStep_begin_framebuffer_depth (quietStep_refl r))

theorem tracked_sync_gpu_to_dram {r : Renderer} (blocking : Bool) (h : ResidencyTracked r) :
    ResidencyTracked (sync_gpu_to_dram r blocking) := by
  unfold sync_gpu_to_dram
  split
  · exact h
  · dsimp only
    apply tracked_set_depth_state _ _ (by simp)
    apply tracked_set_color_state _ _ (by simp)
    apply tracked_quiet h
    have hs := quietStep_submit (quietStep_assert 1527
      ((r.assert 1526 (r.framebuffer.color_state != FRAMEBUFFER_STALE_GPU)).framebuffer.depth_state
        != FRAMEBUFFER_STALE_GPU)
      (quietStep_assert 1526 (r.framebuffer.color_state != FRAMEBUFFER_STALE_GPU)
        (quietStep_refl r)))
    cases blocking
    · exact quietStep_trans hs (quietStep_of_eq rfl rfl rfl)
    · exact quietStep_sync_framebuffer_to_cpu _ hs

theorem tracked_flush_tile_lists (cfg : Config) {r : Renderer} (h : ResidencyTracked r) :
    ResidencyTracked (flush_tile_lists cfg r) := by
  unfold flush_tile_lists
  split_ifs
  · exact h
  · dsimp only
    have h3 := tracked_sync_depth_dram_to_gpu (tracked_sync_color_dram_to_gpu
      (tracked_quiet h (quietStep_begin_command_buffer (quietStep_refl r))))
    exact tracked_quiet h3 (quietStep_reset_buffers cfg
      (quietStep_trans (quietStep_emit _ (by simp) (quietStep_refl _))
        (quietStep_of_eq rfl rfl rfl)))

theorem tracked_sync_full (cfg : Config) {r : Renderer} (h : ResidencyTracked r) :
    ResidencyTracked (sync_full cfg r) := by
  unfold sync_full
  dsimp only
  apply tracked_sync_gpu_to_dram
  apply tracked_flush_tile_lists
  exact tracked_quiet h (quietStep_trans (quietStep_foldl_sync _ (quietStep_refl r))
    (quietStep_of_eq rfl rfl rfl))

theorem tracked_complete_frame (cfg : Config) (synchronous : Bool) {r : Renderer}
    (h : ResidencyTracked r) : ResidencyTracked (complete_frame cfg r synchronous) := by
  unfold complete_frame
  split_ifs
  · exact tracked_sync_full cfg h
  · exact tracked_sync_gpu_to_dram _ (tracked_flush_tile_lists cfg h)

theorem tracked_set_framebuffer_size (cfg : Config) (width height : Nat) {r : Renderer}
    (h : ResidencyTracked r) : ResidencyTracked (set_framebuffer_size cfg r width height) := by
  unfold set_framebuffer_size
  have h1 : ResidencyTracked
      (if r.framebuffer.color_state = FRAMEBUFFER_GPU ∨ r.framebuffer.depth_state = FRAMEBUFFER_GPU
       then sync_full cfg r else r) := by
    split_ifs
    · exact tracked_sync_full cfg h
    · exact h
  generalize (if r.framebuffer.color_state = FRAMEBUFFER_GPU ∨
    r.framebuffer.depth_state = FRAMEBUFFER_GPU then sync_full cfg r else r) = r1 at h1
  dsimp only
  exact tracked_quiet h1 (quietStep_trans
    (quietStep_assert _ _ (show QuietStep r1 { r1 with framebuffer :=
      { r1.framebuffer with allocated_width := width, allocated_height := height } }
      from quietStep_of_eq rfl rfl rfl))
    (quietStep_of_eq rfl rfl rfl))

theorem tracked_set_depth_image (cfg : Config) (addr : Nat) (synchronous : Bool) {r : Renderer}
    (h : ResidencyTracked r) : ResidencyTracked (set_depth_image cfg r addr synchronous) := by
  unfold set_depth_image
  split_ifs
  · exact h
  · exact tracked_quiet (tracked_complete_frame cfg synchronous h) (quietStep_of_eq rfl rfl rfl)
  · exact tracked_quiet h (quietStep_of_eq rfl rfl rfl)

theorem tracked_set_color_image (cfg : Config) (addr format pixel_size width : Nat)
    (synchronous : Bool) {r : Renderer} (h : ResidencyTracked r) :
    ResidencyTracked (set_color_image cfg r addr format pixel_size width synchronous) := by
  unfold set_color_image
  have h2 : ResidencyTracked
      { complete_frame cfg r synchronous with framebuffer :=
        { (complete_frame cfg r synchronous).framebuffer with
          addr := addr, format := format, width := width, pixel_size := pixel_size } } :=
    tracked_quiet (tracked_complete_frame cfg synchronous h) (quietStep_of_eq rfl rfl rfl)
  dsimp only
  split_ifs
  all_goals first
    | exact h
    | exact h2
    | exact tracked_set_framebuffer_size cfg _ _ h2

theorem tracked_draw_begin (cfg : Config) (d : DrawCall) {r : Renderer} (h : ResidencyTracked r) :
    ResidencyTracked (draw_begin cfg r d) := by
  unfold draw_begin
  dsimp only
  have h1 : ResidencyTracked
      (if (clip_scissor r.scissor d.min_x d.max_x d.min_y d.max_y).2.2.2
          ≥ (r.framebuffer.allocated_height : Int)
       then set_framebuffer_size cfg r r.framebuffer.allocated_width
         ((clip_scissor r.scissor d.min_x d.max_x d.min_y d.max_y).2.2.2 + 1).toNat
       else r) := by
    split_ifs
    · exact tracked_set_framebuffer_size cfg _ _ h
    · exact h
  exact tracked_quiet h1 (quietStep_assert _ _ (quietStep_assert _ _
    (quietStep_update_tiles cfg _ _ (quietStep_refl _))))

theorem tracked_draw_record (cfg : Config) (d : DrawCall) {r : Renderer} (h : ResidencyTracked r) :
    ResidencyTracked (draw_record cfg r d).1 := by
  unfold draw_record
  dsimp only
  have h5 : ResidencyTracked
      (if r.framebuffer.color_state = FRAMEBUFFER_CPU
       then r.set_color_state FRAMEBUFFER_STALE_GPU else r) := by
    split_ifs
    · exact tracked_set_color_state _ h (by simp)
    · exact h
  generalize (if r.framebuffer.color_state = FRAMEBUFFER_CPU
    then r.set_color_state FRAMEBUFFER_STALE_GPU else r) = r5 at h5
  have h6 : ResidencyTracked
      (if r5.framebuffer.depth_state = FRAMEBUFFER_CPU ∧
          (build_attr cfg d.prim d.attr r.state.primitive_z).2.1 &&&
            (cfg.RDP_FLAG_Z_UPDATE ||| cfg.RDP_FLAG_Z_COMPARE) ≠ 0
       then r5.set_depth_state FRAMEBUFFER_STALE_GPU else r5) := by
    split_ifs
    · exact tracked_set_depth_state _ h5 (by simp)
    · exact h5
  exact tracked_quiet h6 (quietStep_trans (quietStep_draw_combiner cfg _ (quietStep_refl _))
    (quietStep_of_eq rfl rfl rfl))

theorem tracked_draw_primitive (cfg : Config) (d : DrawCall) {r : Renderer}
    (h : ResidencyTracked r) : ResidencyTracked (draw_primitive cfg r d) := by
  unfold draw_primitive
  dsimp only
  have hb := tracked_quiet (tracked_draw_record cfg d (tracked_draw_begin cfg d h))
    (quietStep_bin_tiles cfg d.prim
      (clip_scissor r.scissor d.min_x d.max_x d.min_y d.max_y).1
      (clip_scissor r.scissor d.min_x d.max_x d.min_y d.max_y).2.1
      (clip_scissor r.scissor d.min_x d.max_x d.min_y d.max_y).2.2.1
      (clip_scissor r.scissor d.min_x d.max_x d.min_y d.max_y).2.2.2
      (draw_begin cfg r d).primitive_data.length
      (max (Int.tdiv (clip_scissor r.scissor d.min_x d.max_x d.min_y d.max_y).1 cfg.TILE_SIZE_X) 0)
      (min (Int.tdiv (clip_scissor r.scissor d.min_x d.max_x d.min_y d.max_y).2.1 cfg.TILE_SIZE_X)
        (((draw_begin cfg r d).tiles_x : Int) - 1))
      (Int.tdiv (clip_scissor r.scissor d.min_x d.max_x d.min_y d.max_y).2.2.1 cfg.TILE_SIZE_Y)
      (Int.tdiv (clip_scissor r.scissor d.min_x d.max_x d.min_y d.max_y).2.2.2 cfg.TILE_SIZE_Y)
      (draw_record cfg (draw_begin cfg r d) d) (quietStep_refl _))
  split_ifs
  · exact tracked_flush_tile_lists cfg hb
  · exact hb

theorem tracked_step (cfg : Config) (op : Op) {r : Renderer} (h : ResidencyTracked r) :
    ResidencyTracked (step cfg r op) := by
  cases op with
  | set_depth_image addr synchronous => exact tracked_set_depth_image cfg addr synchronous h
  | set_color_image addr format pixel_size width synchronous =>
    exact tracked_set_color_image cfg addr format pixel_size width synchronous h
  | set_framebuffer_size width height => exact tracked_set_framebuffer_size cfg width height h
  | draw_primitive d => exact tracked_draw_primitive cfg d h
  | flush_tile_lists => exact tracked_flush_tile_lists cfg h
  | complete_frame synchronous => exact tracked_complete_frame cfg synchronous h
  | sync_full => exact tracked_sync_full cfg h
  | begin_index index =>
    show ResidencyTracked (begin_index r index)
    rw [begin_index_eq]
    refine tracked_quiet h ⟨rfl, rfl, _, rfl, ?_⟩
    intro e he
    obtain ⟨a, _, ha⟩ := List.mem_flatMap.mp he
    exact copy_back_log_quiet a e ha
  | check_tmem_feedback addr synchronous =>
    show ResidencyTracked (check_tmem_feedback cfg r addr synchronous)
    unfold check_tmem_feedback
    split_ifs
    · exact tracked_complete_frame cfg synchronous h
    · exact tracked_complete_frame cfg synchronous h
    · exact h
  | fill_rect_cpu xmin xmax ymin ymax =>
    show ResidencyTracked (fill_rect_cpu cfg r xmin xmax ymin ymax)
    unfold fill_rect_cpu
    dsimp only
    exact tracked_quiet h (quietStep_emit _ (by simp) (quietStep_assert _ _
      (quietStep_of_eq rfl rfl rfl)))
  | _ => exact tracked_quiet h (quietStep_of_eq rfl rfl rfl)

theorem tracked_run (cfg : Config) (ops : List Op) {r : Renderer} (h : ResidencyTracked r) :
    ResidencyTracked (run cfg r ops) := by
  unfold run
  induction ops generalizing r with
  | nil => exact h
  | cons op ops ih => exact ih (tracked_step cfg op h)

/-- C10. In every run of the engine, every write that makes a surface GPU-resident finds the
surface in the state STALE_GPU: no write takes a surface from CPU to GPU.  The residency
entries of the log are the writes to the two state fields, in order, each with the value
before and after; replayed from two CPU-resident surfaces they end in the present states. -/
theorem residency_reaches_gpu_only_from_stale (cfg : Config) (ops : List Op) :
    (∀ s old, Event.residency s old FRAMEBUFFER_GPU ∈ (run cfg (Renderer.init cfg) ops).log →
      old = FRAMEBUFFER_STALE_GPU) ∧
    replay_residency (FRAMEBUFFER_CPU, FRAMEBUFFER_CPU) (run cfg (Renderer.init cfg) ops).log =
      some ((run cfg (Renderer.init cfg) ops).framebuffer.color_state,
            (run cfg (Renderer.init cfg) ops).framebuffer.depth_state) :=
  tracked_run cfg ops (r := Renderer.init cfg) ⟨by simp [Renderer.init], rfl⟩

end RDP

namespace RDP

/-! ## Conservation of tile-list nodes -/

theorem flushed_nodes_append (l1 l2 : List Event) :
    flushed_nodes (l1 ++ l2) = flushed_nodes l1 + flushed_nodes l2 := by
  induction l1 with
  | nil => simp [flushed_nodes]
  | cons e l1 ih =>
    rw [List.cons_append]
    cases e <;> simp only [flushed_nodes, ih] <;> omega

theorem nodeStep_refl (r : Renderer) : NodeStep r r := rfl

theorem nodeStep_trans {a b c : Renderer} (h1 : NodeStep a b) (h2 : NodeStep b c) :
    NodeStep a c := by
  unfold NodeStep at *
  omega

/-- A change that leaves the nodes and the counter alone and appends no batch upload to the
log. -/
theorem nodeStep_of_eq {r r' : Renderer} (es : List Event) (hl : r'.log = r.log ++ es)
    (hes : flushed_nodes es = 0) (hn : r'.tile_nodes = r.tile_nodes)
    (hc : r'.raster_tile_count = r.raster_tile_count) : NodeStep r r' := by
  unfold NodeStep
  rw [hl, hn, hc, flushed_nodes_append, hes]
  omega

/-- A change on the residency side that appends no batch upload to the log. -/
theorem nodeStep_of_residencyOnly {r r' : Renderer} (h : ResidencyOnly r r') (es : List Event)
    (hl : r'.log = r.log ++ es) (hes : flushed_nodes es = 0) : NodeStep r r' :=
  nodeStep_of_eq es hl hes (by rw [h]) (by rw [h])

theorem noFlush_nil : NoFlush [] := by
  intro e he; cases he

theorem noFlush_append {l1 l2 : List Event} (h1 : NoFlush l1) (h2 : NoFlush l2) :
    NoFlush (l1 ++ l2) := by
  intro e he
  rcases List.mem_append.mp he with h | h
  · exact h1 e h
  · exact h2 e h

theorem noFlush_singleton (e : Event) (he : ∀ batch, e ≠ Event.flush batch) : NoFlush [e] := by
  intro e' he'
  rw [List.mem_singleton.mp he']
  exact he

theorem flushed_nodes_of_noFlush (es : List Event) (h : NoFlush es) : flushed_nodes es = 0 := by
  induction es with
  | nil => rfl
  | cons e es ih =>
    have he := h e (List.mem_cons_self _ _)
    have ih' := ih (fun e' he' => h e' (List.mem_cons_of_mem _ he'))
    cases e with
    | flush batch => exact absurd rfl (he batch)
    | _ => simpa only [flushed_nodes] using ih'

theorem noFlush_copy_back_log (a : AsyncFramebuffer) : NoFlush (copy_back_log a) := by
  intro e he batch heq
  subst heq
  unfold copy_back_log at he
  simp only [List.mem_append, List.mem_singleton] at he
  rcases he with (he | he) | he
  · cases he
  · split_ifs at he <;> simp at he
  · split_ifs at he <;> simp at he

theorem noFlush_flatMap_copy_back_log (l : List AsyncFramebuffer) :
    NoFlush (l.flatMap copy_back_log) := by
  intro e he
  obtain ⟨a, _, ha⟩ := List.mem_flatMap.mp he
  exact noFlush_copy_back_log a e ha

/-- What the residency side appends to the log holds no batch upload. -/
theorem log_emit {r r' : Renderer} (e : Event) (he : ∀ batch, e ≠ Event.flush batch)
    (h : ∃ es, r'.log = r.log ++ es ∧ NoFlush es) :
    ∃ es, (r'.emit e).log = r.log ++ es ∧ NoFlush es := by
  obtain ⟨es, hl, hes⟩ := h
  exact ⟨es ++ [e], by simp [Renderer.emit, hl], noFlush_append hes (noFlush_singleton e he)⟩

theorem log_assert {r r' : Renderer} (line : Nat) (c : Bool)
    (h : ∃ es, r'.log = r.log ++ es ∧ NoFlush es) :
    ∃ es, (r'.assert line c).log = r.log ++ es ∧ NoFlush es := by
  cases c
  · exact log_emit _ (by simp) h
  · exact h

theorem log_set_color_state {r r' : Renderer} (v : FramebufferState)
    (h : ∃ es, r'.log = r.log ++ es ∧ NoFlush es) :
    ∃ es, (r'.set_color_state v).log = r.log ++ es ∧ NoFlush es := by
  obtain ⟨es, hl, hes⟩ := h
  exact ⟨es ++ [Event.residency Surface.color r'.framebuffer.color_state v],
    by simp [Renderer.set_color_state, hl], noFlush_append hes (noFlush_singleton _ (by simp))⟩

theorem log_set_depth_state {r r' : Renderer} (v : FramebufferState)
    (h : ∃ es, r'.log = r.log ++ es ∧ NoFlush es) :
    ∃ es, (r'.set_depth_state v).log = r.log ++ es ∧ NoFlush es := by
  obtain ⟨es, hl, hes⟩ := h
  exact ⟨es ++ [Event.residency Surface.depth r'.framebuffer.depth_state v],
    by simp [Renderer.set_depth_state, hl], noFlush_append hes (noFlush_singleton _ (by simp))⟩

theorem log_same {r r' r'' : Renderer} (hl : r''.log = r'.log)
    (h : ∃ es, r'.log = r.log ++ es ∧ NoFlush es) :
    ∃ es, r''.log = r.log ++ es ∧ NoFlush es := by
  rw [hl]; exact h

theorem log_begin_framebuffer {r r' : Renderer}
    (h : ∃ es, r'.log = r.log ++ es ∧ NoFlush es) :
    ∃ es, (begin_framebuffer r').log = r.log ++ es ∧ NoFlush es := by
  refine log_same ?_ h
  unfold begin_framebuffer; split_ifs <;> rfl

theorem log_begin_framebuffer_depth {r r' : Renderer}
    (h : ∃ es, r'.log = r.log ++ es ∧ NoFlush es) :
    ∃ es, (begin_framebuffer_depth r').log = r.log ++ es ∧ NoFlush es := by
  refine log_same ?_ h
  unfold begin_framebuffer_depth; split_ifs <;> rfl

theorem log_begin_command_buffer {r r' : Renderer}
    (h : ∃ es, r'.log = r.log ++ es ∧ NoFlush es) :
    ∃ es, (begin_command_buffer r').log = r.log ++ es ∧ NoFlush es := by
  refine log_same ?_ h
  unfold begin_command_buffer; split_ifs <;> rfl

theorem log_refl (r : Renderer) : ∃ es, r.log = r.log ++ es ∧ NoFlush es :=
  ⟨[], by simp, noFlush_nil⟩

theorem log_sync_color_dram_to_gpu {r r' : Renderer}
    (h : ∃ es, r'.log = r.log ++ es ∧ NoFlush es) :
    ∃ es, (sync_color_dram_to_gpu r').log = r.log ++ es ∧ NoFlush es := by
  unfold sync_color_dram_to_gpu
  by_cases hs : r'.framebuffer.color_state ≠ FRAMEBUFFER_STALE_GPU
  · rw [if_pos hs]; exact h
  · rw [if_neg hs]
    dsimp only
    apply log_set_color_state
    repeat' split
    all_goals first
      | exact h
      | exact log_begin_framebuffer h
      | exact log_emit _ (by simp) (log_begin_framebuffer h)
      | exact log_emit _ (by simp) (log_assert _ _ (log_begin_framebuffer h))

theorem log_sync_depth_dram_to_gpu {r r' : Renderer}
    (h : ∃ es, r'.log = r.log ++ es ∧ NoFlush es) :
    ∃ es, (sync_depth_dram_to_gpu r').log = r.log ++ es ∧ NoFlush es := by
  unfold sync_depth_dram_to_gpu
  by_cases hs : r'.framebuffer.depth_state ≠ FRAMEBUFFER_STALE_GPU
  · rw [if_pos hs]; exact h
  · rw [if_neg hs]
    dsimp only
    apply log_set_depth_state
    repeat' split
    all_goals first
      | exact h
      | exact log_begin_framebuffer_depth h
      | exact log_emit _ (by simp) (log_begin_framebuffer_depth h)

theorem log_sync_framebuffer_to_cpu {r r' : Renderer} (a : AsyncFramebuffer)
    (h : ∃ es, r'.log = r.log ++ es ∧ NoFlush es) :
    ∃ es, (sync_framebuffer_to_cpu r' a).log = r.log ++ es ∧ NoFlush es := by
  obtain ⟨es, hl, hes⟩ := h
  rw [sync_framebuffer_to_cpu_eq]
  exact ⟨es ++ copy_back_log a, by simp [hl], noFlush_append hes (noFlush_copy_back_log a)⟩

theorem log_foldl_sync {r r' : Renderer} (l : List AsyncFramebuffer)
    (h : ∃ es, r'.log = r.log ++ es ∧ NoFlush es) :
    ∃ es, (l.foldl sync_framebuffer_to_cpu r').log = r.log ++ es ∧ NoFlush es := by
  induction l generalizing r' with
  | nil => exact h
  | cons a l ih => exact ih (log_sync_framebuffer_to_cpu a h)

theorem log_submit {r r' : Renderer} (h : ∃ es, r'.log = r.log ++ es ∧ NoFlush es) :
    ∃ es, (submit r').1.log = r.log ++ es ∧ NoFlush es := by
  obtain ⟨es, hl, hes⟩ := log_assert 1669 r'.vulkan.cmd h
  exact ⟨es ++ [Event.submit (r'.assert 1669 r'.vulkan.cmd).next_handle],
    by simp [submit, hl], noFlush_append hes (noFlush_singleton _ (by simp))⟩

theorem log_sync_gpu_to_dram {r r' : Renderer} (blocking : Bool)
    (h : ∃ es, r'.log = r.log ++ es ∧ NoFlush es) :
    ∃ es, (sync_gpu_to_dram r' blocking).log = r.log ++ es ∧ NoFlush es := by
  unfold sync_gpu_to_dram
  split
  · exact h
  · dsimp only
    apply log_set_depth_state
    apply log_set_color_state
    have hs := log_submit (log_assert 1527
      ((r'.assert 1526 (r'.framebuffer.color_state != FRAMEBUFFER_STALE_GPU)).framebuffer.depth_state
        != FRAMEBUFFER_STALE_GPU)
      (log_assert 1526 (r'.framebuffer.color_state != FRAMEBUFFER_STALE_GPU) h))
    cases blocking
    · exact log_same rfl hs
    · exact log_sync_framebuffer_to_cpu _ hs

theorem nodeStep_sync_gpu_to_dram (r : Renderer) (blocking : Bool) :
    NodeStep r (sync_gpu_to_dram r blocking) := by
  obtain ⟨es, hl, hes⟩ := log_sync_gpu_to_dram blocking (log_refl r)
  exact nodeStep_of_residencyOnly (residencyOnly_sync_gpu_to_dram blocking (residencyOnly_refl r))
    es hl (flushed_nodes_of_noFlush es hes)

theorem nodeStep_flush_tile_lists (cfg : Config) (r : Renderer) :
    NodeStep r (flush_tile_lists cfg r) := by
  unfold flush_tile_lists
  split_ifs
  · exact nodeStep_refl r
  · dsimp only
    have hres : ResidencyOnly r (sync_depth_dram_to_gpu (sync_color_dram_to_gpu
        (begin_command_buffer r))) :=
      residencyOnly_sync_depth_dram_to_gpu (residencyOnly_sync_color_dram_to_gpu
        (residencyOnly_begin_command_buffer (residencyOnly_refl r)))
    obtain ⟨es, hl, hes⟩ := log_sync_depth_dram_to_gpu (log_sync_color_dram_to_gpu
      (log_begin_command_buffer (log_refl r)))
    generalize sync_depth_dram_to_gpu (sync_color_dram_to_gpu (begin_command_buffer r)) = r3
      at hres hl
    have hn : r3.tile_nodes = r.tile_nodes := by rw [hres]
    have hc : r3.raster_tile_count = r.raster_tile_count := by rw [hres]
    unfold NodeStep
    simp only [reset_buffers, Renderer.emit, hl, flushed_nodes_append,
      flushed_nodes_of_noFlush es hes, flushed_nodes, hn, hc, List.length_nil]
    omega

theorem nodeStep_sync_full (cfg : Config) (r : Renderer) : NodeStep r (sync_full cfg r) := by
  unfold sync_full
  dsimp only
  refine nodeStep_trans ?_ (nodeStep_sync_gpu_to_dram _ _)
  refine nodeStep_trans ?_ (nodeStep_flush_tile_lists cfg _)
  obtain ⟨es, hl, hes⟩ := log_foldl_sync r.async_transfers (log_refl r)
  exact nodeStep_of_residencyOnly
    (residencyOnly_push_ledger _ (residencyOnly_foldl_sync _ (residencyOnly_refl r))) es hl
    (flushed_nodes_of_noFlush es hes)

theorem nodeStep_complete_frame (cfg : Config) (r : Renderer) (synchronous : Bool) :
    NodeStep r (complete_frame cfg r synchronous) := by
  unfold complete_frame
  split_ifs
  · exact nodeStep_sync_full cfg r
  · exact nodeStep_trans (nodeStep_flush_tile_lists cfg r) (nodeStep_sync_gpu_to_dram _ _)

theorem nodeStep_set_framebuffer_size (cfg : Config) (r : Renderer) (width height : Nat) :
    NodeStep r (set_framebuffer_size cfg r width height) := by
  unfold set_framebuffer_size
  have h1 : NodeStep r
      (if r.framebuffer.color_state = FRAMEBUFFER_GPU ∨ r.framebuffer.depth_state = FRAMEBUFFER_GPU
       then sync_full cfg r else r) := by
    split_ifs
    · exact nodeStep_sync_full cfg r
    · exact nodeStep_refl r
  refine nodeStep_trans h1 ?_
  generalize (if r.framebuffer.color_state = FRAMEBUFFER_GPU ∨
    r.framebuffer.depth_state = FRAMEBUFFER_GPU then sync_full cfg r else r) = r1
  dsimp only
  rw [assert_eq]
  refine nodeStep_of_eq _ rfl ?_ rfl rfl
  split_ifs <;> rfl

theorem nodeStep_set_depth_image (cfg : Config) (r : Renderer) (addr : Nat) (synchronous : Bool) :
    NodeStep r (set_depth_image cfg r addr synchronous) := by
  unfold set_depth_image
  split_ifs
  · exact nodeStep_refl r
  · exact nodeStep_trans (nodeStep_complete_frame cfg r synchronous)
      (nodeStep_of_eq [] (by simp) rfl rfl rfl)
  · exact nodeStep_of_eq [] (by simp) rfl rfl rfl

theorem nodeStep_set_color_image (cfg : Config) (r : Renderer) (addr format pixel_size width : Nat)
    (synchronous : Bool) :
    NodeStep r (set_color_image cfg r addr format pixel_size width synchronous) := by
  unfold set_color_image
  have h2 : NodeStep r
      { complete_frame cfg r synchronous with framebuffer :=
        { (complete_frame cfg r synchronous).framebuffer with
          addr := addr, format := format, width := width, pixel_size := pixel_size } } :=
    nodeStep_trans (nodeStep_complete_frame cfg r synchronous)
      (nodeStep_of_eq [] (by simp) rfl rfl rfl)
  dsimp only
  split_ifs
  all_goals first
    | exact nodeStep_refl r
    | exact h2
    | exact nodeStep_trans h2 (nodeStep_set_framebuffer_size cfg _ _ _)

theorem nodeStep_assert (r : Renderer) (line : Nat) (c : Bool) : NodeStep r (r.assert line c) := by
  cases c
  · exact nodeStep_of_eq [Event.assertion_failed line] rfl rfl rfl rfl
  · exact nodeStep_refl r

theorem nodeStep_update_tiles (cfg : Config) (r : Renderer) (tile_mask dirty_tiles : Nat) :
    NodeStep r (update_tiles cfg r tile_mask dirty_tiles) := by
  rw [update_tiles_frame]; exact nodeStep_of_eq [] (by simp) rfl rfl rfl

theorem nodeStep_draw_begin (cfg : Config) (r : Renderer) (d : DrawCall) :
    NodeStep r (draw_begin cfg r d) := by
  unfold draw_begin
  dsimp only
  have h1 : NodeStep r
      (if (clip_scissor r.scissor d.min_x d.max_x d.min_y d.max_y).2.2.2
          ≥ (r.framebuffer.allocated_height : Int)
       then set_framebuffer_size cfg r r.framebuffer.allocated_width
         ((clip_scissor r.scissor d.min_x d.max_x d.min_y d.max_y).2.2.2 + 1).toNat
       else r) := by
    split_ifs
    · exact nodeStep_set_framebuffer_size cfg r _ _
    · exact nodeStep_refl r
  exact nodeStep_trans h1 (nodeStep_trans (nodeStep_update_tiles cfg _ _ _)
    (nodeStep_trans (nodeStep_assert _ _ _) (nodeStep_assert _ _ _)))

theorem nodeStep_draw_combiner (cfg : Config) (r : Renderer) (cycle_type : Nat) :
    NodeStep r (draw_combiner cfg r cycle_type).1 := by
  unfold draw_combiner
  dsimp only
  split_ifs
  · rw [assert_eq]
    split <;> exact nodeStep_of_eq _ rfl (by split_ifs <;> rfl) rfl rfl
  · rw [assert_eq]; exact nodeStep_of_eq _ rfl (by split_ifs <;> rfl) rfl rfl
  · exact nodeStep_refl r

theorem nodeStep_set_color_state (r : Renderer) (v : FramebufferState) :
    NodeStep r (r.set_color_state v) :=
  nodeStep_of_eq [Event.residency Surface.color r.framebuffer.color_state v] rfl rfl rfl rfl

theorem nodeStep_set_depth_state (r : Renderer) (v : FramebufferState) :
    NodeStep r (r.set_depth_state v) :=
  nodeStep_of_eq [Event.residency Surface.depth r.framebuffer.depth_state v] rfl rfl rfl rfl

theorem nodeStep_draw_record (cfg : Config) (r : Renderer) (d : DrawCall) :
    NodeStep r (draw_record cfg r d).1 := by
  unfold draw_record
  dsimp only
  refine nodeStep_trans ?_ (nodeStep_trans (nodeStep_draw_combiner cfg _ _)
    (nodeStep_of_eq [] (by simp) rfl rfl rfl))
  split_ifs
  all_goals first
    | exact nodeStep_refl r
    | exact nodeStep_set_color_state _ _
    | exact nodeStep_set_depth_state _ _
    | exact nodeStep_trans (nodeStep_set_color_state _ _) (nodeStep_set_depth_state _ _)

theorem append_tile_list_nodes_length (cfg : Config) (r : Renderer) (idx : Int)
    (primitive tile : Nat) :
    (append_tile_list cfg r idx primitive tile).tile_nodes.length = r.tile_nodes.length + 1 := by
  unfold append_tile_list
  dsimp only
  split_ifs <;> simp

theorem append_tile_list_log (cfg : Config) (r : Renderer) (idx : Int) (primitive tile : Nat) :
    (append_tile_list cfg r idx primitive tile).log = r.log := by
  unfold append_tile_list
  dsimp only
  split_ifs <;> rfl

theorem append_tile_list_raster_tile_count (cfg : Config) (r : Renderer) (idx : Int)
    (primitive tile : Nat) :
    (append_tile_list cfg r idx primitive tile).raster_tile_count = r.raster_tile_count := by
  unfold append_tile_list
  dsimp only
  split_ifs <;> rfl

theorem nodeStep_bin_tile (cfg : Config) (prim : Primitive) (min_x max_x min_y max_y : Int)
    (num_tris : Nat) (y : Int) (acc : Renderer × Bool) (x : Int) :
    NodeStep acc.1 (bin_tile cfg prim min_x max_x min_y max_y num_tris y acc x).1 := by
  unfold bin_tile
  dsimp only
  split_ifs
  · unfold NodeStep
    simp only [append_tile_list_nodes_length, append_tile_list_log,
      append_tile_list_raster_tile_count]
    omega
  · exact nodeStep_of_eq [] (by simp) rfl rfl rfl

theorem nodeStep_bin_tiles (cfg : Config) (prim : Primitive) (min_x max_x min_y max_y : Int)
    (num_tris : Nat) (min_tile_x max_tile_x min_tile_y max_tile_y : Int) (acc : Renderer × Bool) :
    NodeStep acc.1 (bin_tiles cfg prim min_x max_x min_y max_y num_tris
      min_tile_x max_tile_x min_tile_y max_tile_y acc).1 := by
  unfold bin_tiles
  have row : ∀ (y : Int) (xs : List Int) (acc : Renderer × Bool),
      NodeStep acc.1 (xs.foldl (bin_tile cfg prim min_x max_x min_y max_y num_tris y) acc).1 := by
    intro y xs
    induction xs with
    | nil => intro acc; exact nodeStep_refl _
    | cons x xs ih =>
      intro acc
      exact nodeStep_trans (nodeStep_bin_tile cfg prim _ _ _ _ _ y acc x) (ih _)
  generalize int_range min_tile_y max_tile_y = ys
  induction ys generalizing acc with
  | nil => exact nodeStep_refl _
  | cons y ys ih => exact nodeStep_trans (row y _ acc) (ih _)

theorem nodeStep_draw_primitive (cfg : Config) (r : Renderer) (d : DrawCall) :
    NodeStep r (draw_primitive cfg r d) := by
  unfold draw_primitive
  dsimp only
  have hb := nodeStep_trans (nodeStep_trans (nodeStep_draw_begin cfg r d)
    (nodeStep_draw_record cfg _ d))
    (nodeStep_bin_tiles cfg d.prim
      (clip_scissor r.scissor d.min_x d.max_x d.min_y d.max_y).1
      (clip_scissor r.scissor d.min_x d.max_x d.min_y d.max_y).2.1
      (clip_scissor r.scissor d.min_x d.max_x d.min_y d.max_y).2.2.1
      (clip_scissor r.scissor d.min_x d.max_x d.min_y d.max_y).2.2.2
      (draw_begin cfg r d).primitive_data.length
      (max (Int.tdiv (clip_scissor r.scissor d.min_x d.max_x d.min_y d.max_y).1 cfg.TILE_SIZE_X) 0)
      (min (Int.tdiv (clip_scissor r.scissor d.min_x d.max_x d.min_y d.max_y).2.1 cfg.TILE_SIZE_X)
        (((draw_begin cfg r d).tiles_x : Int) - 1))
      (Int.tdiv (clip_scissor r.scissor d.min_x d.max_x d.min_y d.max_y).2.2.1 cfg.TILE_SIZE_Y)
      (Int.tdiv (clip_scissor r.scissor d.min_x d.max_x d.min_y d.max_y).2.2.2 cfg.TILE_SIZE_Y)
      (draw_record cfg (draw_begin cfg r d) d))
  split_ifs
  · exact nodeStep_trans hb (nodeStep_flush_tile_lists cfg _)
  · exact hb

theorem nodeStep_step (cfg : Config) (r : Renderer) (op : Op) : NodeStep r (step cfg r op) := by
  cases op with
  | set_depth_image addr synchronous => exact nodeStep_set_depth_image cfg r addr synchronous
  | set_color_image addr format pixel_size width synchronous =>
    exact nodeStep_set_color_image cfg r addr format pixel_size width synchronous
  | set_framebuffer_size width height => exact nodeStep_set_framebuffer_size cfg r width height
  | draw_primitive d => exact nodeStep_draw_primitive cfg r d
  | flush_tile_lists => exact nodeStep_flush_tile_lists cfg r
  | complete_frame synchronous => exact nodeStep_complete_frame cfg r synchronous
  | sync_full => exact nodeStep_sync_full cfg r
  | begin_index index =>
    show NodeStep r (begin_index r index)
    rw [begin_index_eq]
    exact nodeStep_of_eq _ rfl
      (flushed_nodes_of_noFlush _ (noFlush_flatMap_copy_back_log _)) rfl rfl
  | check_tmem_feedback addr synchronous =>
    show NodeStep r (check_tmem_feedback cfg r addr synchronous)
    unfold check_tmem_feedback
    split_ifs
    · exact nodeStep_complete_frame cfg r synchronous
    · exact nodeStep_complete_frame cfg r synchronous
    · exact nodeStep_refl r
  | fill_rect_cpu xmin xmax ymin ymax =>
    show NodeStep r (fill_rect_cpu cfg r xmin xmax ymin ymax)
    unfold fill_rect_cpu
    dsimp only
    rw [assert_eq]
    refine nodeStep_of_eq _ (by simp only [Renderer.emit, List.append_assoc]; rfl) ?_ rfl rfl
    rw [flushed_nodes_append]
    split_ifs <;> rfl
  | _ => exact nodeStep_of_eq [] (by simp [step, set_scissor, set_combine, set_primitive_z,
      set_prim_color, set_env_color, set_fog_color, set_convert]) rfl rfl rfl

theorem nodeStep_run (cfg : Config) (r : Renderer) (ops : List Op) : NodeStep r (run cfg r ops) := by
  unfold run
  induction ops generalizing r with
  | nil => exact nodeStep_refl r
  | cons op ops ih => exact nodeStep_trans (nodeStep_step cfg r op) (ih _)

end RDP

namespace RDP

theorem bin_tile_raster_tile_count (cfg : Config) (prim : Primitive)
    (min_x max_x min_y max_y : Int) (num_tris : Nat) (y : Int) (acc : Renderer × Bool) (x : Int) :
    (bin_tile cfg prim min_x max_x min_y max_y num_tris y acc x).1.raster_tile_count =
      acc.1.raster_tile_count +
        (if coarse_conservative_raster cfg x y min_x max_x min_y max_y prim then 1 else 0) := by
  unfold bin_tile
  dsimp only
  split_ifs
  · simp only [append_tile_list_raster_tile_count]
  · rfl

theorem bin_row_raster_tile_count (cfg : Config) (prim : Primitive)
    (min_x max_x min_y max_y : Int) (num_tris : Nat) (y : Int) (xs : List Int)
    (acc : Renderer × Bool) :
    (xs.foldl (bin_tile cfg prim min_x max_x min_y max_y num_tris y) acc).1.raster_tile_count =
      acc.1.raster_tile_count +
        (xs.filter (fun x => coarse_conservative_raster cfg x y min_x max_x min_y max_y prim)).length := by
  induction xs generalizing acc with
  | nil => rfl
  | cons x xs ih =>
    rw [List.foldl_cons, ih, bin_tile_raster_tile_count, List.filter_cons]
    split_ifs <;> simp <;> omega

theorem bin_tiles_raster_tile_count (cfg : Config) (prim : Primitive)
    (min_x max_x min_y max_y : Int) (num_tris : Nat)
    (min_tile_x max_tile_x min_tile_y max_tile_y : Int) (acc : Renderer × Bool) :
    (bin_tiles cfg prim min_x max_x min_y max_y num_tris
      min_tile_x max_tile_x min_tile_y max_tile_y acc).1.raster_tile_count =
      acc.1.raster_tile_count +
        ((int_range min_tile_y max_tile_y).flatMap (fun y =>
          ((int_range min_tile_x max_tile_x).filter (fun x =>
            coarse_conservative_raster cfg x y min_x max_x min_y max_y prim)).map
            (fun x => (x, y)))).length := by
  unfold bin_tiles
  generalize int_range min_tile_y max_tile_y = ys
  induction ys generalizing acc with
  | nil => rfl
  | cons y ys ih =>
    rw [List.foldl_cons, ih, bin_row_raster_tile_count, List.flatMap_cons, List.length_append,
      List.length_map]
    omega

/-- The counter `raster_tile_count` grows in a `draw_primitive` call by the number of tiles the
call binds. -/
theorem draw_primitive_raster_tile_count (cfg : Config) (r : Renderer) (d : DrawCall) :
    (draw_primitive cfg r d).raster_tile_count = r.raster_tile_count + (bound_tiles cfg r d).length := by
  have pre : (draw_record cfg (draw_begin cfg r d) d).1.raster_tile_count = r.raster_tile_count :=
    (bindsNothing_trans (bindsNothing_draw_begin cfg r d) (bindsNothing_draw_record cfg _ d)).1
  unfold draw_primitive bound_tiles
  dsimp only
  split_ifs
  · rw [(bindsNothing_flush_tile_lists cfg _).1, bin_tiles_raster_tile_count, pre]
  · rw [bin_tiles_raster_tile_count, pre]

theorem env_draws_raster_tile_count (cfg : Config) (l : List (Nat × DrawCall)) (r : Renderer)
    (h : EachBindsOne cfg r l) :
    (run cfg r (env_draw_ops l)).raster_tile_count = r.raster_tile_count + l.length := by
  induction l generalizing r with
  | nil => rfl
  | cons p l ih =>
    obtain ⟨h1, h2⟩ := h
    have hrun : run cfg r (env_draw_ops (p :: l)) =
        run cfg (draw_primitive cfg (set_env_color r p.1) p.2) (env_draw_ops l) := rfl
    rw [hrun, ih _ h2, draw_primitive_raster_tile_count, h1]
    simp only [set_env_color, List.length_cons]
    omega

/-- C7. For every renderer and every sequence of `n` draws, each preceded by the setting of
an environment colour and each binding exactly one tile, whatever flushes occur on the way:
the tile-list nodes handed to the GPU by the batch uploads plus the nodes pending after the
last draw are those of before the sequence plus `n`.  No bound tile is dropped or uploaded
twice.  Neither the cycle mode of the draws nor the colours are restricted (so the draws may
be in 1-cycle mode and the colours distinct). -/
theorem env_draws_conserve_nodes (cfg : Config) (r : Renderer) (l : List (Nat × DrawCall))
    (h : EachBindsOne cfg r l) :
    flushed_nodes (run cfg r (env_draw_ops l)).log + (run cfg r (env_draw_ops l)).tile_nodes.length =
      flushed_nodes r.log + r.tile_nodes.length + l.length := by
  have h1 := nodeStep_run cfg r (env_draw_ops l)
  have h2 := env_draws_raster_tile_count cfg l r h
  unfold NodeStep at h1
  omega

set_option maxRecDepth 100000 in
/-- C7, witness: three 1-cycle draws with the environment colours 256, 512, 768 (blue lanes 1, 2, 3), each on one tile,
under a combiner table of two entries.  The second draw fills the table and flushes two nodes,
the third leaves one node pending. -/
theorem env_draws_conserve_nodes_witness :
    EachBindsOne Config.small small_session
      [(256, rect_draw 0 3 0 3), (512, rect_draw 8 11 0 3), (768, rect_draw 0 3 0 3)] ∧
    flushed_nodes (run Config.small small_session (env_draw_ops
      [(256, rect_draw 0 3 0 3), (512, rect_draw 8 11 0 3), (768, rect_draw 0 3 0 3)])).log = 2 ∧
    (run Config.small small_session (env_draw_ops
      [(256, rect_draw 0 3 0 3), (512, rect_draw 8 11 0 3), (768, rect_draw 0 3 0 3)])).tile_nodes.length = 1 ∧
    flushed_nodes (run Config.small small_session (env_draw_ops
      [(256, rect_draw 0 3 0 3), (512, rect_draw 8 11 0 3), (768, rect_draw 0 3 0 3)])).log +
      (run Config.small small_session (env_draw_ops
        [(256, rect_draw 0 3 0 3), (512, rect_draw 8 11 0 3), (768, rect_draw 0 3 0 3)])).tile_nodes.length =
      flushed_nodes small_session.log + small_session.tile_nodes.length + 3 :=
  ⟨by unfold EachBindsOne EachBindsOne EachBindsOne EachBindsOne; decide, by decide, by decide,
    env_draws_conserve_nodes Config.small small_session
      [(256, rect_draw 0 3 0 3), (512, rect_draw 8 11 0 3), (768, rect_draw 0 3 0 3)]
      (by unfold EachBindsOne EachBindsOne EachBindsOne EachBindsOne; decide)⟩

end RDP

namespace RDP

/-! ## The combiner cache -/

theorem binOnly_refl (r : Renderer) : BinOnly r r := rfl

theorem binOnly_trans {a b c : Renderer} (h1 : BinOnly a b) (h2 : BinOnly b c) : BinOnly a c := by
  unfold BinOnly at *
  rw [h2, h1]

theorem binOnly_append_tile_list (cfg : Config) (r : Renderer) (idx : Int) (primitive tile : Nat) :
    BinOnly r (append_tile_list cfg r idx primitive tile) := by
  unfold append_tile_list
  dsimp only
  split_ifs <;> rfl

theorem binOnly_bin_tile (cfg : Config) (prim : Primitive) (min_x max_x min_y max_y : Int)
    (num_tris : Nat) (y : Int) (acc : Renderer × Bool) (x : Int) :
    BinOnly acc.1 (bin_tile cfg prim min_x max_x min_y max_y num_tris y acc x).1 := by
  unfold bin_tile
  dsimp only
  split_ifs
  · exact binOnly_trans (binOnly_trans (b := { acc.1 with
      raster_tile_count := acc.1.raster_tile_count + 1 }) rfl
      (binOnly_append_tile_list cfg _ _ _ _)) rfl
  · rfl

theorem binOnly_bin_tiles (cfg : Config) (prim : Primitive) (min_x max_x min_y max_y : Int)
    (num_tris : Nat) (min_tile_x max_tile_x min_tile_y max_tile_y : Int) (acc : Renderer × Bool) :
    BinOnly acc.1 (bin_tiles cfg prim min_x max_x min_y max_y num_tris
      min_tile_x max_tile_x min_tile_y max_tile_y acc).1 := by
  unfold bin_tiles
  have row : ∀ (y : Int) (xs : List Int) (acc : Renderer × Bool),
      BinOnly acc.1 (xs.foldl (bin_tile cfg prim min_x max_x min_y max_y num_tris y) acc).1 := by
    intro y xs
    induction xs with
    | nil => intro acc; exact binOnly_refl _
    | cons x xs ih =>
      intro acc
      exact binOnly_trans (binOnly_bin_tile cfg prim _ _ _ _ _ y acc x) (ih _)
  generalize int_range min_tile_y max_tile_y = ys
  induction ys generalizing acc with
  | nil => exact binOnly_refl _
  | cons y ys ih => exact binOnly_trans (row y _ acc) (ih _)

theorem combiner_map_find_append (m : List (Nat × Nat)) (k v hash : Nat) :
    combiner_map_find (m ++ [(k, v)]) hash =
      match combiner_map_find m hash with
      | some i => some i
      | none => if k = hash then some v else none := by
  induction m with
  | nil => simp [combiner_map_find]
  | cons e m ih =>
    obtain ⟨k', v'⟩ := e
    rw [List.cons_append]
    simp only [combiner_map_find]
    by_cases h : k' = hash
    · simp only [if_pos h]
    · simp only [if_neg h]; exact ih

/-- The invariant reads the combiner table, the cache fields of `state`, the records and the
resolved states recorded with them, and nothing else. -/
theorem combinerCacheInv_of_fields (cfg : Config) {r r' : Renderer}
    (h : CombinerCacheInv cfg r)
    (h1 : r'.combiner_data = r.combiner_data)
    (h2 : r'.state.combiner_map = r.state.combiner_map)
    (h3 : r'.state.combiners_dirty = true ∨
      (r'.state.combiners_dirty = r.state.combiners_dirty ∧
       r'.state.combiners = r.state.combiners ∧ r'.state.last_combiner = r.state.last_combiner))
    (h4 : r'.primitive_data = r.primitive_data)
    (h5 : r'.ghost_resolved = r.ghost_resolved) : CombinerCacheInv cfg r' := by
  obtain ⟨k1, k3, k2, k4⟩ := h
  refine ⟨?_, ?_, ?_, ?_⟩
  · rw [h1, h2]; exact k1
  · intro hd
    rcases h3 with h3 | ⟨hd', hc, hl⟩
    · rw [h3] at hd; cases hd
    · rw [h2, hc, hl]; exact k3 (hd'.symm.trans hd)
  · rw [h4, h5, h2]; exact k2
  · rw [h4, h5]; exact k4

theorem combinerCacheInv_of_residencyOnly (cfg : Config) {r r' : Renderer}
    (h : CombinerCacheInv cfg r) (hr : ResidencyOnly r r') : CombinerCacheInv cfg r' :=
  combinerCacheInv_of_fields cfg h (by rw [hr]) (by rw [hr])
    (Or.inr ⟨by rw [hr], by rw [hr], by rw [hr]⟩) (by rw [hr]) (by rw [hr])

theorem combinerCacheInv_of_binOnly (cfg : Config) {r r' : Renderer}
    (h : CombinerCacheInv cfg r) (hr : BinOnly r r') : CombinerCacheInv cfg r' :=
  combinerCacheInv_of_fields cfg h (by rw [hr]) (by rw [hr])
    (Or.inr ⟨by rw [hr], by rw [hr], by rw [hr]⟩) (by rw [hr]) (by rw [hr])

theorem combinerCacheInv_reset_buffers (cfg : Config) (r : Renderer) :
    CombinerCacheInv cfg (reset_buffers cfg r) := by
  refine ⟨?_, ?_, ?_, rfl⟩
  · intro i c h; simp [reset_buffers] at h
  · intro h; simp [reset_buffers] at h
  · intro i p c h; simp [reset_buffers] at h

theorem combinerCacheInv_flush_tile_lists (cfg : Config) {r : Renderer}
    (h : CombinerCacheInv cfg r) : CombinerCacheInv cfg (flush_tile_lists cfg r) := by
  rcases flush_tile_lists_cases cfg r with h1 | ⟨r1, _, h2⟩
  · rw [h1]; exact h
  · rw [h2]; exact combinerCacheInv_reset_buffers cfg _

theorem combinerCacheInv_sync_full (cfg : Config) {r : Renderer}
    (h : CombinerCacheInv cfg r) : CombinerCacheInv cfg (sync_full cfg r) := by
  unfold sync_full
  dsimp only
  refine combinerCacheInv_of_residencyOnly cfg ?_
    (residencyOnly_sync_gpu_to_dram true (residencyOnly_refl _))
  apply combinerCacheInv_flush_tile_lists
  exact combinerCacheInv_of_residencyOnly cfg h
    (residencyOnly_push_ledger _ (residencyOnly_foldl_sync _ (residencyOnly_refl r)))

theorem combinerCacheInv_complete_frame (cfg : Config) (synchronous : Bool) {r : Renderer}
    (h : CombinerCacheInv cfg r) : CombinerCacheInv cfg (complete_frame cfg r synchronous) := by
  unfold complete_frame
  split_ifs
  · exact combinerCacheInv_sync_full cfg h
  · exact combinerCacheInv_of_residencyOnly cfg (combinerCacheInv_flush_tile_lists cfg h)
      (residencyOnly_sync_gpu_to_dram false (residencyOnly_refl _))

theorem combinerCacheInv_set_framebuffer_size (cfg : Config) (width height : Nat) {r : Renderer}
    (h : CombinerCacheInv cfg r) : CombinerCacheInv cfg (set_framebuffer_size cfg r width height) := by
  unfold set_framebuffer_size
  have h1 : CombinerCacheInv cfg
      (if r.framebuffer.color_state = FRAMEBUFFER_GPU ∨ r.framebuffer.depth_state = FRAMEBUFFER_GPU
       then sync_full cfg r else r) := by
    split_ifs
    · exact combinerCacheInv_sync_full cfg h
    · exact h
  generalize (if r.framebuffer.color_state = FRAMEBUFFER_GPU ∨
    r.framebuffer.depth_state = FRAMEBUFFER_GPU then sync_full cfg r else r) = r1 at h1
  dsimp only
  rw [assert_eq]
  exact combinerCacheInv_of_fields cfg h1 rfl rfl (Or.inr ⟨rfl, rfl, rfl⟩) rfl rfl

theorem combinerCacheInv_draw_begin (cfg : Config) (d : DrawCall) {r : Renderer}
    (h : CombinerCacheInv cfg r) : CombinerCacheInv cfg (draw_begin cfg r d) := by
  unfold draw_begin
  dsimp only
  rw [assert_eq, assert_eq, update_tiles_frame]
  have h1 : CombinerCacheInv cfg
      (if (clip_scissor r.scissor d.min_x d.max_x d.min_y d.max_y).2.2.2
          ≥ (r.framebuffer.allocated_height : Int)
       then set_framebuffer_size cfg r r.framebuffer.allocated_width
         ((clip_scissor r.scissor d.min_x d.max_x d.min_y d.max_y).2.2.2 + 1).toNat
       else r) := by
    split_ifs
    · exact combinerCacheInv_set_framebuffer_size cfg _ _ h
    · exact h
  exact combinerCacheInv_of_fields cfg h1 rfl rfl (Or.inr ⟨rfl, rfl, rfl⟩) rfl rfl

/-- The combiner block of `draw_primitive` keeps the cache consistent, leaves the records
alone, and the index it returns is the one the map holds for the hash of the resolved state. -/
theorem combinerCacheInv_draw_combiner (cfg : Config) (cycle_type : Nat) {r : Renderer}
    (h : CombinerCacheInv cfg r) :
    CombinerCacheInv cfg (draw_combiner cfg r cycle_type).1 ∧
    (draw_combiner cfg r cycle_type).1.primitive_data = r.primitive_data ∧
    (draw_combiner cfg r cycle_type).1.ghost_resolved = r.ghost_resolved ∧
    ∀ j, (draw_combiner cfg r cycle_type).2.1 = some j →
      combiner_map_find (draw_combiner cfg r cycle_type).1.state.combiner_map
        (cfg.hash64 (draw_combiner cfg r cycle_type).1.state.combiners) = some j := by
  obtain ⟨k1, k3, k2, k4⟩ := h
  unfold draw_combiner
  dsimp only
  by_cases hc : cycle_type = cfg.CYCLE_TYPE_1 ∨ cycle_type = cfg.CYCLE_TYPE_2
  · rw [if_pos hc]
    simp only [assert_eq]
    by_cases hd : r.state.combiners_dirty = true
    · rw [if_pos hd]
      cases hf : combiner_map_find r.state.combiner_map (cfg.hash64 (update_static_combiner r.state)) with
      | some index =>
        dsimp only
        refine ⟨⟨k1, fun _ => hf, k2, k4⟩, rfl, rfl, ?_⟩
        intro j hj
        cases hj
        exact hf
      | none =>
        dsimp only
        have hnew : combiner_map_find
            (r.state.combiner_map ++ [(cfg.hash64 (update_static_combiner r.state),
              (r.combiner_data ++ [update_static_combiner r.state]).length - 1)])
            (cfg.hash64 (update_static_combiner r.state)) =
            some ((r.combiner_data ++ [update_static_combiner r.state]).length - 1) := by
          rw [combiner_map_find_append, hf]; simp
        refine ⟨⟨?_, fun _ => hnew, ?_, k4⟩, rfl, rfl, ?_⟩
        · intro i c hi
          rw [combiner_map_find_append]
          rcases Nat.lt_or_ge i r.combiner_data.length with hlt | hge
          · rw [List.getElem?_append_left hlt] at hi
            rw [k1 i c hi]
          · rw [List.getElem?_append_right hge] at hi
            have hi0 : i - r.combiner_data.length = 0 := by
              by_contra hne
              rw [List.getElem?_eq_none (by simp; omega)] at hi
              cases hi
            rw [hi0] at hi
            simp only [List.getElem?_cons_zero, Option.some.injEq] at hi
            rw [← hi, hf]
            simp only [List.length_append, List.length_singleton, Nat.add_sub_cancel, if_true]
            congr 1
            omega
        · intro i p c hp hg
          obtain ⟨j, hj1, hj2⟩ := k2 i p c hp hg
          exact ⟨j, hj1, by rw [combiner_map_find_append, hj2]⟩
        · intro j hj
          cases hj
          exact hnew
    · rw [if_neg hd]
      have hd' : r.state.combiners_dirty = false := by simpa using hd
      dsimp only
      refine ⟨⟨k1, k3, k2, k4⟩, rfl, rfl, ?_⟩
      intro j hj
      cases hj
      exact k3 hd'
  · rw [if_neg hc]
    exact ⟨⟨k1, k3, k2, k4⟩, rfl, rfl, fun j hj => by cases hj⟩

theorem combinerCacheInv_draw_record (cfg : Config) (d : DrawCall) {r : Renderer}
    (h : CombinerCacheInv cfg r) : CombinerCacheInv cfg (draw_record cfg r d).1 := by
  unfold draw_record
  dsimp only
  have h5 : CombinerCacheInv cfg
      (if r.framebuffer.color_state = FRAMEBUFFER_CPU then r.set_color_state FRAMEBUFFER_STALE_GPU
       else r) := by
    split_ifs
    · exact combinerCacheInv_of_residencyOnly cfg h
        (residencyOnly_set_color_state _ (residencyOnly_refl r))
    · exact h
  generalize (if r.framebuffer.color_state = FRAMEBUFFER_CPU
    then r.set_color_state FRAMEBUFFER_STALE_GPU else r) = r5 at h5
  have h6 : CombinerCacheInv cfg
      (if r5.framebuffer.depth_state = FRAMEBUFFER_CPU ∧
          (build_attr cfg d.prim d.attr r.state.primitive_z).2.1 &&&
            (cfg.RDP_FLAG_Z_UPDATE ||| cfg.RDP_FLAG_Z_COMPARE) ≠ 0
       then r5.set_depth_state FRAMEBUFFER_STALE_GPU else r5) := by
    split_ifs
    · exact combinerCacheInv_of_residencyOnly cfg h5
        (residencyOnly_set_depth_state _ (residencyOnly_refl r5))
    · exact h5
  generalize (if r5.framebuffer.depth_state = FRAMEBUFFER_CPU ∧
          (build_attr cfg d.prim d.attr r.state.primitive_z).2.1 &&&
            (cfg.RDP_FLAG_Z_UPDATE ||| cfg.RDP_FLAG_Z_COMPARE) ≠ 0
       then r5.set_depth_state FRAMEBUFFER_STALE_GPU else r5) = r6 at h6
  obtain ⟨⟨k1, k3, k2, k4⟩, hp, hg, hj⟩ :=
    combinerCacheInv_draw_combiner cfg ((d.prim.flags >>> cfg.RDP_FLAG_CYCLE_TYPE_SHIFT) &&& 3) h6
  generalize draw_combiner cfg r6 ((d.prim.flags >>> cfg.RDP_FLAG_CYCLE_TYPE_SHIFT) &&& 3) = comb
    at k1 k3 k2 k4 hp hg hj
  refine ⟨k1, k3, ?_, ?_⟩
  · intro i p c hi hgi
    dsimp only at hi hgi ⊢
    rcases Nat.lt_or_ge i comb.1.primitive_data.length with hlt | hge
    · rw [List.getElem?_append_left hlt] at hi
      rw [List.getElem?_append_left (k4 ▸ hlt)] at hgi
      exact k2 i p c hi hgi
    · rw [List.getElem?_append_right hge] at hi
      rw [List.getElem?_append_right (k4 ▸ hge), k4] at hgi
      have hi0 : i - comb.1.primitive_data.length = 0 := by
        by_contra hne
        rw [List.getElem?_eq_none (by simp; omega)] at hi
        cases hi
      rw [hi0] at hi hgi
      simp only [List.getElem?_cons_zero, Option.some.injEq] at hi hgi
      cases hc : comb.2.1 with
      | none => rw [hc] at hgi; simp at hgi
      | some j =>
        rw [hc] at hgi
        simp only [Option.isSome_some, if_true, Option.some.injEq] at hgi
        refine ⟨j, ?_, ?_⟩
        · rw [← hi]; exact hc
        · rw [← hgi]; exact hj j hc
  · dsimp only
    rw [List.length_append, List.length_append, k4]
    rfl

theorem combinerCacheInv_draw_primitive (cfg : Config) (d : DrawCall) {r : Renderer}
    (h : CombinerCacheInv cfg r) : CombinerCacheInv cfg (draw_primitive cfg r d) := by
  unfold draw_primitive
  dsimp only
  have hb := combinerCacheInv_of_binOnly cfg
    (combinerCacheInv_draw_record cfg d (combinerCacheInv_draw_begin cfg d h))
    (binOnly_bin_tiles cfg d.prim
      (clip_scissor r.scissor d.min_x d.max_x d.min_y d.max_y).1
      (clip_scissor r.scissor d.min_x d.max_x d.min_y d.max_y).2.1
      (clip_scissor r.scissor d.min_x d.max_x d.min_y d.max_y).2.2.1
      (clip_scissor r.scissor d.min_x d.max_x d.min_y d.max_y).2.2.2
      (draw_begin cfg r d).primitive_data.length
      (max (Int.tdiv (clip_scissor r.scissor d.min_x d.max_x d.min_y d.max_y).1 cfg.TILE_SIZE_X) 0)
      (min (Int.tdiv (clip_scissor r.scissor d.min_x d.max_x d.min_y d.max_y).2.1 cfg.TILE_SIZE_X)
        (((draw_begin cfg r d).tiles_x : Int) - 1))
      (Int.tdiv (clip_scissor r.scissor d.min_x d.max_x d.min_y d.max_y).2.2.1 cfg.TILE_SIZE_Y)
      (Int.tdiv (clip_scissor r.scissor d.min_x d.max_x d.min_y d.max_y).2.2.2 cfg.TILE_SIZE_Y)
      (draw_record cfg (draw_begin cfg r d) d))
  split_ifs
  · exact combinerCacheInv_flush_tile_lists cfg hb
  · exact hb

theorem combinerCacheInv_step (cfg : Config) (op : Op) {r : Renderer}
    (h : CombinerCacheInv cfg r) : CombinerCacheInv cfg (step cfg r op) := by
  cases op with
  | set_scissor xh yh xl yl =>
    exact combinerCacheInv_of_fields cfg h rfl rfl (Or.inr ⟨rfl, rfl, rfl⟩) rfl rfl
  | set_combine w1 w2 => exact combinerCacheInv_of_fields cfg h rfl rfl (Or.inl rfl) rfl rfl
  | set_primitive_z w2 =>
    exact combinerCacheInv_of_fields cfg h rfl rfl (Or.inr ⟨rfl, rfl, rfl⟩) rfl rfl
  | set_prim_color w1 w2 => exact combinerCacheInv_of_fields cfg h rfl rfl (Or.inl rfl) rfl rfl
  | set_env_color w2 => exact combinerCacheInv_of_fields cfg h rfl rfl (Or.inl rfl) rfl rfl
  | set_fog_color w2 =>
    exact combinerCacheInv_of_fields cfg h rfl rfl (Or.inr ⟨rfl, rfl, rfl⟩) rfl rfl
  | set_convert w1 w2 => exact combinerCacheInv_of_fields cfg h rfl rfl (Or.inl rfl) rfl rfl
  | set_depth_image addr synchronous =>
    simp only [step, set_depth_image]
    split_ifs
    · exact h
    · exact combinerCacheInv_of_fields cfg (combinerCacheInv_complete_frame cfg synchronous h)
        rfl rfl (Or.inr ⟨rfl, rfl, rfl⟩) rfl rfl
    · exact combinerCacheInv_of_fields cfg h rfl rfl (Or.inr ⟨rfl, rfl, rfl⟩) rfl rfl
  | set_color_image addr format pixel_size width synchronous =>
    simp only [step, set_color_image]
    have h2 : CombinerCacheInv cfg
        { complete_frame cfg r synchronous with framebuffer :=
          { (complete_frame cfg r synchronous).framebuffer with
            addr := addr, format := format, width := width, pixel_size := pixel_size } } :=
      combinerCacheInv_of_fields cfg (combinerCacheInv_complete_frame cfg synchronous h)
        rfl rfl (Or.inr ⟨rfl, rfl, rfl⟩) rfl rfl
    repeat' split
    all_goals first
      | exact h
      | exact h2
      | exact combinerCacheInv_set_framebuffer_size cfg _ _ h2
  | set_framebuffer_size width height => exact combinerCacheInv_set_framebuffer_size cfg _ _ h
  | draw_primitive d => exact combinerCacheInv_draw_primitive cfg d h
  | flush_tile_lists => exact combinerCacheInv_flush_tile_lists cfg h
  | complete_frame synchronous => exact combinerCacheInv_complete_frame cfg synchronous h
  | sync_full => exact combinerCacheInv_sync_full cfg h
  | begin_index index =>
    exact combinerCacheInv_of_residencyOnly cfg h (residencyOnly_begin_index _ (residencyOnly_refl r))
  | check_tmem_feedback addr synchronous =>
    simp only [step, check_tmem_feedback]
    split_ifs
    · exact combinerCacheInv_complete_frame cfg synchronous h
    · exact combinerCacheInv_complete_frame cfg synchronous h
    · exact h
  | fill_rect_cpu xmin xmax ymin ymax =>
    simp only [step, fill_rect_cpu]
    rw [assert_eq]
    exact combinerCacheInv_of_fields cfg h rfl rfl (Or.inr ⟨rfl, rfl, rfl⟩) rfl rfl

theorem combinerCacheInv_run (cfg : Config) (ops : List Op) {r : Renderer}
    (h : CombinerCacheInv cfg r) : CombinerCacheInv cfg (run cfg r ops) := by
  unfold run
  induction ops generalizing r with
  | nil => exact h
  | cons op ops ih => exact ih (combinerCacheInv_step cfg op h)

theorem combinerCacheInv_init (cfg : Config) : CombinerCacheInv cfg (Renderer.init cfg) := by
  refine ⟨?_, ?_, ?_, rfl⟩
  · intro i c h; simp [Renderer.init] at h
  · intro h; simp [Renderer.init] at h
  · intro i p c h; simp [Renderer.init] at h

end RDP

namespace RDP

/-! ## The size of the combiner table -/

theorem tableStep_refl (r : Renderer) : TableStep r r :=
  ⟨Nat.le_refl _, [], by simp, by intro b hb; cases hb⟩

theorem tableStep_trans {a b c : Renderer} (h1 : TableStep a b) (h2 : TableStep b c) :
    TableStep a c := by
  obtain ⟨l1, es1, e1, f1⟩ := h1
  obtain ⟨l2, es2, e2, f2⟩ := h2
  refine ⟨Nat.le_trans l2 l1, es1 ++ es2, by rw [e2, e1, List.append_assoc], ?_⟩
  intro x hx
  rcases List.mem_append.mp hx with h | h
  · exact f1 x h
  · exact Nat.le_trans (f2 x h) l1

/-- A change that leaves the combiner table alone and appends no batch upload to the log. -/
theorem tableStep_of_eq {r r' : Renderer} (h : ∃ es, r'.log = r.log ++ es ∧ NoFlush es)
    (hc : r'.combiner_data = r.combiner_data) : TableStep r r' := by
  obtain ⟨es, hl, hes⟩ := h
  refine ⟨by rw [hc], es, hl, ?_⟩
  intro b hb
  exact absurd rfl (hes _ hb b)

theorem tableStep_of_residencyOnly {r r' : Renderer} (h : ResidencyOnly r r')
    (hl : ∃ es, r'.log = r.log ++ es ∧ NoFlush es) : TableStep r r' :=
  tableStep_of_eq hl (by rw [h])

/-- A flush is a step of the table, and it empties the table when the batch has a record and a
work item. -/
theorem flush_tile_lists_table (cfg : Config) (r : Renderer) :
    TableStep r (flush_tile_lists cfg r) ∧
    (r.primitive_data ≠ [] → r.work_data ≠ [] → (flush_tile_lists cfg r).combiner_data = []) := by
  unfold flush_tile_lists
  by_cases hc : (r.primitive_data.isEmpty || r.work_data.isEmpty) = true
  · rw [if_pos hc]
    refine ⟨tableStep_refl r, ?_⟩
    intro hp hw
    rcases Bool.or_eq_true _ _ ▸ hc with h | h
    · exact absurd (List.isEmpty_iff.mp h) hp
    · exact absurd (List.isEmpty_iff.mp h) hw
  · rw [if_neg hc]
    dsimp only
    have hres : ResidencyOnly r (sync_depth_dram_to_gpu (sync_color_dram_to_gpu
        (begin_command_buffer r))) :=
      residencyOnly_sync_depth_dram_to_gpu (residencyOnly_sync_color_dram_to_gpu
        (residencyOnly_begin_command_buffer (residencyOnly_refl r)))
    obtain ⟨es, hl, hes⟩ := log_sync_depth_dram_to_gpu (log_sync_color_dram_to_gpu
      (log_begin_command_buffer (log_refl r)))
    generalize sync_depth_dram_to_gpu (sync_color_dram_to_gpu (begin_command_buffer r)) = r3
      at hres hl
    have hcd : r3.combiner_data = r.combiner_data := by rw [hres]
    refine ⟨⟨Nat.zero_le _, es ++ [Event.flush
      { primitives := r3.primitive_data, heads := r3.tile_lists.map (fun t => t.head),
        nodes := r3.tile_nodes, combiners := r3.combiner_data, work := r3.work_data,
        tile_count := r3.tile_count, resolved := r3.ghost_resolved }], ?_, ?_⟩, fun _ _ => rfl⟩
    · simp only [reset_buffers, Renderer.emit, hl, List.append_assoc]
    · intro b hb
      rcases List.mem_append.mp hb with h | h
      · exact absurd rfl (hes _ h b)
      · simp only [List.mem_singleton, Event.flush.injEq] at h
        rw [h, hcd]

theorem tableStep_sync_gpu_to_dram (r : Renderer) (blocking : Bool) :
    TableStep r (sync_gpu_to_dram r blocking) :=
  tableStep_of_residencyOnly (residencyOnly_sync_gpu_to_dram blocking (residencyOnly_refl r))
    (log_sync_gpu_to_dram blocking (log_refl r))

theorem tableStep_sync_full (cfg : Config) (r : Renderer) : TableStep r (sync_full cfg r) := by
  unfold sync_full
  dsimp only
  refine tableStep_trans ?_ (tableStep_sync_gpu_to_dram _ _)
  refine tableStep_trans ?_ (flush_tile_lists_table cfg _).1
  exact tableStep_of_residencyOnly
    (residencyOnly_push_ledger _ (residencyOnly_foldl_sync _ (residencyOnly_refl r)))
    (log_foldl_sync r.async_transfers (log_refl r))

theorem tableStep_complete_frame (cfg : Config) (r : Renderer) (synchronous : Bool) :
    TableStep r (complete_frame cfg r synchronous) := by
  unfold complete_frame
  split_ifs
  · exact tableStep_sync_full cfg r
  · exact tableStep_trans (flush_tile_lists_table cfg r).1 (tableStep_sync_gpu_to_dram _ _)

theorem tableStep_set_framebuffer_size (cfg : Config) (r : Renderer) (width height : Nat) :
    TableStep r (set_framebuffer_size cfg r width height) := by
  unfold set_framebuffer_size
  have h1 : TableStep r
      (if r.framebuffer.color_state = FRAMEBUFFER_GPU ∨ r.framebuffer.depth_state = FRAMEBUFFER_GPU
       then sync_full cfg r else r) := by
    split_ifs
    · exact tableStep_sync_full cfg r
    · exact tableStep_refl r
  refine tableStep_trans h1 ?_
  generalize (if r.framebuffer.color_state = FRAMEBUFFER_GPU ∨
    r.framebuffer.depth_state = FRAMEBUFFER_GPU then sync_full cfg r else r) = r1
  dsimp only
  exact tableStep_of_eq (log_assert _ _ (log_same rfl (log_refl r1)))
    (by rw [assert_eq])

theorem tableStep_set_depth_image (cfg : Config) (r : Renderer) (addr : Nat) (synchronous : Bool) :
    TableStep r (set_depth_image cfg r addr synchronous) := by
  unfold set_depth_image
  split_ifs
  · exact tableStep_refl r
  · exact tableStep_trans (tableStep_complete_frame cfg r synchronous)
      (tableStep_of_eq (log_same rfl (log_refl _)) rfl)
  · exact tableStep_of_eq (log_same rfl (log_refl _)) rfl

theorem tableStep_set_color_image (cfg : Config) (r : Renderer) (addr format pixel_size width : Nat)
    (synchronous : Bool) :
    TableStep r (set_color_image cfg r addr format pixel_size width synchronous) := by
  unfold set_color_image
  have h2 : TableStep r
      { complete_frame cfg r synchronous with framebuffer :=
        { (complete_frame cfg r synchronous).framebuffer with
          addr := addr, format := format, width := width, pixel_size := pixel_size } } :=
    tableStep_trans (tableStep_complete_frame cfg r synchronous)
      (tableStep_of_eq (log_same rfl (log_refl _)) rfl)
  dsimp only
  split_ifs
  all_goals first
    | exact tableStep_refl r
    | exact h2
    | exact tableStep_trans h2 (tableStep_set_framebuffer_size cfg _ _ _)

theorem tableStep_draw_begin (cfg : Config) (r : Renderer) (d : DrawCall) :
    TableStep r (draw_begin cfg r d) := by
  unfold draw_begin
  dsimp only
  have h1 : TableStep r
      (if (clip_scissor r.scissor d.min_x d.max_x d.min_y d.max_y).2.2.2
          ≥ (r.framebuffer.allocated_height : Int)
       then set_framebuffer_size cfg r r.framebuffer.allocated_width
         ((clip_scissor r.scissor d.min_x d.max_x d.min_y d.max_y).2.2.2 + 1).toNat
       else r) := by
    split_ifs
    · exact tableStep_set_framebuffer_size cfg r _ _
    · exact tableStep_refl r
  refine tableStep_trans h1 (tableStep_of_eq
    (log_assert _ _ (log_assert _ _ (log_same ?_ (log_refl _)))) ?_)
  · rw [update_tiles_frame]
  · rw [assert_eq, assert_eq, update_tiles_frame]

/-- A step of the table keeps the table below its maximum and the uploaded batches within it. -/
theorem combinersBounded_of_tableStep (cfg : Config) {r r' : Renderer}
    (h : CombinersBounded cfg r) (hs : TableStep r r') : CombinersBounded cfg r' := by
  obtain ⟨hlen, hlog⟩ := h
  obtain ⟨l1, es, e1, f1⟩ := hs
  refine ⟨Nat.lt_of_le_of_lt l1 hlen, ?_⟩
  intro b hb
  rw [e1] at hb
  rcases List.mem_append.mp hb with h | h
  · exact hlog b h
  · exact Nat.le_trans (f1 b h) (Nat.le_of_lt hlen)

/-- The combiner block of `draw_primitive` adds at most one entry, raises the flush flag when
the table reaches the maximum, and appends no batch upload to the log. -/
theorem draw_combiner_table (cfg : Config) (r : Renderer) (cycle_type : Nat)
    (h : r.combiner_data.length < cfg.RDP_MAX_COMBINERS) :
    ((draw_combiner cfg r cycle_type).1.combiner_data.length < cfg.RDP_MAX_COMBINERS ∨
     ((draw_combiner cfg r cycle_type).1.combiner_data.length ≤ cfg.RDP_MAX_COMBINERS ∧
      (draw_combiner cfg r cycle_type).2.2 = true)) ∧
    (draw_combiner cfg r cycle_type).1.primitive_data = r.primitive_data ∧
    (draw_combiner cfg r cycle_type).1.work_data = r.work_data ∧
    ∃ es, (draw_combiner cfg r cycle_type).1.log = r.log ++ es ∧ NoFlush es := by
  unfold draw_combiner
  dsimp only
  by_cases hc : cycle_type = cfg.CYCLE_TYPE_1 ∨ cycle_type = cfg.CYCLE_TYPE_2
  · rw [if_pos hc]
    by_cases hd : r.state.combiners_dirty = true
    · rw [if_pos hd]
      cases hf : combiner_map_find r.state.combiner_map (cfg.hash64 (update_static_combiner r.state)) with
      | some index =>
        dsimp only
        exact ⟨Or.inl (by rw [assert_eq]; exact h), by rw [assert_eq], by rw [assert_eq],
          log_assert _ _ (log_same rfl (log_refl r))⟩
      | none =>
        dsimp only
        refine ⟨?_, by rw [assert_eq], by rw [assert_eq],
          log_assert _ _ (log_same rfl (log_refl r))⟩
        rw [assert_eq]
        dsimp only
        by_cases hm : (r.combiner_data ++ [update_static_combiner r.state]).length
            ≥ cfg.RDP_MAX_COMBINERS
        · refine Or.inr ⟨?_, by simpa using hm⟩
          rw [List.length_append, List.length_singleton]
          omega
        · exact Or.inl (by omega)
    · rw [if_neg hd]
      dsimp only
      exact ⟨Or.inl (by rw [assert_eq]; exact h), by rw [assert_eq], by rw [assert_eq],
        log_assert _ _ (log_refl r)⟩
  · rw [if_neg hc]
    exact ⟨Or.inl h, rfl, rfl, log_refl r⟩

theorem draw_record_table (cfg : Config) (r : Renderer) (d : DrawCall)
    (h : r.combiner_data.length < cfg.RDP_MAX_COMBINERS) :
    ((draw_record cfg r d).1.combiner_data.length < cfg.RDP_MAX_COMBINERS ∨
     ((draw_record cfg r d).1.combiner_data.length ≤ cfg.RDP_MAX_COMBINERS ∧
      (draw_record cfg r d).2 = true)) ∧
    (draw_record cfg r d).1.primitive_data ≠ [] ∧
    (draw_record cfg r d).1.work_data = r.work_data ∧
    ∃ es, (draw_record cfg r d).1.log = r.log ++ es ∧ NoFlush es := by
  unfold draw_record
  dsimp only
  have h5 : (if r.framebuffer.color_state = FRAMEBUFFER_CPU
      then r.set_color_state FRAMEBUFFER_STALE_GPU else r).combiner_data = r.combiner_data ∧
      (if r.framebuffer.color_state = FRAMEBUFFER_CPU
      then r.set_color_state FRAMEBUFFER_STALE_GPU else r).work_data = r.work_data ∧
      ∃ es, (if r.framebuffer.color_state = FRAMEBUFFER_CPU
      then r.set_color_state FRAMEBUFFER_STALE_GPU else r).log = r.log ++ es ∧ NoFlush es := by
    split_ifs
    · exact ⟨rfl, rfl, log_set_color_state _ (log_refl r)⟩
    · exact ⟨rfl, rfl, log_refl r⟩
  generalize (if r.framebuffer.color_state = FRAMEBUFFER_CPU
    then r.set_color_state FRAMEBUFFER_STALE_GPU else r) = r5 at h5
  obtain ⟨c5, w5, l5⟩ := h5
  have h6 : (if r5.framebuffer.depth_state = FRAMEBUFFER_CPU ∧
          (build_attr cfg d.prim d.attr r.state.primitive_z).2.1 &&&
            (cfg.RDP_FLAG_Z_UPDATE ||| cfg.RDP_FLAG_Z_COMPARE) ≠ 0
       then r5.set_depth_state FRAMEBUFFER_STALE_GPU else r5).combiner_data = r.combiner_data ∧
      (if r5.framebuffer.depth_state = FRAMEBUFFER_CPU ∧
          (build_attr cfg d.prim d.attr r.state.primitive_z).2.1 &&&
            (cfg.RDP_FLAG_Z_UPDATE ||| cfg.RDP_FLAG_Z_COMPARE) ≠ 0
       then r5.set_depth_state FRAMEBUFFER_STALE_GPU else r5).work_data = r.work_data ∧
      ∃ es, (if r5.framebuffer.depth_state = FRAMEBUFFER_CPU ∧
          (build_attr cfg d.prim d.attr r.state.primitive_z).2.1 &&&
            (cfg.RDP_FLAG_Z_UPDATE ||| cfg.RDP_FLAG_Z_COMPARE) ≠ 0
       then r5.set_depth_state FRAMEBUFFER_STALE_GPU else r5).log = r.log ++ es ∧ NoFlush es := by
    split_ifs
    · exact ⟨c5, w5, log_set_depth_state _ l5⟩
    · exact ⟨c5, w5, l5⟩
  generalize (if r5.framebuffer.depth_state = FRAMEBUFFER_CPU ∧
          (build_attr cfg d.prim d.attr r.state.primitive_z).2.1 &&&
            (cfg.RDP_FLAG_Z_UPDATE ||| cfg.RDP_FLAG_Z_COMPARE) ≠ 0
       then r5.set_depth_state FRAMEBUFFER_STALE_GPU else r5) = r6 at h6
  obtain ⟨c6, w6, es6, l6, n6⟩ := h6
  obtain ⟨hlen, _, hw, es, hl, hes⟩ :=
    draw_combiner_table cfg r6 ((d.prim.flags >>> cfg.RDP_FLAG_CYCLE_TYPE_SHIFT) &&& 3)
      (by rw [c6]; exact h)
  generalize draw_combiner cfg r6 ((d.prim.flags >>> cfg.RDP_FLAG_CYCLE_TYPE_SHIFT) &&& 3) = comb
    at hlen hw hl
  refine ⟨?_, by simp, by rw [hw, w6], es6 ++ es, by rw [hl, l6, List.append_assoc],
    noFlush_append n6 hes⟩
  rcases hlen with h1 | ⟨h1, h2⟩
  · exact Or.inl h1
  · exact Or.inr ⟨h1, by rw [h2]; rfl⟩

theorem bin_tile_flag (cfg : Config) (prim : Primitive) (min_x max_x min_y max_y : Int)
    (num_tris : Nat) (y : Int) (acc : Renderer × Bool) (x : Int) (h : acc.2 = true) :
    (bin_tile cfg prim min_x max_x min_y max_y num_tris y acc x).2 = true := by
  unfold bin_tile
  dsimp only
  split_ifs
  · rw [h]; rfl
  · exact h

theorem bin_tiles_flag (cfg : Config) (prim : Primitive) (min_x max_x min_y max_y : Int)
    (num_tris : Nat) (min_tile_x max_tile_x min_tile_y max_tile_y : Int) (acc : Renderer × Bool)
    (h : acc.2 = true) :
    (bin_tiles cfg prim min_x max_x min_y max_y num_tris
      min_tile_x max_tile_x min_tile_y max_tile_y acc).2 = true := by
  unfold bin_tiles
  have row : ∀ (y : Int) (xs : List Int) (acc : Renderer × Bool), acc.2 = true →
      (xs.foldl (bin_tile cfg prim min_x max_x min_y max_y num_tris y) acc).2 = true := by
    intro y xs
    induction xs with
    | nil => intro acc h; exact h
    | cons x xs ih =>
      intro acc h
      exact ih _ (bin_tile_flag cfg prim _ _ _ _ _ y acc x h)
  generalize int_range min_tile_y max_tile_y = ys
  induction ys generalizing acc with
  | nil => exact h
  | cons y ys ih => exact ih _ (row y _ acc h)

theorem append_tile_list_work_data (cfg : Config) (r : Renderer) (idx : Int)
    (primitive tile : Nat) :
    (append_tile_list cfg r idx primitive tile).work_data = r.work_data := by
  unfold append_tile_list
  dsimp only
  split_ifs <;> rfl

theorem bin_tile_work_data (cfg : Config) (prim : Primitive) (min_x max_x min_y max_y : Int)
    (num_tris : Nat) (y : Int) (acc : Renderer × Bool) (x : Int) :
    (bin_tile cfg prim min_x max_x min_y max_y num_tris y acc x).1.work_data.length +
        acc.1.raster_tile_count =
      acc.1.work_data.length +
        (bin_tile cfg prim min_x max_x min_y max_y num_tris y acc x).1.raster_tile_count := by
  unfold bin_tile
  dsimp only
  split_ifs
  · simp only [append_tile_list_work_data, append_tile_list_raster_tile_count,
      List.length_append, List.length_singleton]
    omega
  · rfl

theorem bin_tiles_work_data (cfg : Config) (prim : Primitive) (min_x max_x min_y max_y : Int)
    (num_tris : Nat) (min_tile_x max_tile_x min_tile_y max_tile_y : Int) (acc : Renderer × Bool) :
    (bin_tiles cfg prim min_x max_x min_y max_y num_tris
      min_tile_x max_tile_x min_tile_y max_tile_y acc).1.work_data.length +
        acc.1.raster_tile_count =
      acc.1.work_data.length +
        (bin_tiles cfg prim min_x max_x min_y max_y num_tris
          min_tile_x max_tile_x min_tile_y max_tile_y acc).1.raster_tile_count := by
  unfold bin_tiles
  have row : ∀ (y : Int) (xs : List Int) (acc : Renderer × Bool),
      (xs.foldl (bin_tile cfg prim min_x max_x min_y max_y num_tris y) acc).1.work_data.length +
        acc.1.raster_tile_count =
      acc.1.work_data.length +
        (xs.foldl (bin_tile cfg prim min_x max_x min_y max_y num_tris y) acc).1.raster_tile_count := by
    intro y xs
    induction xs with
    | nil => intro acc; rfl
    | cons x xs ih =>
      intro acc
      have h1 := bin_tile_work_data cfg prim min_x max_x min_y max_y num_tris y acc x
      have h2 := ih (bin_tile cfg prim min_x max_x min_y max_y num_tris y acc x)
      rw [List.foldl_cons]
      omega
  generalize int_range min_tile_y max_tile_y = ys
  induction ys generalizing acc with
  | nil => rfl
  | cons y ys ih =>
    have h1 := row y (int_range min_tile_x max_tile_x) acc
    have h2 := ih ((int_range min_tile_x max_tile_x).foldl
      (bin_tile cfg prim min_x max_x min_y max_y num_tris y) acc)
    rw [List.foldl_cons]
    omega

/-- A `draw_primitive` call that binds a tile keeps the table below its maximum: when the
combiner block takes the table to the maximum, the flush at the end of the call goes through
and empties it. -/
theorem combinersBounded_draw_primitive (cfg : Config) (r : Renderer) (d : DrawCall)
    (h : CombinersBounded cfg r) (hb : bound_tiles cfg r d ≠ []) :
    CombinersBounded cfg (draw_primitive cfg r d) := by
  have h4 := combinersBounded_of_tableStep cfg h (tableStep_draw_begin cfg r d)
  obtain ⟨hlen, hp, hw, es, hl, hes⟩ := draw_record_table cfg (draw_begin cfg r d) d h4.1
  have hbin := binOnly_bin_tiles cfg d.prim
      (clip_scissor r.scissor d.min_x d.max_x d.min_y d.max_y).1
      (clip_scissor r.scissor d.min_x d.max_x d.min_y d.max_y).2.1
      (clip_scissor r.scissor d.min_x d.max_x d.min_y d.max_y).2.2.1
      (clip_scissor r.scissor d.min_x d.max_x d.min_y d.max_y).2.2.2
      (draw_begin cfg r d).primitive_data.length
      (max (Int.tdiv (clip_scissor r.scissor d.min_x d.max_x d.min_y d.max_y).1 cfg.TILE_SIZE_X) 0)
      (min (Int.tdiv (clip_scissor r.scissor d.min_x d.max_x d.min_y d.max_y).2.1 cfg.TILE_SIZE_X)
        (((draw_begin cfg r d).tiles_x : Int) - 1))
      (Int.tdiv (clip_scissor r.scissor d.min_x d.max_x d.min_y d.max_y).2.2.1 cfg.TILE_SIZE_Y)
      (Int.tdiv (clip_scissor r.scissor d.min_x d.max_x d.min_y d.max_y).2.2.2 cfg.TILE_SIZE_Y)
      (draw_record cfg (draw_begin cfg r d) d)
  have hflag := bin_tiles_flag cfg d.prim
      (clip_scissor r.scissor d.min_x d.max_x d.min_y d.max_y).1
      (clip_scissor r.scissor d.min_x d.max_x d.min_y d.max_y).2.1
      (clip_scissor r.scissor d.min_x d.max_x d.min_y d.max_y).2.2.1
      (clip_scissor r.scissor d.min_x d.max_x d.min_y d.max_y).2.2.2
      (draw_begin cfg r d).primitive_data.length
      (max (Int.tdiv (clip_scissor r.scissor d.min_x d.max_x d.min_y d.max_y).1 cfg.TILE_SIZE_X) 0)
      (min (Int.tdiv (clip_scissor r.scissor d.min_x d.max_x d.min_y d.max_y).2.1 cfg.TILE_SIZE_X)
        (((draw_begin cfg r d).tiles_x : Int) - 1))
      (Int.tdiv (clip_scissor r.scissor d.min_x d.max_x d.min_y d.max_y).2.2.1 cfg.TILE_SIZE_Y)
      (Int.tdiv (clip_scissor r.scissor d.min_x d.max_x d.min_y d.max_y).2.2.2 cfg.TILE_SIZE_Y)
      (draw_record cfg (draw_begin cfg r d) d)
  have hwork := bin_tiles_work_data cfg d.prim
      (clip_scissor r.scissor d.min_x d.max_x d.min_y d.max_y).1
      (clip_scissor r.scissor d.min_x d.max_x d.min_y d.max_y).2.1
      (clip_scissor r.scissor d.min_x d.max_x d.min_y d.max_y).2.2.1
      (clip_scissor r.scissor d.min_x d.max_x d.min_y d.max_y).2.2.2
      (draw_begin cfg r d).primitive_data.length
      (max (Int.tdiv (clip_scissor r.scissor d.min_x d.max_x d.min_y d.max_y).1 cfg.TILE_SIZE_X) 0)
      (min (Int.tdiv (clip_scissor r.scissor d.min_x d.max_x d.min_y d.max_y).2.1 cfg.TILE_SIZE_X)
        (((draw_begin cfg r d).tiles_x : Int) - 1))
      (Int.tdiv (clip_scissor r.scissor d.min_x d.max_x d.min_y d.max_y).2.2.1 cfg.TILE_SIZE_Y)
      (Int.tdiv (clip_scissor r.scissor d.min_x d.max_x d.min_y d.max_y).2.2.2 cfg.TILE_SIZE_Y)
      (draw_record cfg (draw_begin cfg r d) d)
  have hrast := bin_tiles_raster_tile_count cfg d.prim
      (clip_scissor r.scissor d.min_x d.max_x d.min_y d.max_y).1
      (clip_scissor r.scissor d.min_x d.max_x d.min_y d.max_y).2.1
      (clip_scissor r.scissor d.min_x d.max_x d.min_y d.max_y).2.2.1
      (clip_scissor r.scissor d.min_x d.max_x d.min_y d.max_y).2.2.2
      (draw_begin cfg r d).primitive_data.length
      (max (Int.tdiv (clip_scissor r.scissor d.min_x d.max_x d.min_y d.max_y).1 cfg.TILE_SIZE_X) 0)
      (min (Int.tdiv (clip_scissor r.scissor d.min_x d.max_x d.min_y d.max_y).2.1 cfg.TILE_SIZE_X)
        (((draw_begin cfg r d).tiles_x : Int) - 1))
      (Int.tdiv (clip_scissor r.scissor d.min_x d.max_x d.min_y d.max_y).2.2.1 cfg.TILE_SIZE_Y)
      (Int.tdiv (clip_scissor r.scissor d.min_x d.max_x d.min_y d.max_y).2.2.2 cfg.TILE_SIZE_Y)
      (draw_record cfg (draw_begin cfg r d) d)
  have hbl : 0 < (bound_tiles cfg r d).length := List.length_pos.mpr hb
  unfold bound_tiles at hbl
  dsimp only at hbl
  unfold draw_primitive
  dsimp only
  generalize bin_tiles cfg d.prim
      (clip_scissor r.scissor d.min_x d.max_x d.min_y d.max_y).1
      (clip_scissor r.scissor d.min_x d.max_x d.min_y d.max_y).2.1
      (clip_scissor r.scissor d.min_x d.max_x d.min_y d.max_y).2.2.1
      (clip_scissor r.scissor d.min_x d.max_x d.min_y d.max_y).2.2.2
      (draw_begin cfg r d).primitive_data.length
      (max (Int.tdiv (clip_scissor r.scissor d.min_x d.max_x d.min_y d.max_y).1 cfg.TILE_SIZE_X) 0)
      (min (Int.tdiv (clip_scissor r.scissor d.min_x d.max_x d.min_y d.max_y).2.1 cfg.TILE_SIZE_X)
        (((draw_begin cfg r d).tiles_x : Int) - 1))
      (Int.tdiv (clip_scissor r.scissor d.min_x d.max_x d.min_y d.max_y).2.2.1 cfg.TILE_SIZE_Y)
      (Int.tdiv (clip_scissor r.scissor d.min_x d.max_x d.min_y d.max_y).2.2.2 cfg.TILE_SIZE_Y)
      (draw_record cfg (draw_begin cfg r d) d) = binned at hbin hflag hwork hrast
  have hcd : binned.1.combiner_data = (draw_record cfg (draw_begin cfg r d) d).1.combiner_data := by
    rw [hbin]
  have hpd : binned.1.primitive_data = (draw_record cfg (draw_begin cfg r d) d).1.primitive_data := by
    rw [hbin]
  have hlg : binned.1.log = (draw_record cfg (draw_begin cfg r d) d).1.log := by
    rw [hbin]
  have hlogb : ∀ b, Event.flush b ∈ binned.1.log → b.combiners.length ≤ cfg.RDP_MAX_COMBINERS := by
    intro b hb
    rw [hlg, hl] at hb
    rcases List.mem_append.mp hb with h | h
    · exact h4.2 b h
    · exact absurd rfl (hes _ h b)
  have hle : binned.1.combiner_data.length ≤ cfg.RDP_MAX_COMBINERS := by
    rw [hcd]
    rcases hlen with h1 | ⟨h1, _⟩
    · exact Nat.le_of_lt h1
    · exact h1
  by_cases hf : binned.2 = true
  · rw [if_pos hf]
    obtain ⟨⟨_, es2, e2, f2⟩, hempty⟩ := flush_tile_lists_table cfg binned.1
    have hwne : binned.1.work_data ≠ [] := by
      intro h0
      rw [h0, List.length_nil] at hwork
      omega
    refine ⟨?_, ?_⟩
    · rw [hempty (by rw [hpd]; exact hp) hwne]
      exact Nat.lt_of_le_of_lt (Nat.zero_le _) h4.1
    · intro b hb
      rw [e2] at hb
      rcases List.mem_append.mp hb with h | h
      · exact hlogb b h
      · exact Nat.le_trans (f2 b h) hle
  · rw [if_neg hf]
    refine ⟨?_, hlogb⟩
    rw [hcd]
    rcases hlen with h1 | ⟨_, h2⟩
    · exact h1
    · exact absurd (hflag h2) hf

theorem tableStep_step (cfg : Config) (r : Renderer) (op : Op)
    (h : ∀ d, op ≠ Op.draw_primitive d) : TableStep r (step cfg r op) := by
  cases op with
  | set_depth_image addr synchronous => exact tableStep_set_depth_image cfg r addr synchronous
  | set_color_image addr format pixel_size width synchronous =>
    exact tableStep_set_color_image cfg r addr format pixel_size width synchronous
  | set_framebuffer_size width height => exact tableStep_set_framebuffer_size cfg r width height
  | draw_primitive d => exact absurd rfl (h d)
  | flush_tile_lists => exact (flush_tile_lists_table cfg r).1
  | complete_frame synchronous => exact tableStep_complete_frame cfg r synchronous
  | sync_full => exact tableStep_sync_full cfg r
  | begin_index index =>
    show TableStep r (begin_index r index)
    rw [begin_index_eq]
    exact tableStep_of_eq ⟨_, rfl, noFlush_flatMap_copy_back_log _⟩ rfl
  | check_tmem_feedback addr synchronous =>
    show TableStep r (check_tmem_feedback cfg r addr synchronous)
    unfold check_tmem_feedback
    split_ifs
    · exact tableStep_complete_frame cfg r synchronous
    · exact tableStep_complete_frame cfg r synchronous
    · exact tableStep_refl r
  | fill_rect_cpu xmin xmax ymin ymax =>
    show TableStep r (fill_rect_cpu cfg r xmin xmax ymin ymax)
    unfold fill_rect_cpu
    dsimp only
    exact tableStep_of_eq (log_emit _ (by simp) (log_assert _ _ (log_same rfl (log_refl r))))
      (by rw [Renderer.emit, assert_eq])
  | _ => exact tableStep_of_eq (log_same rfl (log_refl r)) rfl

theorem combinersBounded_run (cfg : Config) (ops : List Op) (r : Renderer)
    (h : CombinersBounded cfg r) (hb : EveryDrawBinds cfg r ops) :
    CombinersBounded cfg (run cfg r ops) := by
  unfold run
  induction ops generalizing r with
  | nil => exact h
  | cons op ops ih =>
    obtain ⟨h1, h2⟩ := hb
    refine ih _ ?_ h2
    by_cases hd : ∃ d, op = Op.draw_primitive d
    · obtain ⟨d, rfl⟩ := hd
      exact combinersBounded_draw_primitive cfg r d h h1
    · exact combinersBounded_of_tableStep cfg h
        (tableStep_step cfg r op (fun d hop => hd ⟨d, hop⟩))

theorem combinersBounded_init (cfg : Config) (hmax : 0 < cfg.RDP_MAX_COMBINERS) :
    CombinersBounded cfg (Renderer.init cfg) :=
  ⟨hmax, by intro b hb; simp [Renderer.init] at hb⟩

/-- The bound of the combiner table on the runs whose flushes go through.  When the maximum is
not zero and every `draw_primitive` call of the run binds at least one tile, then after every
call the combiner table holds fewer than `RDP_MAX_COMBINERS` entries, and no batch handed to
the GPU held more than `RDP_MAX_COMBINERS`: the entry that takes the table to the maximum is
added first, and the flush at the end of the same call uploads it with the batch and empties
the table. -/
theorem combiner_table_below_maximum (cfg : Config) (ops : List Op)
    (hmax : 0 < cfg.RDP_MAX_COMBINERS) (hb : EveryDrawBinds cfg (Renderer.init cfg) ops) :
    (run cfg (Renderer.init cfg) ops).combiner_data.length < cfg.RDP_MAX_COMBINERS ∧
    ∀ b, Event.flush b ∈ (run cfg (Renderer.init cfg) ops).log →
      b.combiners.length ≤ cfg.RDP_MAX_COMBINERS :=
  combinersBounded_run cfg ops (Renderer.init cfg) (combinersBounded_init cfg hmax) hb

set_option maxRecDepth 100000 in
/-- An instance of the bound: under a table of two entries, three 1-cycle draws with three
environment colours, each on one tile.  The second draw takes the table to two entries and
flushes; one entry is pending after the third. -/
theorem combiner_table_below_maximum_witness :
    0 < Config.small.RDP_MAX_COMBINERS ∧
    EveryDrawBinds Config.small (Renderer.init Config.small)
      [Op.set_color_image 0 0 2 320 false, Op.set_scissor 0 0 1280 960, Op.set_combine 160 0,
       Op.set_env_color 256, Op.draw_primitive (rect_draw 0 3 0 3),
       Op.set_env_color 512, Op.draw_primitive (rect_draw 8 11 0 3),
       Op.set_env_color 768, Op.draw_primitive (rect_draw 0 3 0 3)] ∧
    (run Config.small (Renderer.init Config.small)
      [Op.set_color_image 0 0 2 320 false, Op.set_scissor 0 0 1280 960, Op.set_combine 160 0,
       Op.set_env_color 256, Op.draw_primitive (rect_draw 0 3 0 3),
       Op.set_env_color 512, Op.draw_primitive (rect_draw 8 11 0 3),
       Op.set_env_color 768, Op.draw_primitive (rect_draw 0 3 0 3)]).combiner_data.length = 1 ∧
    ((run Config.small (Renderer.init Config.small)
      [Op.set_color_image 0 0 2 320 false, Op.set_scissor 0 0 1280 960, Op.set_combine 160 0,
       Op.set_env_color 256, Op.draw_primitive (rect_draw 0 3 0 3),
       Op.set_env_color 512, Op.draw_primitive (rect_draw 8 11 0 3),
       Op.set_env_color 768, Op.draw_primitive (rect_draw 0 3 0 3)]).combiner_data.length
        < Config.small.RDP_MAX_COMBINERS ∧
     ∀ b, Event.flush b ∈ (run Config.small (Renderer.init Config.small)
      [Op.set_color_image 0 0 2 320 false, Op.set_scissor 0 0 1280 960, Op.set_combine 160 0,
       Op.set_env_color 256, Op.draw_primitive (rect_draw 0 3 0 3),
       Op.set_env_color 512, Op.draw_primitive (rect_draw 8 11 0 3),
       Op.set_env_color 768, Op.draw_primitive (rect_draw 0 3 0 3)]).log →
      b.combiners.length ≤ Config.small.RDP_MAX_COMBINERS) :=
  ⟨by decide,
   by simp only [EveryDrawBinds, binds_tile, and_true, true_and]; decide,
   by decide,
   combiner_table_below_maximum Config.small _ (by decide)
     (by simp only [EveryDrawBinds, binds_tile, and_true, true_and]; decide)⟩

end RDP

namespace RDP

/-! ## The resolved combiner state and the registers -/

theorem vec4_eq (a b : Vec4) (h0 : a.e0 = b.e0) (h1 : a.e1 = b.e1) (h2 : a.e2 = b.e2)
    (h3 : a.e3 = b.e3) : a = b := by
  cases a
  cases b
  simp only [Vec4.mk.injEq]
  exact ⟨h0, h1, h2, h3⟩

theorem resolve_alpha_lanes (st : RegisterState) (a : Nat) (v : Vec4) :
    (resolve_alpha st a v).e0 = v.e0 ∧ (resolve_alpha st a v).e1 = v.e1 ∧
    (resolve_alpha st a v).e2 = v.e2 ∧
    (resolve_alpha st a v).e3 =
      (if a = 3 then u8 (st.prim_color >>> 0) else if a = 5 then u8 (st.env_color >>> 0)
       else if a = 6 then 0x100 else 0) := by
  unfold resolve_alpha
  split_ifs <;> exact ⟨rfl, rfl, rfl, rfl⟩

theorem resolve_alpha_mul_lanes (st : RegisterState) (a : Nat) (v : Vec4) :
    (resolve_alpha_mul st a v).e0 = v.e0 ∧ (resolve_alpha_mul st a v).e1 = v.e1 ∧
    (resolve_alpha_mul st a v).e2 = v.e2 ∧
    (resolve_alpha_mul st a v).e3 =
      (if a = 3 then u8 (st.prim_color >>> 0) else if a = 5 then u8 (st.env_color >>> 0)
       else if a = 6 then st.prim_lod_frac else 0) := by
  unfold resolve_alpha_mul
  split_ifs <;> exact ⟨rfl, rfl, rfl, rfl⟩

theorem resolve_color_sub_a_lanes (st st' : RegisterState) (c : Nat) (v v' : Vec4)
    (hp : st.prim_color = st'.prim_color) (he : st.env_color = st'.env_color) :
    (resolve_color_sub_a st c v).e0 = (resolve_color_sub_a st' c v').e0 ∧
    (resolve_color_sub_a st c v).e1 = (resolve_color_sub_a st' c v').e1 ∧
    (resolve_color_sub_a st c v).e2 = (resolve_color_sub_a st' c v').e2 := by
  unfold resolve_color_sub_a color_lanes splat3
  rw [hp, he]
  split_ifs <;> exact ⟨rfl, rfl, rfl⟩

theorem resolve_color_add_lanes (st st' : RegisterState) (c : Nat) (v v' : Vec4)
    (hp : st.prim_color = st'.prim_color) (he : st.env_color = st'.env_color) :
    (resolve_color_add st c v).e0 = (resolve_color_add st' c v').e0 ∧
    (resolve_color_add st c v).e1 = (resolve_color_add st' c v').e1 ∧
    (resolve_color_add st c v).e2 = (resolve_color_add st' c v').e2 := by
  unfold resolve_color_add color_lanes splat3
  rw [hp, he]
  split_ifs <;> exact ⟨rfl, rfl, rfl⟩

theorem resolve_color_sub_b_lanes (st st' : RegisterState) (c : Nat) (v v' : Vec4)
    (hp : st.prim_color = st'.prim_color) (he : st.env_color = st'.env_color)
    (hk : st.k4 = st'.k4) (hc : c ≠ 6) :
    (resolve_color_sub_b st c v).e0 = (resolve_color_sub_b st' c v').e0 ∧
    (resolve_color_sub_b st c v).e1 = (resolve_color_sub_b st' c v').e1 ∧
    (resolve_color_sub_b st c v).e2 = (resolve_color_sub_b st' c v').e2 := by
  unfold resolve_color_sub_b color_lanes splat3
  rw [hp, he, hk]
  by_cases h3 : c = 3
  · simp [h3]
  · by_cases h5 : c = 5
    · simp [h3, h5]
    · by_cases h7 : c = 7
      · simp [h3, h5, hc, h7]
      · simp [h3, h5, hc, h7]

theorem resolve_color_mul_lanes (st st' : RegisterState) (c : Nat) (v v' : Vec4)
    (hp : st.prim_color = st'.prim_color) (he : st.env_color = st'.env_color)
    (hf : st.prim_lod_frac = st'.prim_lod_frac) (hk : st.k5 = st'.k5) (hc : c ≠ 6) :
    (resolve_color_mul st c v).e0 = (resolve_color_mul st' c v').e0 ∧
    (resolve_color_mul st c v).e1 = (resolve_color_mul st' c v').e1 ∧
    (resolve_color_mul st c v).e2 = (resolve_color_mul st' c v').e2 := by
  unfold resolve_color_mul color_lanes splat3
  rw [hp, he, hf, hk]
  by_cases h3 : c = 3
  · simp [h3]
  · by_cases h5 : c = 5
    · simp [h3, h5]
    · by_cases h10 : c = 10
      · simp [h3, h5, hc, h10]
      · by_cases h12 : c = 12
        · simp [h3, h5, hc, h10, h12]
        · by_cases h14 : c = 14
          · simp [h3, h5, hc, h10, h12, h14]
          · by_cases h15 : c = 15
            · simp [h3, h5, hc, h10, h12, h14, h15]
            · simp [h3, h5, hc, h10, h12, h14, h15]

theorem resolve_sub_a_registers (st st' : RegisterState) (c a : Nat) (v v' : Vec4)
    (hp : st.prim_color = st'.prim_color) (he : st.env_color = st'.env_color) :
    resolve_alpha st a (resolve_color_sub_a st c v) =
      resolve_alpha st' a (resolve_color_sub_a st' c v') := by
  obtain ⟨a0, a1, a2, a3⟩ := resolve_alpha_lanes st a (resolve_color_sub_a st c v)
  obtain ⟨b0, b1, b2, b3⟩ := resolve_alpha_lanes st' a (resolve_color_sub_a st' c v')
  obtain ⟨c0, c1, c2⟩ := resolve_color_sub_a_lanes st st' c v v' hp he
  exact vec4_eq _ _ (by rw [a0, b0, c0]) (by rw [a1, b1, c1]) (by rw [a2, b2, c2])
    (by rw [a3, b3, hp, he])

theorem resolve_add_registers (st st' : RegisterState) (c a : Nat) (v v' : Vec4)
    (hp : st.prim_color = st'.prim_color) (he : st.env_color = st'.env_color) :
    resolve_alpha st a (resolve_color_add st c v) =
      resolve_alpha st' a (resolve_color_add st' c v') := by
  obtain ⟨a0, a1, a2, a3⟩ := resolve_alpha_lanes st a (resolve_color_add st c v)
  obtain ⟨b0, b1, b2, b3⟩ := resolve_alpha_lanes st' a (resolve_color_add st' c v')
  obtain ⟨c0, c1, c2⟩ := resolve_color_add_lanes st st' c v v' hp he
  exact vec4_eq _ _ (by rw [a0, b0, c0]) (by rw [a1, b1, c1]) (by rw [a2, b2, c2])
    (by rw [a3, b3, hp, he])

theorem resolve_sub_b_registers (st st' : RegisterState) (c a : Nat) (v v' : Vec4)
    (hp : st.prim_color = st'.prim_color) (he : st.env_color = st'.env_color)
    (hk : st.k4 = st'.k4) (hc : c ≠ 6) :
    resolve_alpha st a (resolve_color_sub_b st c v) =
      resolve_alpha st' a (resolve_color_sub_b st' c v') := by
  obtain ⟨a0, a1, a2, a3⟩ := resolve_alpha_lanes st a (resolve_color_sub_b st c v)
  obtain ⟨b0, b1, b2, b3⟩ := resolve_alpha_lanes st' a (resolve_color_sub_b st' c v')
  obtain ⟨c0, c1, c2⟩ := resolve_color_sub_b_lanes st st' c v v' hp he hk hc
  exact vec4_eq _ _ (by rw [a0, b0, c0]) (by rw [a1, b1, c1]) (by rw [a2, b2, c2])
    (by rw [a3, b3, hp, he])

theorem resolve_mul_registers (st st' : RegisterState) (c a : Nat) (v v' : Vec4)
    (hp : st.prim_color = st'.prim_color) (he : st.env_color = st'.env_color)
    (hf : st.prim_lod_frac = st'.prim_lod_frac) (hk : st.k5 = st'.k5) (hc : c ≠ 6) :
    resolve_alpha_mul st a (resolve_color_mul st c v) =
      resolve_alpha_mul st' a (resolve_color_mul st' c v') := by
  obtain ⟨a0, a1, a2, a3⟩ := resolve_alpha_mul_lanes st a (resolve_color_mul st c v)
  obtain ⟨b0, b1, b2, b3⟩ := resolve_alpha_mul_lanes st' a (resolve_color_mul st' c v')
  obtain ⟨c0, c1, c2⟩ := resolve_color_mul_lanes st st' c v v' hp he hf hk hc
  exact vec4_eq _ _ (by rw [a0, b0, c0]) (by rw [a1, b1, c1]) (by rw [a2, b2, c2])
    (by rw [a3, b3, hp, he, hf])

theorem resolve_cycle_registers (st st' : RegisterState) (color alpha : CombinerInputs)
    (cycle cycle' : CombinerCycle)
    (hp : st.prim_color = st'.prim_color) (he : st.env_color = st'.env_color)
    (hf : st.prim_lod_frac = st'.prim_lod_frac) (h4 : st.k4 = st'.k4) (h5 : st.k5 = st'.k5)
    (hb : color.sub_b ≠ 6) (hm : color.mul ≠ 6) :
    resolve_cycle st color alpha cycle = resolve_cycle st' color alpha cycle' := by
  unfold resolve_cycle
  rw [resolve_sub_a_registers st st' _ _ cycle.sub_a cycle'.sub_a hp he,
    resolve_add_registers st st' _ _ cycle.add cycle'.add hp he,
    resolve_sub_b_registers st st' _ _ cycle.sub_b cycle'.sub_b hp he h4 hb,
    resolve_mul_registers st st' _ _ cycle.mul cycle'.mul hp he hf h5 hm]

set_option maxRecDepth 100000 in
/-- C4: the resolved combiner state is a function of the register values as long as no colour
`sub_b` or `mul` selector is 6, and is not otherwise.  First part: two register files with the
same selectors, primitive colour and LOD fraction, environment colour, K4 and K5, none of whose
colour `sub_b` and `mul` selectors is 6, resolve to the same combiner state.  Second part: one
batch under the sample configuration, four 1-cycle draws on one tile; the colour `sub_b`
selector of both cycles is 3 (primitive colour) for the first, 6 for the second, 5 (environment
colour) for the third and 6 again for the fourth, and no other register is written in between.
The second and the fourth draw are made under the same register values.  Selector 6 leaves the
three lanes as the draw before resolved them: the primitive colour for the second draw, the
environment colour for the fourth.  The two draws get the combiner indices 1 and 3. -/
theorem stale_lanes_split_combiner_index :
    (∀ st st' : RegisterState, combiner_registers st = combiner_registers st' →
      st.combiners.color.1.sub_b ≠ 6 → st.combiners.color.2.sub_b ≠ 6 →
      st.combiners.color.1.mul ≠ 6 → st.combiners.color.2.mul ≠ 6 →
      update_static_combiner st = update_static_combiner st') ∧
    combiner_registers (run Config.sample (Renderer.init Config.sample)
        (stale_lane_ops ++ [Op.set_combine 0 0x66000000])).state =
      combiner_registers (run Config.sample (Renderer.init Config.sample)
        (stale_lane_ops ++ [Op.set_combine 0 0x66000000, Op.draw_primitive (rect_draw 0 3 0 3),
          Op.set_combine 0 0x55000000, Op.draw_primitive (rect_draw 0 3 0 3),
          Op.set_combine 0 0x66000000])).state ∧
    (run Config.sample (Renderer.init Config.sample)
        (stale_lane_ops ++ [Op.set_combine 0 0x66000000, Op.draw_primitive (rect_draw 0 3 0 3),
          Op.set_combine 0 0x55000000, Op.draw_primitive (rect_draw 0 3 0 3),
          Op.set_combine 0 0x66000000, Op.draw_primitive (rect_draw 0 3 0 3)])).primitive_data.map
      (fun p => p.combiner) = [some 0, some 1, some 2, some 3] ∧
    (run Config.sample (Renderer.init Config.sample)
        (stale_lane_ops ++ [Op.set_combine 0 0x66000000, Op.draw_primitive (rect_draw 0 3 0 3),
          Op.set_combine 0 0x55000000, Op.draw_primitive (rect_draw 0 3 0 3),
          Op.set_combine 0 0x66000000, Op.draw_primitive (rect_draw 0 3 0 3)])).ghost_resolved.map
      (fun g => g.map (fun c => c.cycle.1.sub_b)) =
      [some { e0 := 17, e1 := 34, e2 := 51, e3 := 0 }, some { e0 := 17, e1 := 34, e2 := 51, e3 := 0 },
       some { e0 := 68, e1 := 85, e2 := 102, e3 := 0 },
       some { e0 := 68, e1 := 85, e2 := 102, e3 := 0 }] := by
  refine ⟨?_, by decide, by decide, by decide⟩
  intro st st' hreg hb1 hb2 hm1 hm2
  unfold combiner_registers at hreg
  simp only [Prod.mk.injEq] at hreg
  obtain ⟨hcol, halpha, hp, hf, he, h4, h5⟩ := hreg
  unfold update_static_combiner
  rw [resolve_cycle_registers st st' _ _ st.combiners.cycle.1 st'.combiners.cycle.1 hp he hf h4 h5
      hb1 hm1,
    resolve_cycle_registers st st' _ _ st.combiners.cycle.2 st'.combiners.cycle.2 hp he hf h4 h5
      hb2 hm2]
  dsimp only
  rw [hcol, halpha]

end RDP

namespace RDP

/-! ## The tile lists -/

theorem node_primitive_packed (cfg : Config) (P tile next : Nat)
    (hP : P < 2 ^ cfg.RDP_MAX_PRIMITIVES_LOG2) (hL : cfg.RDP_MAX_PRIMITIVES_LOG2 ≤ 32) :
    node_primitive cfg
      { value := u32 (P ||| (tile <<< cfg.RDP_MAX_PRIMITIVES_LOG2)), next := next } = P := by
  unfold node_primitive u32
  dsimp only
  have h32 : (4294967296 : Nat) = 2 ^ 32 := by norm_num
  rw [h32, Nat.mod_mod_of_dvd _ (Nat.pow_dvd_pow 2 hL)]
  apply Nat.eq_of_testBit_eq
  intro i
  rw [Nat.testBit_mod_two_pow, Nat.testBit_or, Nat.testBit_shiftLeft]
  by_cases h : i < cfg.RDP_MAX_PRIMITIVES_LOG2
  · simp [h, Nat.not_le.mpr h]
  · have h0 : P.testBit i = false :=
      Nat.testBit_lt_two_pow (Nat.lt_of_lt_of_le hP
        (Nat.pow_le_pow_right (by norm_num) (Nat.le_of_not_lt h)))
    simp [h, h0]

theorem reach_lt {nodes : List TileNode} {a b : Nat} (h : Reach nodes a b) : a < nodes.length := by
  cases h with
  | here _ n hn => exact (List.getElem?_eq_some_iff.mp hn).1
  | link _ _ n hn _ => exact (List.getElem?_eq_some_iff.mp hn).1

/-- A walk survives a change of the pool that keeps every node in place and keeps the `next` of
every node whose `next` is in the pool. -/
theorem reach_update {nodes nodes' : List TileNode} {a b : Nat} (h : Reach nodes a b)
    (hk : ∀ (k : Nat) (n : TileNode), nodes[k]? = some n →
      ∃ n', nodes'[k]? = some n' ∧ (n.next < nodes.length → n'.next = n.next)) :
    Reach nodes' a b := by
  induction h with
  | here a n hn =>
    obtain ⟨n', hn', _⟩ := hk a n hn
    exact Reach.here a n' hn'
  | link a b n hn hr ih =>
    obtain ⟨n', hn', hnext⟩ := hk a n hn
    refine Reach.link a b n' hn' ?_
    rw [hnext (reach_lt hr)]
    exact ih

theorem reach_trans {nodes : List TileNode} {a b c : Nat} (h1 : Reach nodes a b)
    (h2 : Reach nodes b c) : Reach nodes a c := by
  induction h1 with
  | here a n hn => exact h2
  | link a b n hn _ ih => exact Reach.link a c n hn (ih h2)

theorem getElem?_snoc_lt {nodes : List TileNode} {node n : TileNode} {k : Nat}
    (h : (nodes ++ [node])[k]? = some n) (hk : k ≠ nodes.length) :
    k < nodes.length ∧ nodes[k]? = some n := by
  rcases Nat.lt_or_ge k nodes.length with hlt | hge
  · rw [List.getElem?_append_left hlt] at h
    exact ⟨hlt, h⟩
  · rw [List.getElem?_append_right hge] at h
    have h0 : k - nodes.length ≠ 0 := by omega
    rw [List.getElem?_eq_none (by simp; omega)] at h
    cases h

theorem getElem?_snoc_last (nodes : List TileNode) (node : TileNode) :
    (nodes ++ [node])[nodes.length]? = some node := by
  rw [List.getElem?_append_right (Nat.le_refl _), Nat.sub_self]
  rfl

/-- The node part of the shape, after the pool got a new last node holding primitive `P`: the
old nodes are as they were, but for tails holding a smaller primitive index that are linked to
the new node. -/
theorem chainInv_nodes (cfg : Config) (N M : List TileNode) (node : TileNode) (P : Nat)
    (hlen : M.length = N.length) (hnode : node_primitive cfg node = P)
    (hnext : node.next = SENTINEL)
    (hA : ∀ (k : Nat) (n : TileNode), N[k]? = some n →
      node_primitive cfg n ≤ P ∧
      (n.next = SENTINEL ∨
        (k < n.next ∧ ∃ m, N[n.next]? = some m ∧ node_primitive cfg n < node_primitive cfg m)))
    (hM : ∀ (k : Nat) (n : TileNode), N[k]? = some n →
      M[k]? = some n ∨
      (n.next = SENTINEL ∧ node_primitive cfg n < P ∧
        M[k]? = some { n with next := N.length })) :
    ∀ (k : Nat) (n : TileNode), (M ++ [node])[k]? = some n →
      node_primitive cfg n ≤ P ∧
      (n.next = SENTINEL ∨
        (k < n.next ∧
          ∃ m, (M ++ [node])[n.next]? = some m ∧ node_primitive cfg n < node_primitive cfg m)) := by
  intro k n hk
  by_cases hkl : k = M.length
  · rw [hkl, getElem?_snoc_last] at hk
    cases hk
    exact ⟨Nat.le_of_eq hnode, Or.inl hnext⟩
  · obtain ⟨hlt, hMk⟩ := getElem?_snoc_lt hk hkl
    have hltN : k < N.length := hlen ▸ hlt
    obtain ⟨n0, hn0⟩ : ∃ n0, N[k]? = some n0 := ⟨N[k], List.getElem?_eq_getElem hltN⟩
    obtain ⟨hp0, hlink⟩ := hA k n0 hn0
    rcases hM k n0 hn0 with h1 | ⟨hs, hpl, h1⟩
    · rw [h1] at hMk
      have e : n0 = n := Option.some.inj hMk
      rw [← e]
      refine ⟨hp0, ?_⟩
      rcases hlink with h | ⟨hkn, m, hm, hpm⟩
      · exact Or.inl h
      · refine Or.inr ⟨hkn, ?_⟩
        have hnl : n0.next < M.length := hlen ▸ (List.getElem?_eq_some_iff.mp hm).1
        rw [List.getElem?_append_left hnl]
        rcases hM n0.next m hm with h2 | ⟨_, _, h2⟩
        · exact ⟨m, h2, hpm⟩
        · exact ⟨_, h2, hpm⟩
    · rw [h1] at hMk
      have e : { n0 with next := N.length } = n := Option.some.inj hMk
      rw [← e]
      refine ⟨hp0, Or.inr ⟨hltN, node, ?_, ?_⟩⟩
      · dsimp only
        rw [← hlen]
        exact getElem?_snoc_last M node
      · rw [hnode]
        exact hpl

/-- A walk of the old pool is a walk of the new one. -/
theorem reach_extend (cfg : Config) (N M : List TileNode) (node : TileNode) (P : Nat)
    (hlen : M.length = N.length) (hsz : N.length < SENTINEL)
    (hM : ∀ (k : Nat) (n : TileNode), N[k]? = some n →
      M[k]? = some n ∨
      (n.next = SENTINEL ∧ node_primitive cfg n < P ∧
        M[k]? = some { n with next := N.length }))
    {a b : Nat} (h : Reach N a b) : Reach (M ++ [node]) a b := by
  refine reach_update h ?_
  intro k n hn
  have hkl : k < M.length := hlen ▸ (List.getElem?_eq_some_iff.mp hn).1
  rw [List.getElem?_append_left hkl]
  rcases hM k n hn with h1 | ⟨hs, _, h1⟩
  · exact ⟨n, h1, fun _ => rfl⟩
  · refine ⟨_, h1, ?_⟩
    intro hlt
    rw [hs] at hlt
    omega

/-- The shape is kept when the pool gets a new last node holding primitive `P` and the tile
lists change in at most one tile below the new bound, whose tail becomes the new node. -/
theorem chainInv_extend (cfg : Config) (N M : List TileNode) (node : TileNode)
    (Ls Ls' : List TileInfo) (P : Nat) (b b' : Int)
    (h : ChainInv cfg N Ls P b) (hbb : b ≤ b')
    (hlen : M.length = N.length) (hnode : node_primitive cfg node = P)
    (hnext : node.next = SENTINEL) (hsz : N.length < SENTINEL)
    (hM : ∀ (k : Nat) (n : TileNode), N[k]? = some n →
      M[k]? = some n ∨
      (n.next = SENTINEL ∧ node_primitive cfg n < P ∧
        M[k]? = some { n with next := N.length }))
    (hL : ∀ (t : Nat) (info : TileInfo), Ls'[t]? = some info → info.head ≠ SENTINEL →
      (Ls[t]? = some info ∧ ∀ n, N[info.tail]? = some n → M[info.tail]? = some n) ∨
      ((t : Int) < b' ∧ info.tail = N.length ∧ Reach (M ++ [node]) info.head N.length))
    (hone : ∀ (t1 t2 : Nat) (i1 i2 : TileInfo), Ls'[t1]? = some i1 → Ls'[t2]? = some i2 →
      i1.head ≠ SENTINEL → i2.head ≠ SENTINEL → i1.tail = N.length → i2.tail = N.length →
      t1 = t2) :
    ChainInv cfg (M ++ [node]) Ls' P b' := by
  obtain ⟨hA, hB, hC⟩ := h
  refine ⟨chainInv_nodes cfg N M node P hlen hnode hnext hA hM, ?_, ?_⟩
  · intro t info ht hh
    rcases hL t info ht hh with ⟨hold, hkeep⟩ | ⟨htb, htail, hreach⟩
    · obtain ⟨hr, n, hn, hns, hE⟩ := hB t info hold hh
      refine ⟨reach_extend cfg N M node P hlen hsz hM hr, n, ?_, hns, ?_⟩
      · have hlt : info.tail < M.length := hlen ▸ (List.getElem?_eq_some_iff.mp hn).1
        rw [List.getElem?_append_left hlt]
        exact hkeep n hn
      · intro hbt
        exact hE (Int.le_trans hbb hbt)
    · refine ⟨htail ▸ hreach, node, ?_, hnext, ?_⟩
      · rw [htail, ← hlen]
        exact getElem?_snoc_last M node
      · intro hbt
        omega
  · intro t1 t2 i1 i2 h1 h2 hh1 hh2 heq
    rcases hL t1 i1 h1 hh1 with ⟨hold1, _⟩ | ⟨_, htail1, _⟩
    · obtain ⟨_, n1, hn1, _⟩ := hB t1 i1 hold1 hh1
      have hlt1 : i1.tail < N.length := (List.getElem?_eq_some_iff.mp hn1).1
      rcases hL t2 i2 h2 hh2 with ⟨hold2, _⟩ | ⟨_, htail2, _⟩
      · exact hC t1 t2 i1 i2 hold1 hold2 hh1 hh2 heq
      · omega
    · rcases hL t2 i2 h2 hh2 with ⟨hold2, _⟩ | ⟨_, htail2, _⟩
      · obtain ⟨_, n2, hn2, _⟩ := hB t2 i2 hold2 hh2
        have hlt2 : i2.tail < N.length := (List.getElem?_eq_some_iff.mp hn2).1
        omega
      · exact hone t1 t2 i1 i2 h1 h2 hh1 hh2 htail1 htail2

/-- The shape is kept by `append_tile_list` for primitive `P` on a tile the loops have not
visited yet; the tile then counts as visited. -/
theorem chainInv_append_tile_list (cfg : Config) (r : Renderer) (idx : Int) (P tile : Nat)
    (b : Int) (h : ChainInv cfg r.tile_nodes r.tile_lists P b) (hb : b ≤ idx)
    (hP : P < 2 ^ cfg.RDP_MAX_PRIMITIVES_LOG2) (hL : cfg.RDP_MAX_PRIMITIVES_LOG2 ≤ 32)
    (hsz : r.tile_nodes.length < SENTINEL) :
    ChainInv cfg (append_tile_list cfg r idx P tile).tile_nodes
      (append_tile_list cfg r idx P tile).tile_lists P (idx + 1) := by
  have hbb : b ≤ idx + 1 := by omega
  have hnode := node_primitive_packed cfg P tile SENTINEL hP hL
  have hB := h.2.1
  have hC := h.2.2
  unfold append_tile_list
  dsimp only
  generalize hnd : TileNode.mk (u32 (P ||| (tile <<< cfg.RDP_MAX_PRIMITIVES_LOG2))) SENTINEL = node
    at hnode
  have hnext : node.next = SENTINEL := by rw [← hnd]
  by_cases hin : 0 ≤ idx ∧ idx.toNat < r.tile_lists.length
  · -- the tile is one of the tile lists
    obtain ⟨h0, hlt⟩ := hin
    have hidx : ((idx.toNat : Nat) : Int) = idx := Int.toNat_of_nonneg h0
    have hread : read_tile r.tile_lists idx = r.tile_lists[idx.toNat] := by
      unfold read_tile
      rw [if_pos h0, List.getD_eq_getElem?_getD, List.getElem?_eq_getElem hlt]
      rfl
    have hget : r.tile_lists[idx.toNat]? = some (r.tile_lists[idx.toNat]) :=
      List.getElem?_eq_getElem hlt
    have hwrite : ∀ v, write_tile r.tile_lists idx v = r.tile_lists.set idx.toNat v := by
      intro v
      unfold write_tile
      rw [if_pos h0]
    rw [hread]
    generalize r.tile_lists[idx.toNat] = info at hget
    by_cases hh : info.head = SENTINEL
    · rw [if_pos hh]
      dsimp only
      rw [hwrite]
      refine chainInv_extend cfg r.tile_nodes r.tile_nodes _ r.tile_lists _ P b (idx + 1) h hbb rfl
        hnode hnext hsz (fun k n hk => Or.inl hk) ?_ ?_
      · intro t info' ht hh'
        rw [List.getElem?_set] at ht
        by_cases htt : idx.toNat = t
        · rw [if_pos htt, if_pos hlt] at ht
          have e := Option.some.inj ht
          refine Or.inr ⟨by omega, by rw [← e], ?_⟩
          rw [← e]
          exact Reach.here _ _ (getElem?_snoc_last r.tile_nodes _)
        · rw [if_neg htt] at ht
          exact Or.inl ⟨ht, fun n hn => hn⟩
      · intro t1 t2 i1 i2 h1 h2 hh1 hh2 ht1 ht2
        rw [List.getElem?_set] at h1 h2
        by_cases e1 : idx.toNat = t1
        · by_cases e2 : idx.toNat = t2
          · omega
          · rw [if_neg e2] at h2
            obtain ⟨_, n2, hn2, _⟩ := hB t2 i2 h2 hh2
            have hlt2 : i2.tail < r.tile_nodes.length := (List.getElem?_eq_some_iff.mp hn2).1
            omega
        · rw [if_neg e1] at h1
          obtain ⟨_, n1, hn1, _⟩ := hB t1 i1 h1 hh1
          have hlt1 : i1.tail < r.tile_nodes.length := (List.getElem?_eq_some_iff.mp hn1).1
          omega
    · rw [if_neg hh]
      dsimp only
      rw [hwrite]
      obtain ⟨hreach, nt, hnt, hnts, hE⟩ := hB idx.toNat info hget hh
      have hpt : node_primitive cfg nt < P := hE (by omega)
      have hM : ∀ (k : Nat) (n : TileNode), r.tile_nodes[k]? = some n →
          (List.modify (fun n => { n with next := r.tile_nodes.length }) info.tail
            r.tile_nodes)[k]? = some n ∨
          (n.next = SENTINEL ∧ node_primitive cfg n < P ∧
            (List.modify (fun n => { n with next := r.tile_nodes.length }) info.tail
              r.tile_nodes)[k]? = some { n with next := r.tile_nodes.length }) := by
        intro k n hk
        rw [List.getElem?_modify, hk]
        by_cases hkt : info.tail = k
        · right
          rw [← hkt, hnt] at hk
          have e := Option.some.inj hk
          rw [← e]
          exact ⟨hnts, hpt, by simp [hkt]⟩
        · left
          simp [hkt]
      refine chainInv_extend cfg r.tile_nodes _ _ r.tile_lists _ P b (idx + 1) h hbb
        (List.length_modify _ _ _) hnode hnext hsz hM ?_ ?_
      · intro t info' ht hh'
        rw [List.getElem?_set] at ht
        by_cases htt : idx.toNat = t
        · rw [if_pos htt, if_pos hlt] at ht
          have e := Option.some.inj ht
          refine Or.inr ⟨by omega, by rw [← e], ?_⟩
          rw [← e]
          dsimp only
          refine reach_trans (reach_extend cfg r.tile_nodes _ _ P (List.length_modify _ _ _) hsz hM
            hreach) ?_
          have hmt : ((List.modify (fun n => { n with next := r.tile_nodes.length }) info.tail
              r.tile_nodes) ++ [node])[info.tail]? =
              some { nt with next := r.tile_nodes.length } := by
            have hl : info.tail < (List.modify (fun n => { n with next := r.tile_nodes.length })
                info.tail r.tile_nodes).length := by
              rw [List.length_modify]
              exact (List.getElem?_eq_some_iff.mp hnt).1
            rw [List.getElem?_append_left hl, List.getElem?_modify, hnt]
            simp
          refine Reach.link _ _ _ hmt (Reach.here _ node ?_)
          dsimp only
          have hl2 := getElem?_snoc_last
            (List.modify (fun n => { n with next := r.tile_nodes.length }) info.tail r.tile_nodes)
            node
          rw [List.length_modify] at hl2
          exact hl2
        · rw [if_neg htt] at ht
          refine Or.inl ⟨ht, ?_⟩
          intro n hn
          rw [List.getElem?_modify, hn]
          have hne : info.tail ≠ info'.tail := by
            intro heq
            exact htt (hC idx.toNat t info info' hget ht hh hh' heq)
          simp [hne]
      · intro t1 t2 i1 i2 h1 h2 hh1 hh2 ht1 ht2
        rw [List.getElem?_set] at h1 h2
        by_cases e1 : idx.toNat = t1
        · by_cases e2 : idx.toNat = t2
          · omega
          · rw [if_neg e2] at h2
            obtain ⟨_, n2, hn2, _⟩ := hB t2 i2 h2 hh2
            have hlt2 : i2.tail < r.tile_nodes.length := (List.getElem?_eq_some_iff.mp hn2).1
            omega
        · rw [if_neg e1] at h1
          obtain ⟨_, n1, hn1, _⟩ := hB t1 i1 h1 hh1
          have hlt1 : i1.tail < r.tile_nodes.length := (List.getElem?_eq_some_iff.mp hn1).1
          omega
  · -- the index is outside the tile lists: the node is appended, no list is written
    have hread : read_tile r.tile_lists idx = TileInfo.fresh := by
      unfold read_tile
      by_cases h0 : 0 ≤ idx
      · rw [if_pos h0, List.getD_eq_getElem?_getD,
          List.getElem?_eq_none (Nat.le_of_not_lt (fun hl => hin ⟨h0, hl⟩))]
        rfl
      · rw [if_neg h0]
    have hwrite : ∀ v, write_tile r.tile_lists idx v = r.tile_lists := by
      intro v
      unfold write_tile
      by_cases h0 : 0 ≤ idx
      · rw [if_pos h0]
        exact List.set_eq_of_length_le (Nat.le_of_not_lt (fun hl => hin ⟨h0, hl⟩))
      · rw [if_neg h0]
    rw [hread, if_pos (show TileInfo.fresh.head = SENTINEL from rfl)]
    rw [hwrite]
    refine chainInv_extend cfg r.tile_nodes r.tile_nodes _ r.tile_lists _ P b (idx + 1) h hbb rfl
      hnode hnext hsz (fun k n hk => Or.inl hk) (fun t info ht _ => Or.inl ⟨ht, fun n hn => hn⟩) ?_
    intro t1 t2 i1 i2 h1 h2 hh1 hh2 ht1 ht2
    obtain ⟨_, n1, hn1, _⟩ := hB t1 i1 h1 hh1
    have hlt1 : i1.tail < r.tile_nodes.length := (List.getElem?_eq_some_iff.mp hn1).1
    omega

end RDP

namespace RDP

/-! ## The tile lists through the binning loops -/

theorem chainInv_mono (cfg : Config) (N : List TileNode) (Ls : List TileInfo) (P : Nat)
    {b b' : Int} (h : ChainInv cfg N Ls P b) (hbb : b ≤ b') : ChainInv cfg N Ls P b' := by
  obtain ⟨hA, hB, hC⟩ := h
  refine ⟨hA, ?_, hC⟩
  intro t info ht hh
  obtain ⟨hr, n, hn, hns, hE⟩ := hB t info ht hh
  exact ⟨hr, n, hn, hns, fun hbt => hE (Int.le_trans hbb hbt)⟩

/-- When every node holds a primitive index below `P`, the shape holds with every bound. -/
theorem chainInv_start (cfg : Config) (N : List TileNode) (Ls : List TileInfo) (P : Nat)
    {b : Int} (h : ChainInv cfg N Ls P b)
    (hlt : ∀ (k : Nat) (n : TileNode), N[k]? = some n → node_primitive cfg n < P) (b' : Int) :
    ChainInv cfg N Ls P b' := by
  obtain ⟨hA, hB, hC⟩ := h
  refine ⟨hA, ?_, hC⟩
  intro t info ht hh
  obtain ⟨hr, n, hn, hns, _⟩ := hB t info ht hh
  exact ⟨hr, n, hn, hns, fun _ => hlt _ n hn⟩

/-- After the loops for primitive `P`: the shape for the next primitive, with every tile
unvisited. -/
theorem chainInv_finish (cfg : Config) (N : List TileNode) (Ls : List TileInfo) (P P' : Nat)
    {b : Int} (h : ChainInv cfg N Ls P b) (hP : P < P') :
    ChainInv cfg N Ls P' (Ls.length : Int) ∧
    ∀ (k : Nat) (n : TileNode), N[k]? = some n → node_primitive cfg n < P' := by
  obtain ⟨hA, hB, hC⟩ := h
  refine ⟨⟨?_, ?_, hC⟩, ?_⟩
  · intro k n hk
    obtain ⟨h1, h2⟩ := hA k n hk
    exact ⟨by omega, h2⟩
  · intro t info ht hh
    obtain ⟨hr, n, hn, hns, _⟩ := hB t info ht hh
    refine ⟨hr, n, hn, hns, ?_⟩
    intro hbt
    have hlt : t < Ls.length := (List.getElem?_eq_some_iff.mp ht).1
    omega
  · intro k n hk
    exact Nat.lt_of_le_of_lt (hA k n hk).1 hP

/-- The shape with other tile lists, each of whose tiles with a head is a tile of the old
lists at the same index. -/
theorem chainInv_lists (cfg : Config) (N : List TileNode) (Ls Ls' : List TileInfo) (P : Nat)
    {b : Int} (h : ChainInv cfg N Ls P b)
    (hsub : ∀ (t : Nat) (info : TileInfo), Ls'[t]? = some info → info.head ≠ SENTINEL →
      Ls[t]? = some info) :
    ChainInv cfg N Ls' P (Ls'.length : Int) := by
  obtain ⟨hA, hB, hC⟩ := h
  refine ⟨hA, ?_, ?_⟩
  · intro t info ht hh
    obtain ⟨hr, n, hn, hns, _⟩ := hB t info (hsub t info ht hh) hh
    refine ⟨hr, n, hn, hns, ?_⟩
    intro hbt
    have hlt : t < Ls'.length := (List.getElem?_eq_some_iff.mp ht).1
    omega
  · intro t1 t2 i1 i2 h1 h2 hh1 hh2 heq
    exact hC t1 t2 i1 i2 (hsub t1 i1 h1 hh1) (hsub t2 i2 h2 hh2) hh1 hh2 heq

theorem bin_tile_nodes (cfg : Config) (prim : Primitive) (min_x max_x min_y max_y : Int)
    (num_tris : Nat) (y : Int) (acc : Renderer × Bool) (x : Int) :
    (bin_tile cfg prim min_x max_x min_y max_y num_tris y acc x).1.tile_nodes.length +
        acc.1.raster_tile_count =
      acc.1.tile_nodes.length +
        (bin_tile cfg prim min_x max_x min_y max_y num_tris y acc x).1.raster_tile_count := by
  unfold bin_tile
  dsimp only
  split_ifs
  · simp only [append_tile_list_nodes_length, append_tile_list_raster_tile_count]
    omega
  · rfl

theorem bin_tile_idle (cfg : Config) (prim : Primitive) (min_x max_x min_y max_y : Int)
    (num_tris : Nat) (y : Int) (acc : Renderer × Bool) (x : Int)
    (h : (bin_tile cfg prim min_x max_x min_y max_y num_tris y acc x).1.raster_tile_count
      = acc.1.raster_tile_count) :
    (bin_tile cfg prim min_x max_x min_y max_y num_tris y acc x).1.tile_lists = acc.1.tile_lists ∧
    (bin_tile cfg prim min_x max_x min_y max_y num_tris y acc x).1.tile_nodes = acc.1.tile_nodes := by
  rw [bin_tile_raster_tile_count] at h
  unfold bin_tile
  dsimp only
  split_ifs with hc
  · rw [if_pos hc] at h
    omega
  · exact ⟨rfl, rfl⟩

theorem bin_row_nodes (cfg : Config) (prim : Primitive) (min_x max_x min_y max_y : Int)
    (num_tris : Nat) (y : Int) (xs : List Int) (acc : Renderer × Bool) :
    (xs.foldl (bin_tile cfg prim min_x max_x min_y max_y num_tris y) acc).1.tile_nodes.length +
        acc.1.raster_tile_count =
      acc.1.tile_nodes.length +
        (xs.foldl (bin_tile cfg prim min_x max_x min_y max_y num_tris y) acc).1.raster_tile_count ∧
    acc.1.raster_tile_count ≤
      (xs.foldl (bin_tile cfg prim min_x max_x min_y max_y num_tris y) acc).1.raster_tile_count := by
  induction xs generalizing acc with
  | nil => exact ⟨rfl, Nat.le_refl _⟩
  | cons x xs ih =>
    have h1 := bin_tile_nodes cfg prim min_x max_x min_y max_y num_tris y acc x
    have h2 := bin_tile_raster_tile_count cfg prim min_x max_x min_y max_y num_tris y acc x
    obtain ⟨h3, h4⟩ := ih (bin_tile cfg prim min_x max_x min_y max_y num_tris y acc x)
    rw [List.foldl_cons]
    constructor <;> omega

theorem bin_rows_nodes (cfg : Config) (prim : Primitive) (min_x max_x min_y max_y : Int)
    (num_tris : Nat) (xs ys : List Int) (acc : Renderer × Bool) :
    (ys.foldl (fun acc y => xs.foldl (bin_tile cfg prim min_x max_x min_y max_y num_tris y) acc)
      acc).1.tile_nodes.length + acc.1.raster_tile_count =
      acc.1.tile_nodes.length +
        (ys.foldl (fun acc y => xs.foldl (bin_tile cfg prim min_x max_x min_y max_y num_tris y) acc)
          acc).1.raster_tile_count ∧
    acc.1.raster_tile_count ≤
      (ys.foldl (fun acc y => xs.foldl (bin_tile cfg prim min_x max_x min_y max_y num_tris y) acc)
        acc).1.raster_tile_count := by
  induction ys generalizing acc with
  | nil => exact ⟨rfl, Nat.le_refl _⟩
  | cons y ys ih =>
    obtain ⟨h1, h2⟩ := bin_row_nodes cfg prim min_x max_x min_y max_y num_tris y xs acc
    obtain ⟨h3, h4⟩ := ih (xs.foldl (bin_tile cfg prim min_x max_x min_y max_y num_tris y) acc)
    rw [List.foldl_cons]
    constructor <;> omega

theorem bin_tiles_nodes (cfg : Config) (prim : Primitive) (min_x max_x min_y max_y : Int)
    (num_tris : Nat) (min_tile_x max_tile_x min_tile_y max_tile_y : Int) (acc : Renderer × Bool) :
    (bin_tiles cfg prim min_x max_x min_y max_y num_tris
      min_tile_x max_tile_x min_tile_y max_tile_y acc).1.tile_nodes.length +
        acc.1.raster_tile_count =
      acc.1.tile_nodes.length +
        (bin_tiles cfg prim min_x max_x min_y max_y num_tris
          min_tile_x max_tile_x min_tile_y max_tile_y acc).1.raster_tile_count ∧
    acc.1.raster_tile_count ≤
      (bin_tiles cfg prim min_x max_x min_y max_y num_tris
        min_tile_x max_tile_x min_tile_y max_tile_y acc).1.raster_tile_count :=
  bin_rows_nodes cfg prim min_x max_x min_y max_y num_tris _ _ acc

theorem bin_row_idle (cfg : Config) (prim : Primitive) (min_x max_x min_y max_y : Int)
    (num_tris : Nat) (y : Int) (xs : List Int) (acc : Renderer × Bool)
    (h : (xs.foldl (bin_tile cfg prim min_x max_x min_y max_y num_tris y) acc).1.raster_tile_count
      = acc.1.raster_tile_count) :
    (xs.foldl (bin_tile cfg prim min_x max_x min_y max_y num_tris y) acc).1.tile_lists
      = acc.1.tile_lists ∧
    (xs.foldl (bin_tile cfg prim min_x max_x min_y max_y num_tris y) acc).1.tile_nodes
      = acc.1.tile_nodes := by
  induction xs generalizing acc with
  | nil => exact ⟨rfl, rfl⟩
  | cons x xs ih =>
    rw [List.foldl_cons] at h ⊢
    have h2 := bin_tile_raster_tile_count cfg prim min_x max_x min_y max_y num_tris y acc x
    have h4 := (bin_row_nodes cfg prim min_x max_x min_y max_y num_tris y xs
      (bin_tile cfg prim min_x max_x min_y max_y num_tris y acc x)).2
    have e1 : (bin_tile cfg prim min_x max_x min_y max_y num_tris y acc x).1.raster_tile_count
        = acc.1.raster_tile_count := by omega
    obtain ⟨i1, i2⟩ := ih _ (h.trans e1.symm)
    obtain ⟨j1, j2⟩ := bin_tile_idle cfg prim min_x max_x min_y max_y num_tris y acc x e1
    exact ⟨i1.trans j1, i2.trans j2⟩

/-- Binning loops that bind no tile leave the tile lists and the node pool alone. -/
theorem bin_tiles_idle (cfg : Config) (prim : Primitive) (min_x max_x min_y max_y : Int)
    (num_tris : Nat) (min_tile_x max_tile_x min_tile_y max_tile_y : Int) (acc : Renderer × Bool)
    (h : (bin_tiles cfg prim min_x max_x min_y max_y num_tris
      min_tile_x max_tile_x min_tile_y max_tile_y acc).1.raster_tile_count
      = acc.1.raster_tile_count) :
    (bin_tiles cfg prim min_x max_x min_y max_y num_tris
      min_tile_x max_tile_x min_tile_y max_tile_y acc).1.tile_lists = acc.1.tile_lists ∧
    (bin_tiles cfg prim min_x max_x min_y max_y num_tris
      min_tile_x max_tile_x min_tile_y max_tile_y acc).1.tile_nodes = acc.1.tile_nodes := by
  have key : ∀ (ys : List Int) (acc : Renderer × Bool),
      (ys.foldl (fun acc y => (int_range min_tile_x max_tile_x).foldl
        (bin_tile cfg prim min_x max_x min_y max_y num_tris y) acc) acc).1.raster_tile_count ≥
        acc.1.raster_tile_count ∧
      ((ys.foldl (fun acc y => (int_range min_tile_x max_tile_x).foldl
        (bin_tile cfg prim min_x max_x min_y max_y num_tris y) acc) acc).1.raster_tile_count =
        acc.1.raster_tile_count →
       (ys.foldl (fun acc y => (int_range min_tile_x max_tile_x).foldl
        (bin_tile cfg prim min_x max_x min_y max_y num_tris y) acc) acc).1.tile_lists
          = acc.1.tile_lists ∧
       (ys.foldl (fun acc y => (int_range min_tile_x max_tile_x).foldl
        (bin_tile cfg prim min_x max_x min_y max_y num_tris y) acc) acc).1.tile_nodes
          = acc.1.tile_nodes) := by
    intro ys
    induction ys with
    | nil => intro acc; exact ⟨Nat.le_refl _, fun _ => ⟨rfl, rfl⟩⟩
    | cons y ys ih =>
      intro acc
      rw [List.foldl_cons]
      obtain ⟨m1, i1⟩ := ih ((int_range min_tile_x max_tile_x).foldl
        (bin_tile cfg prim min_x max_x min_y max_y num_tris y) acc)
      have m2 := (bin_row_nodes cfg prim min_x max_x min_y max_y num_tris y
        (int_range min_tile_x max_tile_x) acc).2
      refine ⟨Nat.le_trans m2 m1, ?_⟩
      intro heq
      have e1 : ((int_range min_tile_x max_tile_x).foldl
          (bin_tile cfg prim min_x max_x min_y max_y num_tris y) acc).1.raster_tile_count
          = acc.1.raster_tile_count := by omega
      obtain ⟨a1, a2⟩ := i1 (heq.trans e1.symm)
      obtain ⟨b1, b2⟩ := bin_row_idle cfg prim min_x max_x min_y max_y num_tris y _ acc e1
      exact ⟨a1.trans b1, a2.trans b2⟩
  exact (key _ acc).2 h

theorem bin_tile_chain (cfg : Config) (prim : Primitive) (min_x max_x min_y max_y : Int)
    (P : Nat) (y : Int) (acc : Renderer × Bool) (x : Int) (b : Int)
    (h : ChainInv cfg acc.1.tile_nodes acc.1.tile_lists P b)
    (hb : b ≤ y * acc.1.tiles_x + x)
    (hP : P < 2 ^ cfg.RDP_MAX_PRIMITIVES_LOG2) (hL : cfg.RDP_MAX_PRIMITIVES_LOG2 ≤ 32)
    (hsz : (bin_tile cfg prim min_x max_x min_y max_y P y acc x).1.tile_nodes.length < SENTINEL) :
    ChainInv cfg (bin_tile cfg prim min_x max_x min_y max_y P y acc x).1.tile_nodes
      (bin_tile cfg prim min_x max_x min_y max_y P y acc x).1.tile_lists P
      (y * acc.1.tiles_x + x + 1) := by
  unfold bin_tile at hsz ⊢
  dsimp only at hsz ⊢
  by_cases hc : coarse_conservative_raster cfg x y min_x max_x min_y max_y prim = true
  · rw [if_pos hc] at hsz ⊢
    dsimp only at hsz ⊢
    rw [append_tile_list_nodes_length] at hsz
    exact chainInv_append_tile_list cfg
      { acc.1 with raster_tile_count := acc.1.raster_tile_count + 1 }
      (y * acc.1.tiles_x + x) P acc.1.tile_count b h hb hP hL (by dsimp only at hsz ⊢; omega)
  · rw [if_neg hc]
    exact chainInv_mono cfg _ _ P h (by omega)

theorem bin_tile_tiles_x (cfg : Config) (prim : Primitive) (min_x max_x min_y max_y : Int)
    (num_tris : Nat) (y : Int) (acc : Renderer × Bool) (x : Int) :
    (bin_tile cfg prim min_x max_x min_y max_y num_tris y acc x).1.tiles_x = acc.1.tiles_x := by
  rw [binOnly_bin_tile cfg prim min_x max_x min_y max_y num_tris y acc x]

/-- One row of the loops: the columns are visited in increasing order. -/
theorem bin_row_chain (cfg : Config) (prim : Primitive) (min_x max_x min_y max_y : Int)
    (P : Nat) (y : Int) (T : Nat)
    (hP : P < 2 ^ cfg.RDP_MAX_PRIMITIVES_LOG2) (hL : cfg.RDP_MAX_PRIMITIVES_LOG2 ≤ 32)
    (xs : List Int) (acc : Renderer × Bool) (b B : Int)
    (hT : acc.1.tiles_x = T)
    (hsorted : xs.Pairwise (fun u v => u < v))
    (hxs : ∀ x ∈ xs, b ≤ y * T + x ∧ y * T + x + 1 ≤ B) (hbB : b ≤ B)
    (h : ChainInv cfg acc.1.tile_nodes acc.1.tile_lists P b)
    (hsz : (xs.foldl (bin_tile cfg prim min_x max_x min_y max_y P y) acc).1.tile_nodes.length
      < SENTINEL) :
    ChainInv cfg (xs.foldl (bin_tile cfg prim min_x max_x min_y max_y P y) acc).1.tile_nodes
      (xs.foldl (bin_tile cfg prim min_x max_x min_y max_y P y) acc).1.tile_lists P B := by
  induction xs generalizing acc b with
  | nil => exact chainInv_mono cfg _ _ P h hbB
  | cons x xs ih =>
    rw [List.foldl_cons] at hsz ⊢
    obtain ⟨hx1, hx2⟩ := hxs x (List.mem_cons_self _ _)
    have hmono := bin_row_nodes cfg prim min_x max_x min_y max_y P y xs
      (bin_tile cfg prim min_x max_x min_y max_y P y acc x)
    have hstep := bin_tile_chain cfg prim min_x max_x min_y max_y P y acc x b h
      (by rw [hT]; exact hx1) hP hL (by omega)
    rw [hT] at hstep
    obtain ⟨hhead, htail⟩ := List.pairwise_cons.mp hsorted
    refine ih (bin_tile cfg prim min_x max_x min_y max_y P y acc x) (y * T + x + 1)
      ((bin_tile_tiles_x cfg prim min_x max_x min_y max_y P y acc x).trans hT) htail ?_ hx2
      hstep hsz
    intro x' hx'
    have hlt := hhead x' hx'
    have := (hxs x' (List.mem_cons_of_mem _ hx')).2
    constructor <;> omega

theorem bin_row_tiles_x (cfg : Config) (prim : Primitive) (min_x max_x min_y max_y : Int)
    (num_tris : Nat) (y : Int) (xs : List Int) (acc : Renderer × Bool) :
    (xs.foldl (bin_tile cfg prim min_x max_x min_y max_y num_tris y) acc).1.tiles_x
      = acc.1.tiles_x := by
  induction xs generalizing acc with
  | nil => rfl
  | cons x xs ih => rw [List.foldl_cons, ih, bin_tile_tiles_x]

theorem pairwise_int_range (a b : Int) : (int_range a b).Pairwise (fun u v => u < v) := by
  unfold int_range
  rw [List.pairwise_map]
  refine List.Pairwise.imp ?_ (List.pairwise_lt_range _)
  intro i j hij
  simp only [Int.ofNat_eq_coe]
  omega

/-- The binning loops for primitive `P` keep the shape: the tiles are visited in increasing
order of their index `y * tiles_x + x`, each at most once. -/
theorem bin_tiles_chain (cfg : Config) (prim : Primitive) (min_x max_x min_y max_y : Int)
    (P : Nat) (min_tile_x max_tile_x min_tile_y max_tile_y : Int) (acc : Renderer × Bool)
    (hP : P < 2 ^ cfg.RDP_MAX_PRIMITIVES_LOG2) (hL : cfg.RDP_MAX_PRIMITIVES_LOG2 ≤ 32)
    (hx0 : 0 ≤ min_tile_x) (hx1 : max_tile_x ≤ (acc.1.tiles_x : Int) - 1)
    (h : ∀ b, ChainInv cfg acc.1.tile_nodes acc.1.tile_lists P b)
    (hsz : (bin_tiles cfg prim min_x max_x min_y max_y P
      min_tile_x max_tile_x min_tile_y max_tile_y acc).1.tile_nodes.length < SENTINEL) :
    ∃ B, ChainInv cfg
      (bin_tiles cfg prim min_x max_x min_y max_y P
        min_tile_x max_tile_x min_tile_y max_tile_y acc).1.tile_nodes
      (bin_tiles cfg prim min_x max_x min_y max_y P
        min_tile_x max_tile_x min_tile_y max_tile_y acc).1.tile_lists P B := by
  unfold bin_tiles at hsz ⊢
  have key : ∀ (ys : List Int) (acc : Renderer × Bool) (b : Int),
      acc.1.tiles_x = acc.1.tiles_x →
      max_tile_x ≤ (acc.1.tiles_x : Int) - 1 →
      ys.Pairwise (fun u v => u < v) →
      (∀ y ∈ ys, b ≤ y * (acc.1.tiles_x : Int)) →
      ChainInv cfg acc.1.tile_nodes acc.1.tile_lists P b →
      (ys.foldl (fun acc y => (int_range min_tile_x max_tile_x).foldl
        (bin_tile cfg prim min_x max_x min_y max_y P y) acc) acc).1.tile_nodes.length < SENTINEL →
      ∃ B, ChainInv cfg
        (ys.foldl (fun acc y => (int_range min_tile_x max_tile_x).foldl
          (bin_tile cfg prim min_x max_x min_y max_y P y) acc) acc).1.tile_nodes
        (ys.foldl (fun acc y => (int_range min_tile_x max_tile_x).foldl
          (bin_tile cfg prim min_x max_x min_y max_y P y) acc) acc).1.tile_lists P B := by
    intro ys
    induction ys with
    | nil => intro acc b _ _ _ _ h _; exact ⟨b, h⟩
    | cons y ys ih =>
      intro acc b _ hmax hsorted hys h hsz
      rw [List.foldl_cons] at hsz ⊢
      obtain ⟨hhead, htail⟩ := List.pairwise_cons.mp hsorted
      have hmono := bin_rows_nodes cfg prim min_x max_x min_y max_y P
        (int_range min_tile_x max_tile_x) ys ((int_range min_tile_x max_tile_x).foldl
        (bin_tile cfg prim min_x max_x min_y max_y P y) acc)
      have hrow := bin_row_chain cfg prim min_x max_x min_y max_y P y acc.1.tiles_x hP hL
        (int_range min_tile_x max_tile_x) acc b (y * (acc.1.tiles_x : Int) + acc.1.tiles_x) rfl
        (pairwise_int_range _ _) ?_ ?_ h (by omega)
      · have htx := bin_row_tiles_x cfg prim min_x max_x min_y max_y P y
          (int_range min_tile_x max_tile_x) acc
        refine ih _ (y * (acc.1.tiles_x : Int) + acc.1.tiles_x) rfl (by rw [htx]; exact hmax)
          htail ?_ hrow hsz
        intro y' hy'
        rw [htx]
        have hlt := hhead y' hy'
        nlinarith [Int.ofNat_nonneg acc.1.tiles_x]
      · intro x hx
        obtain ⟨hxa, hxb⟩ := (mem_int_range _ _ _).mp hx
        have := hys y (List.mem_cons_self _ _)
        constructor <;> omega
      · have := hys y (List.mem_cons_self _ _)
        omega
  refine key (int_range min_tile_y max_tile_y) acc (min_tile_y * (acc.1.tiles_x : Int)) rfl hx1
    (pairwise_int_range _ _) ?_ (h _) hsz
  intro y hy
  obtain ⟨hya, _⟩ := (mem_int_range _ _ _).mp hy
  nlinarith [Int.ofNat_nonneg acc.1.tiles_x]

end RDP

namespace RDP

/-! ## The tile lists between calls -/

theorem tileInv_of_fields (cfg : Config) {r r' : Renderer} (h : TileInv cfg r)
    (h1 : r'.tile_lists = r.tile_lists) (h2 : r'.tile_nodes = r.tile_nodes)
    (h3 : r'.work_data = r.work_data) (h4 : r'.primitive_data = r.primitive_data) :
    TileInv cfg r' := by
  unfold TileInv
  rw [h1, h2, h3, h4]
  exact h

theorem tileInv_of_residencyOnly (cfg : Config) {r r' : Renderer} (h : TileInv cfg r)
    (hr : ResidencyOnly r r') : TileInv cfg r' :=
  tileInv_of_fields cfg h (by rw [hr]) (by rw [hr]) (by rw [hr]) (by rw [hr])

theorem tileInv_reset_buffers (cfg : Config) (r : Renderer) :
    TileInv cfg (reset_buffers cfg r) := by
  refine ⟨rfl, fun h => absurd rfl h, fun _ => ⟨⟨?_, ?_, ?_⟩, ?_⟩⟩
  · intro k n hk
    simp [reset_buffers] at hk
  · intro t info ht hh
    simp only [reset_buffers, List.getElem?_map, Option.map_eq_some'] at ht
    obtain ⟨_, _, e⟩ := ht
    rw [← e] at hh
    exact absurd rfl hh
  · intro t1 t2 i1 i2 h1 _ hh1
    simp only [reset_buffers, List.getElem?_map, Option.map_eq_some'] at h1
    obtain ⟨_, _, e⟩ := h1
    rw [← e] at hh1
    exact absurd rfl hh1
  · intro k n hk
    simp [reset_buffers] at hk

theorem flush_tile_lists_idle (cfg : Config) (r : Renderer) (h : r.work_data = []) :
    flush_tile_lists cfg r = r := by
  unfold flush_tile_lists
  rw [if_pos (by rw [h]; simp)]

theorem flush_tile_lists_reset (cfg : Config) (r : Renderer) (hp : r.primitive_data ≠ [])
    (hw : r.work_data ≠ []) : ∃ r1, flush_tile_lists cfg r = reset_buffers cfg r1 := by
  unfold flush_tile_lists
  rw [if_neg]
  · exact ⟨_, rfl⟩
  · intro hc
    rcases Bool.or_eq_true _ _ ▸ hc with h | h
    · exact hp (List.isEmpty_iff.mp h)
    · exact hw (List.isEmpty_iff.mp h)

theorem tileInv_flush_tile_lists (cfg : Config) {r : Renderer} (h : TileInv cfg r) :
    TileInv cfg (flush_tile_lists cfg r) := by
  rcases flush_tile_lists_cases cfg r with h1 | ⟨r1, _, h2⟩
  · rw [h1]; exact h
  · rw [h2]; exact tileInv_reset_buffers cfg _

theorem tileInv_sync_full (cfg : Config) {r : Renderer} (h : TileInv cfg r) :
    TileInv cfg (sync_full cfg r) := by
  unfold sync_full
  dsimp only
  refine tileInv_of_residencyOnly cfg ?_
    (residencyOnly_sync_gpu_to_dram true (residencyOnly_refl _))
  apply tileInv_flush_tile_lists
  exact tileInv_of_residencyOnly cfg h
    (residencyOnly_push_ledger _ (residencyOnly_foldl_sync _ (residencyOnly_refl r)))

theorem tileInv_complete_frame (cfg : Config) (synchronous : Bool) {r : Renderer}
    (h : TileInv cfg r) : TileInv cfg (complete_frame cfg r synchronous) := by
  unfold complete_frame
  split_ifs
  · exact tileInv_sync_full cfg h
  · exact tileInv_of_residencyOnly cfg (tileInv_flush_tile_lists cfg h)
      (residencyOnly_sync_gpu_to_dram false (residencyOnly_refl _))

theorem resize_tiles_sub (l : List TileInfo) (n t : Nat) (info : TileInfo)
    (h : (resize_tiles l n)[t]? = some info) (hh : info.head ≠ SENTINEL) :
    l[t]? = some info := by
  unfold resize_tiles at h
  rcases Nat.lt_or_ge t (l.take n).length with hlt | hge
  · rw [List.getElem?_append_left hlt, List.getElem?_take] at h
    split_ifs at h
    exact h
  · rw [List.getElem?_append_right hge] at h
    have hmem := List.mem_iff_getElem?.mpr ⟨_, h⟩
    rw [List.mem_replicate] at hmem
    rw [hmem.2] at hh
    exact absurd rfl hh

theorem tileInv_set_framebuffer_size (cfg : Config) (width height : Nat) {r : Renderer}
    (h : TileInv cfg r) : TileInv cfg (set_framebuffer_size cfg r width height) := by
  unfold set_framebuffer_size
  have h1 : TileInv cfg
      (if r.framebuffer.color_state = FRAMEBUFFER_GPU ∨ r.framebuffer.depth_state = FRAMEBUFFER_GPU
       then sync_full cfg r else r) := by
    split_ifs
    · exact tileInv_sync_full cfg h
    · exact h
  generalize (if r.framebuffer.color_state = FRAMEBUFFER_GPU ∨
    r.framebuffer.depth_state = FRAMEBUFFER_GPU then sync_full cfg r else r) = r1 at h1
  dsimp only
  rw [assert_eq]
  obtain ⟨e1, e2, e3⟩ := h1
  refine ⟨e1, e2, ?_⟩
  intro hsz
  obtain ⟨c1, c2⟩ := e3 hsz
  refine ⟨chainInv_lists cfg _ _ _ _ c1 ?_, c2⟩
  intro t info ht hh
  dsimp only at ht
  split_ifs at ht
  · have := resize_tiles_sub _ _ _ _ ht hh
    simp at this
  · exact resize_tiles_sub _ _ _ _ ht hh

theorem tileInv_draw_begin (cfg : Config) (d : DrawCall) {r : Renderer}
    (h : TileInv cfg r) : TileInv cfg (draw_begin cfg r d) := by
  unfold draw_begin
  dsimp only
  rw [assert_eq, assert_eq, update_tiles_frame]
  have h1 : TileInv cfg
      (if (clip_scissor r.scissor d.min_x d.max_x d.min_y d.max_y).2.2.2
          ≥ (r.framebuffer.allocated_height : Int)
       then set_framebuffer_size cfg r r.framebuffer.allocated_width
         ((clip_scissor r.scissor d.min_x d.max_x d.min_y d.max_y).2.2.2 + 1).toNat
       else r) := by
    split_ifs
    · exact tileInv_set_framebuffer_size cfg _ _ h
    · exact h
  exact tileInv_of_fields cfg h1 rfl rfl rfl rfl

theorem draw_combiner_batch (cfg : Config) (r : Renderer) (cycle_type : Nat) :
    (draw_combiner cfg r cycle_type).1.tile_lists = r.tile_lists ∧
    (draw_combiner cfg r cycle_type).1.tile_nodes = r.tile_nodes ∧
    (draw_combiner cfg r cycle_type).1.work_data = r.work_data ∧
    (draw_combiner cfg r cycle_type).1.tiles_x = r.tiles_x ∧
    (draw_combiner cfg r cycle_type).1.primitive_data = r.primitive_data := by
  unfold draw_combiner
  dsimp only
  split_ifs
  · rw [assert_eq]
    split <;> exact ⟨rfl, rfl, rfl, rfl, rfl⟩
  · rw [assert_eq]
    exact ⟨rfl, rfl, rfl, rfl, rfl⟩
  · exact ⟨rfl, rfl, rfl, rfl, rfl⟩

/-- The second part of `draw_primitive` leaves the tile lists, the pool and the work items
alone and pushes one record; its flag is raised when the records reach the maximum. -/
theorem draw_record_batch (cfg : Config) (r : Renderer) (d : DrawCall) :
    (draw_record cfg r d).1.tile_lists = r.tile_lists ∧
    (draw_record cfg r d).1.tile_nodes = r.tile_nodes ∧
    (draw_record cfg r d).1.work_data = r.work_data ∧
    (draw_record cfg r d).1.tiles_x = r.tiles_x ∧
    (draw_record cfg r d).1.primitive_data.length = r.primitive_data.length + 1 ∧
    ((draw_record cfg r d).2 = false →
      r.primitive_data.length + 1 < cfg.RDP_MAX_PRIMITIVES) := by
  unfold draw_record
  dsimp only
  have h5 : (if r.framebuffer.color_state = FRAMEBUFFER_CPU
      then r.set_color_state FRAMEBUFFER_STALE_GPU else r).tile_lists = r.tile_lists ∧
      (if r.framebuffer.color_state = FRAMEBUFFER_CPU
      then r.set_color_state FRAMEBUFFER_STALE_GPU else r).tile_nodes = r.tile_nodes ∧
      (if r.framebuffer.color_state = FRAMEBUFFER_CPU
      then r.set_color_state FRAMEBUFFER_STALE_GPU else r).work_data = r.work_data ∧
      (if r.framebuffer.color_state = FRAMEBUFFER_CPU
      then r.set_color_state FRAMEBUFFER_STALE_GPU else r).tiles_x = r.tiles_x ∧
      (if r.framebuffer.color_state = FRAMEBUFFER_CPU
      then r.set_color_state FRAMEBUFFER_STALE_GPU else r).primitive_data = r.primitive_data := by
    split_ifs <;> exact ⟨rfl, rfl, rfl, rfl, rfl⟩
  generalize (if r.framebuffer.color_state = FRAMEBUFFER_CPU
    then r.set_color_state FRAMEBUFFER_STALE_GPU else r) = r5 at h5
  obtain ⟨a1, a2, a3, a4, a5⟩ := h5
  have h6 : (if r5.framebuffer.depth_state = FRAMEBUFFER_CPU ∧
          (build_attr cfg d.prim d.attr r.state.primitive_z).2.1 &&&
            (cfg.RDP_FLAG_Z_UPDATE ||| cfg.RDP_FLAG_Z_COMPARE) ≠ 0
       then r5.set_depth_state FRAMEBUFFER_STALE_GPU else r5).tile_lists = r.tile_lists ∧
      (if r5.framebuffer.depth_state = FRAMEBUFFER_CPU ∧
          (build_attr cfg d.prim d.attr r.state.primitive_z).2.1 &&&
            (cfg.RDP_FLAG_Z_UPDATE ||| cfg.RDP_FLAG_Z_COMPARE) ≠ 0
       then r5.set_depth_state FRAMEBUFFER_STALE_GPU else r5).tile_nodes = r.tile_nodes ∧
      (if r5.framebuffer.depth_state = FRAMEBUFFER_CPU ∧
          (build_attr cfg d.prim d.attr r.state.primitive_z).2.1 &&&
            (cfg.RDP_FLAG_Z_UPDATE ||| cfg.RDP_FLAG_Z_COMPARE) ≠ 0
       then r5.set_depth_state FRAMEBUFFER_STALE_GPU else r5).work_data = r.work_data ∧
      (if r5.framebuffer.depth_state = FRAMEBUFFER_CPU ∧
          (build_attr cfg d.prim d.attr r.state.primitive_z).2.1 &&&
            (cfg.RDP_FLAG_Z_UPDATE ||| cfg.RDP_FLAG_Z_COMPARE) ≠ 0
       then r5.set_depth_state FRAMEBUFFER_STALE_GPU else r5).tiles_x = r.tiles_x ∧
      (if r5.framebuffer.depth_state = FRAMEBUFFER_CPU ∧
          (build_attr cfg d.prim d.attr r.state.primitive_z).2.1 &&&
            (cfg.RDP_FLAG_Z_UPDATE ||| cfg.RDP_FLAG_Z_COMPARE) ≠ 0
       then r5.set_depth_state FRAMEBUFFER_STALE_GPU else r5).primitive_data
        = r.primitive_data := by
    split_ifs <;> exact ⟨a1, a2, a3, a4, a5⟩
  generalize (if r5.framebuffer.depth_state = FRAMEBUFFER_CPU ∧
          (build_attr cfg d.prim d.attr r.state.primitive_z).2.1 &&&
            (cfg.RDP_FLAG_Z_UPDATE ||| cfg.RDP_FLAG_Z_COMPARE) ≠ 0
       then r5.set_depth_state FRAMEBUFFER_STALE_GPU else r5) = r6 at h6
  obtain ⟨b1, b2, b3, b4, b5⟩ := h6
  obtain ⟨c1, c2, c3, c4, c5⟩ :=
    draw_combiner_batch cfg r6 ((d.prim.flags >>> cfg.RDP_FLAG_CYCLE_TYPE_SHIFT) &&& 3)
  generalize draw_combiner cfg r6 ((d.prim.flags >>> cfg.RDP_FLAG_CYCLE_TYPE_SHIFT) &&& 3) = comb
    at c1 c2 c3 c4 c5
  refine ⟨c1.trans b1, c2.trans b2, c3.trans b3, c4.trans b4, ?_, ?_⟩
  · rw [List.length_append, c5, b5]
    rfl
  · intro hf
    rw [Bool.or_eq_false_iff] at hf
    have h2 := hf.2
    rw [decide_eq_false_iff_not, List.length_append, c5, b5] at h2
    simp only [List.length_singleton] at h2
    omega

end RDP

namespace RDP

/-! ## The tile lists through a draw and along a run -/

theorem tileInv_draw_primitive (cfg : Config) (d : DrawCall) {r : Renderer}
    (hmax : cfg.RDP_MAX_PRIMITIVES ≤ 2 ^ cfg.RDP_MAX_PRIMITIVES_LOG2)
    (hL : cfg.RDP_MAX_PRIMITIVES_LOG2 ≤ 32)
    (h : TileInv cfg r) : TileInv cfg (draw_primitive cfg r d) := by
  obtain ⟨w4, d4, c4⟩ := tileInv_draw_begin cfg d h
  obtain ⟨hlists, hnodes, hwork, htx, hplen, hflag⟩ := draw_record_batch cfg (draw_begin cfg r d) d
  have hbin := binOnly_bin_tiles cfg d.prim
      (clip_scissor r.scissor d.min_x d.max_x d.min_y d.max_y).1
      (clip_scissor r.scissor d.min_x d.max_x d.min_y d.max_y).2.1
      (clip_scissor r.scissor d.min_x d.max_x d.min_y d.max_y).2.2.1
      (clip_scissor r.scissor d.min_x d.max_x d.min_y d.max_y).2.2.2
      (draw_begin cfg r d).primitive_data.length
      (max (Int.tdiv (clip_scissor r.scissor d.min_x d.max_x d.min_y d.max_y).1 cfg.TILE_SIZE_X) 0)
      (min (Int.tdiv (clip_scissor r.scissor d.min_x d.max_x d.min_y d.max_y).2.1 cfg.TILE_SIZE_X)
        (((draw_begin cfg r d).tiles_x : Int) - 1))
      (Int.tdiv (clip_scissor r.scissor d.min_x d.max_x d.min_y d.max_y).2.2.1 cfg.TILE_SIZE_Y)
      (Int.tdiv (clip_scissor r.scissor d.min_x d.max_x d.min_y d.max_y).2.2.2 cfg.TILE_SIZE_Y)
      (draw_record cfg (draw_begin cfg r d) d)
  have hflagm := bin_tiles_flag cfg d.prim
      (clip_scissor r.scissor d.min_x d.max_x d.min_y d.max_y).1
      (clip_scissor r.scissor d.min_x d.max_x d.min_y d.max_y).2.1
      (clip_scissor r.scissor d.min_x d.max_x d.min_y d.max_y).2.2.1
      (clip_scissor r.scissor d.min_x d.max_x d.min_y d.max_y).2.2.2
      (draw_begin cfg r d).primitive_data.length
      (max (Int.tdiv (clip_scissor r.scissor d.min_x d.max_x d.min_y d.max_y).1 cfg.TILE_SIZE_X) 0)
      (min (Int.tdiv (clip_scissor r.scissor d.min_x d.max_x d.min_y d.max_y).2.1 cfg.TILE_SIZE_X)
        (((draw_begin cfg r d).tiles_x : Int) - 1))
      (Int.tdiv (clip_scissor r.scissor d.min_x d.max_x d.min_y d.max_y).2.2.1 cfg.TILE_SIZE_Y)
      (Int.tdiv (clip_scissor r.scissor d.min_x d.max_x d.min_y d.max_y).2.2.2 cfg.TILE_SIZE_Y)
      (draw_record cfg (draw_begin cfg r d) d)
  have hwork2 := bin_tiles_work_data cfg d.prim
      (clip_scissor r.scissor d.min_x d.max_x d.min_y d.max_y).1
      (clip_scissor r.scissor d.min_x d.max_x d.min_y d.max_y).2.1
      (clip_scissor r.scissor d.min_x d.max_x d.min_y d.max_y).2.2.1
      (clip_scissor r.scissor d.min_x d.max_x d.min_y d.max_y).2.2.2
      (draw_begin cfg r d).primitive_data.length
      (max (Int.tdiv (clip_scissor r.scissor d.min_x d.max_x d.min_y d.max_y).1 cfg.TILE_SIZE_X) 0)
      (min (Int.tdiv (clip_scissor r.scissor d.min_x d.max_x d.min_y d.max_y).2.1 cfg.TILE_SIZE_X)
        (((draw_begin cfg r d).tiles_x : Int) - 1))
      (Int.tdiv (clip_scissor r.scissor d.min_x d.max_x d.min_y d.max_y).2.2.1 cfg.TILE_SIZE_Y)
      (Int.tdiv (clip_scissor r.scissor d.min_x d.max_x d.min_y d.max_y).2.2.2 cfg.TILE_SIZE_Y)
      (draw_record cfg (draw_begin cfg r d) d)
  obtain ⟨hnodes2, hrast⟩ := bin_tiles_nodes cfg d.prim
      (clip_scissor r.scissor d.min_x d.max_x d.min_y d.max_y).1
      (clip_scissor r.scissor d.min_x d.max_x d.min_y d.max_y).2.1
      (clip_scissor r.scissor d.min_x d.max_x d.min_y d.max_y).2.2.1
      (clip_scissor r.scissor d.min_x d.max_x d.min_y d.max_y).2.2.2
      (draw_begin cfg r d).primitive_data.length
      (max (Int.tdiv (clip_scissor r.scissor d.min_x d.max_x d.min_y d.max_y).1 cfg.TILE_SIZE_X) 0)
      (min (Int.tdiv (clip_scissor r.scissor d.min_x d.max_x d.min_y d.max_y).2.1 cfg.TILE_SIZE_X)
        (((draw_begin cfg r d).tiles_x : Int) - 1))
      (Int.tdiv (clip_scissor r.scissor d.min_x d.max_x d.min_y d.max_y).2.2.1 cfg.TILE_SIZE_Y)
      (Int.tdiv (clip_scissor r.scissor d.min_x d.max_x d.min_y d.max_y).2.2.2 cfg.TILE_SIZE_Y)
      (draw_record cfg (draw_begin cfg r d) d)
  have hidle := bin_tiles_idle cfg d.prim
      (clip_scissor r.scissor d.min_x d.max_x d.min_y d.max_y).1
      (clip_scissor r.scissor d.min_x d.max_x d.min_y d.max_y).2.1
      (clip_scissor r.scissor d.min_x d.max_x d.min_y d.max_y).2.2.1
      (clip_scissor r.scissor d.min_x d.max_x d.min_y d.max_y).2.2.2
      (draw_begin cfg r d).primitive_data.length
      (max (Int.tdiv (clip_scissor r.scissor d.min_x d.max_x d.min_y d.max_y).1 cfg.TILE_SIZE_X) 0)
      (min (Int.tdiv (clip_scissor r.scissor d.min_x d.max_x d.min_y d.max_y).2.1 cfg.TILE_SIZE_X)
        (((draw_begin cfg r d).tiles_x : Int) - 1))
      (Int.tdiv (clip_scissor r.scissor d.min_x d.max_x d.min_y d.max_y).2.2.1 cfg.TILE_SIZE_Y)
      (Int.tdiv (clip_scissor r.scissor d.min_x d.max_x d.min_y d.max_y).2.2.2 cfg.TILE_SIZE_Y)
      (draw_record cfg (draw_begin cfg r d) d)
  have hchain := bin_tiles_chain cfg d.prim
      (clip_scissor r.scissor d.min_x d.max_x d.min_y d.max_y).1
      (clip_scissor r.scissor d.min_x d.max_x d.min_y d.max_y).2.1
      (clip_scissor r.scissor d.min_x d.max_x d.min_y d.max_y).2.2.1
      (clip_scissor r.scissor d.min_x d.max_x d.min_y d.max_y).2.2.2
      (draw_begin cfg r d).primitive_data.length
      (max (Int.tdiv (clip_scissor r.scissor d.min_x d.max_x d.min_y d.max_y).1 cfg.TILE_SIZE_X) 0)
      (min (Int.tdiv (clip_scissor r.scissor d.min_x d.max_x d.min_y d.max_y).2.1 cfg.TILE_SIZE_X)
        (((draw_begin cfg r d).tiles_x : Int) - 1))
      (Int.tdiv (clip_scissor r.scissor d.min_x d.max_x d.min_y d.max_y).2.2.1 cfg.TILE_SIZE_Y)
      (Int.tdiv (clip_scissor r.scissor d.min_x d.max_x d.min_y d.max_y).2.2.2 cfg.TILE_SIZE_Y)
      (draw_record cfg (draw_begin cfg r d) d)
  unfold draw_primitive
  dsimp only
  generalize bin_tiles cfg d.prim
      (clip_scissor r.scissor d.min_x d.max_x d.min_y d.max_y).1
      (clip_scissor r.scissor d.min_x d.max_x d.min_y d.max_y).2.1
      (clip_scissor r.scissor d.min_x d.max_x d.min_y d.max_y).2.2.1
      (clip_scissor r.scissor d.min_x d.max_x d.min_y d.max_y).2.2.2
      (draw_begin cfg r d).primitive_data.length
      (max (Int.tdiv (clip_scissor r.scissor d.min_x d.max_x d.min_y d.max_y).1 cfg.TILE_SIZE_X) 0)
      (min (Int.tdiv (clip_scissor r.scissor d.min_x d.max_x d.min_y d.max_y).2.1 cfg.TILE_SIZE_X)
        (((draw_begin cfg r d).tiles_x : Int) - 1))
      (Int.tdiv (clip_scissor r.scissor d.min_x d.max_x d.min_y d.max_y).2.2.1 cfg.TILE_SIZE_Y)
      (Int.tdiv (clip_scissor r.scissor d.min_x d.max_x d.min_y d.max_y).2.2.2 cfg.TILE_SIZE_Y)
      (draw_record cfg (draw_begin cfg r d) d) = binned
    at hbin hflagm hwork2 hnodes2 hrast hidle hchain
  have hpd : binned.1.primitive_data.length = (draw_begin cfg r d).primitive_data.length + 1 := by
    rw [hbin]; exact hplen
  have hlen : binned.1.work_data.length = binned.1.tile_nodes.length := by
    rw [hwork, hnodes] at *
    omega
  have hge : (draw_begin cfg r d).tile_nodes.length ≤ binned.1.tile_nodes.length := by
    rw [hnodes] at hnodes2
    omega
  -- what is left to show once the shape of the lists after the loops is known
  have fin : (binned.1.tile_nodes.length < SENTINEL →
        ∃ B, ChainInv cfg binned.1.tile_nodes binned.1.tile_lists
          (draw_begin cfg r d).primitive_data.length B) →
      (binned.1.tile_nodes ≠ [] →
        (draw_begin cfg r d).primitive_data.length + 1 < cfg.RDP_MAX_PRIMITIVES) →
      TileInv cfg binned.1 := by
    intro hc hd
    refine ⟨hlen, fun hne => by rw [hpd]; exact hd hne, ?_⟩
    intro hsz
    obtain ⟨B, hB⟩ := hc hsz
    rw [hpd]
    exact chainInv_finish cfg _ _ _ _ hB (Nat.lt_succ_self _)
  by_cases hf : binned.2 = true
  · rw [if_pos hf]
    by_cases hw : binned.1.work_data = []
    · rw [flush_tile_lists_idle cfg _ hw]
      have hn0 : binned.1.tile_nodes = [] := by
        rw [hw, List.length_nil] at hlen
        exact List.length_eq_zero.mp hlen.symm
      refine fin ?_ (fun hne => absurd hn0 hne)
      intro _
      have hr : binned.1.raster_tile_count
          = (draw_record cfg (draw_begin cfg r d) d).1.raster_tile_count := by
        rw [hw, List.length_nil] at hwork2
        omega
      obtain ⟨i1, i2⟩ := hidle hr
      have hsz4 : (draw_begin cfg r d).tile_nodes.length < SENTINEL := by
        rw [← hnodes, ← i2, hn0]
        decide
      refine ⟨((draw_begin cfg r d).tile_lists.length : Int), ?_⟩
      rw [i1, i2, hlists, hnodes]
      exact (c4 hsz4).1
    · have hp : binned.1.primitive_data ≠ [] := by
        intro h0
        rw [h0, List.length_nil] at hpd
        omega
      obtain ⟨r1, hr1⟩ := flush_tile_lists_reset cfg binned.1 hp hw
      rw [hr1]
      exact tileInv_reset_buffers cfg r1
  · rw [if_neg hf]
    have hf0 : (draw_record cfg (draw_begin cfg r d) d).2 = false := by
      cases hc : (draw_record cfg (draw_begin cfg r d) d).2
      · rfl
      · exact absurd (hflagm hc) hf
    have hlt := hflag hf0
    refine fin ?_ (fun _ => hlt)
    intro hsz
    have hsz4 : (draw_begin cfg r d).tile_nodes.length < SENTINEL := Nat.lt_of_le_of_lt hge hsz
    obtain ⟨c41, c42⟩ := c4 hsz4
    refine hchain (by omega) hL (le_max_right _ _) ?_ ?_ hsz
    · rw [htx]
      exact min_le_right _ _
    · intro b
      rw [hlists, hnodes]
      exact chainInv_start cfg _ _ _ c41 c42 b

theorem tileInv_step (cfg : Config) (op : Op) {r : Renderer}
    (hmax : cfg.RDP_MAX_PRIMITIVES ≤ 2 ^ cfg.RDP_MAX_PRIMITIVES_LOG2)
    (hL : cfg.RDP_MAX_PRIMITIVES_LOG2 ≤ 32)
    (h : TileInv cfg r) : TileInv cfg (step cfg r op) := by
  cases op with
  | set_depth_image addr synchronous =>
    simp only [step, set_depth_image]
    split_ifs
    · exact h
    · exact tileInv_of_fields cfg (tileInv_complete_frame cfg synchronous h) rfl rfl rfl rfl
    · exact tileInv_of_fields cfg h rfl rfl rfl rfl
  | set_color_image addr format pixel_size width synchronous =>
    simp only [step, set_color_image]
    have h2 : TileInv cfg
        { complete_frame cfg r synchronous with framebuffer :=
          { (complete_frame cfg r synchronous).framebuffer with
            addr := addr, format := format, width := width, pixel_size := pixel_size } } :=
      tileInv_of_fields cfg (tileInv_complete_frame cfg synchronous h) rfl rfl rfl rfl
    repeat' split
    all_goals first
      | exact h
      | exact h2
      | exact tileInv_set_framebuffer_size cfg _ _ h2
  | set_framebuffer_size width height => exact tileInv_set_framebuffer_size cfg _ _ h
  | draw_primitive d => exact tileInv_draw_primitive cfg d hmax hL h
  | flush_tile_lists => exact tileInv_flush_tile_lists cfg h
  | complete_frame synchronous => exact tileInv_complete_frame cfg synchronous h
  | sync_full => exact tileInv_sync_full cfg h
  | begin_index index =>
    exact tileInv_of_residencyOnly cfg h (residencyOnly_begin_index _ (residencyOnly_refl r))
  | check_tmem_feedback addr synchronous =>
    simp only [step, check_tmem_feedback]
    split_ifs
    · exact tileInv_complete_frame cfg synchronous h
    · exact tileInv_complete_frame cfg synchronous h
    · exact h
  | fill_rect_cpu xmin xmax ymin ymax =>
    simp only [step, fill_rect_cpu]
    rw [assert_eq]
    exact tileInv_of_fields cfg h rfl rfl rfl rfl
  | _ => exact tileInv_of_fields cfg h rfl rfl rfl rfl

theorem tileInv_run (cfg : Config) (ops : List Op) {r : Renderer}
    (hmax : cfg.RDP_MAX_PRIMITIVES ≤ 2 ^ cfg.RDP_MAX_PRIMITIVES_LOG2)
    (hL : cfg.RDP_MAX_PRIMITIVES_LOG2 ≤ 32)
    (h : TileInv cfg r) : TileInv cfg (run cfg r ops) := by
  unfold run
  induction ops generalizing r with
  | nil => exact h
  | cons op ops ih => exact ih (tileInv_step cfg op hmax hL h)

theorem tileInv_init (cfg : Config) : TileInv cfg (Renderer.init cfg) := by
  refine ⟨rfl, fun h => absurd rfl h, fun _ => ⟨⟨?_, ?_, ?_⟩, ?_⟩⟩
  · intro k n hk
    simp [Renderer.init] at hk
  · intro t info ht
    simp [Renderer.init] at ht
  · intro t1 t2 i1 i2 h1
    simp [Renderer.init] at h1
  · intro k n hk
    simp [Renderer.init] at hk

theorem tile_chain_sentinel (N : List TileNode) (fuel : Nat) :
    tile_chain N fuel SENTINEL = some [] := by
  cases fuel <;> simp [tile_chain]

/-- A walk to a node whose `next` is the sentinel is what `tile_chain` computes, and the
primitive indices along it increase. -/
theorem tile_chain_of_reach (cfg : Config) (N : List TileNode) (P : Nat)
    (hA : ∀ (k : Nat) (n : TileNode), N[k]? = some n →
      node_primitive cfg n ≤ P ∧
      (n.next = SENTINEL ∨
        (k < n.next ∧ ∃ m, N[n.next]? = some m ∧ node_primitive cfg n < node_primitive cfg m)))
    (hsz : N.length ≤ SENTINEL) {a b : Nat} (hr : Reach N a b) (nb : TileNode)
    (hb : N[b]? = some nb) (hbs : nb.next = SENTINEL) :
    ∀ fuel, N.length ≤ a + fuel →
      ∃ na rest, N[a]? = some na ∧ tile_chain N fuel a = some ((a, na) :: rest) ∧
        ((a, na) :: rest).getLast? = some (b, nb) ∧
        (((a, na) :: rest).map (fun p => node_primitive cfg p.2)).Pairwise (fun u v => u < v) ∧
        (∀ p ∈ (a, na) :: rest, N[p.1]? = some p.2 ∧
          node_primitive cfg na ≤ node_primitive cfg p.2) := by
  induction hr with
  | here a n hn =>
    intro fuel hfuel
    have hlt : a < N.length := (List.getElem?_eq_some_iff.mp hn).1
    have e : n = nb := Option.some.inj (hn.symm.trans hb)
    obtain ⟨f, rfl⟩ : ∃ f, fuel = f + 1 := ⟨fuel - 1, by omega⟩
    refine ⟨nb, [], hb, ?_, rfl, by simp, ?_⟩
    · rw [tile_chain, if_neg (by omega), hb]
      dsimp only
      rw [hbs, tile_chain_sentinel]
      rfl
    · intro p hp
      rw [List.mem_singleton] at hp
      rw [hp]
      exact ⟨hb, Nat.le_refl _⟩
  | link a b n hn hr ih =>
    intro fuel hfuel
    have hlt : a < N.length := (List.getElem?_eq_some_iff.mp hn).1
    have hnl : n.next < N.length := reach_lt hr
    obtain ⟨f, rfl⟩ : ∃ f, fuel = f + 1 := ⟨fuel - 1, by omega⟩
    obtain ⟨_, hlink⟩ := hA a n hn
    rcases hlink with hs | ⟨han, m, hm, hpm⟩
    · omega
    · obtain ⟨na, rest, hna, hch, hlast, hpw, hall⟩ := ih hb f (by omega)
      have e : m = na := Option.some.inj (hm.symm.trans hna)
      refine ⟨n, (n.next, na) :: rest, hn, ?_, ?_, ?_, ?_⟩
      · rw [tile_chain, if_neg (by omega), hn]
        dsimp only
        rw [hch]
        rfl
      · rw [List.getLast?_cons_cons]
        exact hlast
      · rw [List.map_cons, List.pairwise_cons]
        refine ⟨?_, hpw⟩
        intro v hv
        obtain ⟨p, hp, rfl⟩ := List.mem_map.mp hv
        have := (hall p hp).2
        rw [← e] at this
        exact Nat.lt_of_lt_of_le hpm this
      · intro p hp
        rcases List.mem_cons.mp hp with h | h
        · rw [h]
          exact ⟨hn, Nat.le_refl _⟩
        · have := hall p h
          rw [← e] at this
          exact ⟨this.1, Nat.le_trans (Nat.le_of_lt hpm) this.2⟩

/-- C3: after every run from the initial engine whose node pool holds fewer nodes than the
sentinel, and for every tile of the tile lists: the walk along the `next` links from the head
of the tile ends at the sentinel; the primitive indices of the nodes it visits increase
strictly, and each is the index of a record of the batch; when the head is not the sentinel
the first node visited is the head, the last one is the tail, and the `next` of the tail is the
sentinel; the walk visits no node exactly when the head is the sentinel. -/
theorem tile_list_nodes_in_submission_order (cfg : Config) (ops : List Op)
    (hmax : cfg.RDP_MAX_PRIMITIVES ≤ 2 ^ cfg.RDP_MAX_PRIMITIVES_LOG2)
    (hL : cfg.RDP_MAX_PRIMITIVES_LOG2 ≤ 32)
    (hpool : (run cfg (Renderer.init cfg) ops).tile_nodes.length < SENTINEL)
    (t : Nat) (info : TileInfo)
    (ht : (run cfg (Renderer.init cfg) ops).tile_lists[t]? = some info) :
    ∃ chain,
      tile_chain (run cfg (Renderer.init cfg) ops).tile_nodes
        (run cfg (Renderer.init cfg) ops).tile_nodes.length info.head = some chain ∧
      (chain.map (fun p => node_primitive cfg p.2)).Pairwise (fun u v => u < v) ∧
      (∀ p ∈ chain, (run cfg (Renderer.init cfg) ops).tile_nodes[p.1]? = some p.2 ∧
        node_primitive cfg p.2 < (run cfg (Renderer.init cfg) ops).primitive_data.length) ∧
      (info.head ≠ SENTINEL →
        chain.head?.map (fun p => p.1) = some info.head ∧
        chain.getLast?.map (fun p => (p.1, p.2.next)) = some (info.tail, SENTINEL)) ∧
      (chain = [] ↔ info.head = SENTINEL) := by
  obtain ⟨_, _, hc⟩ := tileInv_run cfg ops hmax hL (tileInv_init cfg)
  obtain ⟨⟨hA, hB, _⟩, hlt⟩ := hc hpool
  by_cases hh : info.head = SENTINEL
  · refine ⟨[], ?_, by simp, by simp, fun h => absurd hh h, by simp [hh]⟩
    rw [hh, tile_chain_sentinel]
  · obtain ⟨hr, nb, hb, hbs, _⟩ := hB t info ht hh
    obtain ⟨na, rest, hna, hch, hlast, hpw, hall⟩ :=
      tile_chain_of_reach cfg _ _ hA (Nat.le_of_lt hpool) hr nb hb hbs
        (run cfg (Renderer.init cfg) ops).tile_nodes.length (Nat.le_add_left _ _)
    refine ⟨(info.head, na) :: rest, hch, hpw, ?_, fun _ => ⟨rfl, ?_⟩, by simp [hh]⟩
    · intro p hp
      exact ⟨(hall p hp).1, hlt _ _ (hall p hp).1⟩
    · rw [hlast]
      simp [hbs]

set_option maxRecDepth 100000 in
/-- C3, witness: two draws under the small configuration, the first on tile 0, the second on
the tiles 0 and 1.  The list of tile 0 has head 0 and tail 1; the walk from its head visits
node 0 (primitive 0, `next` 1) and node 1 (primitive 1, `next` the sentinel). -/
theorem tile_list_nodes_in_submission_order_witness :
    (run Config.small (Renderer.init Config.small) two_draw_ops).tile_lists[0]?
      = some { head := 0, tail := 1 } ∧
    tile_chain (run Config.small (Renderer.init Config.small) two_draw_ops).tile_nodes
      (run Config.small (Renderer.init Config.small) two_draw_ops).tile_nodes.length 0
      = some [(0, { value := 0, next := 1 }), (1, { value := 5, next := SENTINEL })] ∧
    ∃ chain,
      tile_chain (run Config.small (Renderer.init Config.small) two_draw_ops).tile_nodes
        (run Config.small (Renderer.init Config.small) two_draw_ops).tile_nodes.length
        (TileInfo.mk 0 1).head = some chain ∧
      (chain.map (fun p => node_primitive Config.small p.2)).Pairwise (fun u v => u < v) ∧
      (∀ p ∈ chain,
        (run Config.small (Renderer.init Config.small) two_draw_ops).tile_nodes[p.1]? = some p.2 ∧
        node_primitive Config.small p.2 <
          (run Config.small (Renderer.init Config.small) two_draw_ops).primitive_data.length) ∧
      ((TileInfo.mk 0 1).head ≠ SENTINEL →
        chain.head?.map (fun p => p.1) = some (TileInfo.mk 0 1).head ∧
        chain.getLast?.map (fun p => (p.1, p.2.next)) = some ((TileInfo.mk 0 1).tail, SENTINEL)) ∧
      (chain = [] ↔ (TileInfo.mk 0 1).head = SENTINEL) :=
  ⟨by decide, by decide,
   tile_list_nodes_in_submission_order Config.small two_draw_ops (by decide) (by decide)
     (by decide) 0 { head := 0, tail := 1 } (by decide)⟩

end RDP

namespace RDP

/-! ## Concrete runs -/

set_option maxRecDepth 100000 in
/-- C10, witness: a draw and a flush.  The log holds the write that takes the colour surface
from STALE_GPU to GPU. -/
theorem residency_reaches_gpu_only_from_stale_witness :
    Event.residency Surface.color FRAMEBUFFER_STALE_GPU FRAMEBUFFER_GPU ∈
      (run Config.sample (Renderer.init Config.sample) draw_flush_ops).log ∧
    ((∀ s old, Event.residency s old FRAMEBUFFER_GPU ∈
        (run Config.sample (Renderer.init Config.sample) draw_flush_ops).log →
      old = FRAMEBUFFER_STALE_GPU) ∧
     replay_residency (FRAMEBUFFER_CPU, FRAMEBUFFER_CPU)
        (run Config.sample (Renderer.init Config.sample) draw_flush_ops).log =
      some ((run Config.sample (Renderer.init Config.sample) draw_flush_ops).framebuffer.color_state,
        (run Config.sample (Renderer.init Config.sample) draw_flush_ops).framebuffer.depth_state)) :=
  ⟨by decide, residency_reaches_gpu_only_from_stale Config.sample draw_flush_ops⟩

end RDP

namespace RDP

/-! ## The combiner indices of the uploaded batches -/

theorem cacheStep_refl (r : Renderer) : CacheStep r r :=
  ⟨Or.inl ⟨rfl, rfl, rfl⟩, [], by simp, by intro b hb; cases hb⟩

theorem cacheStep_trans {a b c : Renderer} (h1 : CacheStep a b) (h2 : CacheStep b c) :
    CacheStep a c := by
  obtain ⟨s1, es1, e1, f1⟩ := h1
  obtain ⟨s2, es2, e2, f2⟩ := h2
  refine ⟨?_, es1 ++ es2, by rw [e2, e1, List.append_assoc], ?_⟩
  · rcases s2 with ⟨p2, c2, g2⟩ | p2
    · rcases s1 with ⟨p1, c1, g1⟩ | p1
      · exact Or.inl ⟨p2.trans p1, c2.trans c1, g2.trans g1⟩
      · exact Or.inr (p2.trans p1)
    · exact Or.inr p2
  · intro x hx
    rcases List.mem_append.mp hx with h | h
    · exact f1 x h
    · obtain ⟨n2, p2, c2, g2⟩ := f2 x h
      rcases s1 with ⟨p1, c1, g1⟩ | p1
      · exact ⟨n2, p2.trans p1, c2.trans c1, g2.trans g1⟩
      · exact absurd (p2.trans p1) n2

/-- A change that leaves the batch alone and appends no batch upload to the log. -/
theorem cacheStep_of_eq {r r' : Renderer} (h : ∃ es, r'.log = r.log ++ es ∧ NoFlush es)
    (hp : r'.primitive_data = r.primitive_data) (hc : r'.combiner_data = r.combiner_data)
    (hg : r'.ghost_resolved = r.ghost_resolved) : CacheStep r r' := by
  obtain ⟨es, hl, hes⟩ := h
  refine ⟨Or.inl ⟨hp, hc, hg⟩, es, hl, ?_⟩
  intro b hb
  exact absurd rfl (hes _ hb b)

theorem cacheStep_of_residencyOnly {r r' : Renderer} (h : ResidencyOnly r r')
    (hl : ∃ es, r'.log = r.log ++ es ∧ NoFlush es) : CacheStep r r' :=
  cacheStep_of_eq hl (by rw [h]) (by rw [h]) (by rw [h])

theorem cacheStep_flush_tile_lists (cfg : Config) (r : Renderer) :
    CacheStep r (flush_tile_lists cfg r) := by
  unfold flush_tile_lists
  by_cases hc : (r.primitive_data.isEmpty || r.work_data.isEmpty) = true
  · rw [if_pos hc]
    exact cacheStep_refl r
  · rw [if_neg hc]
    dsimp only
    have hne : r.primitive_data ≠ [] := by
      intro h0
      rw [h0] at hc
      simp at hc
    have hres : ResidencyOnly r (sync_depth_dram_to_gpu (sync_color_dram_to_gpu
        (begin_command_buffer r))) :=
      residencyOnly_sync_depth_dram_to_gpu (residencyOnly_sync_color_dram_to_gpu
        (residencyOnly_begin_command_buffer (residencyOnly_refl r)))
    obtain ⟨es, hl, hes⟩ := log_sync_depth_dram_to_gpu (log_sync_color_dram_to_gpu
      (log_begin_command_buffer (log_refl r)))
    generalize sync_depth_dram_to_gpu (sync_color_dram_to_gpu (begin_command_buffer r)) = r3
      at hres hl
    have hpd : r3.primitive_data = r.primitive_data := by rw [hres]
    have hcd : r3.combiner_data = r.combiner_data := by rw [hres]
    have hgr : r3.ghost_resolved = r.ghost_resolved := by rw [hres]
    refine ⟨Or.inr rfl, es ++ [Event.flush
      { primitives := r3.primitive_data, heads := r3.tile_lists.map (fun t => t.head),
        nodes := r3.tile_nodes, combiners := r3.combiner_data, work := r3.work_data,
        tile_count := r3.tile_count, resolved := r3.ghost_resolved }], ?_, ?_⟩
    · simp only [reset_buffers, Renderer.emit, hl, List.append_assoc]
    · intro b hb
      rcases List.mem_append.mp hb with h | h
      · exact absurd rfl (hes _ h b)
      · simp only [List.mem_singleton, Event.flush.injEq] at h
        rw [h]
        exact ⟨by dsimp only; rw [hpd]; exact hne, hpd, hcd, hgr⟩

theorem cacheStep_sync_gpu_to_dram (r : Renderer) (blocking : Bool) :
    CacheStep r (sync_gpu_to_dram r blocking) :=
  cacheStep_of_residencyOnly (residencyOnly_sync_gpu_to_dram blocking (residencyOnly_refl r))
    (log_sync_gpu_to_dram blocking (log_refl r))

theorem cacheStep_sync_full (cfg : Config) (r : Renderer) : CacheStep r (sync_full cfg r) := by
  unfold sync_full
  dsimp only
  refine cacheStep_trans ?_ (cacheStep_sync_gpu_to_dram _ _)
  refine cacheStep_trans ?_ (cacheStep_flush_tile_lists cfg _)
  exact cacheStep_of_residencyOnly
    (residencyOnly_push_ledger _ (residencyOnly_foldl_sync _ (residencyOnly_refl r)))
    (log_foldl_sync r.async_transfers (log_refl r))

theorem cacheStep_complete_frame (cfg : Config) (r : Renderer) (synchronous : Bool) :
    CacheStep r (complete_frame cfg r synchronous) := by
  unfold complete_frame
  split_ifs
  · exact cacheStep_sync_full cfg r
  · exact cacheStep_trans (cacheStep_flush_tile_lists cfg r) (cacheStep_sync_gpu_to_dram _ _)

theorem cacheStep_set_framebuffer_size (cfg : Config) (r : Renderer) (width height : Nat) :
    CacheStep r (set_framebuffer_size cfg r width height) := by
  unfold set_framebuffer_size
  have h1 : CacheStep r
      (if r.framebuffer.color_state = FRAMEBUFFER_GPU ∨ r.framebuffer.depth_state = FRAMEBUFFER_GPU
       then sync_full cfg r else r) := by
    split_ifs
    · exact cacheStep_sync_full cfg r
    · exact cacheStep_refl r
  refine cacheStep_trans h1 ?_
  generalize (if r.framebuffer.color_state = FRAMEBUFFER_GPU ∨
    r.framebuffer.depth_state = FRAMEBUFFER_GPU then sync_full cfg r else r) = r1
  dsimp only
  exact cacheStep_of_eq (log_assert _ _ (log_same rfl (log_refl r1)))
    (by rw [assert_eq]) (by rw [assert_eq]) (by rw [assert_eq])

theorem cacheStep_draw_begin (cfg : Config) (r : Renderer) (d : DrawCall) :
    CacheStep r (draw_begin cfg r d) := by
  unfold draw_begin
  dsimp only
  have h1 : CacheStep r
      (if (clip_scissor r.scissor d.min_x d.max_x d.min_y d.max_y).2.2.2
          ≥ (r.framebuffer.allocated_height : Int)
       then set_framebuffer_size cfg r r.framebuffer.allocated_width
         ((clip_scissor r.scissor d.min_x d.max_x d.min_y d.max_y).2.2.2 + 1).toNat
       else r) := by
    split_ifs
    · exact cacheStep_set_framebuffer_size cfg r _ _
    · exact cacheStep_refl r
  refine cacheStep_trans h1 (cacheStep_of_eq
    (log_assert _ _ (log_assert _ _ (log_same ?_ (log_refl _)))) ?_ ?_ ?_)
  · rw [update_tiles_frame]
  · rw [assert_eq, assert_eq, update_tiles_frame]
  · rw [assert_eq, assert_eq, update_tiles_frame]
  · rw [assert_eq, assert_eq, update_tiles_frame]

theorem cacheStep_step (cfg : Config) (r : Renderer) (op : Op)
    (h : ∀ d, op ≠ Op.draw_primitive d) : CacheStep r (step cfg r op) := by
  cases op with
  | set_depth_image addr synchronous =>
    show CacheStep r (set_depth_image cfg r addr synchronous)
    unfold set_depth_image
    split_ifs
    · exact cacheStep_refl r
    · exact cacheStep_trans (cacheStep_complete_frame cfg r synchronous)
        (cacheStep_of_eq (log_same rfl (log_refl _)) rfl rfl rfl)
    · exact cacheStep_of_eq (log_same rfl (log_refl _)) rfl rfl rfl
  | set_color_image addr format pixel_size width synchronous =>
    show CacheStep r (set_color_image cfg r addr format pixel_size width synchronous)
    unfold set_color_image
    have h2 : CacheStep r
        { complete_frame cfg r synchronous with framebuffer :=
          { (complete_frame cfg r synchronous).framebuffer with
            addr := addr, format := format, width := width, pixel_size := pixel_size } } :=
      cacheStep_trans (cacheStep_complete_frame cfg r synchronous)
        (cacheStep_of_eq (log_same rfl (log_refl _)) rfl rfl rfl)
    dsimp only
    split_ifs
    all_goals first
      | exact cacheStep_refl r
      | exact h2
      | exact cacheStep_trans h2 (cacheStep_set_framebuffer_size cfg _ _ _)
  | set_framebuffer_size width height => exact cacheStep_set_framebuffer_size cfg r width height
  | draw_primitive d => exact absurd rfl (h d)
  | flush_tile_lists => exact cacheStep_flush_tile_lists cfg r
  | complete_frame synchronous => exact cacheStep_complete_frame cfg r synchronous
  | sync_full => exact cacheStep_sync_full cfg r
  | begin_index index =>
    show CacheStep r (begin_index r index)
    rw [begin_index_eq]
    exact cacheStep_of_eq ⟨_, rfl, noFlush_flatMap_copy_back_log _⟩ rfl rfl rfl
  | check_tmem_feedback addr synchronous =>
    show CacheStep r (check_tmem_feedback cfg r addr synchronous)
    unfold check_tmem_feedback
    split_ifs
    · exact cacheStep_complete_frame cfg r synchronous
    · exact cacheStep_complete_frame cfg r synchronous
    · exact cacheStep_refl r
  | fill_rect_cpu xmin xmax ymin ymax =>
    show CacheStep r (fill_rect_cpu cfg r xmin xmax ymin ymax)
    unfold fill_rect_cpu
    dsimp only
    exact cacheStep_of_eq (log_emit _ (by simp) (log_assert _ _ (log_same rfl (log_refl r))))
      (by rw [Renderer.emit, assert_eq]) (by rw [Renderer.emit, assert_eq])
      (by rw [Renderer.emit, assert_eq])
  | _ => exact cacheStep_of_eq (log_same rfl (log_refl r)) rfl rfl rfl

/-- A batch with the records, the table and the resolved states of a renderer whose cache is
consistent. -/
theorem batchShares_of_inv (cfg : Config) {r : Renderer} (h : CombinerCacheInv cfg r)
    (b : FlushedBatch) (hp : b.primitives = r.primitive_data)
    (hc : b.combiners = r.combiner_data) (hg : b.resolved = r.ghost_resolved) :
    BatchShares b := by
  obtain ⟨k1, _, k2, _⟩ := h
  unfold BatchShares
  rw [hp, hc, hg]
  refine ⟨?_, ?_⟩
  · intro i j p q c hp hq hi hj
    obtain ⟨a, ha1, ha2⟩ := k2 i p c hp hi
    obtain ⟨b, hb1, hb2⟩ := k2 j q c hq hj
    rw [ha2] at hb2
    rw [ha1, hb1, hb2]
    exact ⟨rfl, rfl⟩
  · rw [List.nodup_iff_getElem?_ne_getElem?]
    intro i j hij hj heq
    have hi : i < r.combiner_data.length := Nat.lt_trans hij hj
    rw [List.getElem?_eq_getElem hi] at heq
    have e1 := k1 i _ (List.getElem?_eq_getElem hi)
    have e2 := k1 j _ heq.symm
    rw [e1] at e2
    simp only [Option.some.injEq] at e2
    omega

theorem batchesShare_of_cacheStep (cfg : Config) {r r' : Renderer}
    (h : CombinerCacheInv cfg r) (hl : ∀ b, Event.flush b ∈ r.log → BatchShares b)
    (hs : CacheStep r r') : ∀ b, Event.flush b ∈ r'.log → BatchShares b := by
  obtain ⟨_, es, e1, f1⟩ := hs
  intro b hb
  rw [e1] at hb
  rcases List.mem_append.mp hb with h1 | h1
  · exact hl b h1
  · obtain ⟨_, hp, hc, hg⟩ := f1 b h1
    exact batchShares_of_inv cfg h b hp hc hg

theorem log_draw_combiner (cfg : Config) (r : Renderer) (cycle_type : Nat) :
    ∃ es, (draw_combiner cfg r cycle_type).1.log = r.log ++ es ∧ NoFlush es := by
  unfold draw_combiner
  dsimp only
  split_ifs
  · split <;> exact log_assert _ _ (log_same rfl (log_refl r))
  · exact log_assert _ _ (log_refl r)
  · exact log_refl r

theorem log_draw_record (cfg : Config) (r : Renderer) (d : DrawCall) :
    ∃ es, (draw_record cfg r d).1.log = r.log ++ es ∧ NoFlush es := by
  unfold draw_record
  dsimp only
  have h5 : ∃ es, (if r.framebuffer.color_state = FRAMEBUFFER_CPU
      then r.set_color_state FRAMEBUFFER_STALE_GPU else r).log = r.log ++ es ∧ NoFlush es := by
    split_ifs
    · exact log_set_color_state _ (log_refl r)
    · exact log_refl r
  generalize (if r.framebuffer.color_state = FRAMEBUFFER_CPU
    then r.set_color_state FRAMEBUFFER_STALE_GPU else r) = r5 at h5
  have h6 : ∃ es, (if r5.framebuffer.depth_state = FRAMEBUFFER_CPU ∧
          (build_attr cfg d.prim d.attr r.state.primitive_z).2.1 &&&
            (cfg.RDP_FLAG_Z_UPDATE ||| cfg.RDP_FLAG_Z_COMPARE) ≠ 0
       then r5.set_depth_state FRAMEBUFFER_STALE_GPU else r5).log = r.log ++ es ∧ NoFlush es := by
    split_ifs
    · exact log_set_depth_state _ h5
    · exact h5
  generalize (if r5.framebuffer.depth_state = FRAMEBUFFER_CPU ∧
          (build_attr cfg d.prim d.attr r.state.primitive_z).2.1 &&&
            (cfg.RDP_FLAG_Z_UPDATE ||| cfg.RDP_FLAG_Z_COMPARE) ≠ 0
       then r5.set_depth_state FRAMEBUFFER_STALE_GPU else r5) = r6 at h6
  obtain ⟨es6, l6, n6⟩ := h6
  obtain ⟨es, hl, hes⟩ :=
    log_draw_combiner cfg r6 ((d.prim.flags >>> cfg.RDP_FLAG_CYCLE_TYPE_SHIFT) &&& 3)
  exact ⟨es6 ++ es, by rw [hl, l6, List.append_assoc], noFlush_append n6 hes⟩

theorem batchesShare_draw_primitive (cfg : Config) (d : DrawCall) {r : Renderer}
    (h : CombinerCacheInv cfg r) (hl : ∀ b, Event.flush b ∈ r.log → BatchShares b) :
    ∀ b, Event.flush b ∈ (draw_primitive cfg r d).log → BatchShares b := by
  have h4 := combinerCacheInv_draw_begin cfg d h
  have l4 := batchesShare_of_cacheStep cfg h hl (cacheStep_draw_begin cfg r d)
  obtain ⟨es, hle, hes⟩ := log_draw_record cfg (draw_begin cfg r d) d
  have hbin := binOnly_bin_tiles cfg d.prim
      (clip_scissor r.scissor d.min_x d.max_x d.min_y d.max_y).1
      (clip_scissor r.scissor d.min_x d.max_x d.min_y d.max_y).2.1
      (clip_scissor r.scissor d.min_x d.max_x d.min_y d.max_y).2.2.1
      (clip_scissor r.scissor d.min_x d.max_x d.min_y d.max_y).2.2.2
      (draw_begin cfg r d).primitive_data.length
      (max (Int.tdiv (clip_scissor r.scissor d.min_x d.max_x d.min_y d.max_y).1 cfg.TILE_SIZE_X) 0)
      (min (Int.tdiv (clip_scissor r.scissor d.min_x d.max_x d.min_y d.max_y).2.1 cfg.TILE_SIZE_X)
        (((draw_begin cfg r d).tiles_x : Int) - 1))
      (Int.tdiv (clip_scissor r.scissor d.min_x d.max_x d.min_y d.max_y).2.2.1 cfg.TILE_SIZE_Y)
      (Int.tdiv (clip_scissor r.scissor d.min_x d.max_x d.min_y d.max_y).2.2.2 cfg.TILE_SIZE_Y)
      (draw_record cfg (draw_begin cfg r d) d)
  have hinv := combinerCacheInv_of_binOnly cfg (combinerCacheInv_draw_record cfg d h4) hbin
  unfold draw_primitive
  dsimp only
  generalize bin_tiles cfg d.prim
      (clip_scissor r.scissor d.min_x d.max_x d.min_y d.max_y).1
      (clip_scissor r.scissor d.min_x d.max_x d.min_y d.max_y).2.1
      (clip_scissor r.scissor d.min_x d.max_x d.min_y d.max_y).2.2.1
      (clip_scissor r.scissor d.min_x d.max_x d.min_y d.max_y).2.2.2
      (draw_begin cfg r d).primitive_data.length
      (max (Int.tdiv (clip_scissor r.scissor d.min_x d.max_x d.min_y d.max_y).1 cfg.TILE_SIZE_X) 0)
      (min (Int.tdiv (clip_scissor r.scissor d.min_x d.max_x d.min_y d.max_y).2.1 cfg.TILE_SIZE_X)
        (((draw_begin cfg r d).tiles_x : Int) - 1))
      (Int.tdiv (clip_scissor r.scissor d.min_x d.max_x d.min_y d.max_y).2.2.1 cfg.TILE_SIZE_Y)
      (Int.tdiv (clip_scissor r.scissor d.min_x d.max_x d.min_y d.max_y).2.2.2 cfg.TILE_SIZE_Y)
      (draw_record cfg (draw_begin cfg r d) d) = binned at hbin hinv
  have hlg : binned.1.log = (draw_record cfg (draw_begin cfg r d) d).1.log := by rw [hbin]
  have hlb : ∀ b, Event.flush b ∈ binned.1.log → BatchShares b := by
    intro b hb
    rw [hlg, hle] at hb
    rcases List.mem_append.mp hb with h1 | h1
    · exact l4 b h1
    · exact absurd rfl (hes _ h1 b)
  split_ifs
  · exact batchesShare_of_cacheStep cfg hinv hlb (cacheStep_flush_tile_lists cfg binned.1)
  · exact hlb

theorem batchesShare_run (cfg : Config) (ops : List Op) (r : Renderer)
    (h : CombinerCacheInv cfg r) (hl : ∀ b, Event.flush b ∈ r.log → BatchShares b) :
    ∀ b, Event.flush b ∈ (run cfg r ops).log → BatchShares b := by
  unfold run
  induction ops generalizing r with
  | nil => exact hl
  | cons op ops ih =>
    refine ih _ (combinerCacheInv_step cfg op h) ?_
    by_cases hd : ∃ d, op = Op.draw_primitive d
    · obtain ⟨d, rfl⟩ := hd
      exact batchesShare_draw_primitive cfg d h hl
    · exact batchesShare_of_cacheStep cfg h hl
        (cacheStep_step cfg r op (fun d hop => hd ⟨d, hop⟩))

/-- C5: at every point of every run from the initial engine, two records of the pending batch
that were drawn in 1-cycle or 2-cycle mode with the same resolved combiner state store the same
combiner index, and the combiner table of the batch holds no state twice; and the same holds
of every batch that was handed to the GPU on the way. -/
theorem identical_combiner_states_share_index (cfg : Config) (ops : List Op) :
    (∀ (i j : Nat) (p q : BufferPrimitive) (c : Combiners),
      (run cfg (Renderer.init cfg) ops).primitive_data[i]? = some p →
      (run cfg (Renderer.init cfg) ops).primitive_data[j]? = some q →
      (run cfg (Renderer.init cfg) ops).ghost_resolved[i]? = some (some c) →
      (run cfg (Renderer.init cfg) ops).ghost_resolved[j]? = some (some c) →
      p.combiner = q.combiner ∧ p.combiner.isSome = true) ∧
    (run cfg (Renderer.init cfg) ops).combiner_data.Nodup ∧
    ∀ b, Event.flush b ∈ (run cfg (Renderer.init cfg) ops).log → BatchShares b := by
  have hinv := combinerCacheInv_run cfg ops (combinerCacheInv_init cfg)
  have hpend := batchShares_of_inv cfg hinv
    { primitives := (run cfg (Renderer.init cfg) ops).primitive_data, heads := [], nodes := [],
      combiners := (run cfg (Renderer.init cfg) ops).combiner_data, work := [], tile_count := 0,
      resolved := (run cfg (Renderer.init cfg) ops).ghost_resolved } rfl rfl rfl
  refine ⟨hpend.1, hpend.2, ?_⟩
  exact batchesShare_run cfg ops (Renderer.init cfg) (combinerCacheInv_init cfg)
    (by intro b hb; simp [Renderer.init] at hb)

set_option maxRecDepth 100000 in
/-- C5, witness: three draws with the environment colours 256, 512, 256.  The first and the
third have the same resolved state and store the index 0, the second stores 1; the table
holds two entries. -/
theorem identical_combiner_states_share_index_witness :
    (run Config.sample (Renderer.init Config.sample) shared_combiner_ops).ghost_resolved[0]? =
      (run Config.sample (Renderer.init Config.sample) shared_combiner_ops).ghost_resolved[2]? ∧
    (run Config.sample (Renderer.init Config.sample) shared_combiner_ops).primitive_data.map
      (fun p => p.combiner) = [some 0, some 1, some 0] ∧
    (run Config.sample (Renderer.init Config.sample) shared_combiner_ops).combiner_data.length = 2 ∧
    ((∀ (i j : Nat) (p q : BufferPrimitive) (c : Combiners),
      (run Config.sample (Renderer.init Config.sample) shared_combiner_ops).primitive_data[i]?
        = some p →
      (run Config.sample (Renderer.init Config.sample) shared_combiner_ops).primitive_data[j]?
        = some q →
      (run Config.sample (Renderer.init Config.sample) shared_combiner_ops).ghost_resolved[i]?
        = some (some c) →
      (run Config.sample (Renderer.init Config.sample) shared_combiner_ops).ghost_resolved[j]?
        = some (some c) →
      p.combiner = q.combiner ∧ p.combiner.isSome = true) ∧
     (run Config.sample (Renderer.init Config.sample) shared_combiner_ops).combiner_data.Nodup ∧
     ∀ b, Event.flush b ∈
       (run Config.sample (Renderer.init Config.sample) shared_combiner_ops).log →
       BatchShares b) :=
  ⟨by decide, by decide, by decide,
   identical_combiner_states_share_index Config.sample shared_combiner_ops⟩

end RDP

namespace RDP

/-! ## Frame completion: submission, wait, ledger -/

/-- What `sync_gpu_to_dram` does on an open command buffer, in one equation. -/
theorem sync_gpu_to_dram_eq (r : Renderer) (blocking : Bool) (hcmd : r.vulkan.cmd = true) :
    sync_gpu_to_dram r blocking =
      { r with
        framebuffer := { r.framebuffer with color_state := FRAMEBUFFER_CPU,
                                            depth_state := FRAMEBUFFER_CPU },
        vulkan := { cmd := false, framebuffer := none, framebuffer_depth := none },
        next_handle := r.next_handle + 1,
        async_transfers := r.async_transfers ++ (if blocking then [] else [sync_record r]),
        log := r.log ++ sync_asserts r ++ [Event.submit r.next_handle] ++
          (if blocking then copy_back_log (sync_record r) else []) ++
          [Event.residency Surface.color r.framebuffer.color_state FRAMEBUFFER_CPU,
           Event.residency Surface.depth r.framebuffer.depth_state FRAMEBUFFER_CPU] } := by
  unfold sync_gpu_to_dram
  rw [if_neg (by rw [hcmd]; simp)]
  cases blocking
  · simp only [submit, assert_eq, sync_record, sync_asserts, Renderer.set_color_state,
      Renderer.set_depth_state, hcmd]
    cases hc : r.framebuffer.color_state <;> cases hd : r.framebuffer.depth_state <;>
      simp [hc, hd]
  · simp only [submit, assert_eq, sync_record, sync_asserts, Renderer.set_color_state,
      Renderer.set_depth_state, hcmd, sync_framebuffer_to_cpu_eq]
    cases hc : r.framebuffer.color_state <;> cases hd : r.framebuffer.depth_state <;>
      simp [hc, hd]

theorem copy_back_log_head (a : AsyncFramebuffer) :
    copy_back_log a = Event.wait a.fence :: (copy_back_log a).tail := rfl

theorem not_residency_of_mem_copy_back_log (a : AsyncFramebuffer) (e : Event)
    (he : e ∈ copy_back_log a) (s : Surface) (o n : FramebufferState) :
    e ≠ Event.residency s o n := by
  intro heq
  subst heq
  unfold copy_back_log at he
  simp only [List.mem_append, List.mem_singleton] at he
  rcases he with (he | he) | he
  · cases he
  · split_ifs at he <;> simp at he
  · split_ifs at he <;> simp at he

theorem not_residency_of_mem_sync_asserts (r : Renderer) (e : Event)
    (he : e ∈ sync_asserts r) (s : Surface) (o n : FramebufferState) :
    e ≠ Event.residency s o n := by
  intro heq
  subst heq
  unfold sync_asserts at he
  simp only [List.mem_append] at he
  rcases he with he | he <;> split_ifs at he <;> simp at he

/-- C15: on an open command buffer, the non-blocking `sync_gpu_to_dram` appends one record to
the end of the ledger, tagged with the current sync index, holding the framebuffer descriptor
as it stands before the two states are set to CPU, and the fence of the submission; what it
appends to the log is the submission and the two state writes (and the entries of its two
assertions, should they fail), no wait.  The blocking call leaves the ledger as it is; it
appends the submission, then the wait on the fence of that submission and the copy-back of
every GPU-resident surface, then the two state writes. -/
theorem sync_gpu_to_dram_queues_or_waits (r : Renderer) (hcmd : r.vulkan.cmd = true) :
    (sync_gpu_to_dram r false).async_transfers = r.async_transfers ++ [sync_record r] ∧
    (sync_record r).sync_index = r.current_sync_index ∧
    (sync_record r).framebuffer = r.framebuffer ∧
    (sync_record r).fence = r.next_handle ∧
    (sync_gpu_to_dram r false).log = r.log ++ sync_asserts r ++
      [Event.submit r.next_handle,
       Event.residency Surface.color r.framebuffer.color_state FRAMEBUFFER_CPU,
       Event.residency Surface.depth r.framebuffer.depth_state FRAMEBUFFER_CPU] ∧
    (∀ e ∈ sync_asserts r, e.is_wait = false) ∧
    (sync_gpu_to_dram r true).async_transfers = r.async_transfers ∧
    (sync_gpu_to_dram r true).log = r.log ++ sync_asserts r ++
      [Event.submit r.next_handle] ++ copy_back_log (sync_record r) ++
      [Event.residency Surface.color r.framebuffer.color_state FRAMEBUFFER_CPU,
       Event.residency Surface.depth r.framebuffer.depth_state FRAMEBUFFER_CPU] ∧
    (copy_back_log (sync_record r)).head? = some (Event.wait r.next_handle) ∧
    (r.framebuffer.color_state = FRAMEBUFFER_GPU →
      Event.copy_color_to_dram (sync_record r) ∈ copy_back_log (sync_record r)) ∧
    (r.framebuffer.depth_state = FRAMEBUFFER_GPU →
      Event.copy_depth_to_dram (sync_record r) ∈ copy_back_log (sync_record r)) := by
  refine ⟨?_, rfl, rfl, rfl, ?_, ?_, ?_, ?_, rfl, ?_, ?_⟩
  · rw [sync_gpu_to_dram_eq r false hcmd]
    rfl
  · rw [sync_gpu_to_dram_eq r false hcmd]
    simp
  · intro e he
    unfold sync_asserts at he
    simp only [List.mem_append] at he
    rcases he with he | he <;> split_ifs at he <;> simp at he <;> rw [he] <;> rfl
  · rw [sync_gpu_to_dram_eq r true hcmd]
    simp
  · rw [sync_gpu_to_dram_eq r true hcmd]
    simp
  · intro hc
    unfold copy_back_log
    simp [sync_record, hc]
  · intro hd
    unfold copy_back_log
    simp [sync_record, hd]

set_option maxRecDepth 100000 in
/-- C15, witness: the state after a draw and a flush under the sample configuration; the
command buffer is open and the colour surface is GPU-resident. -/
theorem sync_gpu_to_dram_queues_or_waits_witness :
    (run Config.sample (Renderer.init Config.sample) draw_flush_ops).vulkan.cmd = true ∧
    (run Config.sample (Renderer.init Config.sample) draw_flush_ops).framebuffer.color_state
      = FRAMEBUFFER_GPU ∧
    (sync_gpu_to_dram (run Config.sample (Renderer.init Config.sample) draw_flush_ops)
      false).async_transfers =
      (run Config.sample (Renderer.init Config.sample) draw_flush_ops).async_transfers ++
        [sync_record (run Config.sample (Renderer.init Config.sample) draw_flush_ops)] ∧
    (sync_gpu_to_dram (run Config.sample (Renderer.init Config.sample) draw_flush_ops)
      true).async_transfers =
      (run Config.sample (Renderer.init Config.sample) draw_flush_ops).async_transfers :=
  ⟨by decide, by decide,
   (sync_gpu_to_dram_queues_or_waits
     (run Config.sample (Renderer.init Config.sample) draw_flush_ops) (by decide)).1,
   (sync_gpu_to_dram_queues_or_waits
     (run Config.sample (Renderer.init Config.sample) draw_flush_ops) (by decide)).2.2.2.2.2.2.1⟩

/-- C11, as the code has it.  On an open command buffer the blocking `sync_gpu_to_dram` waits
on the fence of its submission before it writes the two states: the log gets the submission,
the wait on its fence, the copy-backs, and then the two writes to CPU.  The non-blocking call
issues no wait before the two writes; it leaves the record with the fence as the last record of
the ledger, and `sync_framebuffer_to_cpu`, when it drains that record, waits on the fence
before it copies anything back. -/
theorem blocking_readback_waits_first (r : Renderer) (hcmd : r.vulkan.cmd = true) :
    (∃ pre post,
      (sync_gpu_to_dram r true).log = r.log ++ pre ++
        [Event.submit r.next_handle, Event.wait r.next_handle] ++ post ++
        [Event.residency Surface.color r.framebuffer.color_state FRAMEBUFFER_CPU,
         Event.residency Surface.depth r.framebuffer.depth_state FRAMEBUFFER_CPU] ∧
      ∀ e ∈ pre ++ post, ∀ s o n, e ≠ Event.residency s o n) ∧
    (sync_gpu_to_dram r false).async_transfers.getLast? = some (sync_record r) ∧
    (sync_record r).fence = r.next_handle ∧
    ∀ r' : Renderer, (sync_framebuffer_to_cpu r' (sync_record r)).log =
      r'.log ++ Event.wait r.next_handle :: (copy_back_log (sync_record r)).tail := by
  refine ⟨⟨sync_asserts r, (copy_back_log (sync_record r)).tail, ?_, ?_⟩, ?_, rfl, ?_⟩
  · rw [sync_gpu_to_dram_eq r true hcmd]
    dsimp only
    rw [if_pos rfl]
    nth_rewrite 1 [copy_back_log_head (sync_record r)]
    simp [sync_record]
  · intro e he s o n
    rcases List.mem_append.mp he with h | h
    · exact not_residency_of_mem_sync_asserts r e h s o n
    · exact not_residency_of_mem_copy_back_log (sync_record r) e (List.mem_of_mem_tail h) s o n
  · rw [sync_gpu_to_dram_eq r false hcmd]
    simp
  · intro r'
    rw [sync_framebuffer_to_cpu_eq]
    rfl

set_option maxRecDepth 100000 in
/-- C11, witness: the state after a draw and a flush under the sample configuration; the
command buffer is open and the colour surface is GPU-resident. -/
theorem blocking_readback_waits_first_witness :
    (run Config.sample (Renderer.init Config.sample) draw_flush_ops).vulkan.cmd = true ∧
    (run Config.sample (Renderer.init Config.sample) draw_flush_ops).framebuffer.color_state
      = FRAMEBUFFER_GPU ∧
    (sync_gpu_to_dram (run Config.sample (Renderer.init Config.sample) draw_flush_ops)
      false).async_transfers.getLast? =
      some (sync_record (run Config.sample (Renderer.init Config.sample) draw_flush_ops)) :=
  ⟨by decide, by decide,
   (blocking_readback_waits_first
     (run Config.sample (Renderer.init Config.sample) draw_flush_ops) (by decide)).2.1⟩

set_option maxRecDepth 100000 in
/-- C11, counterexample: a draw, a flush and a non-blocking frame completion under the sample
configuration.  The log holds the write that takes the colour surface from GPU to CPU, and it
holds no wait at all. -/
theorem nonblocking_completion_does_not_wait :
    Event.residency Surface.color FRAMEBUFFER_GPU FRAMEBUFFER_CPU ∈
      (run Config.sample (Renderer.init Config.sample)
        (draw_flush_ops ++ [Op.complete_frame false])).log ∧
    (run Config.sample (Renderer.init Config.sample)
        (draw_flush_ops ++ [Op.complete_frame false])).log.filter Event.is_wait = [] := by
  decide

end RDP

namespace RDP

/-! ## Staging keeps the descriptor and the ledger -/

theorem descriptorKept_refl (r : Renderer) : DescriptorKept r r :=
  ⟨rfl, rfl, rfl, rfl, rfl, rfl, rfl⟩

theorem descriptorKept_trans {a b c : Renderer} (h1 : DescriptorKept a b)
    (h2 : DescriptorKept b c) : DescriptorKept a c := by
  obtain ⟨a1, a2, a3, a4, a5, a6, a7⟩ := h1
  obtain ⟨b1, b2, b3, b4, b5, b6, b7⟩ := h2
  exact ⟨b1.trans a1, b2.trans a2, b3.trans a3, b4.trans a4, b5.trans a5, b6.trans a6,
    b7.trans a7⟩

theorem staging_refl (r : Renderer) : Staging r r :=
  ⟨descriptorKept_refl r, rfl, rfl, id, Or.inl rfl, Or.inl rfl⟩

theorem staging_trans {a b c : Renderer} (h1 : Staging a b) (h2 : Staging b c) :
    Staging a c := by
  obtain ⟨d1, l1, i1, c1, s1, t1⟩ := h1
  obtain ⟨d2, l2, i2, c2, s2, t2⟩ := h2
  refine ⟨descriptorKept_trans d1 d2, l2.trans l1, i2.trans i1, fun h => c2 (c1 h), ?_, ?_⟩
  · rcases s2 with h | h
    · rcases s1 with g | g
      · exact Or.inl (h.trans g)
      · exact Or.inr ⟨h.trans g.1, c2 g.2⟩
    · exact Or.inr h
  · rcases t2 with h | h
    · rcases t1 with g | g
      · exact Or.inl (h.trans g)
      · exact Or.inr ⟨h.trans g.1, c2 g.2⟩
    · exact Or.inr h

/-- A change that leaves the framebuffer, the ledger, the sync index and the command buffer
alone. -/
theorem staging_of_eq {r r' : Renderer} (hf : r'.framebuffer = r.framebuffer)
    (hl : r'.async_transfers = r.async_transfers)
    (hi : r'.current_sync_index = r.current_sync_index)
    (hc : r'.vulkan.cmd = r.vulkan.cmd) : Staging r r' :=
  ⟨by unfold DescriptorKept; rw [hf]; exact ⟨rfl, rfl, rfl, rfl, rfl, rfl, rfl⟩,
   hl, hi, fun h => by rw [hc]; exact h, Or.inl (by rw [hf]), Or.inl (by rw [hf])⟩

theorem staging_emit (r : Renderer) (e : Event) : Staging r (r.emit e) :=
  staging_of_eq rfl rfl rfl rfl

theorem staging_assert (r : Renderer) (line : Nat) (c : Bool) : Staging r (r.assert line c) := by
  cases c
  · exact staging_emit r _
  · exact staging_refl r

theorem staging_begin_framebuffer (r : Renderer) : Staging r (begin_framebuffer r) := by
  unfold begin_framebuffer; split_ifs
  · exact staging_of_eq rfl rfl rfl rfl
  · exact staging_refl r

theorem staging_begin_framebuffer_depth (r : Renderer) :
    Staging r (begin_framebuffer_depth r) := by
  unfold begin_framebuffer_depth; split_ifs
  · exact staging_of_eq rfl rfl rfl rfl
  · exact staging_refl r

theorem begin_command_buffer_cmd (r : Renderer) : (begin_command_buffer r).vulkan.cmd = true := by
  unfold begin_command_buffer; split_ifs with h
  · exact h
  · rfl

theorem staging_begin_command_buffer (r : Renderer) : Staging r (begin_command_buffer r) := by
  unfold begin_command_buffer; split_ifs
  · exact staging_refl r
  · exact ⟨descriptorKept_refl r, rfl, rfl, fun _ => rfl, Or.inl rfl, Or.inl rfl⟩

theorem staging_set_color_state_gpu {r r' : Renderer} (h : Staging r r')
    (hc : r'.vulkan.cmd = true) : Staging r (r'.set_color_state FRAMEBUFFER_GPU) := by
  obtain ⟨d, l, i, c, _, t⟩ := h
  exact ⟨d, l, i, c, Or.inr ⟨rfl, hc⟩, t⟩

theorem staging_set_depth_state_gpu {r r' : Renderer} (h : Staging r r')
    (hc : r'.vulkan.cmd = true) : Staging r (r'.set_depth_state FRAMEBUFFER_GPU) := by
  obtain ⟨d, l, i, c, s, _⟩ := h
  exact ⟨d, l, i, c, s, Or.inr ⟨rfl, hc⟩⟩

theorem staging_sync_color_dram_to_gpu (r : Renderer) (hc : r.vulkan.cmd = true) :
    Staging r (sync_color_dram_to_gpu r) := by
  unfold sync_color_dram_to_gpu
  by_cases hs : r.framebuffer.color_state ≠ FRAMEBUFFER_STALE_GPU
  · rw [if_pos hs]; exact staging_refl r
  · rw [if_neg hs]
    dsimp only
    have key : ∀ r' : Renderer, Staging r r' → Staging r (r'.set_color_state FRAMEBUFFER_GPU) :=
      fun r' h' => staging_set_color_state_gpu h' (h'.2.2.2.1 hc)
    apply key
    repeat' split
    all_goals first
      | exact staging_refl r
      | exact staging_begin_framebuffer r
      | exact staging_trans (staging_begin_framebuffer r) (staging_emit _ _)
      | exact staging_trans (staging_begin_framebuffer r)
          (staging_trans (staging_assert _ _ _) (staging_emit _ _))

theorem staging_sync_depth_dram_to_gpu (r : Renderer) (hc : r.vulkan.cmd = true) :
    Staging r (sync_depth_dram_to_gpu r) := by
  unfold sync_depth_dram_to_gpu
  by_cases hs : r.framebuffer.depth_state ≠ FRAMEBUFFER_STALE_GPU
  · rw [if_pos hs]; exact staging_refl r
  · rw [if_neg hs]
    dsimp only
    have key : ∀ r' : Renderer, Staging r r' → Staging r (r'.set_depth_state FRAMEBUFFER_GPU) :=
      fun r' h' => staging_set_depth_state_gpu h' (h'.2.2.2.1 hc)
    apply key
    repeat' split
    all_goals first
      | exact staging_refl r
      | exact staging_begin_framebuffer_depth r
      | exact staging_trans (staging_begin_framebuffer_depth r) (staging_emit _ _)

theorem staging_reset_buffers (cfg : Config) (r : Renderer) : Staging r (reset_buffers cfg r) :=
  staging_of_eq rfl rfl rfl rfl

theorem staging_flush_tail (cfg : Config) (r : Renderer) (e : Event) :
    Staging r (reset_buffers cfg
      { (r.emit e) with rng_frame_count := (r.emit e).rng_frame_count + 1 }) :=
  staging_of_eq rfl rfl rfl rfl

theorem staging_flush_tile_lists (cfg : Config) (r : Renderer) :
    Staging r (flush_tile_lists cfg r) := by
  unfold flush_tile_lists
  by_cases he : (r.primitive_data.isEmpty || r.work_data.isEmpty) = true
  · rw [if_pos he]; exact staging_refl r
  · rw [if_neg he]
    have h1 := staging_begin_command_buffer r
    have c1 := begin_command_buffer_cmd r
    have h2 := staging_sync_color_dram_to_gpu _ c1
    have c2 := h2.2.2.2.1 c1
    have h3 := staging_sync_depth_dram_to_gpu _ c2
    exact staging_trans (staging_trans h1 (staging_trans h2 h3)) (staging_flush_tail cfg _ _)

/-- Staging keeps the invariant that a GPU-resident surface has an open command buffer. -/
theorem gpuOpen_of_staging {r r' : Renderer} (h : Staging r r') (g : GpuOpen r) : GpuOpen r' := by
  obtain ⟨_, _, _, c, s, t⟩ := h
  intro hg
  rcases hg with hg | hg
  · rcases s with e | e
    · exact c (g (Or.inl (e ▸ hg)))
    · exact e.2
  · rcases t with e | e
    · exact c (g (Or.inr (e ▸ hg)))
    · exact e.2

/-- A surface that is GPU-resident before staging is GPU-resident afterwards. -/
theorem staging_keeps_gpu_color {r r' : Renderer} (h : Staging r r')
    (g : r.framebuffer.color_state = FRAMEBUFFER_GPU) :
    r'.framebuffer.color_state = FRAMEBUFFER_GPU := by
  rcases h.2.2.2.2.1 with e | e
  · rw [e, g]
  · exact e.1

theorem staging_keeps_gpu_depth {r r' : Renderer} (h : Staging r r')
    (g : r.framebuffer.depth_state = FRAMEBUFFER_GPU) :
    r'.framebuffer.depth_state = FRAMEBUFFER_GPU := by
  rcases h.2.2.2.2.2 with e | e
  · rw [e, g]
  · exact e.1

/-! ## Read-back keeps the descriptor -/

theorem sync_gpu_to_dram_closed (r : Renderer) (blocking : Bool) (hcmd : r.vulkan.cmd = false) :
    sync_gpu_to_dram r blocking = r := by
  unfold sync_gpu_to_dram
  rw [if_pos hcmd]

theorem descriptorKept_sync_gpu_to_dram (r : Renderer) (blocking : Bool) :
    DescriptorKept r (sync_gpu_to_dram r blocking) := by
  cases hcmd : r.vulkan.cmd
  · rw [sync_gpu_to_dram_closed r blocking hcmd]; exact descriptorKept_refl r
  · rw [sync_gpu_to_dram_eq r blocking hcmd]; exact descriptorKept_refl r

/-- After `sync_gpu_to_dram` on a renderer where a GPU-resident surface has an open command
buffer, no surface is GPU-resident. -/
theorem sync_gpu_to_dram_not_gpu (r : Renderer) (blocking : Bool) (g : GpuOpen r) :
    (sync_gpu_to_dram r blocking).framebuffer.color_state ≠ FRAMEBUFFER_GPU ∧
    (sync_gpu_to_dram r blocking).framebuffer.depth_state ≠ FRAMEBUFFER_GPU := by
  cases hcmd : r.vulkan.cmd
  · rw [sync_gpu_to_dram_closed r blocking hcmd]
    constructor
    · intro h; have := g (Or.inl h); rw [hcmd] at this; cases this
    · intro h; have := g (Or.inr h); rw [hcmd] at this; cases this
  · rw [sync_gpu_to_dram_eq r blocking hcmd]
    exact ⟨by simp, by simp⟩

theorem descriptorKept_ledger_sync (r : Renderer) :
    DescriptorKept r
      { (r.async_transfers.foldl sync_framebuffer_to_cpu r) with async_transfers := [] } := by
  rw [foldl_sync_framebuffer_to_cpu]
  exact descriptorKept_refl r

theorem descriptorKept_sync_full (cfg : Config) (r : Renderer) :
    DescriptorKept r (sync_full cfg r) := by
  unfold RDP.sync_full
  exact descriptorKept_trans (descriptorKept_ledger_sync r)
    (descriptorKept_trans (staging_flush_tile_lists cfg _).1 (descriptorKept_sync_gpu_to_dram _ _))

theorem descriptorKept_complete_frame (cfg : Config) (r : Renderer) (synchronous : Bool) :
    DescriptorKept r (complete_frame cfg r synchronous) := by
  unfold RDP.complete_frame
  split_ifs
  · exact descriptorKept_sync_full cfg r
  · exact descriptorKept_trans (staging_flush_tile_lists cfg r).1
      (descriptorKept_sync_gpu_to_dram _ _)

/-! ## The allocated surface -/

theorem set_framebuffer_size_descriptor (cfg : Config) (r : Renderer) (width height : Nat) :
    (set_framebuffer_size cfg r width height).framebuffer.allocated_width = width ∧
    (set_framebuffer_size cfg r width height).framebuffer.allocated_height = height ∧
    (set_framebuffer_size cfg r width height).framebuffer.addr = r.framebuffer.addr ∧
    (set_framebuffer_size cfg r width height).framebuffer.depth_addr = r.framebuffer.depth_addr ∧
    (set_framebuffer_size cfg r width height).framebuffer.format = r.framebuffer.format ∧
    (set_framebuffer_size cfg r width height).framebuffer.pixel_size = r.framebuffer.pixel_size ∧
    (set_framebuffer_size cfg r width height).framebuffer.width = r.framebuffer.width := by
  unfold set_framebuffer_size
  dsimp only
  rw [assert_eq]
  dsimp only
  refine ⟨rfl, rfl, ?_⟩
  split_ifs
  · obtain ⟨a1, a2, a3, a4, a5, _, _⟩ := descriptorKept_sync_full cfg r
    exact ⟨a1, a2, a3, a4, a5⟩
  · exact ⟨rfl, rfl, rfl, rfl, rfl⟩

/-- The descriptor after a `set_color_image` call that changes it. -/
theorem set_color_image_fields (cfg : Config) (r : Renderer)
    (addr format pixel_size width : Nat) (synchronous : Bool)
    (hchange : ¬ (r.framebuffer.addr = addr ∧ r.framebuffer.format = format ∧
      r.framebuffer.width = width ∧ r.framebuffer.pixel_size = pixel_size)) :
    (set_color_image cfg r addr format pixel_size width synchronous).framebuffer.allocated_width
      = width ∧
    (set_color_image cfg r addr format pixel_size width
      synchronous).framebuffer.allocated_height
      = (if width > 320 then 480 else if width = 320 then 240 else width) ∧
    (set_color_image cfg r addr format pixel_size width synchronous).framebuffer.addr = addr ∧
    (set_color_image cfg r addr format pixel_size width synchronous).framebuffer.format
      = format ∧
    (set_color_image cfg r addr format pixel_size width synchronous).framebuffer.width
      = width ∧
    (set_color_image cfg r addr format pixel_size width synchronous).framebuffer.pixel_size
      = pixel_size := by
  unfold set_color_image
  rw [if_neg hchange]
  dsimp only
  by_cases hsz : (complete_frame cfg r synchronous).framebuffer.allocated_width ≠ width ∨
      (complete_frame cfg r synchronous).framebuffer.allocated_height ≠
        (if width > 320 then 480 else if width = 320 then 240 else width)
  · rw [if_pos hsz]
    obtain ⟨a1, a2, a3, _, a5, a6, a7⟩ := set_framebuffer_size_descriptor cfg
      { (complete_frame cfg r synchronous) with framebuffer :=
        { (complete_frame cfg r synchronous).framebuffer with
            addr := addr, format := format, width := width, pixel_size := pixel_size } }
      width (if width > 320 then 480 else if width = 320 then 240 else width)
    exact ⟨a1, a2, a3, a5, a7, a6⟩
  · rw [if_neg hsz]
    rw [not_or, not_not, not_not] at hsz
    exact ⟨hsz.1, hsz.2, rfl, rfl, rfl, rfl⟩

/-- C13: a `set_color_image` call that changes the descriptor leaves a surface allocated
`width` pixels wide and 480 rows high when `width > 320`, 240 rows when `width = 320`, and
`width` rows when `width < 320`; the descriptor holds the address, format, width and pixel size
of the call. -/
theorem set_color_image_allocates (cfg : Config) (r : Renderer)
    (addr format pixel_size width : Nat) (synchronous : Bool)
    (hchange : ¬ (r.framebuffer.addr = addr ∧ r.framebuffer.format = format ∧
      r.framebuffer.width = width ∧ r.framebuffer.pixel_size = pixel_size)) :
    (set_color_image cfg r addr format pixel_size width synchronous).framebuffer.allocated_width
      = width ∧
    (width > 320 → (set_color_image cfg r addr format pixel_size width
      synchronous).framebuffer.allocated_height = 480) ∧
    (width = 320 → (set_color_image cfg r addr format pixel_size width
      synchronous).framebuffer.allocated_height = 240) ∧
    (width < 320 → (set_color_image cfg r addr format pixel_size width
      synchronous).framebuffer.allocated_height = width) ∧
    (set_color_image cfg r addr format pixel_size width synchronous).framebuffer.addr = addr ∧
    (set_color_image cfg r addr format pixel_size width synchronous).framebuffer.format = format ∧
    (set_color_image cfg r addr format pixel_size width synchronous).framebuffer.width = width ∧
    (set_color_image cfg r addr format pixel_size width synchronous).framebuffer.pixel_size
      = pixel_size := by
  obtain ⟨k1, k2, k3, k4, k5, k6⟩ :=
    set_color_image_fields cfg r addr format pixel_size width synchronous hchange
  refine ⟨k1, ?_, ?_, ?_, k3, k4, k5, k6⟩
  · intro h; rw [k2, if_pos h]
  · intro h; rw [k2, if_neg (by omega), if_pos h]
  · intro h; rw [k2, if_neg (by omega), if_neg (by omega)]

set_option maxRecDepth 100000 in
/-- C13, witness: the first `set_color_image` of a session, 320 pixels wide. -/
theorem set_color_image_allocates_witness :
    (set_color_image Config.sample (Renderer.init Config.sample) 0 0 2 320
      false).framebuffer.allocated_width = 320 ∧
    (set_color_image Config.sample (Renderer.init Config.sample) 0 0 2 320
      false).framebuffer.allocated_height = 240 :=
  ⟨(set_color_image_allocates Config.sample (Renderer.init Config.sample) 0 0 2 320 false
      (by decide)).1,
   (set_color_image_allocates Config.sample (Renderer.init Config.sample) 0 0 2 320 false
      (by decide)).2.2.1 rfl⟩

end RDP

namespace RDP

/-! ## The assertion of `set_framebuffer_size` -/

theorem sizeSafe_refl (r : Renderer) : SizeSafe r r := ⟨[], by simp, by simp⟩

theorem sizeSafe_trans {a b c : Renderer} (h1 : SizeSafe a b) (h2 : SizeSafe b c) :
    SizeSafe a c := by
  obtain ⟨es1, l1, q1⟩ := h1
  obtain ⟨es2, l2, q2⟩ := h2
  refine ⟨es1 ++ es2, by rw [l2, l1, List.append_assoc], ?_⟩
  intro h
  rcases List.mem_append.mp h with h | h
  · exact q1 h
  · exact q2 h

theorem sizeSafe_of_log {r r' : Renderer} (es : List Event) (hl : r'.log = r.log ++ es)
    (hq : Event.assertion_failed 277 ∉ es) : SizeSafe r r' := ⟨es, hl, hq⟩

theorem sizeSafe_same {r r' r'' : Renderer} (hl : r''.log = r'.log) (h : SizeSafe r r') :
    SizeSafe r r'' := by
  obtain ⟨es, l, q⟩ := h
  exact ⟨es, hl.trans l, q⟩

theorem sizeSafe_emit {r r' : Renderer} (e : Event) (he : e ≠ Event.assertion_failed 277)
    (h : SizeSafe r r') : SizeSafe r (r'.emit e) :=
  sizeSafe_trans h ⟨[e], rfl, by simpa using he.symm⟩

theorem sizeSafe_assert {r r' : Renderer} (line : Nat) (c : Bool) (hl : line ≠ 277)
    (h : SizeSafe r r') : SizeSafe r (r'.assert line c) := by
  cases c
  · exact sizeSafe_emit _ (by simpa using hl) h
  · exact h

theorem sizeSafe_set_color_state {r r' : Renderer} (v : FramebufferState)
    (h : SizeSafe r r') : SizeSafe r (r'.set_color_state v) :=
  sizeSafe_trans h ⟨[_], rfl, by simp⟩

theorem sizeSafe_set_depth_state {r r' : Renderer} (v : FramebufferState)
    (h : SizeSafe r r') : SizeSafe r (r'.set_depth_state v) :=
  sizeSafe_trans h ⟨[_], rfl, by simp⟩

theorem sizeSafe_begin_framebuffer {r r' : Renderer} (h : SizeSafe r r') :
    SizeSafe r (begin_framebuffer r') := by
  unfold begin_framebuffer; split_ifs
  · exact sizeSafe_same rfl h
  · exact h

theorem sizeSafe_begin_framebuffer_depth {r r' : Renderer} (h : SizeSafe r r') :
    SizeSafe r (begin_framebuffer_depth r') := by
  unfold begin_framebuffer_depth; split_ifs
  · exact sizeSafe_same rfl h
  · exact h

theorem sizeSafe_begin_command_buffer {r r' : Renderer} (h : SizeSafe r r') :
    SizeSafe r (begin_command_buffer r') := by
  unfold begin_command_buffer; split_ifs
  · exact h
  · exact sizeSafe_same rfl h

theorem sizeSafe_sync_color_dram_to_gpu {r r' : Renderer} (h : SizeSafe r r') :
    SizeSafe r (sync_color_dram_to_gpu r') := by
  unfold sync_color_dram_to_gpu
  by_cases hs : r'.framebuffer.color_state ≠ FRAMEBUFFER_STALE_GPU
  · rw [if_pos hs]; exact h
  · rw [if_neg hs]
    dsimp only
    apply sizeSafe_set_color_state
    repeat' split
    all_goals first
      | exact h
      | exact sizeSafe_begin_framebuffer h
      | exact sizeSafe_emit _ (by simp) (sizeSafe_begin_framebuffer h)
      | exact sizeSafe_emit _ (by simp)
          (sizeSafe_assert _ _ (by decide) (sizeSafe_begin_framebuffer h))

theorem sizeSafe_sync_depth_dram_to_gpu {r r' : Renderer} (h : SizeSafe r r') :
    SizeSafe r (sync_depth_dram_to_gpu r') := by
  unfold sync_depth_dram_to_gpu
  by_cases hs : r'.framebuffer.depth_state ≠ FRAMEBUFFER_STALE_GPU
  · rw [if_pos hs]; exact h
  · rw [if_neg hs]
    dsimp only
    apply sizeSafe_set_depth_state
    repeat' split
    all_goals first
      | exact h
      | exact sizeSafe_begin_framebuffer_depth h
      | exact sizeSafe_emit _ (by simp) (sizeSafe_begin_framebuffer_depth h)

theorem copy_back_log_size_safe (a : AsyncFramebuffer) :
    Event.assertion_failed 277 ∉ copy_back_log a := by
  intro he
  unfold copy_back_log at he
  simp only [List.mem_append, List.mem_singleton] at he
  rcases he with (he | he) | he
  · cases he
  · split_ifs at he <;> simp at he
  · split_ifs at he <;> simp at he

theorem sync_asserts_size_safe (r : Renderer) :
    Event.assertion_failed 277 ∉ sync_asserts r := by
  intro he
  unfold sync_asserts at he
  simp only [List.mem_append] at he
  rcases he with he | he
  · split_ifs at he <;> simp at he
  · split_ifs at he <;> simp at he

theorem sizeSafe_foldl_sync (l : List AsyncFramebuffer) (r : Renderer) :
    SizeSafe r (l.foldl sync_framebuffer_to_cpu r) := by
  rw [foldl_sync_framebuffer_to_cpu]
  refine ⟨_, rfl, ?_⟩
  intro he
  obtain ⟨a, _, ha⟩ := List.mem_flatMap.mp he
  exact copy_back_log_size_safe a ha

theorem sizeSafe_sync_gpu_to_dram (r : Renderer) (blocking : Bool) :
    SizeSafe r (sync_gpu_to_dram r blocking) := by
  cases hcmd : r.vulkan.cmd
  · rw [sync_gpu_to_dram_closed r blocking hcmd]; exact sizeSafe_refl r
  · rw [sync_gpu_to_dram_eq r blocking hcmd]
    refine ⟨sync_asserts r ++ [Event.submit r.next_handle] ++
      (if blocking then copy_back_log (sync_record r) else []) ++
      [Event.residency Surface.color r.framebuffer.color_state FRAMEBUFFER_CPU,
       Event.residency Surface.depth r.framebuffer.depth_state FRAMEBUFFER_CPU],
      by simp only [List.append_assoc], ?_⟩
    intro he
    simp only [List.mem_append, List.mem_cons, List.mem_singleton, List.not_mem_nil,
      or_false] at he
    rcases he with ((he | he) | he) | he
    · exact sync_asserts_size_safe r he
    · cases he
    · cases blocking
      · simp at he
      · exact copy_back_log_size_safe _ (by simpa using he)
    · rcases he with he | he <;> cases he

theorem sizeSafe_flush_tile_lists (cfg : Config) (r : Renderer) :
    SizeSafe r (flush_tile_lists cfg r) := by
  unfold flush_tile_lists
  by_cases he : (r.primitive_data.isEmpty || r.work_data.isEmpty) = true
  · rw [if_pos he]; exact sizeSafe_refl r
  · rw [if_neg he]
    exact sizeSafe_same rfl (sizeSafe_emit _ (by simp)
      (sizeSafe_sync_depth_dram_to_gpu (sizeSafe_sync_color_dram_to_gpu
        (sizeSafe_begin_command_buffer (sizeSafe_refl r)))))

theorem sizeSafe_sync_full (cfg : Config) (r : Renderer) : SizeSafe r (sync_full cfg r) := by
  unfold RDP.sync_full
  dsimp only
  have h1 : SizeSafe r
      { (r.async_transfers.foldl sync_framebuffer_to_cpu r) with async_transfers := [] } :=
    sizeSafe_same rfl (sizeSafe_foldl_sync _ r)
  exact sizeSafe_trans (sizeSafe_trans h1 (sizeSafe_flush_tile_lists cfg _))
    (sizeSafe_sync_gpu_to_dram _ _)

theorem sizeSafe_complete_frame (cfg : Config) (r : Renderer) (synchronous : Bool) :
    SizeSafe r (complete_frame cfg r synchronous) := by
  unfold RDP.complete_frame
  split_ifs
  · exact sizeSafe_sync_full cfg r
  · exact sizeSafe_trans (sizeSafe_flush_tile_lists cfg r) (sizeSafe_sync_gpu_to_dram _ _)

/-! ## A GPU-resident surface has an open command buffer -/

theorem gpuOpen_of_not_gpu {r : Renderer} (hc : r.framebuffer.color_state ≠ FRAMEBUFFER_GPU)
    (hd : r.framebuffer.depth_state ≠ FRAMEBUFFER_GPU) : GpuOpen r := by
  intro h
  rcases h with h | h
  · exact absurd h hc
  · exact absurd h hd

theorem gpuOpen_of_same {r r' : Renderer} (hf : r'.framebuffer = r.framebuffer)
    (hv : r'.vulkan = r.vulkan) (g : GpuOpen r) : GpuOpen r' := by
  unfold GpuOpen at *
  rw [hf, hv]; exact g

theorem gpuOpen_ledger_sync (r : Renderer) (g : GpuOpen r) :
    GpuOpen { (r.async_transfers.foldl sync_framebuffer_to_cpu r) with async_transfers := [] } := by
  rw [foldl_sync_framebuffer_to_cpu]
  exact g

/-- After `sync_full` on a renderer where a GPU-resident surface has an open command buffer, no
surface is GPU-resident. -/
theorem sync_full_not_gpu (cfg : Config) (r : Renderer) (g : GpuOpen r) :
    (sync_full cfg r).framebuffer.color_state ≠ FRAMEBUFFER_GPU ∧
    (sync_full cfg r).framebuffer.depth_state ≠ FRAMEBUFFER_GPU := by
  unfold RDP.sync_full
  exact sync_gpu_to_dram_not_gpu _ true
    (gpuOpen_of_staging (staging_flush_tile_lists cfg _) (gpuOpen_ledger_sync r g))

theorem complete_frame_not_gpu (cfg : Config) (r : Renderer) (synchronous : Bool)
    (g : GpuOpen r) :
    (complete_frame cfg r synchronous).framebuffer.color_state ≠ FRAMEBUFFER_GPU ∧
    (complete_frame cfg r synchronous).framebuffer.depth_state ≠ FRAMEBUFFER_GPU := by
  unfold RDP.complete_frame
  split_ifs
  · exact sync_full_not_gpu cfg r g
  · exact sync_gpu_to_dram_not_gpu _ false (gpuOpen_of_staging (staging_flush_tile_lists cfg r) g)

theorem sizeStep_refl (r : Renderer) : SizeStep r r := fun g => ⟨g, sizeSafe_refl r⟩

theorem sizeStep_trans {a b c : Renderer} (h1 : SizeStep a b) (h2 : SizeStep b c) :
    SizeStep a c := by
  intro g
  obtain ⟨g1, s1⟩ := h1 g
  obtain ⟨g2, s2⟩ := h2 g1
  exact ⟨g2, sizeSafe_trans s1 s2⟩

theorem sizeStep_of_surfaceStep {r r' : Renderer} (h : SurfaceStep r r') : SizeStep r r' :=
  fun g => ⟨gpuOpen_of_same h.1 h.2.1 g, h.2.2⟩

theorem sizeStep_flush_tile_lists (cfg : Config) (r : Renderer) :
    SizeStep r (flush_tile_lists cfg r) :=
  fun g => ⟨gpuOpen_of_staging (staging_flush_tile_lists cfg r) g, sizeSafe_flush_tile_lists cfg r⟩

theorem sizeStep_sync_full (cfg : Config) (r : Renderer) : SizeStep r (sync_full cfg r) :=
  fun g => ⟨gpuOpen_of_not_gpu (sync_full_not_gpu cfg r g).1 (sync_full_not_gpu cfg r g).2,
    sizeSafe_sync_full cfg r⟩

theorem sizeStep_complete_frame (cfg : Config) (r : Renderer) (synchronous : Bool) :
    SizeStep r (complete_frame cfg r synchronous) :=
  fun g => ⟨gpuOpen_of_not_gpu (complete_frame_not_gpu cfg r synchronous g).1
    (complete_frame_not_gpu cfg r synchronous g).2, sizeSafe_complete_frame cfg r synchronous⟩

/-- The renderer on which `set_framebuffer_size` evaluates its assertion has no GPU-resident
surface, when a GPU-resident surface had an open command buffer at the call. -/
theorem set_framebuffer_size_synced (cfg : Config) (r : Renderer) (g : GpuOpen r) :
    (if r.framebuffer.color_state = FRAMEBUFFER_GPU ∨ r.framebuffer.depth_state = FRAMEBUFFER_GPU
      then sync_full cfg r else r).framebuffer.color_state ≠ FRAMEBUFFER_GPU ∧
    (if r.framebuffer.color_state = FRAMEBUFFER_GPU ∨ r.framebuffer.depth_state = FRAMEBUFFER_GPU
      then sync_full cfg r else r).framebuffer.depth_state ≠ FRAMEBUFFER_GPU := by
  by_cases h : r.framebuffer.color_state = FRAMEBUFFER_GPU ∨
      r.framebuffer.depth_state = FRAMEBUFFER_GPU
  · rw [if_pos h]; exact sync_full_not_gpu cfg r g
  · rw [if_neg h]
    rw [not_or] at h
    exact h

theorem set_framebuffer_size_eq (cfg : Config) (r : Renderer) (width height : Nat)
    (g : GpuOpen r) :
    set_framebuffer_size cfg r width height =
      { (if r.framebuffer.color_state = FRAMEBUFFER_GPU ∨
            r.framebuffer.depth_state = FRAMEBUFFER_GPU
          then sync_full cfg r else r) with
        framebuffer :=
          { (if r.framebuffer.color_state = FRAMEBUFFER_GPU ∨
                r.framebuffer.depth_state = FRAMEBUFFER_GPU
              then sync_full cfg r else r).framebuffer with
            allocated_width := width, allocated_height := height },
        tiles_x := (width + cfg.TILE_SIZE_X - 1) / cfg.TILE_SIZE_X,
        tiles_y := (height + cfg.TILE_SIZE_Y - 1) / cfg.TILE_SIZE_Y,
        tile_lists := (set_framebuffer_size cfg r width height).tile_lists } := by
  obtain ⟨hc, hd⟩ := set_framebuffer_size_synced cfg r g
  unfold set_framebuffer_size
  dsimp only
  rw [assert_eq]
  generalize (if r.framebuffer.color_state = FRAMEBUFFER_GPU ∨
    r.framebuffer.depth_state = FRAMEBUFFER_GPU then sync_full cfg r else r) = r1 at hc hd ⊢
  simp [hc, hd]

theorem sizeStep_set_framebuffer_size (cfg : Config) (r : Renderer) (width height : Nat) :
    SizeStep r (set_framebuffer_size cfg r width height) := by
  intro g
  have he := set_framebuffer_size_eq cfg r width height g
  obtain ⟨hc, hd⟩ := set_framebuffer_size_synced cfg r g
  rw [he]
  refine ⟨gpuOpen_of_not_gpu hc hd, ?_⟩
  refine sizeSafe_same rfl ?_
  split_ifs
  · exact sizeSafe_sync_full cfg r
  · exact sizeSafe_refl r

end RDP

namespace RDP

/-! ## The invariant over the calls -/

/-- A change that leaves the two residency states and the command buffer alone. -/
theorem sizeStep_of_states {r r' : Renderer}
    (hc : r'.framebuffer.color_state = r.framebuffer.color_state)
    (hd : r'.framebuffer.depth_state = r.framebuffer.depth_state)
    (hv : r'.vulkan.cmd = r.vulkan.cmd) (hs : SizeSafe r r') : SizeStep r r' := by
  intro g
  refine ⟨?_, hs⟩
  unfold GpuOpen at *
  rw [hc, hd, hv]; exact g

theorem sizeStep_assert (r : Renderer) (line : Nat) (c : Bool) (hl : line ≠ 277) :
    SizeStep r (r.assert line c) := by
  refine sizeStep_of_states ?_ ?_ ?_ (sizeSafe_assert line c hl (sizeSafe_refl r)) <;>
    cases c <;> rfl

theorem sizeStep_set_color_state_stale (r : Renderer) :
    SizeStep r (r.set_color_state FRAMEBUFFER_STALE_GPU) := by
  intro g
  refine ⟨?_, sizeSafe_set_color_state _ (sizeSafe_refl r)⟩
  intro h
  rcases h with h | h
  · cases h
  · exact g (Or.inr h)

theorem sizeStep_set_depth_state_stale (r : Renderer) :
    SizeStep r (r.set_depth_state FRAMEBUFFER_STALE_GPU) := by
  intro g
  refine ⟨?_, sizeSafe_set_depth_state _ (sizeSafe_refl r)⟩
  intro h
  rcases h with h | h
  · exact g (Or.inl h)
  · cases h

theorem sizeStep_set_depth_image (cfg : Config) (r : Renderer) (addr : Nat)
    (synchronous : Bool) : SizeStep r (set_depth_image cfg r addr synchronous) := by
  unfold set_depth_image
  split_ifs
  · exact sizeStep_refl r
  · exact sizeStep_trans (sizeStep_complete_frame cfg r synchronous)
      (sizeStep_of_states rfl rfl rfl (sizeSafe_same rfl (sizeSafe_refl _)))
  · exact sizeStep_of_states rfl rfl rfl (sizeSafe_same rfl (sizeSafe_refl _))

theorem sizeStep_set_color_image (cfg : Config) (r : Renderer)
    (addr format pixel_size width : Nat) (synchronous : Bool) :
    SizeStep r (set_color_image cfg r addr format pixel_size width synchronous) := by
  unfold set_color_image
  have h2 : SizeStep r
      { complete_frame cfg r synchronous with framebuffer :=
        { (complete_frame cfg r synchronous).framebuffer with
          addr := addr, format := format, width := width, pixel_size := pixel_size } } :=
    sizeStep_trans (sizeStep_complete_frame cfg r synchronous)
      (sizeStep_of_states rfl rfl rfl (sizeSafe_same rfl (sizeSafe_refl _)))
  dsimp only
  split_ifs
  all_goals first
    | exact sizeStep_refl r
    | exact h2
    | exact sizeStep_trans h2 (sizeStep_set_framebuffer_size cfg _ _ _)

theorem sizeStep_update_tiles (cfg : Config) (r : Renderer) (tile_mask dirty_tiles : Nat) :
    SizeStep r (update_tiles cfg r tile_mask dirty_tiles) := by
  rw [update_tiles_frame]
  exact sizeStep_of_states rfl rfl rfl (sizeSafe_same rfl (sizeSafe_refl _))

theorem sizeStep_draw_begin (cfg : Config) (r : Renderer) (d : DrawCall) :
    SizeStep r (draw_begin cfg r d) := by
  unfold draw_begin
  dsimp only
  have h1 : SizeStep r
      (if (clip_scissor r.scissor d.min_x d.max_x d.min_y d.max_y).2.2.2
          ≥ (r.framebuffer.allocated_height : Int)
       then set_framebuffer_size cfg r r.framebuffer.allocated_width
         ((clip_scissor r.scissor d.min_x d.max_x d.min_y d.max_y).2.2.2 + 1).toNat
       else r) := by
    split_ifs
    · exact sizeStep_set_framebuffer_size cfg _ _ _
    · exact sizeStep_refl r
  exact sizeStep_trans h1 (sizeStep_trans (sizeStep_update_tiles cfg _ _ _)
    (sizeStep_trans (sizeStep_assert _ _ _ (by decide)) (sizeStep_assert _ _ _ (by decide))))

theorem sizeStep_draw_combiner (cfg : Config) (r : Renderer) (cycle_type : Nat) :
    SizeStep r (draw_combiner cfg r cycle_type).1 := by
  unfold draw_combiner
  dsimp only
  split_ifs
  · refine sizeStep_trans ?_ (sizeStep_assert _ _ _ (by decide))
    split <;> exact sizeStep_of_states rfl rfl rfl (sizeSafe_same rfl (sizeSafe_refl _))
  · exact sizeStep_assert _ _ _ (by decide)
  · exact sizeStep_refl r

theorem sizeStep_draw_record (cfg : Config) (r : Renderer) (d : DrawCall) :
    SizeStep r (draw_record cfg r d).1 := by
  unfold draw_record
  dsimp only
  have h5 : SizeStep r
      (if r.framebuffer.color_state = FRAMEBUFFER_CPU
       then r.set_color_state FRAMEBUFFER_STALE_GPU else r) := by
    split_ifs
    · exact sizeStep_set_color_state_stale r
    · exact sizeStep_refl r
  generalize (if r.framebuffer.color_state = FRAMEBUFFER_CPU
    then r.set_color_state FRAMEBUFFER_STALE_GPU else r) = r5 at h5
  have h6 : SizeStep r
      (if r5.framebuffer.depth_state = FRAMEBUFFER_CPU ∧
          (build_attr cfg d.prim d.attr r.state.primitive_z).2.1 &&&
            (cfg.RDP_FLAG_Z_UPDATE ||| cfg.RDP_FLAG_Z_COMPARE) ≠ 0
       then r5.set_depth_state FRAMEBUFFER_STALE_GPU else r5) := by
    split_ifs
    · exact sizeStep_trans h5 (sizeStep_set_depth_state_stale r5)
    · exact h5
  exact sizeStep_trans h6 (sizeStep_trans (sizeStep_draw_combiner cfg _ _)
    (sizeStep_of_states rfl rfl rfl (sizeSafe_same rfl (sizeSafe_refl _))))

theorem sizeStep_of_binOnly {r r' : Renderer} (h : BinOnly r r') : SizeStep r r' := by
  refine sizeStep_of_states ?_ ?_ ?_ (sizeSafe_same ?_ (sizeSafe_refl r)) <;> rw [h]

theorem sizeStep_draw_primitive (cfg : Config) (r : Renderer) (d : DrawCall) :
    SizeStep r (draw_primitive cfg r d) := by
  unfold draw_primitive
  dsimp only
  have hb := sizeStep_trans (sizeStep_trans (sizeStep_draw_begin cfg r d)
    (sizeStep_draw_record cfg (draw_begin cfg r d) d))
    (sizeStep_of_binOnly (binOnly_bin_tiles cfg d.prim
      (clip_scissor r.scissor d.min_x d.max_x d.min_y d.max_y).1
      (clip_scissor r.scissor d.min_x d.max_x d.min_y d.max_y).2.1
      (clip_scissor r.scissor d.min_x d.max_x d.min_y d.max_y).2.2.1
      (clip_scissor r.scissor d.min_x d.max_x d.min_y d.max_y).2.2.2
      (draw_begin cfg r d).primitive_data.length
      (max (Int.tdiv (clip_scissor r.scissor d.min_x d.max_x d.min_y d.max_y).1 cfg.TILE_SIZE_X) 0)
      (min (Int.tdiv (clip_scissor r.scissor d.min_x d.max_x d.min_y d.max_y).2.1 cfg.TILE_SIZE_X)
        (((draw_begin cfg r d).tiles_x : Int) - 1))
      (Int.tdiv (clip_scissor r.scissor d.min_x d.max_x d.min_y d.max_y).2.2.1 cfg.TILE_SIZE_Y)
      (Int.tdiv (clip_scissor r.scissor d.min_x d.max_x d.min_y d.max_y).2.2.2 cfg.TILE_SIZE_Y)
      (draw_record cfg (draw_begin cfg r d) d)))
  split_ifs
  · exact sizeStep_trans hb (sizeStep_flush_tile_lists cfg _)
  · exact hb

theorem sizeStep_step (cfg : Config) (r : Renderer) (op : Op) : SizeStep r (step cfg r op) := by
  cases op with
  | set_depth_image addr synchronous => exact sizeStep_set_depth_image cfg r addr synchronous
  | set_color_image addr format pixel_size width synchronous =>
    exact sizeStep_set_color_image cfg r addr format pixel_size width synchronous
  | set_framebuffer_size width height => exact sizeStep_set_framebuffer_size cfg r width height
  | draw_primitive d => exact sizeStep_draw_primitive cfg r d
  | flush_tile_lists => exact sizeStep_flush_tile_lists cfg r
  | complete_frame synchronous => exact sizeStep_complete_frame cfg r synchronous
  | sync_full => exact sizeStep_sync_full cfg r
  | begin_index index =>
    show SizeStep r (begin_index r index)
    rw [begin_index_eq]
    refine sizeStep_of_states rfl rfl rfl ⟨_, rfl, ?_⟩
    intro he
    obtain ⟨a, _, ha⟩ := List.mem_flatMap.mp he
    exact copy_back_log_size_safe a ha
  | check_tmem_feedback addr synchronous =>
    show SizeStep r (check_tmem_feedback cfg r addr synchronous)
    unfold check_tmem_feedback
    split_ifs
    · exact sizeStep_complete_frame cfg r synchronous
    · exact sizeStep_complete_frame cfg r synchronous
    · exact sizeStep_refl r
  | fill_rect_cpu xmin xmax ymin ymax =>
    show SizeStep r (fill_rect_cpu cfg r xmin xmax ymin ymax)
    unfold fill_rect_cpu
    dsimp only
    rw [assert_eq]
    refine sizeStep_of_states rfl rfl rfl (sizeSafe_emit _ (by simp) ⟨_, rfl, ?_⟩)
    split_ifs <;> simp
  | _ => exact sizeStep_of_states rfl rfl rfl (sizeSafe_same rfl (sizeSafe_refl _))

theorem gpuOpen_init (cfg : Config) : GpuOpen (Renderer.init cfg) := by
  intro h
  rcases h with h | h <;> cases h

theorem sizeStep_run (cfg : Config) (r : Renderer) (ops : List Op) :
    SizeStep r (run cfg r ops) := by
  unfold run
  induction ops generalizing r with
  | nil => exact sizeStep_refl r
  | cons op ops ih => exact sizeStep_trans (sizeStep_step cfg r op) (ih _)

/-- In every reachable state a GPU-resident surface has an open command buffer. -/
theorem gpuOpen_run (cfg : Config) (ops : List Op) :
    GpuOpen (run cfg (Renderer.init cfg) ops) :=
  (sizeStep_run cfg _ ops (gpuOpen_init cfg)).1

/-- C20: in every run from the initial state, the assertion of `set_framebuffer_size` (line
277: neither surface is GPU-resident when the allocated dimensions change) never fails,
whether the call comes from the decoder, from `set_color_image` or from `draw_primitive`.  A
call made in a reachable state with a GPU-resident surface runs `sync_full` before it writes
the dimensions, and the surfaces are CPU-resident when it does; in every reachable state the
call returns with no GPU-resident surface and with the dimensions it was given. -/
theorem set_framebuffer_size_assertion_holds (cfg : Config) (ops : List Op) :
    Event.assertion_failed 277 ∉ (run cfg (Renderer.init cfg) ops).log ∧
    (∀ width height,
      ((run cfg (Renderer.init cfg) ops).framebuffer.color_state = FRAMEBUFFER_GPU ∨
        (run cfg (Renderer.init cfg) ops).framebuffer.depth_state = FRAMEBUFFER_GPU) →
      (sync_full cfg (run cfg (Renderer.init cfg) ops)).framebuffer.color_state
        = FRAMEBUFFER_CPU ∧
      (sync_full cfg (run cfg (Renderer.init cfg) ops)).framebuffer.depth_state
        = FRAMEBUFFER_CPU ∧
      (set_framebuffer_size cfg (run cfg (Renderer.init cfg) ops) width height).framebuffer
        = { (sync_full cfg (run cfg (Renderer.init cfg) ops)).framebuffer with
            allocated_width := width, allocated_height := height }) ∧
    (∀ width height,
      (set_framebuffer_size cfg (run cfg (Renderer.init cfg) ops) width
        height).framebuffer.color_state ≠ FRAMEBUFFER_GPU ∧
      (set_framebuffer_size cfg (run cfg (Renderer.init cfg) ops) width
        height).framebuffer.depth_state ≠ FRAMEBUFFER_GPU ∧
      (set_framebuffer_size cfg (run cfg (Renderer.init cfg) ops) width
        height).framebuffer.allocated_width = width ∧
      (set_framebuffer_size cfg (run cfg (Renderer.init cfg) ops) width
        height).framebuffer.allocated_height = height ∧
      Event.assertion_failed 277 ∉
        (set_framebuffer_size cfg (run cfg (Renderer.init cfg) ops) width height).log) := by
  have g := gpuOpen_run cfg ops
  obtain ⟨es, hl, hes⟩ := (sizeStep_run cfg _ ops (gpuOpen_init cfg)).2
  have hlog : Event.assertion_failed 277 ∉ (run cfg (Renderer.init cfg) ops).log := by
    rw [hl]
    simpa [Renderer.init] using hes
  refine ⟨hlog, ?_, ?_⟩
  · intro width height hgpu
    have hcmd : (flush_tile_lists cfg
        { ((run cfg (Renderer.init cfg) ops).async_transfers.foldl sync_framebuffer_to_cpu
            (run cfg (Renderer.init cfg) ops)) with async_transfers := [] }).vulkan.cmd = true :=
      (staging_flush_tile_lists cfg _).2.2.2.1 (by
        rw [foldl_sync_framebuffer_to_cpu]; exact g hgpu)
    have hs : (sync_full cfg (run cfg (Renderer.init cfg) ops)).framebuffer.color_state
          = FRAMEBUFFER_CPU ∧
        (sync_full cfg (run cfg (Renderer.init cfg) ops)).framebuffer.depth_state
          = FRAMEBUFFER_CPU := by
      unfold RDP.sync_full
      dsimp only
      rw [sync_gpu_to_dram_eq _ true hcmd]
      exact ⟨rfl, rfl⟩
    refine ⟨hs.1, hs.2, ?_⟩
    rw [set_framebuffer_size_eq cfg _ width height g, if_pos hgpu]
  · intro width height
    obtain ⟨hc, hd⟩ := set_framebuffer_size_synced cfg _ g
    obtain ⟨es2, hl2, hes2⟩ := (sizeStep_set_framebuffer_size cfg _ width height g).2
    refine ⟨?_, ?_, (set_framebuffer_size_descriptor cfg _ width height).1,
      (set_framebuffer_size_descriptor cfg _ width height).2.1, ?_⟩
    · rw [set_framebuffer_size_eq cfg _ width height g]; exact hc
    · rw [set_framebuffer_size_eq cfg _ width height g]; exact hd
    · rw [hl2]
      intro h
      rcases List.mem_append.mp h with h | h
      · exact hlog h
      · exact hes2 h

end RDP

namespace RDP

/-! ## Frame completion on a change of image -/

theorem copy_color_mem (a : AsyncFramebuffer)
    (h : a.framebuffer.color_state = FRAMEBUFFER_GPU) :
    Event.copy_color_to_dram a ∈ copy_back_log a := by
  unfold copy_back_log
  simp [h]

theorem copy_depth_mem (a : AsyncFramebuffer)
    (h : a.framebuffer.depth_state = FRAMEBUFFER_GPU) :
    Event.copy_depth_to_dram a ∈ copy_back_log a := by
  unfold copy_back_log
  simp [h]

theorem sync_full_drained (cfg : Config) (r : Renderer) :
    sync_full cfg r = sync_gpu_to_dram (flush_tile_lists cfg (drained r)) true := by
  unfold RDP.sync_full drained
  dsimp only
  rw [foldl_sync_framebuffer_to_cpu]

theorem staging_frame (cfg : Config) (r : Renderer) (synchronous : Bool) :
    Staging (if synchronous then drained r else r)
      (flush_tile_lists cfg (if synchronous then drained r else r)) :=
  staging_flush_tile_lists cfg _

theorem gpuOpen_drained (r : Renderer) (g : GpuOpen r) : GpuOpen (drained r) := g

/-- The record of a frame completion holds the descriptor of the renderer at the call. -/
theorem frame_record_descriptor (cfg : Config) (r : Renderer) (synchronous : Bool) :
    (frame_record cfg r synchronous).framebuffer.addr = r.framebuffer.addr ∧
    (frame_record cfg r synchronous).framebuffer.depth_addr = r.framebuffer.depth_addr ∧
    (frame_record cfg r synchronous).framebuffer.format = r.framebuffer.format ∧
    (frame_record cfg r synchronous).framebuffer.pixel_size = r.framebuffer.pixel_size ∧
    (frame_record cfg r synchronous).framebuffer.width = r.framebuffer.width ∧
    (frame_record cfg r synchronous).framebuffer.allocated_width
      = r.framebuffer.allocated_width ∧
    (frame_record cfg r synchronous).framebuffer.allocated_height
      = r.framebuffer.allocated_height := by
  have h := (staging_frame cfg r synchronous).1
  cases synchronous <;> exact h

theorem frame_record_color_state (cfg : Config) (r : Renderer) (synchronous : Bool)
    (h : r.framebuffer.color_state = FRAMEBUFFER_GPU) :
    (frame_record cfg r synchronous).framebuffer.color_state = FRAMEBUFFER_GPU := by
  have hs := staging_frame cfg r synchronous
  cases synchronous <;> exact staging_keeps_gpu_color hs h

theorem frame_record_depth_state (cfg : Config) (r : Renderer) (synchronous : Bool)
    (h : r.framebuffer.depth_state = FRAMEBUFFER_GPU) :
    (frame_record cfg r synchronous).framebuffer.depth_state = FRAMEBUFFER_GPU := by
  have hs := staging_frame cfg r synchronous
  cases synchronous <;> exact staging_keeps_gpu_depth hs h

/-- A frame completion in a state with a GPU-resident surface and an open command buffer:
both surfaces end CPU-resident; the non-blocking one appends `frame_record` to the ledger, the
blocking one empties the ledger and logs the copy-back of `frame_record`. -/
theorem complete_frame_gpu (cfg : Config) (r : Renderer) (synchronous : Bool) (g : GpuOpen r)
    (hgpu : r.framebuffer.color_state = FRAMEBUFFER_GPU ∨
      r.framebuffer.depth_state = FRAMEBUFFER_GPU) :
    (complete_frame cfg r synchronous).framebuffer.color_state = FRAMEBUFFER_CPU ∧
    (complete_frame cfg r synchronous).framebuffer.depth_state = FRAMEBUFFER_CPU ∧
    DescriptorKept r (complete_frame cfg r synchronous) ∧
    (synchronous = false → (complete_frame cfg r synchronous).async_transfers
      = r.async_transfers ++ [frame_record cfg r false]) ∧
    (synchronous = true → (complete_frame cfg r synchronous).async_transfers = []) ∧
    (synchronous = true → ∃ es, (complete_frame cfg r synchronous).log = r.log ++ es ∧
      ∀ e ∈ copy_back_log (frame_record cfg r true), e ∈ es) := by
  cases synchronous
  · have hst := staging_flush_tile_lists cfg r
    have hcmd : (flush_tile_lists cfg r).vulkan.cmd = true := hst.2.2.2.1 (g hgpu)
    have he : complete_frame cfg r false = sync_gpu_to_dram (flush_tile_lists cfg r) false := by
      unfold RDP.complete_frame
      rw [if_neg (by simp)]
    refine ⟨?_, ?_, descriptorKept_complete_frame cfg r false, ?_, ?_, ?_⟩
    · rw [he, sync_gpu_to_dram_eq _ false hcmd]
    · rw [he, sync_gpu_to_dram_eq _ false hcmd]
    · intro _
      rw [he, sync_gpu_to_dram_eq _ false hcmd]
      dsimp only
      rw [hst.2.1]
      rfl
    · intro h; cases h
    · intro h; cases h
  · have hst := staging_flush_tile_lists cfg (drained r)
    have hcmd : (flush_tile_lists cfg (drained r)).vulkan.cmd = true :=
      hst.2.2.2.1 (g hgpu)
    have he : complete_frame cfg r true
        = sync_gpu_to_dram (flush_tile_lists cfg (drained r)) true := by
      unfold RDP.complete_frame
      rw [if_pos rfl, sync_full_drained]
    refine ⟨?_, ?_, descriptorKept_complete_frame cfg r true, ?_, ?_, ?_⟩
    · rw [he, sync_gpu_to_dram_eq _ true hcmd]
    · rw [he, sync_gpu_to_dram_eq _ true hcmd]
    · intro h; cases h
    · intro _
      rw [he, sync_gpu_to_dram_eq _ true hcmd]
      dsimp only
      rw [hst.2.1]
      rfl
    · intro _
      obtain ⟨es1, hl1, _⟩ := sizeSafe_flush_tile_lists cfg (drained r)
      rw [he, sync_gpu_to_dram_eq _ true hcmd]
      refine ⟨r.async_transfers.flatMap copy_back_log ++ es1 ++
        sync_asserts (flush_tile_lists cfg (drained r)) ++
        [Event.submit (flush_tile_lists cfg (drained r)).next_handle] ++
        copy_back_log (frame_record cfg r true) ++
        [Event.residency Surface.color
           (flush_tile_lists cfg (drained r)).framebuffer.color_state FRAMEBUFFER_CPU,
         Event.residency Surface.depth
           (flush_tile_lists cfg (drained r)).framebuffer.depth_state FRAMEBUFFER_CPU], ?_, ?_⟩
      · dsimp only
        rw [hl1, if_pos rfl]
        simp only [drained, frame_record, if_true, List.append_assoc]
      · intro e he
        simp only [List.mem_append]
        exact Or.inl (Or.inr he)

theorem set_framebuffer_size_idle (cfg : Config) (r : Renderer) (width height : Nat)
    (hc : r.framebuffer.color_state ≠ FRAMEBUFFER_GPU)
    (hd : r.framebuffer.depth_state ≠ FRAMEBUFFER_GPU) :
    set_framebuffer_size cfg r width height =
      { r with
        framebuffer := { r.framebuffer with allocated_width := width,
                                            allocated_height := height },
        tiles_x := (width + cfg.TILE_SIZE_X - 1) / cfg.TILE_SIZE_X,
        tiles_y := (height + cfg.TILE_SIZE_Y - 1) / cfg.TILE_SIZE_Y,
        tile_lists := (set_framebuffer_size cfg r width height).tile_lists } := by
  have h := set_framebuffer_size_eq cfg r width height (gpuOpen_of_not_gpu hc hd)
  rw [if_neg (by rw [not_or]; exact ⟨hc, hd⟩)] at h
  exact h

theorem set_color_image_changed (cfg : Config) (r : Renderer)
    (addr format pixel_size width : Nat) (synchronous : Bool) (g : GpuOpen r)
    (hgpu : r.framebuffer.color_state = FRAMEBUFFER_GPU ∨
      r.framebuffer.depth_state = FRAMEBUFFER_GPU)
    (hchange : ¬ (r.framebuffer.addr = addr ∧ r.framebuffer.format = format ∧
      r.framebuffer.width = width ∧ r.framebuffer.pixel_size = pixel_size)) :
    (set_color_image cfg r addr format pixel_size width synchronous).framebuffer.color_state
      = FRAMEBUFFER_CPU ∧
    (set_color_image cfg r addr format pixel_size width synchronous).framebuffer.depth_state
      = FRAMEBUFFER_CPU ∧
    (set_color_image cfg r addr format pixel_size width synchronous).async_transfers
      = (complete_frame cfg r synchronous).async_transfers ∧
    (set_color_image cfg r addr format pixel_size width synchronous).log
      = (complete_frame cfg r synchronous).log := by
  obtain ⟨hc, hd, _⟩ := complete_frame_gpu cfg r synchronous g hgpu
  unfold set_color_image
  rw [if_neg hchange]
  dsimp only
  generalize (if width > 320 then 480 else if width = 320 then 240 else width) = mh
  split_ifs
  · rw [set_framebuffer_size_idle cfg _ _ _ (by dsimp only; rw [hc]; simp)
      (by dsimp only; rw [hd]; simp)]
    exact ⟨hc, hd, rfl, rfl⟩
  · exact ⟨hc, hd, rfl, rfl⟩

theorem set_depth_image_changed (cfg : Config) (r : Renderer) (addr : Nat)
    (synchronous : Bool) (hgpu : r.framebuffer.depth_state = FRAMEBUFFER_GPU)
    (hchange : r.framebuffer.depth_addr ≠ addr) :
    set_depth_image cfg r addr synchronous =
      { (complete_frame cfg r synchronous) with framebuffer :=
        { (complete_frame cfg r synchronous).framebuffer with depth_addr := addr } } := by
  unfold set_depth_image
  rw [if_neg hchange, if_pos hgpu]

/-- C14: in a state reached by a run from the initial state, `set_color_image` with a
descriptor different from the current one, called while the colour surface is GPU-resident,
and `set_depth_image` with a different address, called while the depth surface is
GPU-resident, complete the frame on the old descriptor: the record of the completion holds the
old addresses and holds the surface as GPU-resident; without synchronous mode that record is
appended to the ledger, in synchronous mode its copy-back is logged by the call; and when the
call returns both surfaces are CPU-resident and the descriptor holds the new address. -/
theorem image_change_completes_frame (cfg : Config) (ops : List Op) (r : Renderer)
    (hr : r = run cfg (Renderer.init cfg) ops) :
    (∀ addr format pixel_size width synchronous,
      r.framebuffer.color_state = FRAMEBUFFER_GPU →
      ¬ (r.framebuffer.addr = addr ∧ r.framebuffer.format = format ∧
        r.framebuffer.width = width ∧ r.framebuffer.pixel_size = pixel_size) →
      (set_color_image cfg r addr format pixel_size width synchronous).framebuffer.color_state
        = FRAMEBUFFER_CPU ∧
      (set_color_image cfg r addr format pixel_size width synchronous).framebuffer.depth_state
        = FRAMEBUFFER_CPU ∧
      (set_color_image cfg r addr format pixel_size width synchronous).framebuffer.addr
        = addr ∧
      (frame_record cfg r synchronous).framebuffer.addr = r.framebuffer.addr ∧
      (frame_record cfg r synchronous).framebuffer.depth_addr = r.framebuffer.depth_addr ∧
      (frame_record cfg r synchronous).framebuffer.format = r.framebuffer.format ∧
      (frame_record cfg r synchronous).framebuffer.pixel_size = r.framebuffer.pixel_size ∧
      (frame_record cfg r synchronous).framebuffer.width = r.framebuffer.width ∧
      (frame_record cfg r synchronous).framebuffer.color_state = FRAMEBUFFER_GPU ∧
      (synchronous = false →
        (set_color_image cfg r addr format pixel_size width synchronous).async_transfers
          = r.async_transfers ++ [frame_record cfg r false]) ∧
      (synchronous = true →
        ∃ es, (set_color_image cfg r addr format pixel_size width synchronous).log
            = r.log ++ es ∧
          Event.copy_color_to_dram (frame_record cfg r true) ∈ es)) ∧
    (∀ addr synchronous,
      r.framebuffer.depth_state = FRAMEBUFFER_GPU →
      r.framebuffer.depth_addr ≠ addr →
      (set_depth_image cfg r addr synchronous).framebuffer.color_state = FRAMEBUFFER_CPU ∧
      (set_depth_image cfg r addr synchronous).framebuffer.depth_state = FRAMEBUFFER_CPU ∧
      (set_depth_image cfg r addr synchronous).framebuffer.depth_addr = addr ∧
      (frame_record cfg r synchronous).framebuffer.addr = r.framebuffer.addr ∧
      (frame_record cfg r synchronous).framebuffer.depth_addr = r.framebuffer.depth_addr ∧
      (frame_record cfg r synchronous).framebuffer.depth_state = FRAMEBUFFER_GPU ∧
      (synchronous = false →
        (set_depth_image cfg r addr synchronous).async_transfers
          = r.async_transfers ++ [frame_record cfg r false]) ∧
      (synchronous = true →
        ∃ es, (set_depth_image cfg r addr synchronous).log = r.log ++ es ∧
          Event.copy_depth_to_dram (frame_record cfg r true) ∈ es)) := by
  have g : GpuOpen r := by rw [hr]; exact gpuOpen_run cfg ops
  constructor
  · intro addr format pixel_size width synchronous hgpu hchange
    obtain ⟨s1, s2, s3, s4⟩ :=
      set_color_image_changed cfg r addr format pixel_size width synchronous g (Or.inl hgpu)
        hchange
    obtain ⟨_, _, _, c4, _, c6⟩ := complete_frame_gpu cfg r synchronous g (Or.inl hgpu)
    obtain ⟨d1, d2, d3, d4, d5, _, _⟩ := frame_record_descriptor cfg r synchronous
    refine ⟨s1, s2,
      (set_color_image_fields cfg r addr format pixel_size width synchronous hchange).2.2.1,
      d1, d2, d3, d4, d5, frame_record_color_state cfg r synchronous hgpu, ?_, ?_⟩
    · intro hs
      rw [s3]
      exact c4 hs
    · intro hs
      obtain ⟨es, hl, hes⟩ := c6 hs
      refine ⟨es, by rw [s4]; exact hl, hes _ (copy_color_mem _ ?_)⟩
      exact frame_record_color_state cfg r true hgpu
  · intro addr synchronous hgpu hchange
    have he := set_depth_image_changed cfg r addr synchronous hgpu hchange
    obtain ⟨c1, c2, _, c4, _, c6⟩ := complete_frame_gpu cfg r synchronous g (Or.inr hgpu)
    obtain ⟨d1, d2, _, _, _, _, _⟩ := frame_record_descriptor cfg r synchronous
    refine ⟨by rw [he]; exact c1, by rw [he]; exact c2, by rw [he],
      d1, d2, frame_record_depth_state cfg r synchronous hgpu, ?_, ?_⟩
    · intro hs
      rw [he]
      exact c4 hs
    · intro hs
      obtain ⟨es, hl, hes⟩ := c6 hs
      refine ⟨es, by rw [he]; exact hl, hes _ (copy_depth_mem _ ?_)⟩
      exact frame_record_depth_state cfg r true hgpu

set_option maxRecDepth 100000 in
/-- C14, witness: the state after a draw and a flush under the sample configuration, where the
colour surface is GPU-resident at address 0; `set_color_image` to address 4096 without
synchronous mode appends a record that holds address 0, and returns with both surfaces
CPU-resident. -/
theorem image_change_completes_frame_witness :
    (run Config.sample (Renderer.init Config.sample) draw_flush_ops).framebuffer.color_state
      = FRAMEBUFFER_GPU ∧
    (set_color_image Config.sample
      (run Config.sample (Renderer.init Config.sample) draw_flush_ops) 4096 0 2 320
      false).framebuffer.color_state = FRAMEBUFFER_CPU ∧
    (frame_record Config.sample
      (run Config.sample (Renderer.init Config.sample) draw_flush_ops) false).framebuffer.addr
      = 0 ∧
    (set_color_image Config.sample
      (run Config.sample (Renderer.init Config.sample) draw_flush_ops) 4096 0 2 320
      false).async_transfers =
      (run Config.sample (Renderer.init Config.sample) draw_flush_ops).async_transfers ++
        [frame_record Config.sample
          (run Config.sample (Renderer.init Config.sample) draw_flush_ops) false] :=
  ⟨by decide,
   ((image_change_completes_frame Config.sample draw_flush_ops _ rfl).1 4096 0 2 320 false
      (by decide) (by decide)).1,
   by decide,
   ((image_change_completes_frame Config.sample draw_flush_ops _ rfl).1 4096 0 2 320 false
      (by decide) (by decide)).2.2.2.2.2.2.2.2.2.1 rfl⟩

end RDP

namespace RDP

/-! ## Staging from the ledger: the newest record that fits -/

theorem search_down_some (p : AsyncFramebuffer → Bool) (l : List AsyncFramebuffer) (n i : Nat)
    (h : search_down p l n = some i) :
    i < n ∧ ∃ a, l[i]? = some a ∧ p a = true ∧
      ∀ j b, i < j → j < n → l[j]? = some b → p b = false := by
  induction n with
  | zero => simp [search_down] at h
  | succ n ih =>
    unfold search_down at h
    cases hn : l[n]? with
    | none =>
      rw [hn] at h
      obtain ⟨h1, a, h2, h3, h4⟩ := ih h
      refine ⟨by omega, a, h2, h3, ?_⟩
      intro j b hij hjn hj
      rcases Nat.lt_succ_iff_lt_or_eq.mp hjn with hlt | heq
      · exact h4 j b hij hlt hj
      · subst heq; rw [hn] at hj; cases hj
    | some c =>
      rw [hn] at h
      dsimp only at h
      by_cases hp : p c = true
      · rw [if_pos hp] at h
        cases h
        refine ⟨by omega, c, hn, hp, ?_⟩
        intro j b hij hjn _
        omega
      · rw [if_neg hp] at h
        obtain ⟨h1, a, h2, h3, h4⟩ := ih h
        refine ⟨by omega, a, h2, h3, ?_⟩
        intro j b hij hjn hj
        rcases Nat.lt_succ_iff_lt_or_eq.mp hjn with hlt | heq
        · exact h4 j b hij hlt hj
        · subst heq; rw [hn] at hj; cases hj; simpa using hp

theorem search_down_none (p : AsyncFramebuffer → Bool) (l : List AsyncFramebuffer) (n : Nat)
    (h : search_down p l n = none) :
    ∀ j b, j < n → l[j]? = some b → p b = false := by
  induction n with
  | zero => intro j b hj; omega
  | succ n ih =>
    unfold search_down at h
    cases hn : l[n]? with
    | none =>
      rw [hn] at h
      intro j b hjn hj
      rcases Nat.lt_succ_iff_lt_or_eq.mp hjn with hlt | heq
      · exact ih h j b hlt hj
      · subst heq; rw [hn] at hj; cases hj
    | some c =>
      rw [hn] at h
      dsimp only at h
      by_cases hp : p c = true
      · rw [if_pos hp] at h; cases h
      · rw [if_neg hp] at h
        intro j b hjn hj
        rcases Nat.lt_succ_iff_lt_or_eq.mp hjn with hlt | heq
        · exact ih h j b hlt hj
        · subst heq; rw [hn] at hj; cases hj; simpa using hp

/-- The search loop returns the index of the newest record that satisfies the test. -/
theorem search_down_of_latest (p : AsyncFramebuffer → Bool) (l : List AsyncFramebuffer)
    (i : Nat) (a : AsyncFramebuffer) (h : LatestMatch p l i a) :
    search_down p l l.length = some i := by
  obtain ⟨hi, hp, hlast⟩ := h
  have hil : i < l.length := by
    by_contra hc
    rw [List.getElem?_eq_none (by omega)] at hi
    cases hi
  cases hs : search_down p l l.length with
  | none =>
    have := search_down_none p l l.length hs i a hil hi
    rw [hp] at this; cases this
  | some k =>
    obtain ⟨hk, b, hb, hpb, hafter⟩ := search_down_some p l l.length k hs
    rcases Nat.lt_trichotomy i k with hlt | heq | hgt
    · have := hlast k b hlt hb
      rw [hpb] at this; cases this
    · rw [heq]
    · have := hafter i a hgt hil hi
      rw [hp] at this; cases this

/-- When some record satisfies the test, there is a newest one that does. -/
theorem latest_of_match (p : AsyncFramebuffer → Bool) (l : List AsyncFramebuffer)
    (a : AsyncFramebuffer) (ha : a ∈ l) (hp : p a = true) : ∃ i b, LatestMatch p l i b := by
  cases hs : search_down p l l.length with
  | none =>
    obtain ⟨j, hj⟩ := List.getElem?_of_mem ha
    have hjl : j < l.length := by
      by_contra hc
      rw [List.getElem?_eq_none (by omega)] at hj
      cases hj
    have := search_down_none p l l.length hs j a hjl hj
    rw [hp] at this; cases this
  | some k =>
    obtain ⟨_, b, hb, hpb, hafter⟩ := search_down_some p l l.length k hs
    refine ⟨k, b, hb, hpb, ?_⟩
    intro j c hkj hj
    have hjl : j < l.length := by
      by_contra hc
      rw [List.getElem?_eq_none (by omega)] at hj
      cases hj
    exact hafter j c hkj hjl hj

theorem search_down_no_match (p : AsyncFramebuffer → Bool) (l : List AsyncFramebuffer)
    (h : ∀ a ∈ l, p a = false) : search_down p l l.length = none := by
  cases hs : search_down p l l.length with
  | none => rfl
  | some k =>
    obtain ⟨_, b, hb, hpb, _⟩ := search_down_some p l l.length k hs
    have := h b (List.mem_iff_getElem?.mpr ⟨_, hb⟩)
    rw [hpb] at this; cases this

theorem begin_framebuffer_log (r : Renderer) : (begin_framebuffer r).log = r.log := by
  unfold begin_framebuffer; split_ifs <;> rfl

theorem begin_framebuffer_framebuffer (r : Renderer) :
    (begin_framebuffer r).framebuffer = r.framebuffer := by
  unfold begin_framebuffer; split_ifs <;> rfl

theorem begin_framebuffer_depth_log (r : Renderer) : (begin_framebuffer_depth r).log = r.log := by
  unfold begin_framebuffer_depth; split_ifs <;> rfl

/-- The log of `sync_color_dram_to_gpu` on a stale colour surface when the ledger holds a
record that fits. -/
theorem sync_color_dram_to_gpu_latest (r : Renderer) (i : Nat) (a : AsyncFramebuffer)
    (hs : r.framebuffer.color_state = FRAMEBUFFER_STALE_GPU)
    (h : LatestMatch (color_record_matches r.framebuffer) r.async_transfers i a) :
    (sync_color_dram_to_gpu r).log = r.log ++
      (if r.vulkan.framebuffer.isNone then [Event.stage_color_from_record i a] else []) ++
      [Event.residency Surface.color FRAMEBUFFER_STALE_GPU FRAMEBUFFER_GPU] := by
  unfold sync_color_dram_to_gpu
  rw [if_neg (not_not.mpr hs)]
  dsimp only
  rw [search_down_of_latest _ _ i a h]
  dsimp only
  rw [h.1]
  dsimp only
  by_cases hn : r.vulkan.framebuffer.isNone = true
  · rw [if_pos hn, if_pos hn]
    simp [Renderer.set_color_state, Renderer.emit, begin_framebuffer_log,
      begin_framebuffer_framebuffer, hs]
  · rw [if_neg hn, if_neg hn]
    simp [Renderer.set_color_state, hs]

/-- The log of `sync_color_dram_to_gpu` on a stale colour surface when no record fits. -/
theorem sync_color_dram_to_gpu_fresh (r : Renderer)
    (hs : r.framebuffer.color_state = FRAMEBUFFER_STALE_GPU)
    (h : ∀ a ∈ r.async_transfers, color_record_matches r.framebuffer a = false) :
    ∃ pre, (sync_color_dram_to_gpu r).log = r.log ++ pre ++
        [Event.stage_color_from_dram r.framebuffer,
         Event.residency Surface.color FRAMEBUFFER_STALE_GPU FRAMEBUFFER_GPU] ∧
      ∀ e ∈ pre, ∃ line, e = Event.assertion_failed line := by
  unfold sync_color_dram_to_gpu
  rw [if_neg (not_not.mpr hs)]
  dsimp only
  rw [search_down_no_match _ _ h]
  dsimp only
  simp only [assert_eq]
  split_ifs
  all_goals first
    | (refine ⟨[], ?_, by simp⟩
       simp [Renderer.set_color_state, Renderer.emit, begin_framebuffer_log,
         begin_framebuffer_framebuffer, hs]
       done)
    | (refine ⟨[Event.assertion_failed 1245], ?_, by simp⟩
       simp [Renderer.set_color_state, Renderer.emit, begin_framebuffer_log,
         begin_framebuffer_framebuffer, hs]
       done)
    | (refine ⟨[Event.assertion_failed 1259], ?_, by simp⟩
       simp [Renderer.set_color_state, Renderer.emit, begin_framebuffer_log,
         begin_framebuffer_framebuffer, hs]
       done)

/-- The log of `sync_depth_dram_to_gpu` on a stale depth surface when the ledger holds a
record that fits. -/
theorem sync_depth_dram_to_gpu_latest (r : Renderer) (i : Nat) (a : AsyncFramebuffer)
    (hs : r.framebuffer.depth_state = FRAMEBUFFER_STALE_GPU)
    (h : LatestMatch (depth_record_matches r.framebuffer) r.async_transfers i a) :
    (sync_depth_dram_to_gpu r).log = r.log ++
      (if r.vulkan.framebuffer_depth.isNone
        then [Event.stage_depth_from_record i a (matches_depth r.framebuffer a)] else []) ++
      [Event.residency Surface.depth FRAMEBUFFER_STALE_GPU FRAMEBUFFER_GPU] := by
  have hm : matches_depth r.framebuffer a = true ∨
      (matches_depth r.framebuffer a = false ∧ matches_color r.framebuffer a = true) := by
    have := h.2.1
    unfold depth_record_matches at this
    cases hd : matches_depth r.framebuffer a
    · rw [hd] at this
      simp only [Bool.false_or, Bool.and_eq_true] at this
      exact Or.inr ⟨rfl, this.1.1⟩
    · exact Or.inl rfl
  unfold sync_depth_dram_to_gpu
  rw [if_neg (not_not.mpr hs)]
  dsimp only
  rw [search_down_of_latest _ _ i a h]
  dsimp only
  rw [h.1]
  dsimp only
  by_cases hn : r.vulkan.framebuffer_depth.isNone = true
  · rw [if_pos hn, if_pos hn]
    rcases hm with hm | ⟨hm, hc⟩
    · rw [if_pos hm, hm]
      simp [Renderer.set_depth_state, Renderer.emit, begin_framebuffer_depth_log, hs]
      unfold begin_framebuffer_depth
      split_ifs <;> exact hs
    · rw [if_neg (by rw [hm]; simp), if_pos hc, hm]
      simp [Renderer.set_depth_state, Renderer.emit, begin_framebuffer_depth_log, hs]
      unfold begin_framebuffer_depth
      split_ifs <;> exact hs
  · rw [if_neg hn, if_neg hn]
    simp [Renderer.set_depth_state, hs]

/-- The log of `sync_depth_dram_to_gpu` on a stale depth surface when no record fits. -/
theorem sync_depth_dram_to_gpu_fresh (r : Renderer)
    (hs : r.framebuffer.depth_state = FRAMEBUFFER_STALE_GPU)
    (h : ∀ a ∈ r.async_transfers, depth_record_matches r.framebuffer a = false) :
    (sync_depth_dram_to_gpu r).log = r.log ++
      [Event.stage_depth_from_dram r.framebuffer,
       Event.residency Surface.depth FRAMEBUFFER_STALE_GPU FRAMEBUFFER_GPU] := by
  unfold sync_depth_dram_to_gpu
  rw [if_neg (not_not.mpr hs)]
  dsimp only
  rw [search_down_no_match _ _ h]
  simp [Renderer.set_depth_state, Renderer.emit, begin_framebuffer_depth_log, hs]
  unfold begin_framebuffer_depth
  split_ifs <;> exact hs

/-- C16: staging a stale surface takes the newest ledger record that fits.  When record `i` is
the record with the largest index that satisfies the test of the search loop, the colour
staging copies from record `i` and from no other (the copy is made when no colour buffer is
staged yet), and the depth staging copies from record `i`, from its depth buffer when the depth
address fits and from its colour buffer otherwise.  When some record fits there is such a
newest one, and system memory is not read; system memory is read when no record fits. -/
theorem staging_reuses_latest_record (r : Renderer) :
    (∀ i a, r.framebuffer.color_state = FRAMEBUFFER_STALE_GPU →
      LatestMatch (color_record_matches r.framebuffer) r.async_transfers i a →
      (sync_color_dram_to_gpu r).log = r.log ++
        (if r.vulkan.framebuffer.isNone then [Event.stage_color_from_record i a] else []) ++
        [Event.residency Surface.color FRAMEBUFFER_STALE_GPU FRAMEBUFFER_GPU]) ∧
    (∀ a ∈ r.async_transfers, color_record_matches r.framebuffer a = true →
      (∃ i b, LatestMatch (color_record_matches r.framebuffer) r.async_transfers i b) ∧
      ∃ es, (sync_color_dram_to_gpu r).log = r.log ++ es ∧
        ∀ fb, Event.stage_color_from_dram fb ∉ es) ∧
    (r.framebuffer.color_state = FRAMEBUFFER_STALE_GPU →
      (∀ a ∈ r.async_transfers, color_record_matches r.framebuffer a = false) →
      ∃ pre, (sync_color_dram_to_gpu r).log = r.log ++ pre ++
          [Event.stage_color_from_dram r.framebuffer,
           Event.residency Surface.color FRAMEBUFFER_STALE_GPU FRAMEBUFFER_GPU] ∧
        ∀ e ∈ pre, ∃ line, e = Event.assertion_failed line) ∧
    (∀ i a, r.framebuffer.depth_state = FRAMEBUFFER_STALE_GPU →
      LatestMatch (depth_record_matches r.framebuffer) r.async_transfers i a →
      (sync_depth_dram_to_gpu r).log = r.log ++
        (if r.vulkan.framebuffer_depth.isNone
          then [Event.stage_depth_from_record i a (matches_depth r.framebuffer a)] else []) ++
        [Event.residency Surface.depth FRAMEBUFFER_STALE_GPU FRAMEBUFFER_GPU]) ∧
    (∀ a ∈ r.async_transfers, depth_record_matches r.framebuffer a = true →
      (∃ i b, LatestMatch (depth_record_matches r.framebuffer) r.async_transfers i b) ∧
      ∃ es, (sync_depth_dram_to_gpu r).log = r.log ++ es ∧
        ∀ fb, Event.stage_depth_from_dram fb ∉ es) ∧
    (r.framebuffer.depth_state = FRAMEBUFFER_STALE_GPU →
      (∀ a ∈ r.async_transfers, depth_record_matches r.framebuffer a = false) →
      (sync_depth_dram_to_gpu r).log = r.log ++
        [Event.stage_depth_from_dram r.framebuffer,
         Event.residency Surface.depth FRAMEBUFFER_STALE_GPU FRAMEBUFFER_GPU]) := by
  refine ⟨fun i a hs h => sync_color_dram_to_gpu_latest r i a hs h, ?_,
    fun hs h => sync_color_dram_to_gpu_fresh r hs h,
    fun i a hs h => sync_depth_dram_to_gpu_latest r i a hs h, ?_,
    fun hs h => sync_depth_dram_to_gpu_fresh r hs h⟩
  · intro a ha hp
    obtain ⟨i, b, hl⟩ := latest_of_match _ _ a ha hp
    refine ⟨⟨i, b, hl⟩, ?_⟩
    by_cases hs : r.framebuffer.color_state = FRAMEBUFFER_STALE_GPU
    · refine ⟨_, by rw [sync_color_dram_to_gpu_latest r i b hs hl, List.append_assoc], ?_⟩
      intro fb hfb
      rcases List.mem_append.mp hfb with h | h
      · split_ifs at h <;> simp at h
      · simp at h
    · refine ⟨[], ?_, by simp⟩
      unfold sync_color_dram_to_gpu
      rw [if_pos hs]; simp
  · intro a ha hp
    obtain ⟨i, b, hl⟩ := latest_of_match _ _ a ha hp
    refine ⟨⟨i, b, hl⟩, ?_⟩
    by_cases hs : r.framebuffer.depth_state = FRAMEBUFFER_STALE_GPU
    · refine ⟨_, by rw [sync_depth_dram_to_gpu_latest r i b hs hl, List.append_assoc], ?_⟩
      intro fb hfb
      rcases List.mem_append.mp hfb with h | h
      · split_ifs at h <;> simp at h
      · simp at h
    · refine ⟨[], ?_, by simp⟩
      unfold sync_depth_dram_to_gpu
      rw [if_pos hs]; simp

set_option maxRecDepth 100000 in
/-- C16, instance: a ledger of three records of which the records 0 and 1 fit; the colour
staging and the depth staging both copy from record 1. -/
theorem staging_reuses_latest_record_witness :
    LatestMatch (color_record_matches reuse_session.framebuffer) reuse_session.async_transfers
      1 (staged_record 2 20 21) ∧
    color_record_matches reuse_session.framebuffer (staged_record 1 10 11) = true ∧
    (sync_color_dram_to_gpu reuse_session).log =
      [Event.stage_color_from_record 1 (staged_record 2 20 21),
       Event.residency Surface.color FRAMEBUFFER_STALE_GPU FRAMEBUFFER_GPU] ∧
    (sync_depth_dram_to_gpu reuse_session).log =
      [Event.stage_depth_from_record 1 (staged_record 2 20 21) true,
       Event.residency Surface.depth FRAMEBUFFER_STALE_GPU FRAMEBUFFER_GPU] := by
  have hc : LatestMatch (color_record_matches reuse_session.framebuffer)
      reuse_session.async_transfers 1 (staged_record 2 20 21) := by
    refine ⟨by decide, by decide, ?_⟩
    intro j b hj hb
    have h2 : j = 2 := by
      by_contra hne
      have : reuse_session.async_transfers[j]? = none :=
        List.getElem?_eq_none (by
          show 3 ≤ j
          omega)
      rw [this] at hb; cases hb
    subst h2
    have : b = ledger_record 0 3 := by
      have h3 : reuse_session.async_transfers[2]? = some (ledger_record 0 3) := by decide
      rw [h3] at hb; exact (Option.some.inj hb).symm
    subst this
    decide
  have hd : LatestMatch (depth_record_matches reuse_session.framebuffer)
      reuse_session.async_transfers 1 (staged_record 2 20 21) := by
    refine ⟨by decide, by decide, ?_⟩
    intro j b hj hb
    have h2 : j = 2 := by
      by_contra hne
      have : reuse_session.async_transfers[j]? = none :=
        List.getElem?_eq_none (by
          show 3 ≤ j
          omega)
      rw [this] at hb; cases hb
    subst h2
    have : b = ledger_record 0 3 := by
      have h3 : reuse_session.async_transfers[2]? = some (ledger_record 0 3) := by decide
      rw [h3] at hb; exact (Option.some.inj hb).symm
    subst this
    decide
  refine ⟨hc, by decide, ?_, ?_⟩
  · rw [(staging_reuses_latest_record reuse_session).1 1 _ rfl hc]
    rfl
  · rw [(staging_reuses_latest_record reuse_session).2.2.2.1 1 _ rfl hd]
    rfl

end RDP

namespace RDP

/-! ## The software clear -/

/-- C17, as the code has it: `fill_rect_cpu` drops the ledger records whose colour address or
depth address equals the colour address of the framebuffer, and no other record, whatever the
rectangle; the records it keeps stay in ledger order. -/
theorem fill_rect_cpu_drops_equal_addresses (cfg : Config) (r : Renderer)
    (xmin xmax ymin ymax : Int) :
    (∀ a, a ∈ (fill_rect_cpu cfg r xmin xmax ymin ymax).async_transfers ↔
      a ∈ r.async_transfers ∧ a.framebuffer.addr ≠ r.framebuffer.addr ∧
        a.framebuffer.depth_addr ≠ r.framebuffer.addr) ∧
    (fill_rect_cpu cfg r xmin xmax ymin ymax).async_transfers.Sublist r.async_transfers ∧
    (∀ xmin' xmax' ymin' ymax',
      (fill_rect_cpu cfg r xmin' xmax' ymin' ymax').async_transfers
        = (fill_rect_cpu cfg r xmin xmax ymin ymax).async_transfers) := by
  have he : ∀ x0 x1 y0 y1, (fill_rect_cpu cfg r x0 x1 y0 y1).async_transfers =
      r.async_transfers.filter (fun async =>
        !(async.framebuffer.addr == r.framebuffer.addr ||
          async.framebuffer.depth_addr == r.framebuffer.addr)) := by
    intro x0 x1 y0 y1
    unfold fill_rect_cpu
    dsimp only
    rw [assert_eq]
    rfl
  refine ⟨?_, ?_, ?_⟩
  · intro a
    rw [he, List.mem_filter]
    simp
  · rw [he]
    exact List.filter_sublist _
  · intro x0 x1 y0 y1
    rw [he, he]

set_option maxRecDepth 100000 in
/-- C17, counterexample: a frame drawn to the colour image at address 1028 leaves a record in
the ledger; after the colour image moved to address 1024, `fill_rect_cpu` writes the words at
1024 and 1028 and keeps the record, whose colour address 1028 lies in the words written. -/
theorem fill_rect_cpu_keeps_overlapping_record :
    Event.fill_rect 1024 640 0 1 0 0 true ∈
      (run Config.sample (Renderer.init Config.sample) overlap_ops).log ∧
    in_words 1028 (fill_words 1024 640 0 1 0 0) ∧
    ∃ a ∈ (run Config.sample (Renderer.init Config.sample) overlap_ops).async_transfers,
      a.framebuffer.addr = 1028 ∧ a.framebuffer.color_state = FRAMEBUFFER_GPU := by
  exact ⟨by decide, ⟨1028, by decide, by decide, by decide⟩, by decide⟩

/-- The words of a fill whose first scanline is not scanline 0 end at or below the bound that
`fill_rect_cpu` computes, when that bound does not wrap around 32 bits. -/
theorem fill_words_bound (addr stride : Nat) (xmin xmax ymin ymax : Int)
    (hy : 1 ≤ ymin) (hx : 0 ≤ xmin) (hstride : 4 ≤ stride)
    (hwrap : (addr : Int) + (ymax + ymin - 1) * (stride : Int) + 4 * xmax < 4294967296) :
    ∀ w ∈ fill_words addr stride xmin xmax ymin ymax,
      ((w : Nat) : Int) + 4 ≤ (addr : Int) + (ymax + ymin - 1) * (stride : Int) + 4 * xmax := by
  intro w hw
  unfold fill_words at hw
  obtain ⟨y, hy_mem, hw⟩ := List.mem_flatMap.mp hw
  obtain ⟨x, hx_mem, rfl⟩ := List.mem_map.mp hw
  rw [mem_int_range] at hy_mem hx_mem
  obtain ⟨y1, y2⟩ := hy_mem
  obtain ⟨x1, x2⟩ := hx_mem
  have hk : (((y - ymin).toNat : Nat) : Int) = y - ymin := Int.toNat_of_nonneg (by omega)
  have hs : (0 : Int) ≤ (stride : Int) := Int.ofNat_nonneg _
  have h1 : (y - ymin) * (stride : Int) + (stride : Int) ≤ (ymax + ymin - 1) * (stride : Int) := by
    have : (y - ymin + 1) * (stride : Int) ≤ (ymax + ymin - 1) * (stride : Int) :=
      Int.mul_le_mul_of_nonneg_right (by omega) hs
    linarith
  have h0 : (0 : Int) ≤ (y - ymin) * (stride : Int) := Int.mul_nonneg (by omega) hs
  have hrow : u32 (addr + (y - ymin).toNat * stride) = addr + (y - ymin).toNat * stride := by
    unfold u32
    apply Nat.mod_eq_of_lt
    have : ((addr + (y - ymin).toNat * stride : Nat) : Int) < 4294967296 := by
      push_cast
      rw [hk]
      have hs4 : (4 : Int) ≤ (stride : Int) := by exact_mod_cast hstride
      omega
    exact_mod_cast this
  rw [hrow]
  have hval : (((addr + (y - ymin).toNat * stride : Nat) : Int) + 4 * x)
      = (addr : Int) + (y - ymin) * (stride : Int) + 4 * x := by
    push_cast
    rw [hk]
  rw [hval]
  have hs4 : (4 : Int) ≤ (stride : Int) := by exact_mod_cast hstride
  have hnn : (0 : Int) ≤ (addr : Int) + (y - ymin) * (stride : Int) + 4 * x := by
    have : (0 : Int) ≤ (addr : Int) := Int.ofNat_nonneg _
    omega
  have hlt : (addr : Int) + (y - ymin) * (stride : Int) + 4 * x < 4294967296 := by omega
  unfold to_u32
  rw [Int.emod_eq_of_lt hnn hlt, Int.toNat_of_nonneg hnn]
  omega

set_option maxRecDepth 100000 in
/-- C18: the bound `fill_rect_cpu` tests before it takes the path without wrapping is
`addr + (ymax + ymin - 1) * stride + 4 * xmax`, with `addr` already advanced to scanline
`ymin`.  When the first scanline is not scanline 0 (and the stride is at least one word and
the bound does not wrap around 32 bits) every word written on that path ends at or below
`RDRAM_SIZE`.  When the first scanline is scanline 0 the bound misses the last scanline: with
8 MiB of memory, a 16-bit image 320 pixels wide whose first scanline is the last 640 bytes of
memory, and a clear of the first four pixels of the scanlines 0 and 1, the path without
wrapping is taken and the word at address 8388608, the first address past the memory, is
written. -/
theorem fill_rect_cpu_nowrap_bound :
    (∀ (size addr stride : Nat) (xmin xmax ymin ymax : Int),
      1 ≤ ymin → 0 ≤ xmin → 4 ≤ stride →
      (addr : Int) + (ymax + ymin - 1) * (stride : Int) + 4 * xmax < 4294967296 →
      (addr : Int) + (ymax + ymin - 1) * (stride : Int) + 4 * xmax ≤ (size : Int) →
      ∀ w ∈ fill_words addr stride xmin xmax ymin ymax, w + 4 ≤ size) ∧
    (run Config.sample (Renderer.init Config.sample) edge_fill_ops).log
      = [Event.fill_rect 8387968 640 0 1 0 1 true] ∧
    fill_words 8387968 640 0 1 0 1 = [8387968, 8387972, 8388608, 8388612] ∧
    Config.sample.RDRAM_SIZE = 8388608 := by
  refine ⟨?_, by decide, by decide, rfl⟩
  intro size addr stride xmin xmax ymin ymax hy hx hstride hwrap hsize w hw
  have := fill_words_bound addr stride xmin xmax ymin ymax hy hx hstride hwrap w hw
  omega

end RDP

namespace RDP

/-! ## The selectors without a resolution -/

theorem resolve_alpha_rgb (st : RegisterState) (a : Nat) (v : Vec4) :
    (resolve_alpha st a v).rgb = v.rgb := by
  unfold resolve_alpha Vec4.rgb
  split_ifs <;> rfl

theorem resolve_alpha_mul_rgb (st : RegisterState) (a : Nat) (v : Vec4) :
    (resolve_alpha_mul st a v).rgb = v.rgb := by
  unfold resolve_alpha_mul Vec4.rgb
  split_ifs <;> rfl

theorem resolve_cycle_sub_b_rgb (st : RegisterState) (color alpha : CombinerInputs)
    (cycle : CombinerCycle) :
    (resolve_cycle st color alpha cycle).sub_b.rgb
      = (resolve_color_sub_b st color.sub_b cycle.sub_b).rgb :=
  resolve_alpha_rgb st _ _

theorem resolve_cycle_mul_rgb (st : RegisterState) (color alpha : CombinerInputs)
    (cycle : CombinerCycle) :
    (resolve_cycle st color alpha cycle).mul.rgb
      = (resolve_color_mul st color.mul cycle.mul).rgb :=
  resolve_alpha_mul_rgb st _ _

theorem resolve_color_sub_b_key (st : RegisterState) (v : Vec4) :
    resolve_color_sub_b st 6 v = v := by
  unfold resolve_color_sub_b
  simp

theorem resolve_color_mul_key (st : RegisterState) (v : Vec4) :
    resolve_color_mul st 6 v = v := by
  unfold resolve_color_mul
  simp

theorem resolve_color_sub_b_default (st : RegisterState) (sel : Nat) (v : Vec4)
    (h3 : sel ≠ 3) (h5 : sel ≠ 5) (h6 : sel ≠ 6) (h7 : sel ≠ 7) :
    (resolve_color_sub_b st sel v).rgb = (0, 0, 0) := by
  unfold resolve_color_sub_b
  rw [if_neg h3, if_neg h5, if_neg h6, if_neg h7]
  rfl

theorem resolve_color_mul_default (st : RegisterState) (sel : Nat) (v : Vec4)
    (h3 : sel ≠ 3) (h5 : sel ≠ 5) (h6 : sel ≠ 6) (h10 : sel ≠ 10) (h12 : sel ≠ 12)
    (h14 : sel ≠ 14) (h15 : sel ≠ 15) :
    (resolve_color_mul st sel v).rgb = (0, 0, 0) := by
  unfold resolve_color_mul
  rw [if_neg h3, if_neg h5, if_neg h6, if_neg h10, if_neg h12, if_neg h14, if_neg h15]
  rfl

/-- C19: a resolution never fails, and for the colour `sub_b` selector 6
(key centre) and the colour `mul` selector 6 (key scale) it writes nothing to the three colour
lanes of the operand: after the resolution they hold what they held before it, which is what
the resolution before left there.  They are 0 when they were 0 before, as in the state after
construction.  The lanes are set to 0 for the selectors that fall to the `default` label:
those other than 3, 5, 6, 7 for `sub_b`, and other than 3, 5, 6, 10, 12, 14, 15 for `mul`. -/
theorem key_selectors_keep_lanes (st : RegisterState) :
    (st.combiners.color.1.sub_b = 6 →
      (update_static_combiner st).cycle.1.sub_b.rgb = st.combiners.cycle.1.sub_b.rgb) ∧
    (st.combiners.color.2.sub_b = 6 →
      (update_static_combiner st).cycle.2.sub_b.rgb = st.combiners.cycle.2.sub_b.rgb) ∧
    (st.combiners.color.1.mul = 6 →
      (update_static_combiner st).cycle.1.mul.rgb = st.combiners.cycle.1.mul.rgb) ∧
    (st.combiners.color.2.mul = 6 →
      (update_static_combiner st).cycle.2.mul.rgb = st.combiners.cycle.2.mul.rgb) ∧
    (st.combiners.color.1.sub_b = 6 → st.combiners.cycle.1.sub_b.rgb = (0, 0, 0) →
      (update_static_combiner st).cycle.1.sub_b.rgb = (0, 0, 0)) ∧
    (st.combiners.color.1.sub_b ≠ 3 → st.combiners.color.1.sub_b ≠ 5 →
      st.combiners.color.1.sub_b ≠ 6 → st.combiners.color.1.sub_b ≠ 7 →
      (update_static_combiner st).cycle.1.sub_b.rgb = (0, 0, 0)) ∧
    (st.combiners.color.1.mul ≠ 3 → st.combiners.color.1.mul ≠ 5 →
      st.combiners.color.1.mul ≠ 6 → st.combiners.color.1.mul ≠ 10 →
      st.combiners.color.1.mul ≠ 12 → st.combiners.color.1.mul ≠ 14 →
      st.combiners.color.1.mul ≠ 15 →
      (update_static_combiner st).cycle.1.mul.rgb = (0, 0, 0)) := by
  have hb1 : st.combiners.color.1.sub_b = 6 →
      (update_static_combiner st).cycle.1.sub_b.rgb = st.combiners.cycle.1.sub_b.rgb := by
    intro h
    unfold update_static_combiner
    dsimp only
    rw [resolve_cycle_sub_b_rgb, h, resolve_color_sub_b_key]
  refine ⟨hb1, ?_, ?_, ?_, ?_, ?_, ?_⟩
  · intro h
    unfold update_static_combiner
    dsimp only
    rw [resolve_cycle_sub_b_rgb, h, resolve_color_sub_b_key]
  · intro h
    unfold update_static_combiner
    dsimp only
    rw [resolve_cycle_mul_rgb, h, resolve_color_mul_key]
  · intro h
    unfold update_static_combiner
    dsimp only
    rw [resolve_cycle_mul_rgb, h, resolve_color_mul_key]
  · intro h h0
    rw [hb1 h, h0]
  · intro h3 h5 h6 h7
    unfold update_static_combiner
    dsimp only
    rw [resolve_cycle_sub_b_rgb, resolve_color_sub_b_default st _ _ h3 h5 h6 h7]
  · intro h3 h5 h6 h10 h12 h14 h15
    unfold update_static_combiner
    dsimp only
    rw [resolve_cycle_mul_rgb, resolve_color_mul_default st _ _ h3 h5 h6 h10 h12 h14 h15]

set_option maxRecDepth 100000 in
/-- C19, counterexample: under the sample configuration, after a draw that resolved the
primitive colour `0x11223300` as colour `sub_b`, a draw with the colour `sub_b` selector 6
resolves the `sub_b` lanes of cycle 0 to (17, 34, 51), the lanes of the draw before, not to
zero. -/
theorem key_center_lanes_not_zero :
    (run Config.sample (Renderer.init Config.sample) key_center_ops).state.combiners.color.1.sub_b
      = 6 ∧
    (run Config.sample (Renderer.init Config.sample) key_center_ops).state.combiners_dirty
      = false ∧
    (run Config.sample (Renderer.init Config.sample)
      key_center_ops).state.combiners.cycle.1.sub_b.rgb = (17, 34, 51) ∧
    (run Config.sample (Renderer.init Config.sample) key_center_ops).combiner_data.map
      (fun c => (c.color.1.sub_b, c.cycle.1.sub_b.rgb)) = [(3, (17, 34, 51)), (6, (17, 34, 51))] := by
  decide

end RDP

namespace RDP

/-! ## The batch after a flush -/

/-- A flush of a batch that holds a primitive and a work item goes through: staging and upload
touch the residency side only, then the batch is reset. -/
theorem flush_tile_lists_completed (cfg : Config) (r : Renderer) (hp : r.primitive_data ≠ [])
    (hw : r.work_data ≠ []) :
    ∃ r1, ResidencyOnly r r1 ∧ (∃ es b, r1.log = r.log ++ es ++ [Event.flush b]) ∧
      flush_tile_lists cfg r
        = reset_buffers cfg { r1 with rng_frame_count := r1.rng_frame_count + 1 } := by
  unfold flush_tile_lists
  rw [if_neg]
  · refine ⟨_, ?_, ?_, rfl⟩
    · exact residencyOnly_emit _ (residencyOnly_sync_depth_dram_to_gpu
        (residencyOnly_sync_color_dram_to_gpu
          (residencyOnly_begin_command_buffer (residencyOnly_refl r))))
    · obtain ⟨es, hl, _⟩ := sizeSafe_sync_depth_dram_to_gpu (sizeSafe_sync_color_dram_to_gpu
        (sizeSafe_begin_command_buffer (sizeSafe_refl r)))
      exact ⟨es, _, by rw [emit_log, hl]⟩
  · intro hc
    rcases Bool.or_eq_true _ _ ▸ hc with h | h
    · exact hp (List.isEmpty_iff.mp h)
    · exact hw (List.isEmpty_iff.mp h)

theorem map_const_fresh (l : List TileInfo) :
    l.map (fun _ => TileInfo.fresh) = List.replicate l.length TileInfo.fresh := by
  induction l with
  | nil => rfl
  | cons a l ih => simp [List.replicate_succ, ih]

set_option maxRecDepth 100000 in
/-- C12: a flush that goes through leaves the batch as the constructor leaves it: no
primitive record, no combiner, no work item, no node, no tile descriptor, every tile list with
head and tail at the sentinel, `tile_count` 0, an empty combiner map and the combiner marked
dirty; the scissor and the registers are as before the flush.  The resolved lanes of
`state.combiners` are not reset, and a draw whose colour `sub_b` selector is 6 pushes them to
the combiner table as they are.  Under the sample configuration, the state after the flush of
`flushed_key_ops` and the state of the fresh session `fresh_key_ops` have the same registers,
scissor, tile grid and allocated size (a 16 by 16 image, 2 by 2 tiles); the same draw pushes the same primitive record and
builds the same tile lists and nodes in both, and pushes the combiner with the `sub_b` lanes
(17, 34, 51) after the flush and (0, 0, 0) in the fresh session. -/
theorem draw_after_flush_keeps_stale_lanes :
    (∀ (cfg : Config) (r : Renderer), r.primitive_data ≠ [] → r.work_data ≠ [] →
      (flush_tile_lists cfg r).primitive_data = (Renderer.init cfg).primitive_data ∧
      (flush_tile_lists cfg r).combiner_data = (Renderer.init cfg).combiner_data ∧
      (flush_tile_lists cfg r).work_data = (Renderer.init cfg).work_data ∧
      (flush_tile_lists cfg r).tile_nodes = (Renderer.init cfg).tile_nodes ∧
      (flush_tile_lists cfg r).tile_descriptors = (Renderer.init cfg).tile_descriptors ∧
      (flush_tile_lists cfg r).tile_instances = (Renderer.init cfg).tile_instances ∧
      (flush_tile_lists cfg r).tile_count = 0 ∧
      (flush_tile_lists cfg r).tile_lists
        = List.replicate r.tile_lists.length TileInfo.fresh ∧
      (flush_tile_lists cfg r).state.combiners_dirty = true ∧
      (flush_tile_lists cfg r).state.combiner_map = [] ∧
      (flush_tile_lists cfg r).state.last_combiner = 0 ∧
      (flush_tile_lists cfg r).state.combiners = r.state.combiners ∧
      combiner_registers (flush_tile_lists cfg r).state = combiner_registers r.state ∧
      (flush_tile_lists cfg r).scissor = r.scissor ∧
      (flush_tile_lists cfg r).tiles_x = r.tiles_x ∧
      (flush_tile_lists cfg r).tiles_y = r.tiles_y ∧
      ∃ es b, (flush_tile_lists cfg r).log = r.log ++ es ++ [Event.flush b]) ∧
    (∃ es b, (run Config.sample (Renderer.init Config.sample) flushed_key_ops).log =
      (run Config.sample (Renderer.init Config.sample)
        key_batch_ops).log ++ es ++ [Event.flush b]) ∧
    other_registers (run Config.sample (Renderer.init Config.sample) flushed_key_ops).state
      = other_registers (run Config.sample (Renderer.init Config.sample) fresh_key_ops).state ∧
    combiner_registers (run Config.sample (Renderer.init Config.sample) flushed_key_ops).state
      = combiner_registers (run Config.sample (Renderer.init Config.sample)
          fresh_key_ops).state ∧
    (run Config.sample (Renderer.init Config.sample) flushed_key_ops).scissor
      = (run Config.sample (Renderer.init Config.sample) fresh_key_ops).scissor ∧
    (run Config.sample (Renderer.init Config.sample) flushed_key_ops).tile_lists
      = (run Config.sample (Renderer.init Config.sample) fresh_key_ops).tile_lists ∧
    ((run Config.sample (Renderer.init Config.sample) flushed_key_ops).tiles_x,
     (run Config.sample (Renderer.init Config.sample) flushed_key_ops).tiles_y,
     (run Config.sample (Renderer.init Config.sample)
       flushed_key_ops).framebuffer.allocated_width,
     (run Config.sample (Renderer.init Config.sample)
       flushed_key_ops).framebuffer.allocated_height)
      = ((run Config.sample (Renderer.init Config.sample) fresh_key_ops).tiles_x,
         (run Config.sample (Renderer.init Config.sample) fresh_key_ops).tiles_y,
         (run Config.sample (Renderer.init Config.sample)
           fresh_key_ops).framebuffer.allocated_width,
         (run Config.sample (Renderer.init Config.sample)
           fresh_key_ops).framebuffer.allocated_height) ∧
    (run Config.sample (Renderer.init Config.sample)
        (flushed_key_ops ++ [Op.draw_primitive (rect_draw 0 3 0 3)])).primitive_data
      = (run Config.sample (Renderer.init Config.sample)
        (fresh_key_ops ++ [Op.draw_primitive (rect_draw 0 3 0 3)])).primitive_data ∧
    (run Config.sample (Renderer.init Config.sample)
        (flushed_key_ops ++ [Op.draw_primitive (rect_draw 0 3 0 3)])).tile_lists
      = (run Config.sample (Renderer.init Config.sample)
        (fresh_key_ops ++ [Op.draw_primitive (rect_draw 0 3 0 3)])).tile_lists ∧
    (run Config.sample (Renderer.init Config.sample)
        (flushed_key_ops ++ [Op.draw_primitive (rect_draw 0 3 0 3)])).tile_nodes
      = (run Config.sample (Renderer.init Config.sample)
        (fresh_key_ops ++ [Op.draw_primitive (rect_draw 0 3 0 3)])).tile_nodes ∧
    (run Config.sample (Renderer.init Config.sample)
        (flushed_key_ops ++ [Op.draw_primitive (rect_draw 0 3 0 3)])).combiner_data.map
      (fun c => c.cycle.1.sub_b.rgb) = [(17, 34, 51)] ∧
    (run Config.sample (Renderer.init Config.sample)
        (fresh_key_ops ++ [Op.draw_primitive (rect_draw 0 3 0 3)])).combiner_data.map
      (fun c => c.cycle.1.sub_b.rgb) = [(0, 0, 0)] := by
  refine ⟨?_, ?_, by decide, by decide, by decide, by decide, by decide, by decide, by decide,
    by decide, by decide, by decide⟩
  · intro cfg r hp hw
    obtain ⟨r1, h1, ⟨es, b, hl⟩, h2⟩ := flush_tile_lists_completed cfg r hp hw
    have hs : r1.state = r.state := by rw [h1]
    have ht : r1.tile_lists = r.tile_lists := by rw [h1]
    have hsc : r1.scissor = r.scissor := by rw [h1]
    have hx : r1.tiles_x = r.tiles_x := by rw [h1]
    have hy : r1.tiles_y = r.tiles_y := by rw [h1]
    rw [h2]
    refine ⟨rfl, rfl, rfl, rfl, rfl, rfl, rfl, ?_, rfl, rfl, rfl, ?_, ?_, hsc, hx, hy,
      ⟨es, b, hl⟩⟩
    · show r1.tile_lists.map (fun _ => TileInfo.fresh) = _
      rw [ht, map_const_fresh]
    · rw [← hs]; rfl
    · rw [← hs]; rfl
  · have hp : (run Config.sample (Renderer.init Config.sample)
        key_batch_ops).primitive_data ≠ [] := by decide
    have hw : (run Config.sample (Renderer.init Config.sample)
        key_batch_ops).work_data ≠ [] := by decide
    obtain ⟨r1, _, ⟨es, b, hl⟩, h2⟩ := flush_tile_lists_completed Config.sample _ hp hw
    refine ⟨es, b, ?_⟩
    have hrun : run Config.sample (Renderer.init Config.sample) flushed_key_ops
        = flush_tile_lists Config.sample (run Config.sample (Renderer.init Config.sample)
          key_batch_ops) := by
      unfold flushed_key_ops run
      rw [List.foldl_append]
      rfl
    rw [hrun, h2]
    exact hl

end RDP

namespace RDP

/-! ## `normalize_dz` -/

theorem and_two_pow_eq_zero_of_lt (dz j : Nat) (h : dz < 2 ^ j) : dz &&& 2 ^ j = 0 := by
  rw [Nat.and_two_pow, Nat.testBit_lt_two_pow h]
  simp

theorem and_two_pow_ne_zero (dz k : Nat) (h1 : 2 ^ k ≤ dz) (h2 : dz < 2 ^ (k + 1)) :
    dz &&& 2 ^ k ≠ 0 := by
  rw [Nat.and_two_pow]
  have hb : dz.testBit k = true := by
    rw [Nat.testBit_to_div_mod]
    have hd : dz / 2 ^ k = 1 := by
      apply Nat.div_eq_of_lt_le
      · simpa using h1
      · rw [pow_succ] at h2
        omega
    rw [hd]
    rfl
  rw [hb]
  have : 0 < 2 ^ k := Nat.pow_pos (by omega)
  simp only [Bool.toNat_true, one_mul]
  omega

/-- The loop of `normalize_dz`, started at `count = 2^j` with enough rounds left, on a `dz`
whose highest set bit is bit `k ≤ j`: it returns `2^(k+1)`, stored in 16 bits. -/
theorem normalize_dz_loop_eq (dz k : Nat) (h1 : 2 ^ k ≤ dz) (h2 : dz < 2 ^ (k + 1)) :
    ∀ (j fuel : Nat), k ≤ j → j < fuel →
      normalize_dz_loop dz fuel (2 ^ j) = u16 (2 ^ (k + 1)) := by
  intro j
  induction j with
  | zero =>
    intro fuel hk hf
    have hk0 : k = 0 := by omega
    subst hk0
    obtain ⟨f, rfl⟩ : ∃ f, fuel = f + 1 := ⟨fuel - 1, by omega⟩
    unfold normalize_dz_loop
    rw [if_neg (by norm_num), if_pos (and_two_pow_ne_zero dz 0 h1 h2)]
    rfl
  | succ j ih =>
    intro fuel hk hf
    obtain ⟨f, rfl⟩ : ∃ f, fuel = f + 1 := ⟨fuel - 1, by omega⟩
    unfold normalize_dz_loop
    have hpos : 2 ^ (j + 1) ≠ 0 := by positivity
    rw [if_neg hpos]
    by_cases hkj : k = j + 1
    · subst hkj
      rw [if_pos (and_two_pow_ne_zero dz (j + 1) h1 h2)]
      rw [Nat.shiftLeft_eq, ← pow_succ]
    · have hlt : dz < 2 ^ (j + 1) :=
        lt_of_lt_of_le h2 (Nat.pow_le_pow_right (by omega) (by omega))
      rw [if_neg (by rw [and_two_pow_eq_zero_of_lt dz (j + 1) hlt]; simp)]
      have hsh : 2 ^ (j + 1) >>> 1 = 2 ^ j := by
        rw [Nat.shiftRight_eq_div_pow, pow_succ]
        simp
      rw [hsh]
      exact ih f (by omega) (by omega)

/-- Every positive number lies between two consecutive powers of two. -/
theorem exists_pow_bracket (dz : Nat) (h : 0 < dz) : ∃ k, 2 ^ k ≤ dz ∧ dz < 2 ^ (k + 1) :=
  ⟨Nat.log 2 dz, Nat.pow_log_le_self 2 (by omega), Nat.lt_pow_succ_log_self (by omega) dz⟩

theorem and_c000_eq_zero_iff (dz : Nat) (h : dz < 65536) : dz &&& 0xc000 = 0 ↔ dz < 0x4000 := by
  have key : dz &&& 0xc000 = (dz / 16384) * 16384 := by
    apply Nat.eq_of_testBit_eq
    intro i
    rw [Nat.testBit_and]
    have hc : (0xc000 : Nat).testBit i = (decide (14 ≤ i) && decide (i < 16)) := by
      have : (0xc000 : Nat) = (2 ^ 2 - 1) <<< 14 := by decide
      rw [this, Nat.testBit_shiftLeft, Nat.testBit_two_pow_sub_one]
      by_cases h14 : 14 ≤ i
      · simp [h14]; omega
      · simp [h14]
    rw [hc]
    have hm : dz / 16384 * 16384 = (dz >>> 14) <<< 14 := by
      rw [Nat.shiftLeft_eq, Nat.shiftRight_eq_div_pow]
    rw [hm, Nat.testBit_shiftLeft, Nat.testBit_shiftRight]
    by_cases h14 : 14 ≤ i
    · have e : 14 + (i - 14) = i := by omega
      rw [e]
      by_cases h16 : i < 16
      · simp [h14, h16]
      · have : dz.testBit i = false :=
          Nat.testBit_lt_two_pow (lt_of_lt_of_le h (by
            calc 65536 = 2 ^ 16 := by norm_num
              _ ≤ 2 ^ i := Nat.pow_le_pow_right (by omega) (by omega)))
        simp [h14, h16, this]
    · simp [h14]
  rw [key]
  omega

theorem normalize_dz_high (dz : Nat) (h : dz < 65536) (hh : 0x4000 ≤ dz) :
    normalize_dz dz = 0x8000 := by
  unfold normalize_dz
  rw [if_pos (by rw [Ne, and_c000_eq_zero_iff dz h]; omega)]

theorem normalize_dz_mid (dz k : Nat) (hlo : 2 ≤ dz) (hhi : dz < 0x4000)
    (h1 : 2 ^ k ≤ dz) (h2 : dz < 2 ^ (k + 1)) : normalize_dz dz = 2 ^ (k + 1) := by
  have hk : k ≤ 13 := by
    by_contra hc
    have : 2 ^ 14 ≤ 2 ^ k := Nat.pow_le_pow_right (by omega) (by omega)
    norm_num at this
    omega
  unfold normalize_dz
  rw [if_neg (by rw [Ne, not_not, and_c000_eq_zero_iff dz (by omega)]; exact hhi),
    if_neg (by omega), if_neg (by omega)]
  have h13 : (0x2000 : Nat) = 2 ^ 13 := by norm_num
  rw [h13, normalize_dz_loop_eq dz k h1 h2 13 15 hk (by omega)]
  unfold u16
  apply Nat.mod_eq_of_lt
  calc 2 ^ (k + 1) ≤ 2 ^ 14 := Nat.pow_le_pow_right (by omega) (by omega)
    _ < 65536 := by norm_num

/-- C30: `normalize_dz` on a 16-bit argument.  It returns `0x8000` from `0x4000` on, 1 at 0,
3 at 1, and for `2 ≤ dz < 0x4000` the power of two `p` with `p / 2 ≤ dz < p`, the smallest
power of two above `dz`.  It never returns 0, and it is monotone. -/
theorem normalize_dz_rounds_up (dz : Nat) (h : dz < 65536) :
    (0x4000 ≤ dz → normalize_dz dz = 0x8000) ∧
    (2 ≤ dz → dz < 0x4000 →
      ∃ k, normalize_dz dz = 2 ^ (k + 1) ∧ 2 ^ k ≤ dz ∧ dz < 2 ^ (k + 1)) ∧
    (dz = 0 → normalize_dz dz = 1) ∧
    (dz = 1 → normalize_dz dz = 3) ∧
    normalize_dz dz ≠ 0 ∧
    (∀ dz', dz' ≤ dz → normalize_dz dz' ≤ normalize_dz dz) := by
  have hmid : ∀ d, 2 ≤ d → d < 0x4000 →
      ∃ k, normalize_dz d = 2 ^ (k + 1) ∧ 2 ^ k ≤ d ∧ d < 2 ^ (k + 1) := by
    intro d hlo hhi
    obtain ⟨k, h1, h2⟩ := exists_pow_bracket d (by omega)
    exact ⟨k, normalize_dz_mid d k hlo hhi h1 h2, h1, h2⟩
  have h0 : normalize_dz 0 = 1 := by decide
  have h1 : normalize_dz 1 = 3 := by decide
  have hle : ∀ d, d < 65536 → normalize_dz d ≤ 0x8000 := by
    intro d hd
    by_cases hh : 0x4000 ≤ d
    · rw [normalize_dz_high d hd hh]
    · by_cases h2 : 2 ≤ d
      · obtain ⟨k, e, a, b⟩ := hmid d h2 (by omega)
        rw [e]
        have hk : k ≤ 13 := by
          by_contra hc
          have : 2 ^ 14 ≤ 2 ^ k := Nat.pow_le_pow_right (by omega) (by omega)
          norm_num at this
          omega
        calc 2 ^ (k + 1) ≤ 2 ^ 14 := Nat.pow_le_pow_right (by omega) (by omega)
          _ ≤ 0x8000 := by norm_num
      · have : d = 0 ∨ d = 1 := by omega
        rcases this with rfl | rfl
        · rw [h0]; norm_num
        · rw [h1]; norm_num
  have hge : ∀ d, 2 ≤ d → d < 65536 → 4 ≤ normalize_dz d := by
    intro d h2 hd
    by_cases hh : 0x4000 ≤ d
    · rw [normalize_dz_high d hd hh]; norm_num
    · obtain ⟨k, e, a, b⟩ := hmid d h2 (by omega)
      rw [e]
      have hk : 1 ≤ k := by
        by_contra hc
        have hk0 : k = 0 := by omega
        subst hk0
        norm_num at b
        omega
      calc 4 = 2 ^ 2 := by norm_num
        _ ≤ 2 ^ (k + 1) := Nat.pow_le_pow_right (by omega) (by omega)
  refine ⟨normalize_dz_high dz h, hmid dz, ?_, ?_, ?_, ?_⟩
  · intro e; rw [e, h0]
  · intro e; rw [e, h1]
  · by_cases h2 : 2 ≤ dz
    · have := hge dz h2 h
      omega
    · have : dz = 0 ∨ dz = 1 := by omega
      rcases this with rfl | rfl
      · rw [h0]; norm_num
      · rw [h1]; norm_num
  · intro a ha
    by_cases hh : 0x4000 ≤ dz
    · rw [normalize_dz_high dz h hh]
      exact hle a (by omega)
    · by_cases ha2 : 2 ≤ a
      · obtain ⟨ka, ea, a1, a2⟩ := hmid a ha2 (by omega)
        obtain ⟨kb, eb, b1, b2⟩ := hmid dz (by omega) (by omega)
        rw [ea, eb]
        apply Nat.pow_le_pow_right (by omega)
        have hlt : 2 ^ ka < 2 ^ (kb + 1) := by omega
        have := (Nat.pow_lt_pow_iff_right (by omega : 1 < 2)).mp hlt
        omega
      · have hcase : a = 0 ∨ a = 1 := by omega
        by_cases hb2 : 2 ≤ dz
        · have := hge dz hb2 h
          rcases hcase with rfl | rfl
          · rw [h0]; omega
          · rw [h1]; omega
        · have hb : dz = 0 ∨ dz = 1 := by omega
          rcases hcase with rfl | rfl <;> rcases hb with rfl | rfl
          · exact le_refl _
          · rw [h0, h1]; norm_num
          · omega
          · exact le_refl _

set_option maxRecDepth 100000 in
/-- C30, witness: the values at 0, 1, 2, 3, 4, 1000, 16383 and 16384. -/
theorem normalize_dz_rounds_up_witness :
    [0, 1, 2, 3, 4, 1000, 16383, 16384].map normalize_dz = [1, 3, 4, 4, 8, 1024, 16384, 32768] ∧
    ((0x4000 ≤ 1000 → normalize_dz 1000 = 0x8000) ∧
     (2 ≤ 1000 → 1000 < 0x4000 →
       ∃ k, normalize_dz 1000 = 2 ^ (k + 1) ∧ 2 ^ k ≤ 1000 ∧ 1000 < 2 ^ (k + 1)) ∧
     (1000 = 0 → normalize_dz 1000 = 1) ∧
     (1000 = 1 → normalize_dz 1000 = 3) ∧
     normalize_dz 1000 ≠ 0 ∧
     (∀ dz', dz' ≤ 1000 → normalize_dz dz' ≤ normalize_dz 1000)) :=
  ⟨by decide, normalize_dz_rounds_up 1000 (by decide)⟩

end RDP

namespace RDP

/-! ## Staging and read-back of one pixel -/

/-- Shifting left, filling the vacated bits, and shifting right again gives the number
back. -/
theorem shift_or_shift (c s x : Nat) (hx : x < 2 ^ s) : ((c <<< s) ||| x) >>> s = c := by
  apply Nat.eq_of_testBit_eq
  intro i
  rw [Nat.testBit_shiftRight, Nat.testBit_or, Nat.testBit_shiftLeft]
  have hxi : x.testBit (s + i) = false :=
    Nat.testBit_lt_two_pow (lt_of_lt_of_le hx (Nat.pow_le_pow_right (by omega) (by omega)))
  rw [hxi]
  simp

theorem and_one_le (c : Nat) : c &&& 1 ≤ 1 := Nat.and_le_right

theorem stage_color_16_word (c : Nat) (h : c < 65536) :
    stage_color_16 c = (c <<< 2) ||| ((c &&& 1) * 3) := by
  unfold stage_color_16 u32
  apply Nat.mod_eq_of_lt
  have h1 := and_one_le c
  have h2 : (c &&& 1) * 3 < 2 ^ 18 := by
    calc (c &&& 1) * 3 ≤ 1 * 3 := Nat.mul_le_mul_right 3 h1
      _ < 2 ^ 18 := by norm_num
  have h3 : c <<< 2 < 2 ^ 18 := by
    rw [Nat.shiftLeft_eq]
    omega
  calc (c <<< 2) ||| ((c &&& 1) * 3) < 2 ^ 18 := Nat.or_lt_two_pow h3 h2
    _ < 4294967296 := by norm_num

theorem stage_color_8_word (c : Nat) (h : c < 256) :
    stage_color_8 c = (c <<< 3) ||| ((c &&& 1) * 7) := by
  unfold stage_color_8 u32
  apply Nat.mod_eq_of_lt
  have h1 := and_one_le c
  have h2 : (c &&& 1) * 7 < 2 ^ 11 := by
    calc (c &&& 1) * 7 ≤ 1 * 7 := Nat.mul_le_mul_right 7 h1
      _ < 2 ^ 11 := by norm_num
  have h3 : c <<< 3 < 2 ^ 11 := by
    rw [Nat.shiftLeft_eq]
    omega
  calc (c <<< 3) ||| ((c &&& 1) * 7) < 2 ^ 11 := Nat.or_lt_two_pow h3 h2
    _ < 4294967296 := by norm_num

theorem copy_back_stage_16 (c : Nat) (h : c < 65536) : copy_back_16 (stage_color_16 c) = c := by
  rw [stage_color_16_word c h]
  unfold copy_back_16 u16
  rw [shift_or_shift c 2 _ (by
    have := and_one_le c
    calc (c &&& 1) * 3 ≤ 1 * 3 := Nat.mul_le_mul_right 3 this
      _ < 2 ^ 2 := by norm_num)]
  exact Nat.mod_eq_of_lt h

theorem copy_back_stage_8 (c : Nat) (h : c < 256) : copy_back_8 (stage_color_8 c) = c := by
  rw [stage_color_8_word c h]
  unfold copy_back_8 u8
  rw [shift_or_shift c 3 _ (by
    have := and_one_le c
    calc (c &&& 1) * 7 ≤ 1 * 7 := Nat.mul_le_mul_right 7 this
      _ < 2 ^ 3 := by norm_num)]
  exact Nat.mod_eq_of_lt h

theorem copy_back_stage_depth (c : Nat) (h : c < 65536) :
    copy_back_16 (stage_depth_16 c) = c := by
  unfold stage_depth_16 copy_back_16 u32 u16
  have h3 : c <<< 2 < 4294967296 := by
    rw [Nat.shiftLeft_eq]
    omega
  rw [Nat.mod_eq_of_lt h3, Nat.shiftLeft_shiftRight]
  exact Nat.mod_eq_of_lt h

/-- The two bits staging puts below a 16-bit pixel both repeat bit 0 of the pixel. -/
theorem stage_color_16_hidden (c : Nat) (h : c < 65536) :
    (stage_color_16 c).testBit 0 = c.testBit 0 ∧ (stage_color_16 c).testBit 1 = c.testBit 0 := by
  rw [stage_color_16_word c h]
  have hb : c &&& 1 = (c.testBit 0).toNat := by
    have := Nat.and_two_pow c 0
    simpa using this
  rw [hb]
  constructor
  · rw [Nat.testBit_or, Nat.testBit_shiftLeft]
    cases c.testBit 0 <;> simp
  · rw [Nat.testBit_or, Nat.testBit_shiftLeft]
    have h31 : Nat.testBit 3 1 = true := by decide
    cases c.testBit 0 <;> simp [h31]

theorem map_map_id (f g : Nat → Nat) (bound : Nat) (hfg : ∀ c, c < bound → g (f c) = c) :
    ∀ cells : List Nat, (∀ c ∈ cells, c < bound) → (cells.map f).map g = cells := by
  intro cells
  induction cells with
  | nil => intro _; rfl
  | cons c cells ih =>
    intro h
    rw [List.map_cons, List.map_cons, hfg c (h c (List.mem_cons_self _ _)),
      ih (fun x hx => h x (List.mem_cons_of_mem _ hx))]

/-- C24: what the staging loops write for a pixel, the read-back loops turn into the pixel
again.  For a 16-bit colour pixel `c` the staged word is `(c << 2) | ((c & 1) * 3)`, its two
low bits both repeat bit 0 of `c`, and `>> 2` stored in 16 bits gives `c`; for an 8-bit pixel
the staged word is `(c << 3) | ((c & 1) * 7)` and `>> 3` stored in 8 bits gives `c`; for a
16-bit depth value the staged word is `c << 2` and `>> 2` stored in 16 bits gives `c`; 32-bit
pixels are copied as they are.  Hence staging the cells of a surface from memory and writing
the buffer back leaves every cell as it was, for each pixel size. -/
theorem stage_then_copy_back_is_identity :
    (∀ c, c < 65536 →
      stage_color_16 c = (c <<< 2) ||| ((c &&& 1) * 3) ∧
      u16 (((c <<< 2) ||| ((c &&& 1) * 3)) >>> 2) = c ∧
      copy_back_16 (stage_color_16 c) = c ∧
      (stage_color_16 c).testBit 0 = c.testBit 0 ∧
      (stage_color_16 c).testBit 1 = c.testBit 0) ∧
    (∀ c, c < 256 →
      stage_color_8 c = (c <<< 3) ||| ((c &&& 1) * 7) ∧
      ((c <<< 3) ||| ((c &&& 1) * 7)) >>> 3 = c ∧
      copy_back_8 (stage_color_8 c) = c) ∧
    (∀ c, c < 65536 → (c <<< 2) >>> 2 = c ∧ copy_back_16 (stage_depth_16 c) = c) ∧
    (∀ (pixel_size : Nat) (cells buffer : List Nat),
      (pixel_size = PIXEL_SIZE_16BPP → ∀ c ∈ cells, c < 65536) →
      (pixel_size = PIXEL_SIZE_8BPP → ∀ c ∈ cells, c < 256) →
      copy_back_color pixel_size (stage_color pixel_size cells buffer) cells = cells) ∧
    (∀ cells : List Nat, (∀ c ∈ cells, c < 65536) →
      (cells.map stage_depth_16).map copy_back_16 = cells) := by
  refine ⟨?_, ?_, ?_, ?_, ?_⟩
  · intro c h
    have hw := stage_color_16_word c h
    have hb := copy_back_stage_16 c h
    refine ⟨hw, ?_, hb, stage_color_16_hidden c h⟩
    rw [hw] at hb
    exact hb
  · intro c h
    have hw := stage_color_8_word c h
    refine ⟨hw, ?_, copy_back_stage_8 c h⟩
    exact shift_or_shift c 3 _ (by
      have := and_one_le c
      calc (c &&& 1) * 7 ≤ 1 * 7 := Nat.mul_le_mul_right 7 this
        _ < 2 ^ 3 := by norm_num)
  · intro c h
    exact ⟨Nat.shiftLeft_shiftRight c 2, copy_back_stage_depth c h⟩
  · intro pixel_size cells buffer h16 h8
    unfold copy_back_color stage_color
    by_cases h3 : pixel_size = PIXEL_SIZE_32BPP
    · rw [if_pos h3, if_pos h3]
    · rw [if_neg h3, if_neg h3]
      by_cases h2 : pixel_size = PIXEL_SIZE_16BPP
      · rw [if_pos h2, if_pos h2]
        exact map_map_id _ _ 65536 copy_back_stage_16 cells (h16 h2)
      · rw [if_neg h2, if_neg h2]
        by_cases h1 : pixel_size = PIXEL_SIZE_8BPP
        · rw [if_pos h1, if_pos h1]
          exact map_map_id _ _ 256 copy_back_stage_8 cells (h8 h1)
        · rw [if_neg h1]
  · intro cells h
    exact map_map_id _ _ 65536 copy_back_stage_depth cells h

end RDP

namespace RDP

/-! ## The combine words -/

/-- Masking a run of `k` bits at bit `s` and shifting it down reads the bit-field. -/
theorem mask_shift_eq_bit_field (w s k mask : Nat) (hm : mask = (2 ^ k - 1) <<< s) :
    (w &&& mask) >>> s = bit_field w s k := by
  subst hm
  unfold bit_field
  apply Nat.eq_of_testBit_eq
  intro i
  rw [Nat.testBit_shiftRight, Nat.testBit_and, Nat.testBit_shiftLeft,
    Nat.testBit_two_pow_sub_one, Nat.testBit_mod_two_pow, ← Nat.shiftRight_eq_div_pow,
    Nat.testBit_shiftRight]
  have e : s + i - s = i := by omega
  rw [e]
  by_cases hi : i < k
  · simp [hi]
  · simp [hi]

/-- A bit-field below bit `n` only reads the `n` low bits of the word. -/
theorem bit_field_mod (w s k n : Nat) (h : s + k ≤ n) :
    bit_field (w % 2 ^ n) s k = bit_field w s k := by
  unfold bit_field
  apply Nat.eq_of_testBit_eq
  intro i
  rw [Nat.testBit_mod_two_pow, Nat.testBit_mod_two_pow, ← Nat.shiftRight_eq_div_pow,
    ← Nat.shiftRight_eq_div_pow, Nat.testBit_shiftRight, Nat.testBit_shiftRight,
    Nat.testBit_mod_two_pow]
  by_cases hi : i < k
  · have : s + i < n := by omega
    simp [hi, this]
  · simp [hi]

/-- The sixteen selectors of `set_combine` are the bit-fields of `gDPCombine`. -/
theorem combine_fields_decode (w1 w2 : Nat) :
    combine_fields (decode_combine w1 w2) = gDPCombine.of_mux w1 w2 := by
  unfold combine_fields decode_combine gDPCombine.of_mux
  simp only [gDPCombine.mk.injEq]
  refine ⟨?_, ?_, ?_, ?_, ?_, ?_, ?_, ?_, ?_, ?_, ?_, ?_, ?_, ?_, ?_, ?_⟩ <;>
    exact mask_shift_eq_bit_field _ _ _ _ (by decide)

theorem bit_field_lt (w s k : Nat) : bit_field w s k < 2 ^ k :=
  Nat.mod_lt _ (Nat.pow_pos (by omega))

/-- Reading the fields of the two words that hold given in-range fields returns the
fields. -/
theorem of_mux_pack (c : gDPCombine) (h : c.in_range) :
    gDPCombine.of_mux c.muxs0 c.muxs1 = c := by
  obtain ⟨h1, h2, h3, h4, h5, h6, h7, h8, h9, h10, h11, h12, h13, h14, h15, h16⟩ := h
  cases c
  simp only [gDPCombine.of_mux, gDPCombine.muxs0, gDPCombine.muxs1, bit_field,
    gDPCombine.mk.injEq] at *
  norm_num at *
  refine ⟨?_, ?_, ?_, ?_, ?_, ?_, ?_, ?_, ?_, ?_, ?_, ?_, ?_, ?_, ?_, ?_⟩ <;> omega

theorem decode_combine_low (w1 w2 : Nat) :
    decode_combine (w1 % 2 ^ 24) w2 = decode_combine w1 w2 := by
  have f1 : ∀ w, (w &&& 0x00f00000) >>> 20 = bit_field w 20 4 :=
    fun w => mask_shift_eq_bit_field w 20 4 _ (by decide)
  have f2 : ∀ w, (w &&& 0x000f8000) >>> 15 = bit_field w 15 5 :=
    fun w => mask_shift_eq_bit_field w 15 5 _ (by decide)
  have f3 : ∀ w, (w &&& 0x00007000) >>> 12 = bit_field w 12 3 :=
    fun w => mask_shift_eq_bit_field w 12 3 _ (by decide)
  have f4 : ∀ w, (w &&& 0x00000e00) >>> 9 = bit_field w 9 3 :=
    fun w => mask_shift_eq_bit_field w 9 3 _ (by decide)
  have f5 : ∀ w, (w &&& 0x000001e0) >>> 5 = bit_field w 5 4 :=
    fun w => mask_shift_eq_bit_field w 5 4 _ (by decide)
  have f6 : ∀ w, (w &&& 0x0000001f) >>> 0 = bit_field w 0 5 :=
    fun w => mask_shift_eq_bit_field w 0 5 _ (by decide)
  unfold decode_combine
  rw [f1 (w1 % 2 ^ 24), f2 (w1 % 2 ^ 24), f3 (w1 % 2 ^ 24), f4 (w1 % 2 ^ 24),
    f5 (w1 % 2 ^ 24), f6 (w1 % 2 ^ 24), f1 w1, f2 w1, f3 w1, f4 w1, f5 w1, f6 w1,
    bit_field_mod w1 20 4 24 (by norm_num), bit_field_mod w1 15 5 24 (by norm_num),
    bit_field_mod w1 12 3 24 (by norm_num), bit_field_mod w1 9 3 24 (by norm_num),
    bit_field_mod w1 5 4 24 (by norm_num), bit_field_mod w1 0 5 24 (by norm_num)]

theorem set_combine_decode (r : Renderer) (w1 w2 w1' w2' : Nat)
    (h : decode_combine w1 w2 = decode_combine w1' w2') :
    set_combine r w1 w2 = set_combine r w1' w2' := by
  unfold set_combine
  rw [h]

theorem muxs_lt (c : gDPCombine) (h : c.in_range) :
    c.muxs0 < 2 ^ 24 ∧ c.muxs1 < 2 ^ 32 := by
  obtain ⟨h1, h2, h3, h4, h5, h6, h7, h8, h9, h10, h11, h12, h13, h14, h15, h16⟩ := h
  unfold gDPCombine.muxs0 gDPCombine.muxs1
  norm_num at *
  constructor <;> omega

/-- C23: the sixteen selectors `set_combine(w1, w2)` stores are the bit-fields of the
`gDPCombine` whose `muxs0` is `w1` and whose `muxs1` is `w2`: from `w1`, `saRGB0` (bits 20 to
23), `mRGB0` (15 to 19), `saA0` (12 to 14), `mA0` (9 to 11), `saRGB1` (5 to 8), `mRGB1` (0 to
4); from `w2`, `sbRGB0` (28 to 31), `sbRGB1` (24 to 27), `saA1` (21 to 23), `mA1` (18 to 20),
`aRGB0` (15 to 17), `sbA0` (12 to 14), `aA0` (9 to 11), `aRGB1` (6 to 8), `sbA1` (3 to 5),
`aA1` (0 to 2).  Sixteen in-range values packed into the two words are read back as they
were, and the two words fit 32 bits.  Two first words that agree on the bits 0 to 23 give the
same renderer. -/
theorem set_combine_reads_gDPCombine :
    (∀ (r : Renderer) (w1 w2 : Nat),
      combine_fields ((set_combine r w1 w2).state.combiners.color,
        (set_combine r w1 w2).state.combiners.alpha) = gDPCombine.of_mux w1 w2) ∧
    (∀ w1 w2 : Nat,
      gDPCombine.of_mux w1 w2 =
        { aA1 := w2 / 2 ^ 0 % 2 ^ 3, sbA1 := w2 / 2 ^ 3 % 2 ^ 3, aRGB1 := w2 / 2 ^ 6 % 2 ^ 3,
          aA0 := w2 / 2 ^ 9 % 2 ^ 3, sbA0 := w2 / 2 ^ 12 % 2 ^ 3, aRGB0 := w2 / 2 ^ 15 % 2 ^ 3,
          mA1 := w2 / 2 ^ 18 % 2 ^ 3, saA1 := w2 / 2 ^ 21 % 2 ^ 3,
          sbRGB1 := w2 / 2 ^ 24 % 2 ^ 4, sbRGB0 := w2 / 2 ^ 28 % 2 ^ 4,
          mRGB1 := w1 / 2 ^ 0 % 2 ^ 5, saRGB1 := w1 / 2 ^ 5 % 2 ^ 4, mA0 := w1 / 2 ^ 9 % 2 ^ 3,
          saA0 := w1 / 2 ^ 12 % 2 ^ 3, mRGB0 := w1 / 2 ^ 15 % 2 ^ 5,
          saRGB0 := w1 / 2 ^ 20 % 2 ^ 4 }) ∧
    (∀ (r : Renderer) (c : gDPCombine), c.in_range →
      c.muxs0 < 2 ^ 32 ∧ c.muxs1 < 2 ^ 32 ∧
      combine_fields ((set_combine r c.muxs0 c.muxs1).state.combiners.color,
        (set_combine r c.muxs0 c.muxs1).state.combiners.alpha) = c) ∧
    (∀ (r : Renderer) (w1 w1' w2 : Nat), w1 % 2 ^ 24 = w1' % 2 ^ 24 →
      set_combine r w1 w2 = set_combine r w1' w2) := by
  have hset : ∀ (r : Renderer) (w1 w2 : Nat),
      combine_fields ((set_combine r w1 w2).state.combiners.color,
        (set_combine r w1 w2).state.combiners.alpha) = gDPCombine.of_mux w1 w2 := by
    intro r w1 w2
    exact combine_fields_decode w1 w2
  refine ⟨hset, fun _ _ => rfl, ?_, ?_⟩
  · intro r c h
    obtain ⟨m0, m1⟩ := muxs_lt c h
    refine ⟨lt_of_lt_of_le m0 (by norm_num), m1, ?_⟩
    rw [hset, of_mux_pack c h]
  · intro r w1 w1' w2 h
    apply set_combine_decode
    rw [← decode_combine_low w1 w2, ← decode_combine_low w1' w2, h]

set_option maxRecDepth 100000 in
/-- C23, instance: the words `0x00abcdef` and `0x12345678`, and the same with the bits 24 to 31
of the first word set. -/
theorem set_combine_reads_gDPCombine_witness :
    gDPCombine.of_mux 0x00abcdef 0x12345678 =
      { aA1 := 0, sbA1 := 7, aRGB1 := 1, aA0 := 3, sbA0 := 5, aRGB0 := 0, mA1 := 5, saA1 := 1,
        sbRGB1 := 2, sbRGB0 := 1, mRGB1 := 15, saRGB1 := 15, mA0 := 6, saA0 := 4, mRGB0 := 23,
        saRGB0 := 10 } ∧
    combine_fields (decode_combine 0xffabcdef 0x12345678) =
      gDPCombine.of_mux 0x00abcdef 0x12345678 ∧
    (gDPCombine.of_mux 0x00abcdef 0x12345678).muxs0 = 0x00abcdef ∧
    (gDPCombine.of_mux 0x00abcdef 0x12345678).muxs1 = 0x12345678 ∧
    set_combine (Renderer.init Config.sample) 0xffabcdef 0x12345678
      = set_combine (Renderer.init Config.sample) 0x00abcdef 0x12345678 :=
  ⟨by decide, by decide, by decide, by decide,
   set_combine_reads_gDPCombine.2.2.2 (Renderer.init Config.sample) 0xffabcdef 0x00abcdef
     0x12345678 (by decide)⟩

end RDP

namespace RDP

/-! ## The link value of `genbranchlink` -/

theorem exec_low (h : Host) (imm : Nat) :
    X86.exec h (X86.mov_m32rel_imm32 0 imm) = { h with low := imm % 4294967296 } := rfl

theorem exec_high (h : Host) (imm : Nat) :
    X86.exec h (X86.mov_m32rel_imm32 1 imm) = { h with high := imm % 4294967296 } := rfl

theorem run_two (h : Host) (a b : X86) : X86.run h [a, b] = X86.exec (X86.exec h a) b := rfl

theorem genbranchlink_memory_code (r31 addr : Nat) :
    genbranchlink (-1) r31 addr =
      [X86.mov_m32rel_imm32 0 (u32 (addr + 8)),
       if addr &&& 0x80000000 ≠ 0 then X86.mov_m32rel_imm32 1 0xFFFFFFFF
       else X86.mov_m32rel_imm32 1 0] := by
  unfold genbranchlink
  rw [if_neg (by norm_num), if_pos rfl]

theorem u32_mod (n : Nat) : u32 n % 4294967296 = u32 n := by
  unfold u32
  exact Nat.mod_mod _ _

/-- The two words left in `reg[31]` by the memory path of `genbranchlink`. -/
theorem genbranchlink_memory (h : Host) (r31 addr : Nat) :
    (X86.run h (genbranchlink (-1) r31 addr)).low = u32 (addr + 8) ∧
    (X86.run h (genbranchlink (-1) r31 addr)).high =
      (if addr &&& 0x80000000 ≠ 0 then 4294967295 else 0) := by
  rw [genbranchlink_memory_code, run_two, exec_low]
  by_cases hs : addr &&& 0x80000000 ≠ 0
  · rw [if_pos hs, if_pos hs, exec_high]
    exact ⟨u32_mod _, rfl⟩
  · rw [if_neg hs, if_neg hs, exec_high]
    exact ⟨u32_mod _, rfl⟩

/-- The 64-bit value left in the host register by the 64-bit register path of
`genbranchlink`. -/
theorem genbranchlink_register (h : Host) (r31_64bit : Int) (r31 addr : Nat)
    (h0 : r31_64bit ≠ 0) (h1 : r31_64bit ≠ -1) :
    (X86.run h (genbranchlink r31_64bit r31 addr)).regs r31 = sign_extend_32 (u32 (addr + 8)) := by
  unfold genbranchlink
  rw [if_neg h0, if_neg h1, run_two]
  show (if r31 = r31 then sign_extend_32 (if r31 = r31 then u32 (addr + 8) % 4294967296
    else h.regs r31) else _) = _
  rw [if_pos rfl, if_pos rfl]
  unfold sign_extend_32
  rw [Nat.mod_mod]

theorem sign_extend_32_words (w : Nat) (hw : w < 4294967296) :
    sign_extend_32 w % 4294967296 = w ∧
    sign_extend_32 w / 4294967296 = (if w < 2147483648 then 0 else 4294967295) := by
  unfold sign_extend_32
  rw [Nat.mod_eq_of_lt hw]
  by_cases hs : w < 2147483648
  · rw [if_pos hs, if_pos hs]
    omega
  · rw [if_neg hs, if_neg hs]
    omega

theorem and_sign_bit (a : Nat) (h : a < 4294967296) :
    a &&& 0x80000000 ≠ 0 ↔ 2147483648 ≤ a := by
  have e : (0x80000000 : Nat) = 2 ^ 31 := by norm_num
  rw [e, Nat.and_two_pow, Nat.testBit_to_div_mod]
  have hp : (2 : Nat) ^ 31 = 2147483648 := by norm_num
  rw [hp]
  by_cases hs : 2147483648 ≤ a
  · have hd : a / 2147483648 = 1 := by omega
    simp [hd, hs]
  · have hd : a / 2147483648 = 0 := by omega
    simp [hd, hs]

set_option maxRecDepth 100000 in
/-- C29: the two paths of `genbranchlink` that write a 64-bit link value.  The 64-bit register
path leaves the sign extension of `addr + 8` (modulo 2^32): low word `addr + 8`, high word 32
copies of its bit 31.  The memory path writes the low word `addr + 8` and a high word chosen
on bit 31 of `addr`, not of `addr + 8`: the two paths store the same value when `addr` and
`addr + 8` agree on bit 31, and differ otherwise.  At `addr = 0x7FFFFFF8` the memory path
stores `0x0000000080000000` and the register path `0xFFFFFFFF80000000`; at
`addr = 0xFFFFFFF8` they store `0xFFFFFFFF00000000` and `0`. -/
theorem genbranchlink_paths :
    (∀ (h : Host) (r31_64bit : Int) (r31 addr : Nat), r31_64bit ≠ 0 → r31_64bit ≠ -1 →
      addr < 4294967296 →
      (X86.run h (genbranchlink r31_64bit r31 addr)).regs r31 % 4294967296 = u32 (addr + 8) ∧
      (X86.run h (genbranchlink r31_64bit r31 addr)).regs r31 / 4294967296 =
        (if u32 (addr + 8) < 2147483648 then 0 else 4294967295)) ∧
    (∀ (h : Host) (r31 addr : Nat), addr < 4294967296 →
      (X86.run h (genbranchlink (-1) r31 addr)).low = u32 (addr + 8) ∧
      (X86.run h (genbranchlink (-1) r31 addr)).high =
        (if addr < 2147483648 then 0 else 4294967295)) ∧
    (∀ (h : Host) (r31_64bit : Int) (r31 addr : Nat), r31_64bit ≠ 0 → r31_64bit ≠ -1 →
      addr < 4294967296 →
      ((X86.run h (genbranchlink (-1) r31 addr)).reg31 =
        (X86.run h (genbranchlink r31_64bit r31 addr)).regs r31 ↔
       (addr < 2147483648 ↔ u32 (addr + 8) < 2147483648))) ∧
    (X86.run { regs := fun _ => 0, low := 0, high := 0 }
        (genbranchlink (-1) 3 0x7FFFFFF8)).reg31 = 0x0000000080000000 ∧
    (X86.run { regs := fun _ => 0, low := 0, high := 0 }
        (genbranchlink 1 3 0x7FFFFFF8)).regs 3 = 0xFFFFFFFF80000000 ∧
    (X86.run { regs := fun _ => 0, low := 0, high := 0 }
        (genbranchlink (-1) 3 0xFFFFFFF8)).reg31 = 0xFFFFFFFF00000000 ∧
    (X86.run { regs := fun _ => 0, low := 0, high := 0 }
        (genbranchlink 1 3 0xFFFFFFF8)).regs 3 = 0 := by
  have hu : ∀ addr, u32 (addr + 8) < 4294967296 := by
    intro addr
    unfold u32
    exact Nat.mod_lt _ (by norm_num)
  have hmem : ∀ (h : Host) (r31 addr : Nat), addr < 4294967296 →
      (X86.run h (genbranchlink (-1) r31 addr)).low = u32 (addr + 8) ∧
      (X86.run h (genbranchlink (-1) r31 addr)).high =
        (if addr < 2147483648 then 0 else 4294967295) := by
    intro h r31 addr ha
    obtain ⟨m1, m2⟩ := genbranchlink_memory h r31 addr
    refine ⟨m1, ?_⟩
    rw [m2]
    by_cases hs : 2147483648 ≤ addr
    · rw [if_pos ((and_sign_bit addr ha).mpr hs), if_neg (by omega)]
    · rw [if_neg (by rw [and_sign_bit addr ha]; exact hs), if_pos (by omega)]
  refine ⟨?_, hmem, ?_, ?_, ?_, ?_, ?_⟩
  · intro h r31_64bit r31 addr h0 h1 _
    rw [genbranchlink_register h r31_64bit r31 addr h0 h1]
    exact sign_extend_32_words _ (hu addr)
  · intro h r31_64bit r31 addr h0 h1 ha
    obtain ⟨m1, m2⟩ := hmem h r31 addr ha
    obtain ⟨s1, s2⟩ := sign_extend_32_words _ (hu addr)
    rw [genbranchlink_register h r31_64bit r31 addr h0 h1]
    unfold Host.reg31
    rw [m1, m2]
    have hw := hu addr
    generalize sign_extend_32 (u32 (addr + 8)) = v at s1 s2
    generalize u32 (addr + 8) = w at s1 s2 hw
    by_cases hs : addr < 2147483648 <;> by_cases ht : w < 2147483648
    · rw [if_pos hs]; rw [if_pos ht] at s2
      constructor
      · intro _; exact ⟨fun _ => ht, fun _ => hs⟩
      · intro _; omega
    · rw [if_pos hs]; rw [if_neg ht] at s2
      constructor
      · intro e; omega
      · intro e; exact absurd (e.mp hs) ht
    · rw [if_neg hs]; rw [if_pos ht] at s2
      constructor
      · intro e; omega
      · intro e; exact absurd (e.mpr ht) hs
    · rw [if_neg hs]; rw [if_neg ht] at s2
      constructor
      · intro _; exact ⟨fun a => absurd a hs, fun a => absurd a ht⟩
      · intro _; omega
  · rfl
  · rfl
  · rfl
  · rfl

end RDP

namespace RDP

/-! ## Texture feedback -/

/-- C22: `check_tmem_feedback` is one `complete_frame` call when the colour surface is not
CPU-resident and the texture image address falls inside its bytes, or when the depth surface
is not CPU-resident and the address falls inside its bytes (one call also when both hold: the
method returns after the first); otherwise it does nothing.  With both surfaces CPU-resident
it does nothing, whatever the address. -/
theorem check_tmem_feedback_completes_once (cfg : Config) (r : Renderer) (addr : Nat)
    (synchronous : Bool) :
    (r.framebuffer.color_state ≠ FRAMEBUFFER_CPU →
      feeds_back cfg r.framebuffer.addr (cfg.color_size r.framebuffer) addr →
      check_tmem_feedback cfg r addr synchronous = complete_frame cfg r synchronous) ∧
    (r.framebuffer.depth_state ≠ FRAMEBUFFER_CPU →
      feeds_back cfg r.framebuffer.depth_addr (cfg.depth_size r.framebuffer) addr →
      check_tmem_feedback cfg r addr synchronous = complete_frame cfg r synchronous) ∧
    (¬ (r.framebuffer.color_state ≠ FRAMEBUFFER_CPU ∧
        feeds_back cfg r.framebuffer.addr (cfg.color_size r.framebuffer) addr) →
      ¬ (r.framebuffer.depth_state ≠ FRAMEBUFFER_CPU ∧
        feeds_back cfg r.framebuffer.depth_addr (cfg.depth_size r.framebuffer) addr) →
      check_tmem_feedback cfg r addr synchronous = r) ∧
    (r.framebuffer.color_state = FRAMEBUFFER_CPU →
      r.framebuffer.depth_state = FRAMEBUFFER_CPU →
      check_tmem_feedback cfg r addr synchronous = r) := by
  unfold feeds_back
  refine ⟨?_, ?_, ?_, ?_⟩
  · intro hc hf
    unfold check_tmem_feedback
    rw [if_pos ⟨hc, hf⟩]
  · intro hd hf
    unfold check_tmem_feedback
    by_cases hcol : r.framebuffer.color_state ≠ FRAMEBUFFER_CPU ∧
        cfg.WRAP_ADDR (u32 (addr + 4294967296 - r.framebuffer.addr))
          < cfg.color_size r.framebuffer
    · rw [if_pos hcol]
    · rw [if_neg hcol, if_pos ⟨hd, hf⟩]
  · intro hc hd
    unfold check_tmem_feedback
    rw [if_neg hc, if_neg hd]
  · intro hc hd
    unfold check_tmem_feedback
    rw [if_neg (by rw [hc]; simp), if_neg (by rw [hd]; simp)]

set_option maxRecDepth 100000 in
/-- C22, instance: after a draw and a flush under the sample configuration the colour surface
is GPU-resident at address 0; a texture image at address 64 lies inside it, and
`check_tmem_feedback` completes the frame: the ledger gets one record.  A texture image at
the far end of memory lies outside, and nothing happens. -/
theorem check_tmem_feedback_completes_once_witness :
    (check_tmem_feedback Config.sample
      (run Config.sample (Renderer.init Config.sample) draw_flush_ops) 64 false).async_transfers.length
      = 1 ∧
    (check_tmem_feedback Config.sample
      (run Config.sample (Renderer.init Config.sample) draw_flush_ops) 64
        false).framebuffer.color_state = FRAMEBUFFER_CPU ∧
    check_tmem_feedback Config.sample
      (run Config.sample (Renderer.init Config.sample) draw_flush_ops) 64 false =
      complete_frame Config.sample
        (run Config.sample (Renderer.init Config.sample) draw_flush_ops) false ∧
    (check_tmem_feedback Config.sample
      (run Config.sample (Renderer.init Config.sample) draw_flush_ops) 8000000
        false).framebuffer.color_state = FRAMEBUFFER_GPU :=
  ⟨by decide, by decide,
   (check_tmem_feedback_completes_once Config.sample
     (run Config.sample (Renderer.init Config.sample) draw_flush_ops) 64 false).1
     (by decide) (by unfold feeds_back; decide),
   by decide⟩

end RDP

namespace RDP

/-! ## The first assertion of `sync_gpu_to_dram` -/

theorem colorSafe_refl (r : Renderer) : ColorSafe r r := ⟨[], by simp, by simp⟩

theorem colorSafe_trans {a b c : Renderer} (h1 : ColorSafe a b) (h2 : ColorSafe b c) :
    ColorSafe a c := by
  obtain ⟨es1, l1, q1⟩ := h1
  obtain ⟨es2, l2, q2⟩ := h2
  refine ⟨es1 ++ es2, by rw [l2, l1, List.append_assoc], ?_⟩
  intro h
  rcases List.mem_append.mp h with h | h
  · exact q1 h
  · exact q2 h

theorem colorSafe_of_log {r r' : Renderer} (es : List Event) (hl : r'.log = r.log ++ es)
    (hq : Event.assertion_failed 1526 ∉ es) : ColorSafe r r' := ⟨es, hl, hq⟩

theorem colorSafe_same {r r' r'' : Renderer} (hl : r''.log = r'.log) (h : ColorSafe r r') :
    ColorSafe r r'' := by
  obtain ⟨es, l, q⟩ := h
  exact ⟨es, hl.trans l, q⟩

theorem colorSafe_emit {r r' : Renderer} (e : Event) (he : e ≠ Event.assertion_failed 1526)
    (h : ColorSafe r r') : ColorSafe r (r'.emit e) :=
  colorSafe_trans h ⟨[e], rfl, by simpa using he.symm⟩

theorem colorSafe_assert {r r' : Renderer} (line : Nat) (c : Bool) (hl : line ≠ 1526)
    (h : ColorSafe r r') : ColorSafe r (r'.assert line c) := by
  cases c
  · exact colorSafe_emit _ (by simpa using hl) h
  · exact h

theorem colorSafe_set_color_state {r r' : Renderer} (v : FramebufferState)
    (h : ColorSafe r r') : ColorSafe r (r'.set_color_state v) :=
  colorSafe_trans h ⟨[_], rfl, by simp⟩

theorem colorSafe_set_depth_state {r r' : Renderer} (v : FramebufferState)
    (h : ColorSafe r r') : ColorSafe r (r'.set_depth_state v) :=
  colorSafe_trans h ⟨[_], rfl, by simp⟩

theorem colorSafe_begin_framebuffer {r r' : Renderer} (h : ColorSafe r r') :
    ColorSafe r (begin_framebuffer r') := by
  unfold begin_framebuffer; split_ifs
  · exact colorSafe_same rfl h
  · exact h

theorem colorSafe_begin_framebuffer_depth {r r' : Renderer} (h : ColorSafe r r') :
    ColorSafe r (begin_framebuffer_depth r') := by
  unfold begin_framebuffer_depth; split_ifs
  · exact colorSafe_same rfl h
  · exact h

theorem colorSafe_begin_command_buffer {r r' : Renderer} (h : ColorSafe r r') :
    ColorSafe r (begin_command_buffer r') := by
  unfold begin_command_buffer; split_ifs
  · exact h
  · exact colorSafe_same rfl h

theorem colorSafe_sync_color_dram_to_gpu {r r' : Renderer} (h : ColorSafe r r') :
    ColorSafe r (sync_color_dram_to_gpu r') := by
  unfold sync_color_dram_to_gpu
  by_cases hs : r'.framebuffer.color_state ≠ FRAMEBUFFER_STALE_GPU
  · rw [if_pos hs]; exact h
  · rw [if_neg hs]
    dsimp only
    apply colorSafe_set_color_state
    repeat' split
    all_goals first
      | exact h
      | exact colorSafe_begin_framebuffer h
      | exact colorSafe_emit _ (by simp) (colorSafe_begin_framebuffer h)
      | exact colorSafe_emit _ (by simp)
          (colorSafe_assert _ _ (by decide) (colorSafe_begin_framebuffer h))

theorem colorSafe_sync_depth_dram_to_gpu {r r' : Renderer} (h : ColorSafe r r') :
    ColorSafe r (sync_depth_dram_to_gpu r') := by
  unfold sync_depth_dram_to_gpu
  by_cases hs : r'.framebuffer.depth_state ≠ FRAMEBUFFER_STALE_GPU
  · rw [if_pos hs]; exact h
  · rw [if_neg hs]
    dsimp only
    apply colorSafe_set_depth_state
    repeat' split
    all_goals first
      | exact h
      | exact colorSafe_begin_framebuffer_depth h
      | exact colorSafe_emit _ (by simp) (colorSafe_begin_framebuffer_depth h)

theorem copy_back_log_color_safe (a : AsyncFramebuffer) :
    Event.assertion_failed 1526 ∉ copy_back_log a := by
  intro he
  unfold copy_back_log at he
  simp only [List.mem_append, List.mem_singleton] at he
  rcases he with (he | he) | he
  · cases he
  · split_ifs at he <;> simp at he
  · split_ifs at he <;> simp at he

theorem colorSafe_foldl_sync (l : List AsyncFramebuffer) (r : Renderer) :
    ColorSafe r (l.foldl sync_framebuffer_to_cpu r) := by
  rw [foldl_sync_framebuffer_to_cpu]
  refine ⟨_, rfl, ?_⟩
  intro he
  obtain ⟨a, _, ha⟩ := List.mem_flatMap.mp he
  exact copy_back_log_color_safe a ha

theorem colorSafe_flush_tile_lists (cfg : Config) (r : Renderer) :
    ColorSafe r (flush_tile_lists cfg r) := by
  unfold flush_tile_lists
  by_cases he : (r.primitive_data.isEmpty || r.work_data.isEmpty) = true
  · rw [if_pos he]; exact colorSafe_refl r
  · rw [if_neg he]
    exact colorSafe_same rfl (colorSafe_emit _ (by simp)
      (colorSafe_sync_depth_dram_to_gpu (colorSafe_sync_color_dram_to_gpu
        (colorSafe_begin_command_buffer (colorSafe_refl r)))))

end RDP

namespace RDP

/-! ## The states after staging and after a flush -/

theorem sync_color_dram_to_gpu_states (r : Renderer) :
    (sync_color_dram_to_gpu r).framebuffer.color_state =
      (if r.framebuffer.color_state = FRAMEBUFFER_STALE_GPU then FRAMEBUFFER_GPU
       else r.framebuffer.color_state) ∧
    (sync_color_dram_to_gpu r).framebuffer.depth_state = r.framebuffer.depth_state := by
  unfold sync_color_dram_to_gpu
  by_cases hs : r.framebuffer.color_state ≠ FRAMEBUFFER_STALE_GPU
  · rw [if_pos hs, if_neg hs]; exact ⟨rfl, rfl⟩
  · rw [if_neg hs, if_pos (not_not.mp hs)]
    dsimp only
    have key : ∀ staged, QuietStep r staged →
        (staged.set_color_state FRAMEBUFFER_GPU).framebuffer.color_state = FRAMEBUFFER_GPU ∧
        (staged.set_color_state FRAMEBUFFER_GPU).framebuffer.depth_state
          = r.framebuffer.depth_state :=
      fun staged hq => ⟨rfl, hq.2.1⟩
    apply key
    repeat' split
    all_goals first
      | exact quietStep_refl r
      | exact quietStep_begin_framebuffer (quietStep_refl r)
      | exact quietStep_emit _ (by simp) (quietStep_begin_framebuffer (quietStep_refl r))
      | exact quietStep_emit _ (by simp)
          (quietStep_assert _ _ (quietStep_begin_framebuffer (quietStep_refl r)))

theorem sync_depth_dram_to_gpu_states (r : Renderer) :
    (sync_depth_dram_to_gpu r).framebuffer.depth_state =
      (if r.framebuffer.depth_state = FRAMEBUFFER_STALE_GPU then FRAMEBUFFER_GPU
       else r.framebuffer.depth_state) ∧
    (sync_depth_dram_to_gpu r).framebuffer.color_state = r.framebuffer.color_state := by
  unfold sync_depth_dram_to_gpu
  by_cases hs : r.framebuffer.depth_state ≠ FRAMEBUFFER_STALE_GPU
  · rw [if_pos hs, if_neg hs]; exact ⟨rfl, rfl⟩
  · rw [if_neg hs, if_pos (not_not.mp hs)]
    dsimp only
    have key : ∀ staged, QuietStep r staged →
        (staged.set_depth_state FRAMEBUFFER_GPU).framebuffer.depth_state = FRAMEBUFFER_GPU ∧
        (staged.set_depth_state FRAMEBUFFER_GPU).framebuffer.color_state
          = r.framebuffer.color_state :=
      fun staged hq => ⟨rfl, hq.1⟩
    apply key
    repeat' split
    all_goals first
      | exact quietStep_refl r
      | exact quietStep_begin_framebuffer_depth (quietStep_refl r)
      | exact quietStep_emit _ (by simp) (quietStep_begin_framebuffer_depth (quietStep_refl r))

theorem begin_command_buffer_framebuffer (r : Renderer) :
    (begin_command_buffer r).framebuffer = r.framebuffer := by
  unfold begin_command_buffer; split_ifs <;> rfl

/-- A flush that goes through leaves an open command buffer, stages each surface that was in
the transient state, and empties the records and the work items. -/
theorem flush_tile_lists_states (cfg : Config) (r : Renderer)
    (he : ¬ (r.primitive_data.isEmpty || r.work_data.isEmpty) = true) :
    (flush_tile_lists cfg r).vulkan.cmd = true ∧
    (flush_tile_lists cfg r).framebuffer.color_state =
      (if r.framebuffer.color_state = FRAMEBUFFER_STALE_GPU then FRAMEBUFFER_GPU
       else r.framebuffer.color_state) ∧
    (flush_tile_lists cfg r).framebuffer.depth_state =
      (if r.framebuffer.depth_state = FRAMEBUFFER_STALE_GPU then FRAMEBUFFER_GPU
       else r.framebuffer.depth_state) ∧
    (flush_tile_lists cfg r).work_data = [] ∧ (flush_tile_lists cfg r).primitive_data = [] := by
  have c1 := begin_command_buffer_cmd r
  have h2 := staging_sync_color_dram_to_gpu _ c1
  have c2 := h2.2.2.2.1 c1
  have h3 := staging_sync_depth_dram_to_gpu _ c2
  have c3 := h3.2.2.2.1 c2
  have s2 := sync_color_dram_to_gpu_states (begin_command_buffer r)
  have s3 := sync_depth_dram_to_gpu_states (sync_color_dram_to_gpu (begin_command_buffer r))
  rw [begin_command_buffer_framebuffer] at s2
  unfold flush_tile_lists
  rw [if_neg he]
  refine ⟨c3, ?_, ?_, rfl, rfl⟩
  · exact s3.2.trans s2.1
  · rw [← s2.2]; exact s3.1

theorem flush_tile_lists_skipped (cfg : Config) (r : Renderer)
    (he : (r.primitive_data.isEmpty || r.work_data.isEmpty) = true) :
    flush_tile_lists cfg r = r := by
  unfold flush_tile_lists
  rw [if_pos he]

/-! ## The invariant of the surfaces over the calls -/

theorem frameStep_refl (r : Renderer) : FrameStep r r := fun g => ⟨g, colorSafe_refl r⟩

theorem frameStep_trans {a b c : Renderer} (h1 : FrameStep a b) (h2 : FrameStep b c) :
    FrameStep a c := by
  intro g
  obtain ⟨g1, s1⟩ := h1 g
  obtain ⟨g2, s2⟩ := h2 g1
  exact ⟨g2, colorSafe_trans s1 s2⟩

/-- A change that leaves the two residency states and the command buffer alone, adds no work
item to an empty list and does not empty the records. -/
theorem surfaceInv_of_states {r r' : Renderer}
    (hc : r'.framebuffer.color_state = r.framebuffer.color_state)
    (hd : r'.framebuffer.depth_state = r.framebuffer.depth_state)
    (hv : r'.vulkan.cmd = r.vulkan.cmd)
    (hw : r'.work_data ≠ [] → r.work_data ≠ [])
    (hp : r.primitive_data ≠ [] → r'.primitive_data ≠ [])
    (h : SurfaceInv r) : SurfaceInv r' := by
  obtain ⟨g, i, l, j⟩ := h
  unfold SurfaceInv GpuOpen at *
  rw [hc, hd, hv]
  exact ⟨g, i, l, fun w => ⟨(j (hw w)).1, hp (j (hw w)).2⟩⟩

theorem frameStep_of_states {r r' : Renderer}
    (hc : r'.framebuffer.color_state = r.framebuffer.color_state)
    (hd : r'.framebuffer.depth_state = r.framebuffer.depth_state)
    (hv : r'.vulkan.cmd = r.vulkan.cmd)
    (hw : r'.work_data ≠ [] → r.work_data ≠ [])
    (hp : r.primitive_data ≠ [] → r'.primitive_data ≠ [])
    (hs : ColorSafe r r') : FrameStep r r' :=
  fun h => ⟨surfaceInv_of_states hc hd hv hw hp h, hs⟩

theorem frameStep_assert (r : Renderer) (line : Nat) (c : Bool) (hl : line ≠ 1526) :
    FrameStep r (r.assert line c) := by
  refine frameStep_of_states ?_ ?_ ?_ ?_ ?_ (colorSafe_assert line c hl (colorSafe_refl r)) <;>
    cases c <;> first | rfl | exact id

/-- After a flush the work items are empty, and the invariant holds. -/
theorem surfaceInv_flush_tile_lists (cfg : Config) (r : Renderer) (h : SurfaceInv r) :
    SurfaceInv (flush_tile_lists cfg r) ∧ (flush_tile_lists cfg r).work_data = [] := by
  by_cases he : (r.primitive_data.isEmpty || r.work_data.isEmpty) = true
  · rw [flush_tile_lists_skipped cfg r he]
    refine ⟨h, ?_⟩
    by_contra hw
    have hp := (h.2.2.2 hw).2
    simp only [Bool.or_eq_true, List.isEmpty_iff] at he
    rcases he with he | he
    · exact hp he
    · exact hw he
  · obtain ⟨c, sc, sd, w, p⟩ := flush_tile_lists_states cfg r he
    refine ⟨⟨fun _ => c, fun _ => ?_, fun hd => ?_, fun hw => absurd w hw⟩, w⟩
    · have hw : r.work_data ≠ [] := by
        intro hw
        apply he
        simp [hw]
      have hcpu := (h.2.2.2 hw).1
      rw [sc]
      split_ifs with hs
      · rfl
      · cases hcs : r.framebuffer.color_state
        · exact absurd hcs hcpu
        · exact absurd hcs hs
        · rfl
    · have hw : r.work_data ≠ [] := by
        intro hw
        apply he
        simp [hw]
      have hcpu := (h.2.2.2 hw).1
      rw [sc]
      split_ifs with hs
      · intro hx; cases hx
      · exact hcpu

theorem frameStep_flush_tile_lists (cfg : Config) (r : Renderer) :
    FrameStep r (flush_tile_lists cfg r) :=
  fun h => ⟨(surfaceInv_flush_tile_lists cfg r h).1, colorSafe_flush_tile_lists cfg r⟩

/-- The entries of the two assertions of `sync_gpu_to_dram` hold no failure of the first one
when the colour surface is GPU-resident. -/
theorem sync_asserts_color_safe (r : Renderer)
    (hc : r.framebuffer.color_state = FRAMEBUFFER_GPU) :
    Event.assertion_failed 1526 ∉ sync_asserts r := by
  intro he
  unfold sync_asserts at he
  rw [hc] at he
  simp only [List.mem_append] at he
  rcases he with he | he
  · simp at he
  · split_ifs at he <;> simp at he

theorem frameStep_sync_gpu_to_dram (r : Renderer) (blocking : Bool) (hw : r.work_data = []) :
    FrameStep r (sync_gpu_to_dram r blocking) := by
  intro h
  cases hcmd : r.vulkan.cmd
  · rw [sync_gpu_to_dram_closed r blocking hcmd]; exact ⟨h, colorSafe_refl r⟩
  · rw [sync_gpu_to_dram_eq r blocking hcmd]
    refine ⟨⟨?_, ?_, ?_, ?_⟩, ?_⟩
    · intro hg
      rcases hg with hg | hg <;> cases hg
    · intro hv; cases hv
    · intro hd; exact absurd rfl hd
    · intro hw2; exact absurd hw hw2
    · refine ⟨sync_asserts r ++ [Event.submit r.next_handle] ++
        (if blocking then copy_back_log (sync_record r) else []) ++
        [Event.residency Surface.color r.framebuffer.color_state FRAMEBUFFER_CPU,
         Event.residency Surface.depth r.framebuffer.depth_state FRAMEBUFFER_CPU],
        by simp only [List.append_assoc], ?_⟩
      intro he
      simp only [List.mem_append, List.mem_cons, List.mem_singleton, List.not_mem_nil,
        or_false] at he
      rcases he with ((he | he) | he) | he
      · exact sync_asserts_color_safe r (h.2.1 hcmd) he
      · cases he
      · cases blocking
        · simp at he
        · exact copy_back_log_color_safe _ (by simpa using he)
      · rcases he with he | he <;> cases he

theorem frameStep_complete (cfg : Config) (r : Renderer) (blocking : Bool) :
    FrameStep r (sync_gpu_to_dram (flush_tile_lists cfg r) blocking) := by
  intro h
  obtain ⟨h1, w⟩ := surfaceInv_flush_tile_lists cfg r h
  obtain ⟨h2, s2⟩ := frameStep_sync_gpu_to_dram _ blocking w h1
  exact ⟨h2, colorSafe_trans (colorSafe_flush_tile_lists cfg r) s2⟩

theorem frameStep_sync_full (cfg : Config) (r : Renderer) : FrameStep r (sync_full cfg r) := by
  unfold RDP.sync_full
  dsimp only
  have h1 : FrameStep r
      { (r.async_transfers.foldl sync_framebuffer_to_cpu r) with async_transfers := [] } := by
    refine frameStep_of_states ?_ ?_ ?_ ?_ ?_ (colorSafe_same rfl (colorSafe_foldl_sync _ r)) <;>
      rw [foldl_sync_framebuffer_to_cpu] <;> first | rfl | exact id
  exact frameStep_trans h1 (frameStep_complete cfg _ true)

theorem frameStep_complete_frame (cfg : Config) (r : Renderer) (synchronous : Bool) :
    FrameStep r (complete_frame cfg r synchronous) := by
  unfold RDP.complete_frame
  split_ifs
  · exact frameStep_sync_full cfg r
  · exact frameStep_complete cfg r false

theorem frameStep_set_framebuffer_size (cfg : Config) (r : Renderer) (width height : Nat) :
    FrameStep r (set_framebuffer_size cfg r width height) := by
  intro h
  have he := set_framebuffer_size_eq cfg r width height h.1
  have h1 : FrameStep r
      (if r.framebuffer.color_state = FRAMEBUFFER_GPU ∨
          r.framebuffer.depth_state = FRAMEBUFFER_GPU
        then sync_full cfg r else r) := by
    split_ifs
    · exact frameStep_sync_full cfg r
    · exact frameStep_refl r
  rw [he]
  exact frameStep_trans h1
    (frameStep_of_states rfl rfl rfl id id (colorSafe_same rfl (colorSafe_refl _))) h

theorem frameStep_set_depth_image (cfg : Config) (r : Renderer) (addr : Nat)
    (synchronous : Bool) : FrameStep r (set_depth_image cfg r addr synchronous) := by
  unfold set_depth_image
  split_ifs
  · exact frameStep_refl r
  · exact frameStep_trans (frameStep_complete_frame cfg r synchronous)
      (frameStep_of_states rfl rfl rfl id id (colorSafe_same rfl (colorSafe_refl _)))
  · exact frameStep_of_states rfl rfl rfl id id (colorSafe_same rfl (colorSafe_refl _))

theorem frameStep_set_color_image (cfg : Config) (r : Renderer)
    (addr format pixel_size width : Nat) (synchronous : Bool) :
    FrameStep r (set_color_image cfg r addr format pixel_size width synchronous) := by
  unfold set_color_image
  have h2 : FrameStep r
      { complete_frame cfg r synchronous with framebuffer :=
        { (complete_frame cfg r synchronous).framebuffer with
          addr := addr, format := format, width := width, pixel_size := pixel_size } } :=
    frameStep_trans (frameStep_complete_frame cfg r synchronous)
      (frameStep_of_states rfl rfl rfl id id (colorSafe_same rfl (colorSafe_refl _)))
  dsimp only
  split_ifs
  all_goals first
    | exact frameStep_refl r
    | exact h2
    | exact frameStep_trans h2 (frameStep_set_framebuffer_size cfg _ _ _)

theorem frameStep_update_tiles (cfg : Config) (r : Renderer) (tile_mask dirty_tiles : Nat) :
    FrameStep r (update_tiles cfg r tile_mask dirty_tiles) := by
  rw [update_tiles_frame]
  exact frameStep_of_states rfl rfl rfl id id (colorSafe_same rfl (colorSafe_refl _))

theorem frameStep_draw_begin (cfg : Config) (r : Renderer) (d : DrawCall) :
    FrameStep r (draw_begin cfg r d) := by
  unfold draw_begin
  dsimp only
  have h1 : FrameStep r
      (if (clip_scissor r.scissor d.min_x d.max_x d.min_y d.max_y).2.2.2
          ≥ (r.framebuffer.allocated_height : Int)
       then set_framebuffer_size cfg r r.framebuffer.allocated_width
         ((clip_scissor r.scissor d.min_x d.max_x d.min_y d.max_y).2.2.2 + 1).toNat
       else r) := by
    split_ifs
    · exact frameStep_set_framebuffer_size cfg _ _ _
    · exact frameStep_refl r
  exact frameStep_trans h1 (frameStep_trans (frameStep_update_tiles cfg _ _ _)
    (frameStep_trans (frameStep_assert _ _ _ (by decide)) (frameStep_assert _ _ _ (by decide))))

theorem frameStep_draw_combiner (cfg : Config) (r : Renderer) (cycle_type : Nat) :
    FrameStep r (draw_combiner cfg r cycle_type).1 := by
  unfold draw_combiner
  dsimp only
  split_ifs
  · refine frameStep_trans ?_ (frameStep_assert _ _ _ (by decide))
    split <;> exact frameStep_of_states rfl rfl rfl id id (colorSafe_same rfl (colorSafe_refl _))
  · exact frameStep_assert _ _ _ (by decide)
  · exact frameStep_refl r

theorem frameStep_set_color_state_stale (r : Renderer)
    (hc : r.framebuffer.color_state = FRAMEBUFFER_CPU) :
    FrameStep r (r.set_color_state FRAMEBUFFER_STALE_GPU) := by
  intro h
  obtain ⟨g, i, l, j⟩ := h
  refine ⟨⟨?_, ?_, ?_, ?_⟩, colorSafe_set_color_state _ (colorSafe_refl r)⟩
  · intro hg
    rcases hg with hg | hg
    · cases hg
    · exact g (Or.inr hg)
  · intro hv
    have := i hv
    rw [hc] at this
    cases this
  · intro _ hx; cases hx
  · intro hw
    exact absurd hc (j hw).1

theorem frameStep_set_depth_state_stale (r : Renderer)
    (hc : r.framebuffer.color_state ≠ FRAMEBUFFER_CPU) :
    FrameStep r (r.set_depth_state FRAMEBUFFER_STALE_GPU) := by
  intro h
  obtain ⟨g, i, l, j⟩ := h
  refine ⟨⟨?_, i, fun _ => hc, j⟩, colorSafe_set_depth_state _ (colorSafe_refl r)⟩
  intro hg
  rcases hg with hg | hg
  · exact g (Or.inl hg)
  · cases hg

/-- After the second part of `draw_primitive` the invariant holds, the colour surface has left
the CPU, and there is a record. -/
theorem frameStep_draw_record (cfg : Config) (r : Renderer) (d : DrawCall) :
    FrameStep r (draw_record cfg r d).1 ∧
    (draw_record cfg r d).1.framebuffer.color_state ≠ FRAMEBUFFER_CPU ∧
    (draw_record cfg r d).1.primitive_data ≠ [] := by
  unfold draw_record
  dsimp only
  have h5 : FrameStep r
      (if r.framebuffer.color_state = FRAMEBUFFER_CPU
       then r.set_color_state FRAMEBUFFER_STALE_GPU else r) ∧
      (if r.framebuffer.color_state = FRAMEBUFFER_CPU
       then r.set_color_state FRAMEBUFFER_STALE_GPU else r).framebuffer.color_state
        ≠ FRAMEBUFFER_CPU := by
    split_ifs with hc
    · exact ⟨frameStep_set_color_state_stale r hc, fun hx => by cases hx⟩
    · exact ⟨frameStep_refl r, hc⟩
  generalize (if r.framebuffer.color_state = FRAMEBUFFER_CPU
    then r.set_color_state FRAMEBUFFER_STALE_GPU else r) = r5 at h5
  have h6 : FrameStep r
      (if r5.framebuffer.depth_state = FRAMEBUFFER_CPU ∧
          (build_attr cfg d.prim d.attr r.state.primitive_z).2.1 &&&
            (cfg.RDP_FLAG_Z_UPDATE ||| cfg.RDP_FLAG_Z_COMPARE) ≠ 0
       then r5.set_depth_state FRAMEBUFFER_STALE_GPU else r5) ∧
      (if r5.framebuffer.depth_state = FRAMEBUFFER_CPU ∧
          (build_attr cfg d.prim d.attr r.state.primitive_z).2.1 &&&
            (cfg.RDP_FLAG_Z_UPDATE ||| cfg.RDP_FLAG_Z_COMPARE) ≠ 0
       then r5.set_depth_state FRAMEBUFFER_STALE_GPU else r5).framebuffer.color_state
        ≠ FRAMEBUFFER_CPU := by
    split_ifs
    · exact ⟨frameStep_trans h5.1 (frameStep_set_depth_state_stale r5 h5.2), h5.2⟩
    · exact h5
  generalize (if r5.framebuffer.depth_state = FRAMEBUFFER_CPU ∧
      (build_attr cfg d.prim d.attr r.state.primitive_z).2.1 &&&
        (cfg.RDP_FLAG_Z_UPDATE ||| cfg.RDP_FLAG_Z_COMPARE) ≠ 0
    then r5.set_depth_state FRAMEBUFFER_STALE_GPU else r5) = r6 at h6
  have hq := quietStep_draw_combiner cfg
    ((d.prim.flags >>> cfg.RDP_FLAG_CYCLE_TYPE_SHIFT) &&& 3) (quietStep_refl r6)
  refine ⟨frameStep_trans h6.1 (frameStep_trans (frameStep_draw_combiner cfg _ _)
    (frameStep_of_states rfl rfl rfl id (fun _ => by simp)
      (colorSafe_same rfl (colorSafe_refl _)))), ?_, by simp⟩
  show (draw_combiner cfg r6 _).1.framebuffer.color_state ≠ FRAMEBUFFER_CPU
  rw [hq.1]
  exact h6.2

theorem frameStep_draw_primitive (cfg : Config) (r : Renderer) (d : DrawCall) :
    FrameStep r (draw_primitive cfg r d) := by
  unfold draw_primitive
  dsimp only
  obtain ⟨hr, hc, hp⟩ := frameStep_draw_record cfg (draw_begin cfg r d) d
  have hbin := binOnly_bin_tiles cfg d.prim
      (clip_scissor r.scissor d.min_x d.max_x d.min_y d.max_y).1
      (clip_scissor r.scissor d.min_x d.max_x d.min_y d.max_y).2.1
      (clip_scissor r.scissor d.min_x d.max_x d.min_y d.max_y).2.2.1
      (clip_scissor r.scissor d.min_x d.max_x d.min_y d.max_y).2.2.2
      (draw_begin cfg r d).primitive_data.length
      (max (Int.tdiv (clip_scissor r.scissor d.min_x d.max_x d.min_y d.max_y).1 cfg.TILE_SIZE_X) 0)
      (min (Int.tdiv (clip_scissor r.scissor d.min_x d.max_x d.min_y d.max_y).2.1 cfg.TILE_SIZE_X)
        (((draw_begin cfg r d).tiles_x : Int) - 1))
      (Int.tdiv (clip_scissor r.scissor d.min_x d.max_x d.min_y d.max_y).2.2.1 cfg.TILE_SIZE_Y)
      (Int.tdiv (clip_scissor r.scissor d.min_x d.max_x d.min_y d.max_y).2.2.2 cfg.TILE_SIZE_Y)
      (draw_record cfg (draw_begin cfg r d) d)
  generalize (bin_tiles cfg d.prim _ _ _ _ _ _ _ _ _ (draw_record cfg (draw_begin cfg r d) d))
    = binned at hbin ⊢
  have hb : FrameStep r binned.1 := by
    intro h
    obtain ⟨⟨g, i, l, _⟩, s⟩ :=
      frameStep_trans (frameStep_draw_begin cfg r d) hr h
    have e1 : binned.1.framebuffer = (draw_record cfg (draw_begin cfg r d) d).1.framebuffer := by
      rw [hbin]
    have e2 : binned.1.vulkan = (draw_record cfg (draw_begin cfg r d) d).1.vulkan := by
      rw [hbin]
    have e3 : binned.1.primitive_data
        = (draw_record cfg (draw_begin cfg r d) d).1.primitive_data := by
      rw [hbin]
    have e4 : binned.1.log = (draw_record cfg (draw_begin cfg r d) d).1.log := by
      rw [hbin]
    refine ⟨?_, colorSafe_same e4 s⟩
    unfold SurfaceInv GpuOpen at *
    rw [e1, e2, e3]
    exact ⟨g, i, l, fun _ => ⟨hc, hp⟩⟩
  split_ifs
  · exact frameStep_trans hb (frameStep_flush_tile_lists cfg _)
  · exact hb

theorem frameStep_step (cfg : Config) (r : Renderer) (op : Op) :
    FrameStep r (step cfg r op) := by
  cases op with
  | set_depth_image addr synchronous => exact frameStep_set_depth_image cfg r addr synchronous
  | set_color_image addr format pixel_size width synchronous =>
    exact frameStep_set_color_image cfg r addr format pixel_size width synchronous
  | set_framebuffer_size width height => exact frameStep_set_framebuffer_size cfg r width height
  | draw_primitive d => exact frameStep_draw_primitive cfg r d
  | flush_tile_lists => exact frameStep_flush_tile_lists cfg r
  | complete_frame synchronous => exact frameStep_complete_frame cfg r synchronous
  | sync_full => exact frameStep_sync_full cfg r
  | begin_index index =>
    show FrameStep r (begin_index r index)
    rw [begin_index_eq]
    refine frameStep_of_states rfl rfl rfl id id ⟨_, rfl, ?_⟩
    intro he
    obtain ⟨a, _, ha⟩ := List.mem_flatMap.mp he
    exact copy_back_log_color_safe a ha
  | check_tmem_feedback addr synchronous =>
    show FrameStep r (check_tmem_feedback cfg r addr synchronous)
    unfold check_tmem_feedback
    split_ifs
    · exact frameStep_complete_frame cfg r synchronous
    · exact frameStep_complete_frame cfg r synchronous
    · exact frameStep_refl r
  | fill_rect_cpu xmin xmax ymin ymax =>
    show FrameStep r (fill_rect_cpu cfg r xmin xmax ymin ymax)
    unfold fill_rect_cpu
    dsimp only
    rw [assert_eq]
    refine frameStep_of_states rfl rfl rfl id id (colorSafe_emit _ (by simp) ⟨_, rfl, ?_⟩)
    split_ifs <;> simp
  | _ => exact frameStep_of_states rfl rfl rfl id id (colorSafe_same rfl (colorSafe_refl _))

theorem surfaceInv_init (cfg : Config) : SurfaceInv (Renderer.init cfg) := by
  refine ⟨gpuOpen_init cfg, ?_, ?_, ?_⟩
  · intro h; cases h
  · intro h; exact absurd rfl h
  · intro h; exact absurd rfl h

theorem frameStep_run (cfg : Config) (r : Renderer) (ops : List Op) :
    FrameStep r (run cfg r ops) := by
  unfold run
  induction ops generalizing r with
  | nil => exact frameStep_refl r
  | cons op ops ih => exact frameStep_trans (frameStep_step cfg r op) (ih _)

/-- In every reachable state the invariant of the surfaces holds. -/
theorem surfaceInv_run (cfg : Config) (ops : List Op) :
    SurfaceInv (run cfg (Renderer.init cfg) ops) :=
  (frameStep_run cfg _ ops (surfaceInv_init cfg)).1

/-- C25: in every state reached from the initial state (both surfaces CPU-resident, no open
command buffer) by any sequence of calls: a GPU-resident depth surface comes with a
GPU-resident colour surface; a depth surface that is not CPU-resident comes with a colour
surface that is not CPU-resident; and a GPU-resident surface comes with an open command
buffer, so that `sync_gpu_to_dram` called in such a state does not return early: it returns
with both surfaces CPU-resident. -/
theorem depth_residency_follows_color (cfg : Config) (ops : List Op) :
    ((run cfg (Renderer.init cfg) ops).framebuffer.depth_state = FRAMEBUFFER_GPU →
      (run cfg (Renderer.init cfg) ops).framebuffer.color_state = FRAMEBUFFER_GPU) ∧
    ((run cfg (Renderer.init cfg) ops).framebuffer.depth_state ≠ FRAMEBUFFER_CPU →
      (run cfg (Renderer.init cfg) ops).framebuffer.color_state ≠ FRAMEBUFFER_CPU) ∧
    (((run cfg (Renderer.init cfg) ops).framebuffer.color_state = FRAMEBUFFER_GPU ∨
        (run cfg (Renderer.init cfg) ops).framebuffer.depth_state = FRAMEBUFFER_GPU) →
      (run cfg (Renderer.init cfg) ops).vulkan.cmd = true ∧
      ∀ blocking,
        (sync_gpu_to_dram (run cfg (Renderer.init cfg) ops) blocking).framebuffer.color_state
          = FRAMEBUFFER_CPU ∧
        (sync_gpu_to_dram (run cfg (Renderer.init cfg) ops) blocking).framebuffer.depth_state
          = FRAMEBUFFER_CPU) := by
  obtain ⟨g, i, l, _⟩ := surfaceInv_run cfg ops
  refine ⟨fun hd => i (g (Or.inr hd)), l, fun hg => ⟨g hg, fun blocking => ?_⟩⟩
  rw [sync_gpu_to_dram_eq _ blocking (g hg)]
  exact ⟨rfl, rfl⟩

end RDP

namespace RDP

/-! ## The two assertions of `sync_gpu_to_dram` -/

set_option maxRecDepth 100000 in
/-- C21: the two assertions of `sync_gpu_to_dram` under frame completion.  The first one
(line 1526, colour surface) never fails: in every run from the initial state no failure of it
is logged, and in every reachable state with an open command buffer the colour surface is
GPU-resident.  The second one (line 1527, depth surface) can fail.  In the session
`stale_depth_ops` the fourth draw flushes its batch, which opens the command buffer; the
fifth draw carries the depth-update flag and binds no tile, so it marks the depth surface
STALE_GPU and leaves no work item; the flush of the following `complete_frame` returns at once
(`flush_tile_lists` is the identity on that state) and `sync_gpu_to_dram` runs on an open
command buffer with the depth surface still STALE_GPU: the failure of line 1527 is logged. -/
theorem sync_gpu_to_dram_depth_assertion_fails :
    (∀ (cfg : Config) (ops : List Op),
      Event.assertion_failed 1526 ∉ (run cfg (Renderer.init cfg) ops).log ∧
      ((run cfg (Renderer.init cfg) ops).vulkan.cmd = true →
        (run cfg (Renderer.init cfg) ops).framebuffer.color_state = FRAMEBUFFER_GPU)) ∧
    ((run Config.small (Renderer.init Config.small) stale_depth_ops).vulkan.cmd = true ∧
      (run Config.small (Renderer.init Config.small) stale_depth_ops).framebuffer.color_state
        = FRAMEBUFFER_GPU ∧
      (run Config.small (Renderer.init Config.small) stale_depth_ops).framebuffer.depth_state
        = FRAMEBUFFER_STALE_GPU ∧
      (run Config.small (Renderer.init Config.small) stale_depth_ops).work_data = [] ∧
      (run Config.small (Renderer.init Config.small) stale_depth_ops).primitive_data.length
        = 1) ∧
    Event.assertion_failed 1527 ∉
      (run Config.small (Renderer.init Config.small) stale_depth_ops).log ∧
    (∀ synchronous,
      Event.assertion_failed 1527 ∈
        (complete_frame Config.small
          (run Config.small (Renderer.init Config.small) stale_depth_ops) synchronous).log) ∧
    Event.assertion_failed 1527 ∈
      (sync_full Config.small
        (run Config.small (Renderer.init Config.small) stale_depth_ops)).log := by
  refine ⟨fun cfg ops => ⟨?_, (surfaceInv_run cfg ops).2.1⟩, by decide, by decide, ?_, by decide⟩
  · obtain ⟨es, hl, hes⟩ := (frameStep_run cfg _ ops (surfaceInv_init cfg)).2
    rw [hl]
    simpa [Renderer.init] using hes
  · intro synchronous
    cases synchronous <;> decide

end RDP

namespace RDP

/-! ## The assertion on the tile rows -/

theorem rowSafe_refl (r : Renderer) : RowSafe r r := ⟨[], by simp, by simp⟩

theorem rowSafe_trans {a b c : Renderer} (h1 : RowSafe a b) (h2 : RowSafe b c) :
    RowSafe a c := by
  obtain ⟨es1, l1, q1⟩ := h1
  obtain ⟨es2, l2, q2⟩ := h2
  refine ⟨es1 ++ es2, by rw [l2, l1, List.append_assoc], ?_⟩
  intro h
  rcases List.mem_append.mp h with h | h
  · exact q1 h
  · exact q2 h

theorem rowSafe_of_log {r r' : Renderer} (es : List Event) (hl : r'.log = r.log ++ es)
    (hq : Event.assertion_failed 624 ∉ es) : RowSafe r r' := ⟨es, hl, hq⟩

theorem rowSafe_same {r r' r'' : Renderer} (hl : r''.log = r'.log) (h : RowSafe r r') :
    RowSafe r r'' := by
  obtain ⟨es, l, q⟩ := h
  exact ⟨es, hl.trans l, q⟩

theorem rowSafe_emit {r r' : Renderer} (e : Event) (he : e ≠ Event.assertion_failed 624)
    (h : RowSafe r r') : RowSafe r (r'.emit e) :=
  rowSafe_trans h ⟨[e], rfl, by simpa using he.symm⟩

theorem rowSafe_assert {r r' : Renderer} (line : Nat) (c : Bool) (hl : line ≠ 624)
    (h : RowSafe r r') : RowSafe r (r'.assert line c) := by
  cases c
  · exact rowSafe_emit _ (by simpa using hl) h
  · exact h

theorem rowSafe_set_color_state {r r' : Renderer} (v : FramebufferState)
    (h : RowSafe r r') : RowSafe r (r'.set_color_state v) :=
  rowSafe_trans h ⟨[_], rfl, by simp⟩

theorem rowSafe_set_depth_state {r r' : Renderer} (v : FramebufferState)
    (h : RowSafe r r') : RowSafe r (r'.set_depth_state v) :=
  rowSafe_trans h ⟨[_], rfl, by simp⟩

theorem rowSafe_begin_framebuffer {r r' : Renderer} (h : RowSafe r r') :
    RowSafe r (begin_framebuffer r') := by
  unfold begin_framebuffer; split_ifs
  · exact rowSafe_same rfl h
  · exact h

theorem rowSafe_begin_framebuffer_depth {r r' : Renderer} (h : RowSafe r r') :
    RowSafe r (begin_framebuffer_depth r') := by
  unfold begin_framebuffer_depth; split_ifs
  · exact rowSafe_same rfl h
  · exact h

theorem rowSafe_begin_command_buffer {r r' : Renderer} (h : RowSafe r r') :
    RowSafe r (begin_command_buffer r') := by
  unfold begin_command_buffer; split_ifs
  · exact h
  · exact rowSafe_same rfl h

theorem rowSafe_sync_color_dram_to_gpu {r r' : Renderer} (h : RowSafe r r') :
    RowSafe r (sync_color_dram_to_gpu r') := by
  unfold sync_color_dram_to_gpu
  by_cases hs : r'.framebuffer.color_state ≠ FRAMEBUFFER_STALE_GPU
  · rw [if_pos hs]; exact h
  · rw [if_neg hs]
    dsimp only
    apply rowSafe_set_color_state
    repeat' split
    all_goals first
      | exact h
      | exact rowSafe_begin_framebuffer h
      | exact rowSafe_emit _ (by simp) (rowSafe_begin_framebuffer h)
      | exact rowSafe_emit _ (by simp)
          (rowSafe_assert _ _ (by decide) (rowSafe_begin_framebuffer h))

theorem rowSafe_sync_depth_dram_to_gpu {r r' : Renderer} (h : RowSafe r r') :
    RowSafe r (sync_depth_dram_to_gpu r') := by
  unfold sync_depth_dram_to_gpu
  by_cases hs : r'.framebuffer.depth_state ≠ FRAMEBUFFER_STALE_GPU
  · rw [if_pos hs]; exact h
  · rw [if_neg hs]
    dsimp only
    apply rowSafe_set_depth_state
    repeat' split
    all_goals first
      | exact h
      | exact rowSafe_begin_framebuffer_depth h
      | exact rowSafe_emit _ (by simp) (rowSafe_begin_framebuffer_depth h)

theorem copy_back_log_row_safe (a : AsyncFramebuffer) :
    Event.assertion_failed 624 ∉ copy_back_log a := by
  intro he
  unfold copy_back_log at he
  simp only [List.mem_append, List.mem_singleton] at he
  rcases he with (he | he) | he
  · cases he
  · split_ifs at he <;> simp at he
  · split_ifs at he <;> simp at he

theorem sync_asserts_row_safe (r : Renderer) :
    Event.assertion_failed 624 ∉ sync_asserts r := by
  intro he
  unfold sync_asserts at he
  simp only [List.mem_append] at he
  rcases he with he | he
  · split_ifs at he <;> simp at he
  · split_ifs at he <;> simp at he

theorem rowSafe_foldl_sync (l : List AsyncFramebuffer) (r : Renderer) :
    RowSafe r (l.foldl sync_framebuffer_to_cpu r) := by
  rw [foldl_sync_framebuffer_to_cpu]
  refine ⟨_, rfl, ?_⟩
  intro he
  obtain ⟨a, _, ha⟩ := List.mem_flatMap.mp he
  exact copy_back_log_row_safe a ha

theorem rowSafe_sync_gpu_to_dram (r : Renderer) (blocking : Bool) :
    RowSafe r (sync_gpu_to_dram r blocking) := by
  cases hcmd : r.vulkan.cmd
  · rw [sync_gpu_to_dram_closed r blocking hcmd]; exact rowSafe_refl r
  · rw [sync_gpu_to_dram_eq r blocking hcmd]
    refine ⟨sync_asserts r ++ [Event.submit r.next_handle] ++
      (if blocking then copy_back_log (sync_record r) else []) ++
      [Event.residency Surface.color r.framebuffer.color_state FRAMEBUFFER_CPU,
       Event.residency Surface.depth r.framebuffer.depth_state FRAMEBUFFER_CPU],
      by simp only [List.append_assoc], ?_⟩
    intro he
    simp only [List.mem_append, List.mem_cons, List.mem_singleton, List.not_mem_nil,
      or_false] at he
    rcases he with ((he | he) | he) | he
    · exact sync_asserts_row_safe r he
    · cases he
    · cases blocking
      · simp at he
      · exact copy_back_log_row_safe _ (by simpa using he)
    · rcases he with he | he <;> cases he

theorem rowSafe_flush_tile_lists (cfg : Config) (r : Renderer) :
    RowSafe r (flush_tile_lists cfg r) := by
  unfold flush_tile_lists
  by_cases he : (r.primitive_data.isEmpty || r.work_data.isEmpty) = true
  · rw [if_pos he]; exact rowSafe_refl r
  · rw [if_neg he]
    exact rowSafe_same rfl (rowSafe_emit _ (by simp)
      (rowSafe_sync_depth_dram_to_gpu (rowSafe_sync_color_dram_to_gpu
        (rowSafe_begin_command_buffer (rowSafe_refl r)))))

theorem rowSafe_sync_full (cfg : Config) (r : Renderer) : RowSafe r (sync_full cfg r) := by
  unfold RDP.sync_full
  dsimp only
  have h1 : RowSafe r
      { (r.async_transfers.foldl sync_framebuffer_to_cpu r) with async_transfers := [] } :=
    rowSafe_same rfl (rowSafe_foldl_sync _ r)
  exact rowSafe_trans (rowSafe_trans h1 (rowSafe_flush_tile_lists cfg _))
    (rowSafe_sync_gpu_to_dram _ _)

theorem rowSafe_complete_frame (cfg : Config) (r : Renderer) (synchronous : Bool) :
    RowSafe r (complete_frame cfg r synchronous) := by
  unfold RDP.complete_frame
  split_ifs
  · exact rowSafe_sync_full cfg r
  · exact rowSafe_trans (rowSafe_flush_tile_lists cfg r) (rowSafe_sync_gpu_to_dram _ _)

end RDP

namespace RDP

/-! ## The tile grid -/

theorem gridKept_refl (r : Renderer) : GridKept r r := ⟨rfl, rfl, rfl, rfl, rfl⟩

theorem gridKept_trans {a b c : Renderer} (h1 : GridKept a b) (h2 : GridKept b c) :
    GridKept a c :=
  ⟨h2.1.trans h1.1, h2.2.1.trans h1.2.1, h2.2.2.1.trans h1.2.2.1,
    h2.2.2.2.1.trans h1.2.2.2.1, h2.2.2.2.2.trans h1.2.2.2.2⟩

theorem gridInv_of_kept {cfg : Config} {r r' : Renderer} (h : GridInv cfg r)
    (k : GridKept r r') : GridInv cfg r' := by
  obtain ⟨k1, k2, k3, k4, k5⟩ := k
  unfold GridInv
  rw [k1, k2, k3, k4, k5]
  exact h

theorem gridKept_of_residencyOnly {r r' : Renderer} (h : ResidencyOnly r r')
    (hd : DescriptorKept r r') : GridKept r r' := by
  refine ⟨hd.2.2.2.2.2.1, hd.2.2.2.2.2.2, ?_, ?_, ?_⟩ <;> rw [h]

theorem gridKept_flush_tile_lists (cfg : Config) (r : Renderer) :
    GridKept r (flush_tile_lists cfg r) := by
  have hd := (staging_flush_tile_lists cfg r).1
  by_cases he : (r.primitive_data.isEmpty || r.work_data.isEmpty) = true
  · rw [flush_tile_lists_skipped cfg r he]; exact gridKept_refl r
  · have hp : r.primitive_data ≠ [] := by
      intro hp; apply he; simp [hp]
    have hw : r.work_data ≠ [] := by
      intro hw; apply he; simp [hw]
    obtain ⟨r1, h1, _, e⟩ := flush_tile_lists_completed cfg r hp hw
    refine ⟨hd.2.2.2.2.2.1, hd.2.2.2.2.2.2, ?_, ?_, ?_⟩
    · rw [e]; show r1.tiles_x = r.tiles_x; rw [h1]
    · rw [e]; show r1.tiles_y = r.tiles_y; rw [h1]
    · rw [e]
      show (r1.tile_lists.map (fun _ => TileInfo.fresh)).length = r.tile_lists.length
      rw [List.length_map, h1]

theorem gridKept_sync_gpu_to_dram (r : Renderer) (blocking : Bool) :
    GridKept r (sync_gpu_to_dram r blocking) :=
  gridKept_of_residencyOnly (residencyOnly_sync_gpu_to_dram blocking (residencyOnly_refl r))
    (descriptorKept_sync_gpu_to_dram r blocking)

theorem gridKept_sync_full (cfg : Config) (r : Renderer) : GridKept r (sync_full cfg r) := by
  unfold RDP.sync_full
  dsimp only
  have h1 : GridKept r
      { (r.async_transfers.foldl sync_framebuffer_to_cpu r) with async_transfers := [] } := by
    rw [foldl_sync_framebuffer_to_cpu]
    exact gridKept_refl r
  exact gridKept_trans h1 (gridKept_trans (gridKept_flush_tile_lists cfg _)
    (gridKept_sync_gpu_to_dram _ _))

theorem gridKept_complete_frame (cfg : Config) (r : Renderer) (synchronous : Bool) :
    GridKept r (complete_frame cfg r synchronous) := by
  unfold RDP.complete_frame
  split_ifs
  · exact gridKept_sync_full cfg r
  · exact gridKept_trans (gridKept_flush_tile_lists cfg r) (gridKept_sync_gpu_to_dram _ _)

theorem resize_tiles_length (tiles : List TileInfo) (n : Nat) :
    (resize_tiles tiles n).length = n := by
  unfold resize_tiles
  simp only [List.length_append, List.length_take, List.length_replicate]
  omega

/-- After `set_framebuffer_size` the grid fits the allocated surface, whatever it was. -/
theorem gridInv_set_framebuffer_size (cfg : Config) (r : Renderer) (width height : Nat) :
    GridInv cfg (set_framebuffer_size cfg r width height) := by
  obtain ⟨hw, hh, _⟩ := set_framebuffer_size_descriptor cfg r width height
  unfold GridInv
  rw [hw, hh]
  refine ⟨rfl, rfl, ?_⟩
  unfold set_framebuffer_size
  dsimp only
  exact resize_tiles_length _ _

theorem gridKept_assert (r : Renderer) (line : Nat) (c : Bool) : GridKept r (r.assert line c) := by
  cases c
  · exact gridKept_refl r
  · exact gridKept_refl r

theorem gridKept_update_tiles (cfg : Config) (r : Renderer) (tile_mask dirty_tiles : Nat) :
    GridKept r (update_tiles cfg r tile_mask dirty_tiles) := by
  rw [update_tiles_frame]
  exact gridKept_refl r

theorem gridKept_draw_combiner (cfg : Config) (r : Renderer) (cycle_type : Nat) :
    GridKept r (draw_combiner cfg r cycle_type).1 := by
  unfold draw_combiner
  dsimp only
  split_ifs
  · refine gridKept_trans ?_ (gridKept_assert _ _ _)
    split <;> exact gridKept_refl r
  · exact gridKept_assert _ _ _
  · exact gridKept_refl r

theorem gridKept_draw_record (cfg : Config) (r : Renderer) (d : DrawCall) :
    GridKept r (draw_record cfg r d).1 := by
  unfold draw_record
  dsimp only
  have h5 : GridKept r
      (if r.framebuffer.color_state = FRAMEBUFFER_CPU
       then r.set_color_state FRAMEBUFFER_STALE_GPU else r) := by
    split_ifs
    · exact gridKept_refl r
    · exact gridKept_refl r
  generalize (if r.framebuffer.color_state = FRAMEBUFFER_CPU
    then r.set_color_state FRAMEBUFFER_STALE_GPU else r) = r5 at h5
  have h6 : GridKept r
      (if r5.framebuffer.depth_state = FRAMEBUFFER_CPU ∧
          (build_attr cfg d.prim d.attr r.state.primitive_z).2.1 &&&
            (cfg.RDP_FLAG_Z_UPDATE ||| cfg.RDP_FLAG_Z_COMPARE) ≠ 0
       then r5.set_depth_state FRAMEBUFFER_STALE_GPU else r5) := by
    split_ifs
    · exact gridKept_trans h5 (gridKept_refl _)
    · exact h5
  exact gridKept_trans h6 (gridKept_trans (gridKept_draw_combiner cfg _ _) (gridKept_refl _))

theorem write_tile_length (tiles : List TileInfo) (idx : Int) (t : TileInfo) :
    (write_tile tiles idx t).length = tiles.length := by
  unfold write_tile
  split_ifs
  · exact List.length_set _ _ _
  · rfl

theorem gridKept_append_tile_list (cfg : Config) (r : Renderer) (idx : Int)
    (primitive tile : Nat) : GridKept r (append_tile_list cfg r idx primitive tile) := by
  unfold append_tile_list
  dsimp only
  split_ifs
  · exact ⟨rfl, rfl, rfl, rfl, write_tile_length _ _ _⟩
  · exact ⟨rfl, rfl, rfl, rfl, write_tile_length _ _ _⟩

theorem gridKept_bin_tile (cfg : Config) (prim : Primitive) (min_x max_x min_y max_y : Int)
    (num_tris : Nat) (y : Int) (acc : Renderer × Bool) (x : Int) :
    GridKept acc.1 (bin_tile cfg prim min_x max_x min_y max_y num_tris y acc x).1 := by
  unfold bin_tile
  dsimp only
  split_ifs
  · exact gridKept_trans (gridKept_trans (b := { acc.1 with
      raster_tile_count := acc.1.raster_tile_count + 1 }) (gridKept_refl _)
      (gridKept_append_tile_list cfg _ _ _ _)) (gridKept_refl _)
  · exact gridKept_refl _

theorem gridKept_bin_tiles (cfg : Config) (prim : Primitive) (min_x max_x min_y max_y : Int)
    (num_tris : Nat) (min_tile_x max_tile_x min_tile_y max_tile_y : Int) (acc : Renderer × Bool) :
    GridKept acc.1 (bin_tiles cfg prim min_x max_x min_y max_y num_tris
      min_tile_x max_tile_x min_tile_y max_tile_y acc).1 := by
  unfold bin_tiles
  have row : ∀ (y : Int) (xs : List Int) (acc : Renderer × Bool),
      GridKept acc.1 (xs.foldl (bin_tile cfg prim min_x max_x min_y max_y num_tris y) acc).1 := by
    intro y xs
    induction xs with
    | nil => intro acc; exact gridKept_refl _
    | cons x xs ih =>
      intro acc
      exact gridKept_trans (gridKept_bin_tile cfg prim _ _ _ _ _ y acc x) (ih _)
  generalize int_range min_tile_y max_tile_y = ys
  induction ys generalizing acc with
  | nil => exact gridKept_refl _
  | cons y ys ih =>
    rw [List.foldl_cons]
    exact gridKept_trans (row y _ acc) (ih _)

/-- The renderer after the growth step of `draw_primitive`. -/
theorem gridInv_draw_grow (cfg : Config) (r : Renderer) (d : DrawCall) (h : GridInv cfg r) :
    GridInv cfg
      (if (clip_scissor r.scissor d.min_x d.max_x d.min_y d.max_y).2.2.2
          ≥ (r.framebuffer.allocated_height : Int)
       then set_framebuffer_size cfg r r.framebuffer.allocated_width
         ((clip_scissor r.scissor d.min_x d.max_x d.min_y d.max_y).2.2.2 + 1).toNat
       else r) := by
  split_ifs
  · exact gridInv_set_framebuffer_size cfg _ _ _
  · exact h

theorem gridKept_draw_begin (cfg : Config) (r : Renderer) (d : DrawCall) :
    GridKept
      (if (clip_scissor r.scissor d.min_x d.max_x d.min_y d.max_y).2.2.2
          ≥ (r.framebuffer.allocated_height : Int)
       then set_framebuffer_size cfg r r.framebuffer.allocated_width
         ((clip_scissor r.scissor d.min_x d.max_x d.min_y d.max_y).2.2.2 + 1).toNat
       else r)
      (draw_begin cfg r d) := by
  unfold draw_begin
  dsimp only
  exact gridKept_trans (gridKept_update_tiles cfg _ _ _)
    (gridKept_trans (gridKept_assert _ _ _) (gridKept_assert _ _ _))

theorem gridInv_draw_begin (cfg : Config) (r : Renderer) (d : DrawCall) (h : GridInv cfg r) :
    GridInv cfg (draw_begin cfg r d) :=
  gridInv_of_kept (gridInv_draw_grow cfg r d h) (gridKept_draw_begin cfg r d)

theorem gridKept_draw_rest (cfg : Config) (r : Renderer) (d : DrawCall) :
    GridKept (draw_begin cfg r d) (draw_primitive cfg r d) := by
  unfold draw_primitive
  dsimp only
  have hb := gridKept_trans (gridKept_draw_record cfg (draw_begin cfg r d) d)
    (gridKept_bin_tiles cfg d.prim
      (clip_scissor r.scissor d.min_x d.max_x d.min_y d.max_y).1
      (clip_scissor r.scissor d.min_x d.max_x d.min_y d.max_y).2.1
      (clip_scissor r.scissor d.min_x d.max_x d.min_y d.max_y).2.2.1
      (clip_scissor r.scissor d.min_x d.max_x d.min_y d.max_y).2.2.2
      (draw_begin cfg r d).primitive_data.length
      (max (Int.tdiv (clip_scissor r.scissor d.min_x d.max_x d.min_y d.max_y).1 cfg.TILE_SIZE_X) 0)
      (min (Int.tdiv (clip_scissor r.scissor d.min_x d.max_x d.min_y d.max_y).2.1 cfg.TILE_SIZE_X)
        (((draw_begin cfg r d).tiles_x : Int) - 1))
      (Int.tdiv (clip_scissor r.scissor d.min_x d.max_x d.min_y d.max_y).2.2.1 cfg.TILE_SIZE_Y)
      (Int.tdiv (clip_scissor r.scissor d.min_x d.max_x d.min_y d.max_y).2.2.2 cfg.TILE_SIZE_Y)
      (draw_record cfg (draw_begin cfg r d) d))
  split_ifs
  · exact gridKept_trans hb (gridKept_flush_tile_lists cfg _)
  · exact hb

theorem gridInv_step (cfg : Config) (r : Renderer) (op : Op) (h : GridInv cfg r) :
    GridInv cfg (step cfg r op) := by
  cases op with
  | set_depth_image addr synchronous =>
    show GridInv cfg (set_depth_image cfg r addr synchronous)
    unfold set_depth_image
    split_ifs
    · exact h
    · exact gridInv_of_kept h (gridKept_trans (gridKept_complete_frame cfg r synchronous)
        (gridKept_refl _))
    · exact h
  | set_color_image addr format pixel_size width synchronous =>
    show GridInv cfg (set_color_image cfg r addr format pixel_size width synchronous)
    unfold set_color_image
    dsimp only
    split_ifs
    all_goals first
      | exact h
      | exact gridInv_set_framebuffer_size cfg _ _ _
      | exact gridInv_of_kept h (gridKept_trans (gridKept_complete_frame cfg r synchronous)
          (gridKept_refl _))
  | set_framebuffer_size width height => exact gridInv_set_framebuffer_size cfg r width height
  | draw_primitive d =>
    exact gridInv_of_kept (gridInv_draw_begin cfg r d h) (gridKept_draw_rest cfg r d)
  | flush_tile_lists => exact gridInv_of_kept h (gridKept_flush_tile_lists cfg r)
  | complete_frame synchronous => exact gridInv_of_kept h (gridKept_complete_frame cfg r _)
  | sync_full => exact gridInv_of_kept h (gridKept_sync_full cfg r)
  | begin_index index =>
    show GridInv cfg (begin_index r index)
    rw [begin_index_eq]
    exact h
  | check_tmem_feedback addr synchronous =>
    show GridInv cfg (check_tmem_feedback cfg r addr synchronous)
    unfold check_tmem_feedback
    split_ifs
    · exact gridInv_of_kept h (gridKept_complete_frame cfg r _)
    · exact gridInv_of_kept h (gridKept_complete_frame cfg r _)
    · exact h
  | fill_rect_cpu xmin xmax ymin ymax =>
    show GridInv cfg (fill_rect_cpu cfg r xmin xmax ymin ymax)
    unfold fill_rect_cpu
    dsimp only
    rw [assert_eq]
    exact h
  | _ => exact h

theorem gridInv_init (cfg : Config) : GridInv cfg (Renderer.init cfg) := by
  refine ⟨?_, ?_, rfl⟩
  · show 0 = (0 + cfg.TILE_SIZE_X - 1) / cfg.TILE_SIZE_X
    rcases Nat.eq_zero_or_pos cfg.TILE_SIZE_X with h | h
    · rw [h]
    · rw [Nat.zero_add]; exact (Nat.div_eq_of_lt (by omega)).symm
  · show 0 = (0 + cfg.TILE_SIZE_Y - 1) / cfg.TILE_SIZE_Y
    rcases Nat.eq_zero_or_pos cfg.TILE_SIZE_Y with h | h
    · rw [h]
    · rw [Nat.zero_add]; exact (Nat.div_eq_of_lt (by omega)).symm

/-- In every reachable state the grid fits the allocated surface. -/
theorem gridInv_run (cfg : Config) (ops : List Op) :
    GridInv cfg (run cfg (Renderer.init cfg) ops) := by
  have key : ∀ (ops : List Op) (r : Renderer), GridInv cfg r → GridInv cfg (run cfg r ops) := by
    intro ops
    unfold run
    induction ops with
    | nil => intro r h; exact h
    | cons op ops ih => intro r h; exact ih _ (gridInv_step cfg r op h)
  exact key ops _ (gridInv_init cfg)

/-! ## The log of a draw -/

theorem rowSafe_set_framebuffer_size (cfg : Config) (r : Renderer) (width height : Nat) :
    RowSafe r (set_framebuffer_size cfg r width height) := by
  unfold set_framebuffer_size
  dsimp only
  refine rowSafe_same rfl (rowSafe_assert 277 _ (by decide) (rowSafe_same rfl ?_))
  split_ifs
  · exact rowSafe_sync_full cfg r
  · exact rowSafe_refl r

theorem rowSafe_draw_combiner (cfg : Config) (r : Renderer) (cycle_type : Nat) :
    RowSafe r (draw_combiner cfg r cycle_type).1 := by
  unfold draw_combiner
  dsimp only
  split_ifs
  · refine rowSafe_assert _ _ (by decide) ?_
    split <;> exact rowSafe_same rfl (rowSafe_refl r)
  · exact rowSafe_assert _ _ (by decide) (rowSafe_refl r)
  · exact rowSafe_refl r

theorem rowSafe_draw_record (cfg : Config) (r : Renderer) (d : DrawCall) :
    RowSafe r (draw_record cfg r d).1 := by
  unfold draw_record
  dsimp only
  have h5 : RowSafe r
      (if r.framebuffer.color_state = FRAMEBUFFER_CPU
       then r.set_color_state FRAMEBUFFER_STALE_GPU else r) := by
    split_ifs
    · exact rowSafe_set_color_state _ (rowSafe_refl r)
    · exact rowSafe_refl r
  generalize (if r.framebuffer.color_state = FRAMEBUFFER_CPU
    then r.set_color_state FRAMEBUFFER_STALE_GPU else r) = r5 at h5
  have h6 : RowSafe r
      (if r5.framebuffer.depth_state = FRAMEBUFFER_CPU ∧
          (build_attr cfg d.prim d.attr r.state.primitive_z).2.1 &&&
            (cfg.RDP_FLAG_Z_UPDATE ||| cfg.RDP_FLAG_Z_COMPARE) ≠ 0
       then r5.set_depth_state FRAMEBUFFER_STALE_GPU else r5) := by
    split_ifs
    · exact rowSafe_set_depth_state _ h5
    · exact h5
  exact rowSafe_same rfl (rowSafe_trans h6 (rowSafe_draw_combiner cfg _ _))

/-- The part of `draw_primitive` after the assertions on the tile rows logs no failure of the
assertion of line 624. -/
theorem rowSafe_draw_rest (cfg : Config) (r : Renderer) (d : DrawCall) :
    RowSafe (draw_begin cfg r d) (draw_primitive cfg r d) := by
  unfold draw_primitive
  dsimp only
  have hbin := binOnly_bin_tiles cfg d.prim
      (clip_scissor r.scissor d.min_x d.max_x d.min_y d.max_y).1
      (clip_scissor r.scissor d.min_x d.max_x d.min_y d.max_y).2.1
      (clip_scissor r.scissor d.min_x d.max_x d.min_y d.max_y).2.2.1
      (clip_scissor r.scissor d.min_x d.max_x d.min_y d.max_y).2.2.2
      (draw_begin cfg r d).primitive_data.length
      (max (Int.tdiv (clip_scissor r.scissor d.min_x d.max_x d.min_y d.max_y).1 cfg.TILE_SIZE_X) 0)
      (min (Int.tdiv (clip_scissor r.scissor d.min_x d.max_x d.min_y d.max_y).2.1 cfg.TILE_SIZE_X)
        (((draw_begin cfg r d).tiles_x : Int) - 1))
      (Int.tdiv (clip_scissor r.scissor d.min_x d.max_x d.min_y d.max_y).2.2.1 cfg.TILE_SIZE_Y)
      (Int.tdiv (clip_scissor r.scissor d.min_x d.max_x d.min_y d.max_y).2.2.2 cfg.TILE_SIZE_Y)
      (draw_record cfg (draw_begin cfg r d) d)
  generalize (bin_tiles cfg d.prim _ _ _ _ _ _ _ _ _ (draw_record cfg (draw_begin cfg r d) d))
    = binned at hbin ⊢
  have hb : RowSafe (draw_begin cfg r d) binned.1 :=
    rowSafe_same (by rw [hbin]) (rowSafe_draw_record cfg (draw_begin cfg r d) d)
  split_ifs
  · exact rowSafe_trans hb (rowSafe_flush_tile_lists cfg _)
  · exact hb

/-- The first part of `draw_primitive` logs no failure of the assertion of line 624 when the
asserted inequality holds of the renderer it returns. -/
theorem rowSafe_draw_begin (cfg : Config) (r : Renderer) (d : DrawCall)
    (h : Int.tdiv (clip_scissor r.scissor d.min_x d.max_x d.min_y d.max_y).2.2.2
      cfg.TILE_SIZE_Y < ((draw_begin cfg r d).tiles_y : Int)) :
    RowSafe r (draw_begin cfg r d) := by
  have hk := (gridKept_draw_begin cfg r d).2.2.2.1
  unfold draw_begin at h hk ⊢
  dsimp only at h hk ⊢
  have h1 : RowSafe r
      (if (clip_scissor r.scissor d.min_x d.max_x d.min_y d.max_y).2.2.2
          ≥ (r.framebuffer.allocated_height : Int)
       then set_framebuffer_size cfg r r.framebuffer.allocated_width
         ((clip_scissor r.scissor d.min_x d.max_x d.min_y d.max_y).2.2.2 + 1).toNat
       else r) := by
    split_ifs
    · exact rowSafe_set_framebuffer_size cfg _ _ _
    · exact rowSafe_refl r
  generalize (if (clip_scissor r.scissor d.min_x d.max_x d.min_y d.max_y).2.2.2
          ≥ (r.framebuffer.allocated_height : Int)
       then set_framebuffer_size cfg r r.framebuffer.allocated_width
         ((clip_scissor r.scissor d.min_x d.max_x d.min_y d.max_y).2.2.2 + 1).toNat
       else r) = r1 at h hk h1 ⊢
  have h3 : RowSafe r ((update_tiles cfg r1 d.tile_mask d.dirty_tiles).assert 620
      (decide (Int.tdiv (clip_scissor r.scissor d.min_x d.max_x d.min_y d.max_y).2.2.1
        cfg.TILE_SIZE_Y ≥ 0))) := by
    refine rowSafe_assert _ _ (by decide) (rowSafe_trans h1 ?_)
    rw [update_tiles_frame]
    exact rowSafe_same rfl (rowSafe_refl _)
  generalize ((update_tiles cfg r1 d.tile_mask d.dirty_tiles).assert 620
      (decide (Int.tdiv (clip_scissor r.scissor d.min_x d.max_x d.min_y d.max_y).2.2.1
        cfg.TILE_SIZE_Y ≥ 0))) = r3 at h hk h3 ⊢
  have hc : decide (Int.tdiv (clip_scissor r.scissor d.min_x d.max_x d.min_y d.max_y).2.2.2
      cfg.TILE_SIZE_Y < (r3.tiles_y : Int)) = true := by
    rw [decide_eq_true_eq]
    have e : (r3.assert 624 (decide (Int.tdiv
        (clip_scissor r.scissor d.min_x d.max_x d.min_y d.max_y).2.2.2 cfg.TILE_SIZE_Y
          < (r3.tiles_y : Int)))).tiles_y = r3.tiles_y := (gridKept_assert _ _ _).2.2.2.1
    rw [e] at h
    exact h
  rw [hc]
  exact h3

/-! ## The tile rows and the tile indices of a draw -/

theorem tdiv_natCast (a : Int) (n : Nat) (ha : 0 ≤ a) :
    Int.tdiv a (n : Int) = ((a.toNat / n : Nat) : Int) := by
  obtain ⟨m, rfl⟩ := Int.eq_ofNat_of_zero_le ha
  rw [Int.toNat_ofNat]
  rfl

/-- The row of the last scanline of the box lies inside the grid after the growth step. -/
theorem draw_begin_rows (cfg : Config) (r : Renderer) (d : DrawCall)
    (hy : 0 < cfg.TILE_SIZE_Y) (hg : GridInv cfg r)
    (hmax : 0 ≤ (clip_scissor r.scissor d.min_x d.max_x d.min_y d.max_y).2.2.2) :
    Int.tdiv (clip_scissor r.scissor d.min_x d.max_x d.min_y d.max_y).2.2.2 cfg.TILE_SIZE_Y
      < ((draw_begin cfg r d).tiles_y : Int) := by
  have hk := gridKept_draw_begin cfg r d
  rw [hk.2.2.2.1, tdiv_natCast _ _ hmax]
  generalize hm : (clip_scissor r.scissor d.min_x d.max_x d.min_y d.max_y).2.2.2 = max_y at *
  obtain ⟨m, rfl⟩ := Int.eq_ofNat_of_zero_le hmax
  have hstep : m / cfg.TILE_SIZE_Y < (m + cfg.TILE_SIZE_Y) / cfg.TILE_SIZE_Y := by
    rw [Nat.add_div_right _ hy]
    exact Nat.lt_succ_self _
  norm_cast
  split_ifs with hge
  · show m / cfg.TILE_SIZE_Y < (m + 1 + cfg.TILE_SIZE_Y - 1) / cfg.TILE_SIZE_Y
    have e2 : m + 1 + cfg.TILE_SIZE_Y - 1 = m + cfg.TILE_SIZE_Y := by omega
    rw [e2]
    exact hstep
  · rw [hg.2.1]
    exact lt_of_lt_of_le hstep (Nat.div_le_div_right (by omega))

theorem tile_index_in_range (tx ty : Nat) (x y lo hi top : Int)
    (hlo : 0 ≤ lo) (hx : lo ≤ x ∧ x ≤ min hi ((tx : Int) - 1))
    (hy : 0 ≤ y ∧ y ≤ top) (htop : top < (ty : Int)) :
    0 ≤ y * (tx : Int) + x ∧ y * (tx : Int) + x < ((tx * ty : Nat) : Int) := by
  have hx2 : x ≤ (tx : Int) - 1 := le_trans hx.2 (min_le_right _ _)
  have hx0 : 0 ≤ x := le_trans hlo hx.1
  have htx : (0 : Int) ≤ (tx : Int) := Int.ofNat_nonneg tx
  have h1 : 0 ≤ y * (tx : Int) := mul_nonneg hy.1 htx
  have hy2 : y + 1 ≤ (ty : Int) := by omega
  have h2 : (y + 1) * (tx : Int) ≤ (ty : Int) * (tx : Int) :=
    mul_le_mul_of_nonneg_right hy2 htx
  constructor
  · omega
  · push_cast
    have h3 : (y + 1) * (tx : Int) = y * (tx : Int) + (tx : Int) := by ring
    have h4 : (tx : Int) * (ty : Int) = (ty : Int) * (tx : Int) := by ring
    rw [h4]
    omega

/-- C26: a `draw_primitive` call made in a reachable state, with a positive tile height and a
clipped bounding box whose `min_y` and `max_y` are not negative.  The grid fits the allocated
surface at the call and still does after the growth step (`tiles_y` is the allocated height
divided by `TILE_SIZE_Y`, rounded up, and there are `tiles_x * tiles_y` tile lists); the
asserted inequality `max_tile_y < tiles_y` holds and the call logs no failure of that
assertion (line 624); the second part of the call and the binning loops keep `tiles_x` and
the number of tile lists; and for every tile `(x, y)` of the binning loops the index
`y * tiles_x + x` is at least 0 and smaller than the number of tile lists. -/
theorem draw_primitive_tile_index_in_range (cfg : Config) (ops : List Op) (r : Renderer)
    (d : DrawCall) (hr : r = run cfg (Renderer.init cfg) ops) (hy : 0 < cfg.TILE_SIZE_Y)
    (hmin : 0 ≤ (clip_scissor r.scissor d.min_x d.max_x d.min_y d.max_y).2.2.1)
    (hmax : 0 ≤ (clip_scissor r.scissor d.min_x d.max_x d.min_y d.max_y).2.2.2) :
    GridInv cfg r ∧ GridInv cfg (draw_begin cfg r d) ∧
    Int.tdiv (clip_scissor r.scissor d.min_x d.max_x d.min_y d.max_y).2.2.2 cfg.TILE_SIZE_Y
      < ((draw_begin cfg r d).tiles_y : Int) ∧
    RowSafe r (draw_primitive cfg r d) ∧
    GridKept (draw_begin cfg r d) (draw_record cfg (draw_begin cfg r d) d).1 ∧
    GridKept (draw_begin cfg r d) (draw_primitive cfg r d) ∧
    (draw_begin cfg r d).tile_lists.length
      = (draw_begin cfg r d).tiles_x * (draw_begin cfg r d).tiles_y ∧
    ∀ y x : Int,
      y ∈ int_range
        (Int.tdiv (clip_scissor r.scissor d.min_x d.max_x d.min_y d.max_y).2.2.1 cfg.TILE_SIZE_Y)
        (Int.tdiv (clip_scissor r.scissor d.min_x d.max_x d.min_y d.max_y).2.2.2
          cfg.TILE_SIZE_Y) →
      x ∈ int_range
        (max (Int.tdiv (clip_scissor r.scissor d.min_x d.max_x d.min_y d.max_y).1
          cfg.TILE_SIZE_X) 0)
        (min (Int.tdiv (clip_scissor r.scissor d.min_x d.max_x d.min_y d.max_y).2.1
          cfg.TILE_SIZE_X) (((draw_begin cfg r d).tiles_x : Int) - 1)) →
      0 ≤ y * ((draw_begin cfg r d).tiles_x : Int) + x ∧
      y * ((draw_begin cfg r d).tiles_x : Int) + x
        < ((draw_begin cfg r d).tile_lists.length : Int) := by
  have hg : GridInv cfg r := by rw [hr]; exact gridInv_run cfg ops
  have hg4 := gridInv_draw_begin cfg r d hg
  have hrow := draw_begin_rows cfg r d hy hg hmax
  refine ⟨hg, hg4, hrow,
    rowSafe_trans (rowSafe_draw_begin cfg r d hrow) (rowSafe_draw_rest cfg r d),
    gridKept_draw_record cfg _ d, gridKept_draw_rest cfg r d, hg4.2.2, ?_⟩
  intro y x hyr hxr
  rw [mem_int_range] at hyr hxr
  rw [hg4.2.2]
  have hmt : 0 ≤ Int.tdiv (clip_scissor r.scissor d.min_x d.max_x d.min_y d.max_y).2.2.1
      cfg.TILE_SIZE_Y := by
    rw [tdiv_natCast _ _ hmin]
    exact Int.ofNat_nonneg _
  exact tile_index_in_range _ _ x y _ _ _ (le_max_right _ _) hxr
    ⟨le_trans hmt hyr.1, hyr.2⟩ hrow

set_option maxRecDepth 100000 in
/-- C26, instance: under the sample configuration (8 by 8 tiles) a rectangle on the scanlines
0 to 20 is drawn on a surface of 16 allocated rows.  The clipped box ends on scanline 20; the
surface is grown to 21 rows, which makes 3 tile rows and 6 tile lists; the last tile row of
the box is row 2; and the index of tile `(1, 2)` is 5. -/
theorem draw_primitive_tile_index_in_range_witness :
    (clip_scissor (run Config.sample (Renderer.init Config.sample) tall_scissor_ops).scissor
      0 3 0 20).2.2.2 = 20 ∧
    (run Config.sample (Renderer.init Config.sample) tall_scissor_ops).framebuffer.allocated_height
      = 16 ∧
    (draw_begin Config.sample (run Config.sample (Renderer.init Config.sample) tall_scissor_ops)
      (rect_draw 0 3 0 20)).framebuffer.allocated_height = 21 ∧
    (draw_begin Config.sample (run Config.sample (Renderer.init Config.sample) tall_scissor_ops)
      (rect_draw 0 3 0 20)).tile_lists.length = 6 ∧
    Int.tdiv (clip_scissor
        (run Config.sample (Renderer.init Config.sample) tall_scissor_ops).scissor
        (rect_draw 0 3 0 20).min_x (rect_draw 0 3 0 20).max_x (rect_draw 0 3 0 20).min_y
        (rect_draw 0 3 0 20).max_y).2.2.2 Config.sample.TILE_SIZE_Y
      < ((draw_begin Config.sample
          (run Config.sample (Renderer.init Config.sample) tall_scissor_ops)
          (rect_draw 0 3 0 20)).tiles_y : Int) ∧
    RowSafe (run Config.sample (Renderer.init Config.sample) tall_scissor_ops)
      (draw_primitive Config.sample
        (run Config.sample (Renderer.init Config.sample) tall_scissor_ops)
        (rect_draw 0 3 0 20)) :=
  ⟨by decide, by decide, by decide, by decide,
   (draw_primitive_tile_index_in_range Config.sample tall_scissor_ops _ (rect_draw 0 3 0 20) rfl
     (by decide) (by decide) (by decide)).2.2.1,
   (draw_primitive_tile_index_in_range Config.sample tall_scissor_ops _ (rect_draw 0 3 0 20) rfl
     (by decide) (by decide) (by decide)).2.2.2.1⟩

end RDP

namespace RDP

/-! ## The node pool and the work items -/

theorem poolShape_mono (cfg : Config) {nodes : List TileNode} {work : List BufferWorkDescriptor}
    {tile_count P P' : Nat} (h : PoolShape cfg nodes work tile_count P) (hP : P ≤ P') :
    PoolShape cfg nodes work tile_count P' :=
  ⟨h.1, h.2.1, fun i n w hn hw => ⟨(h.2.2 i n w hn hw).1, Nat.lt_of_lt_of_le (h.2.2 i n w hn hw).2 hP⟩⟩

theorem poolShape_nil (cfg : Config) (P : Nat) : PoolShape cfg [] [] 0 P :=
  ⟨rfl, rfl, fun i n w hn _ => by simp at hn⟩

theorem poolStep_refl (cfg : Config) (r : Renderer) : PoolStep cfg r r :=
  fun h => ⟨h, [], by simp, by intro b hb; cases hb⟩

theorem poolStep_trans {cfg : Config} {a b c : Renderer} (h1 : PoolStep cfg a b)
    (h2 : PoolStep cfg b c) : PoolStep cfg a c := by
  intro h
  obtain ⟨i1, es1, e1, f1⟩ := h1 h
  obtain ⟨i2, es2, e2, f2⟩ := h2 i1
  refine ⟨i2, es1 ++ es2, by rw [e2, e1, List.append_assoc], ?_⟩
  intro x hx
  rcases List.mem_append.mp hx with hx | hx
  · exact f1 x hx
  · exact f2 x hx

/-- A change that leaves the pool, the work items and `tile_count` alone, does not drop a
record and appends no batch upload to the log. -/
theorem poolStep_of_fields {cfg : Config} {r r' : Renderer}
    (hl : ∃ es, r'.log = r.log ++ es ∧ NoFlush es)
    (hn : r'.tile_nodes = r.tile_nodes) (hw : r'.work_data = r.work_data)
    (ht : r'.tile_count = r.tile_count)
    (hp : r.primitive_data.length ≤ r'.primitive_data.length) : PoolStep cfg r r' := by
  intro h
  obtain ⟨es, hl, hes⟩ := hl
  refine ⟨?_, es, hl, fun b hb => absurd rfl (hes _ hb b)⟩
  unfold PoolInv at *
  rw [hn, hw, ht]
  exact poolShape_mono cfg h hp

theorem poolStep_of_residencyOnly {cfg : Config} {r r' : Renderer} (h : ResidencyOnly r r')
    (hl : ∃ es, r'.log = r.log ++ es ∧ NoFlush es) : PoolStep cfg r r' :=
  poolStep_of_fields hl (by rw [h]) (by rw [h]) (by rw [h]) (by rw [h])

theorem poolStep_flush_tile_lists (cfg : Config) (r : Renderer) :
    PoolStep cfg r (flush_tile_lists cfg r) := by
  unfold flush_tile_lists
  by_cases hc : (r.primitive_data.isEmpty || r.work_data.isEmpty) = true
  · rw [if_pos hc]
    exact poolStep_refl cfg r
  · rw [if_neg hc]
    dsimp only
    intro h
    have hres : ResidencyOnly r (sync_depth_dram_to_gpu (sync_color_dram_to_gpu
        (begin_command_buffer r))) :=
      residencyOnly_sync_depth_dram_to_gpu (residencyOnly_sync_color_dram_to_gpu
        (residencyOnly_begin_command_buffer (residencyOnly_refl r)))
    obtain ⟨es, hl, hes⟩ := log_sync_depth_dram_to_gpu (log_sync_color_dram_to_gpu
      (log_begin_command_buffer (log_refl r)))
    generalize sync_depth_dram_to_gpu (sync_color_dram_to_gpu (begin_command_buffer r)) = r3
      at hres hl
    have h1 : r3.tile_nodes = r.tile_nodes := by rw [hres]
    have h2 : r3.work_data = r.work_data := by rw [hres]
    have h3 : r3.tile_count = r.tile_count := by rw [hres]
    have h4 : r3.primitive_data = r.primitive_data := by rw [hres]
    refine ⟨poolShape_nil cfg _, es ++ [Event.flush
      { primitives := r3.primitive_data, heads := r3.tile_lists.map (fun t => t.head),
        nodes := r3.tile_nodes, combiners := r3.combiner_data, work := r3.work_data,
        tile_count := r3.tile_count, resolved := r3.ghost_resolved }], ?_, ?_⟩
    · simp only [reset_buffers, Renderer.emit, hl, List.append_assoc]
    · intro b hb
      rcases List.mem_append.mp hb with hb | hb
      · exact absurd rfl (hes _ hb b)
      · simp only [List.mem_singleton, Event.flush.injEq] at hb
        rw [hb]
        show PoolShape cfg r3.tile_nodes r3.work_data r3.tile_count r3.primitive_data.length
        rw [h1, h2, h3, h4]
        exact h

theorem poolStep_sync_gpu_to_dram (cfg : Config) (r : Renderer) (blocking : Bool) :
    PoolStep cfg r (sync_gpu_to_dram r blocking) :=
  poolStep_of_residencyOnly (residencyOnly_sync_gpu_to_dram blocking (residencyOnly_refl r))
    (log_sync_gpu_to_dram blocking (log_refl r))

theorem poolStep_sync_full (cfg : Config) (r : Renderer) : PoolStep cfg r (sync_full cfg r) := by
  unfold sync_full
  dsimp only
  refine poolStep_trans ?_ (poolStep_sync_gpu_to_dram cfg _ _)
  refine poolStep_trans ?_ (poolStep_flush_tile_lists cfg _)
  exact poolStep_of_residencyOnly
    (residencyOnly_push_ledger _ (residencyOnly_foldl_sync _ (residencyOnly_refl r)))
    (log_foldl_sync r.async_transfers (log_refl r))

theorem poolStep_complete_frame (cfg : Config) (r : Renderer) (synchronous : Bool) :
    PoolStep cfg r (complete_frame cfg r synchronous) := by
  unfold complete_frame
  split_ifs
  · exact poolStep_sync_full cfg r
  · exact poolStep_trans (poolStep_flush_tile_lists cfg r) (poolStep_sync_gpu_to_dram cfg _ _)

theorem poolStep_set_framebuffer_size (cfg : Config) (r : Renderer) (width height : Nat) :
    PoolStep cfg r (set_framebuffer_size cfg r width height) := by
  unfold set_framebuffer_size
  have h1 : PoolStep cfg r
      (if r.framebuffer.color_state = FRAMEBUFFER_GPU ∨ r.framebuffer.depth_state = FRAMEBUFFER_GPU
       then sync_full cfg r else r) := by
    split_ifs
    · exact poolStep_sync_full cfg r
    · exact poolStep_refl cfg r
  refine poolStep_trans h1 ?_
  generalize (if r.framebuffer.color_state = FRAMEBUFFER_GPU ∨
    r.framebuffer.depth_state = FRAMEBUFFER_GPU then sync_full cfg r else r) = r1
  dsimp only
  refine poolStep_of_fields (log_assert _ _ (log_same rfl (log_refl r1))) ?_ ?_ ?_ ?_ <;>
    rw [assert_eq]

theorem poolStep_set_depth_image (cfg : Config) (r : Renderer) (addr : Nat)
    (synchronous : Bool) : PoolStep cfg r (set_depth_image cfg r addr synchronous) := by
  unfold set_depth_image
  split_ifs
  · exact poolStep_refl cfg r
  · exact poolStep_trans (poolStep_complete_frame cfg r synchronous)
      (poolStep_of_fields (log_same rfl (log_refl _)) rfl rfl rfl (Nat.le_refl _))
  · exact poolStep_of_fields (log_same rfl (log_refl _)) rfl rfl rfl (Nat.le_refl _)

theorem poolStep_set_color_image (cfg : Config) (r : Renderer)
    (addr format pixel_size width : Nat) (synchronous : Bool) :
    PoolStep cfg r (set_color_image cfg r addr format pixel_size width synchronous) := by
  unfold set_color_image
  have h2 : PoolStep cfg r
      { complete_frame cfg r synchronous with framebuffer :=
        { (complete_frame cfg r synchronous).framebuffer with
          addr := addr, format := format, width := width, pixel_size := pixel_size } } :=
    poolStep_trans (poolStep_complete_frame cfg r synchronous)
      (poolStep_of_fields (log_same rfl (log_refl _)) rfl rfl rfl (Nat.le_refl _))
  dsimp only
  split_ifs
  all_goals first
    | exact poolStep_refl cfg r
    | exact h2
    | exact poolStep_trans h2 (poolStep_set_framebuffer_size cfg _ _ _)

theorem poolStep_draw_begin (cfg : Config) (r : Renderer) (d : DrawCall) :
    PoolStep cfg r (draw_begin cfg r d) := by
  unfold draw_begin
  dsimp only
  have h1 : PoolStep cfg r
      (if (clip_scissor r.scissor d.min_x d.max_x d.min_y d.max_y).2.2.2
          ≥ (r.framebuffer.allocated_height : Int)
       then set_framebuffer_size cfg r r.framebuffer.allocated_width
         ((clip_scissor r.scissor d.min_x d.max_x d.min_y d.max_y).2.2.2 + 1).toNat
       else r) := by
    split_ifs
    · exact poolStep_set_framebuffer_size cfg r _ _
    · exact poolStep_refl cfg r
  refine poolStep_trans h1 (poolStep_of_fields
    (log_assert _ _ (log_assert _ _ (log_same ?_ (log_refl _)))) ?_ ?_ ?_ ?_)
  · rw [update_tiles_frame]
  all_goals rw [assert_eq, assert_eq, update_tiles_frame]

theorem draw_combiner_log (cfg : Config) (r : Renderer) (cycle_type : Nat) :
    ∃ es, (draw_combiner cfg r cycle_type).1.log = r.log ++ es ∧ NoFlush es := by
  unfold draw_combiner
  dsimp only
  split_ifs
  · refine log_assert _ _ (log_same ?_ (log_refl r))
    split <;> rfl
  · exact log_assert _ _ (log_refl r)
  · exact log_refl r

theorem draw_combiner_tile_count (cfg : Config) (r : Renderer) (cycle_type : Nat) :
    (draw_combiner cfg r cycle_type).1.tile_count = r.tile_count := by
  unfold draw_combiner
  dsimp only
  split_ifs
  · rw [assert_eq]
    split <;> rfl
  · rw [assert_eq]
  · rfl

theorem draw_record_log (cfg : Config) (r : Renderer) (d : DrawCall) :
    ∃ es, (draw_record cfg r d).1.log = r.log ++ es ∧ NoFlush es := by
  unfold draw_record
  dsimp only
  have h5 : ∃ es, (if r.framebuffer.color_state = FRAMEBUFFER_CPU
       then r.set_color_state FRAMEBUFFER_STALE_GPU else r).log = r.log ++ es ∧ NoFlush es := by
    split_ifs
    · exact log_set_color_state _ (log_refl r)
    · exact log_refl r
  generalize (if r.framebuffer.color_state = FRAMEBUFFER_CPU
    then r.set_color_state FRAMEBUFFER_STALE_GPU else r) = r5 at h5
  have h6 : ∃ es, (if r5.framebuffer.depth_state = FRAMEBUFFER_CPU ∧
          (build_attr cfg d.prim d.attr r.state.primitive_z).2.1 &&&
            (cfg.RDP_FLAG_Z_UPDATE ||| cfg.RDP_FLAG_Z_COMPARE) ≠ 0
       then r5.set_depth_state FRAMEBUFFER_STALE_GPU else r5).log = r.log ++ es ∧ NoFlush es := by
    split_ifs
    · exact log_set_depth_state _ h5
    · exact h5
  generalize (if r5.framebuffer.depth_state = FRAMEBUFFER_CPU ∧
      (build_attr cfg d.prim d.attr r.state.primitive_z).2.1 &&&
        (cfg.RDP_FLAG_Z_UPDATE ||| cfg.RDP_FLAG_Z_COMPARE) ≠ 0
    then r5.set_depth_state FRAMEBUFFER_STALE_GPU else r5) = r6 at h6
  obtain ⟨es6, l6, q6⟩ := h6
  obtain ⟨es7, l7, q7⟩ := draw_combiner_log cfg r6
    ((d.prim.flags >>> cfg.RDP_FLAG_CYCLE_TYPE_SHIFT) &&& 3)
  refine ⟨es6 ++ es7, ?_, noFlush_append q6 q7⟩
  show (draw_combiner cfg r6 _).1.log = _
  rw [l7, l6, List.append_assoc]

theorem draw_record_tile_count (cfg : Config) (r : Renderer) (d : DrawCall) :
    (draw_record cfg r d).1.tile_count = r.tile_count := by
  unfold draw_record
  dsimp only
  show (draw_combiner cfg _ _).1.tile_count = _
  rw [draw_combiner_tile_count]
  split_ifs <;> rfl

theorem poolStep_draw_record (cfg : Config) (r : Renderer) (d : DrawCall) :
    PoolStep cfg r (draw_record cfg r d).1 := by
  obtain ⟨_, hnodes, hwork, _, hplen, _⟩ := draw_record_batch cfg r d
  exact poolStep_of_fields (draw_record_log cfg r d) hnodes hwork
    (draw_record_tile_count cfg r d) (by omega)

end RDP

namespace RDP

/-! ## The pool through the binning loops -/

theorem getElem?_snoc_cases {α : Type} (l : List α) (a x : α) (i : Nat)
    (h : (l ++ [a])[i]? = some x) :
    (i < l.length ∧ l[i]? = some x) ∨ (i = l.length ∧ x = a) := by
  by_cases hi : i < l.length
  · rw [List.getElem?_append_left hi] at h
    exact Or.inl ⟨hi, h⟩
  · by_cases h0 : i = l.length
    · subst h0
      simp only [List.getElem?_concat_length, Option.some.injEq] at h
      exact Or.inr ⟨rfl, h.symm⟩
    · rw [List.getElem?_eq_none (by simp; omega)] at h
      cases h

/-- The pool after `append_tile_list`: the nodes before, with their values, and one more node
with the packed word. -/
theorem append_tile_list_pool (cfg : Config) (r : Renderer) (idx : Int) (primitive tile : Nat) :
    (∃ M : List TileNode,
      (append_tile_list cfg r idx primitive tile).tile_nodes = M ++
        [{ value := u32 (primitive ||| (tile <<< cfg.RDP_MAX_PRIMITIVES_LOG2)),
           next := SENTINEL }] ∧
      M.length = r.tile_nodes.length ∧
      ∀ (i : Nat) (n : TileNode), M[i]? = some n →
        ∃ n0, r.tile_nodes[i]? = some n0 ∧ n.value = n0.value) ∧
    (append_tile_list cfg r idx primitive tile).tile_count = r.tile_count := by
  unfold append_tile_list
  dsimp only
  split_ifs
  · exact ⟨⟨r.tile_nodes, rfl, rfl, fun i n hn => ⟨n, hn, rfl⟩⟩, rfl⟩
  · refine ⟨⟨_, rfl, List.length_modify _ _ _, ?_⟩, rfl⟩
    intro i n hn
    rw [List.getElem?_modify] at hn
    cases h0 : r.tile_nodes[i]? with
    | none => rw [h0] at hn; cases hn
    | some n0 =>
      rw [h0] at hn
      simp only [Option.map_eq_map, Option.map_some', Option.some.injEq] at hn
      refine ⟨n0, rfl, ?_⟩
      rw [← hn]
      split_ifs <;> rfl

theorem poolShape_bin_tile (cfg : Config) (prim : Primitive) (min_x max_x min_y max_y : Int)
    (P : Nat) (y : Int) (acc : Renderer × Bool) (x : Int)
    (h : PoolShape cfg acc.1.tile_nodes acc.1.work_data acc.1.tile_count (P + 1)) :
    PoolShape cfg (bin_tile cfg prim min_x max_x min_y max_y P y acc x).1.tile_nodes
      (bin_tile cfg prim min_x max_x min_y max_y P y acc x).1.work_data
      (bin_tile cfg prim min_x max_x min_y max_y P y acc x).1.tile_count (P + 1) := by
  unfold bin_tile
  dsimp only
  split_ifs
  · obtain ⟨⟨M, hM, hlen, hval⟩, htc⟩ := append_tile_list_pool cfg
      { acc.1 with raster_tile_count := acc.1.raster_tile_count + 1 }
      (y * acc.1.tiles_x + x) P acc.1.tile_count
    have hwd := append_tile_list_work_data cfg
      { acc.1 with raster_tile_count := acc.1.raster_tile_count + 1 }
      (y * acc.1.tiles_x + x) P acc.1.tile_count
    dsimp only at hM hlen hval htc hwd ⊢
    obtain ⟨h1, h2, h3⟩ := h
    rw [hM, hwd, htc]
    refine ⟨by simp [hlen, h1], by simp [h2], ?_⟩
    intro i n w hn hw
    rcases getElem?_snoc_cases _ _ _ _ hn with ⟨hi, hn1⟩ | ⟨hi, hn1⟩
    · rcases getElem?_snoc_cases _ _ _ _ hw with ⟨_, hw1⟩ | ⟨hj, _⟩
      · obtain ⟨n0, hn0, hv⟩ := hval i n hn1
        rw [hv]
        exact h3 i n0 w hn0 hw1
      · omega
    · rcases getElem?_snoc_cases _ _ _ _ hw with ⟨hj, _⟩ | ⟨_, hw1⟩
      · omega
      · rw [hn1, hw1, hi, hlen, h1]
        exact ⟨rfl, Nat.lt_succ_self P⟩
  · exact h

theorem bin_tile_primitive_data (cfg : Config) (prim : Primitive)
    (min_x max_x min_y max_y : Int) (P : Nat) (y : Int) (acc : Renderer × Bool) (x : Int) :
    (bin_tile cfg prim min_x max_x min_y max_y P y acc x).1.primitive_data
      = acc.1.primitive_data := by
  rw [binOnly_bin_tile cfg prim min_x max_x min_y max_y P y acc x]

/-- The flag of the loops is raised or the number of bound tiles is within the capacity. -/
theorem bin_tile_count (cfg : Config) (prim : Primitive) (min_x max_x min_y max_y : Int)
    (P : Nat) (y : Int) (acc : Renderer × Bool) (x : Int)
    (h : acc.2 = true ∨ acc.1.tile_count ≤ cfg.FlushBufferTileCount) :
    (bin_tile cfg prim min_x max_x min_y max_y P y acc x).2 = true ∨
    (bin_tile cfg prim min_x max_x min_y max_y P y acc x).1.tile_count
      ≤ cfg.FlushBufferTileCount := by
  unfold bin_tile
  dsimp only
  split_ifs
  · have htc := (append_tile_list_pool cfg
      { acc.1 with raster_tile_count := acc.1.raster_tile_count + 1 }
      (y * acc.1.tiles_x + x) P acc.1.tile_count).2
    dsimp only at htc ⊢
    rw [htc]
    by_cases hc : acc.1.tile_count + 1 > cfg.FlushBufferTileCount
    · left
      simp [hc]
    · right
      omega
  · exact h

theorem bin_tiles_pool (cfg : Config) (prim : Primitive) (min_x max_x min_y max_y : Int)
    (P : Nat) (min_tile_x max_tile_x min_tile_y max_tile_y : Int) (acc : Renderer × Bool)
    (h : PoolShape cfg acc.1.tile_nodes acc.1.work_data acc.1.tile_count (P + 1)) :
    PoolShape cfg
      (bin_tiles cfg prim min_x max_x min_y max_y P
        min_tile_x max_tile_x min_tile_y max_tile_y acc).1.tile_nodes
      (bin_tiles cfg prim min_x max_x min_y max_y P
        min_tile_x max_tile_x min_tile_y max_tile_y acc).1.work_data
      (bin_tiles cfg prim min_x max_x min_y max_y P
        min_tile_x max_tile_x min_tile_y max_tile_y acc).1.tile_count (P + 1) := by
  unfold bin_tiles
  have row : ∀ (y : Int) (xs : List Int) (acc : Renderer × Bool),
      PoolShape cfg acc.1.tile_nodes acc.1.work_data acc.1.tile_count (P + 1) →
      PoolShape cfg
        (xs.foldl (bin_tile cfg prim min_x max_x min_y max_y P y) acc).1.tile_nodes
        (xs.foldl (bin_tile cfg prim min_x max_x min_y max_y P y) acc).1.work_data
        (xs.foldl (bin_tile cfg prim min_x max_x min_y max_y P y) acc).1.tile_count (P + 1) := by
    intro y xs
    induction xs with
    | nil => intro acc h; exact h
    | cons x xs ih =>
      intro acc h
      rw [List.foldl_cons]
      exact ih _ (poolShape_bin_tile cfg prim _ _ _ _ P y acc x h)
  generalize int_range min_tile_y max_tile_y = ys
  induction ys generalizing acc with
  | nil => exact h
  | cons y ys ih =>
    rw [List.foldl_cons]
    exact ih _ (row y (int_range min_tile_x max_tile_x) acc h)

theorem bin_tiles_count (cfg : Config) (prim : Primitive) (min_x max_x min_y max_y : Int)
    (P : Nat) (min_tile_x max_tile_x min_tile_y max_tile_y : Int) (acc : Renderer × Bool)
    (hc : acc.2 = true ∨ acc.1.tile_count ≤ cfg.FlushBufferTileCount) :
    (bin_tiles cfg prim min_x max_x min_y max_y P
        min_tile_x max_tile_x min_tile_y max_tile_y acc).2 = true ∨
      (bin_tiles cfg prim min_x max_x min_y max_y P
        min_tile_x max_tile_x min_tile_y max_tile_y acc).1.tile_count
        ≤ cfg.FlushBufferTileCount := by
  unfold bin_tiles
  have row : ∀ (y : Int) (xs : List Int) (acc : Renderer × Bool),
      (acc.2 = true ∨ acc.1.tile_count ≤ cfg.FlushBufferTileCount) →
      ((xs.foldl (bin_tile cfg prim min_x max_x min_y max_y P y) acc).2 = true ∨
        (xs.foldl (bin_tile cfg prim min_x max_x min_y max_y P y) acc).1.tile_count
          ≤ cfg.FlushBufferTileCount) := by
    intro y xs
    induction xs with
    | nil => intro acc hc; exact hc
    | cons x xs ih =>
      intro acc hc
      rw [List.foldl_cons]
      exact ih _ (bin_tile_count cfg prim _ _ _ _ P y acc x hc)
  generalize int_range min_tile_y max_tile_y = ys
  induction ys generalizing acc with
  | nil => exact hc
  | cons y ys ih =>
    rw [List.foldl_cons]
    exact ih _ (row y (int_range min_tile_x max_tile_x) acc hc)

/-! ## The pool through a draw and along a run -/

/-- What a draw leaves: the shape of the pool, also in the batch it may upload, and the
bounds. -/
theorem pool_draw_primitive (cfg : Config) (r : Renderer) (d : DrawCall) (h : PoolInv cfg r) :
    (PoolInv cfg (draw_primitive cfg r d) ∧
      ∃ es, (draw_primitive cfg r d).log = r.log ++ es ∧
        ∀ b, Event.flush b ∈ es →
          PoolShape cfg b.nodes b.work b.tile_count b.primitives.length) ∧
    (PoolBounded cfg r → PoolBounded cfg (draw_primitive cfg r d)) := by
  obtain ⟨h4, es4, l4, f4⟩ := poolStep_draw_begin cfg r d h
  obtain ⟨h7, es7, l7, f7⟩ := poolStep_draw_record cfg (draw_begin cfg r d) d h4
  obtain ⟨_, _, _, _, hplen, hflag⟩ := draw_record_batch cfg (draw_begin cfg r d) d
  have htc7 := draw_record_tile_count cfg (draw_begin cfg r d) d
  have hbin := binOnly_bin_tiles cfg d.prim
    (clip_scissor r.scissor d.min_x d.max_x d.min_y d.max_y).1
    (clip_scissor r.scissor d.min_x d.max_x d.min_y d.max_y).2.1
    (clip_scissor r.scissor d.min_x d.max_x d.min_y d.max_y).2.2.1
    (clip_scissor r.scissor d.min_x d.max_x d.min_y d.max_y).2.2.2
    (draw_begin cfg r d).primitive_data.length
    (max (Int.tdiv (clip_scissor r.scissor d.min_x d.max_x d.min_y d.max_y).1 cfg.TILE_SIZE_X) 0)
    (min (Int.tdiv (clip_scissor r.scissor d.min_x d.max_x d.min_y d.max_y).2.1 cfg.TILE_SIZE_X)
      (((draw_begin cfg r d).tiles_x : Int) - 1))
    (Int.tdiv (clip_scissor r.scissor d.min_x d.max_x d.min_y d.max_y).2.2.1 cfg.TILE_SIZE_Y)
    (Int.tdiv (clip_scissor r.scissor d.min_x d.max_x d.min_y d.max_y).2.2.2 cfg.TILE_SIZE_Y)
    (draw_record cfg (draw_begin cfg r d) d)
  have hflagm := bin_tiles_flag cfg d.prim
    (clip_scissor r.scissor d.min_x d.max_x d.min_y d.max_y).1
    (clip_scissor r.scissor d.min_x d.max_x d.min_y d.max_y).2.1
    (clip_scissor r.scissor d.min_x d.max_x d.min_y d.max_y).2.2.1
    (clip_scissor r.scissor d.min_x d.max_x d.min_y d.max_y).2.2.2
    (draw_begin cfg r d).primitive_data.length
    (max (Int.tdiv (clip_scissor r.scissor d.min_x d.max_x d.min_y d.max_y).1 cfg.TILE_SIZE_X) 0)
    (min (Int.tdiv (clip_scissor r.scissor d.min_x d.max_x d.min_y d.max_y).2.1 cfg.TILE_SIZE_X)
      (((draw_begin cfg r d).tiles_x : Int) - 1))
    (Int.tdiv (clip_scissor r.scissor d.min_x d.max_x d.min_y d.max_y).2.2.1 cfg.TILE_SIZE_Y)
    (Int.tdiv (clip_scissor r.scissor d.min_x d.max_x d.min_y d.max_y).2.2.2 cfg.TILE_SIZE_Y)
    (draw_record cfg (draw_begin cfg r d) d)
  have hpool := bin_tiles_pool cfg d.prim
    (clip_scissor r.scissor d.min_x d.max_x d.min_y d.max_y).1
    (clip_scissor r.scissor d.min_x d.max_x d.min_y d.max_y).2.1
    (clip_scissor r.scissor d.min_x d.max_x d.min_y d.max_y).2.2.1
    (clip_scissor r.scissor d.min_x d.max_x d.min_y d.max_y).2.2.2
    (draw_begin cfg r d).primitive_data.length
    (max (Int.tdiv (clip_scissor r.scissor d.min_x d.max_x d.min_y d.max_y).1 cfg.TILE_SIZE_X) 0)
    (min (Int.tdiv (clip_scissor r.scissor d.min_x d.max_x d.min_y d.max_y).2.1 cfg.TILE_SIZE_X)
      (((draw_begin cfg r d).tiles_x : Int) - 1))
    (Int.tdiv (clip_scissor r.scissor d.min_x d.max_x d.min_y d.max_y).2.2.1 cfg.TILE_SIZE_Y)
    (Int.tdiv (clip_scissor r.scissor d.min_x d.max_x d.min_y d.max_y).2.2.2 cfg.TILE_SIZE_Y)
    (draw_record cfg (draw_begin cfg r d) d)
  have hcount := bin_tiles_count cfg d.prim
    (clip_scissor r.scissor d.min_x d.max_x d.min_y d.max_y).1
    (clip_scissor r.scissor d.min_x d.max_x d.min_y d.max_y).2.1
    (clip_scissor r.scissor d.min_x d.max_x d.min_y d.max_y).2.2.1
    (clip_scissor r.scissor d.min_x d.max_x d.min_y d.max_y).2.2.2
    (draw_begin cfg r d).primitive_data.length
    (max (Int.tdiv (clip_scissor r.scissor d.min_x d.max_x d.min_y d.max_y).1 cfg.TILE_SIZE_X) 0)
    (min (Int.tdiv (clip_scissor r.scissor d.min_x d.max_x d.min_y d.max_y).2.1 cfg.TILE_SIZE_X)
      (((draw_begin cfg r d).tiles_x : Int) - 1))
    (Int.tdiv (clip_scissor r.scissor d.min_x d.max_x d.min_y d.max_y).2.2.1 cfg.TILE_SIZE_Y)
    (Int.tdiv (clip_scissor r.scissor d.min_x d.max_x d.min_y d.max_y).2.2.2 cfg.TILE_SIZE_Y)
    (draw_record cfg (draw_begin cfg r d) d)
  have hb4 := bindsNothing_draw_begin cfg r d
  have hc4 := cacheStep_draw_begin cfg r d
  unfold draw_primitive
  dsimp only
  generalize bin_tiles cfg d.prim
    (clip_scissor r.scissor d.min_x d.max_x d.min_y d.max_y).1
    (clip_scissor r.scissor d.min_x d.max_x d.min_y d.max_y).2.1
    (clip_scissor r.scissor d.min_x d.max_x d.min_y d.max_y).2.2.1
    (clip_scissor r.scissor d.min_x d.max_x d.min_y d.max_y).2.2.2
    (draw_begin cfg r d).primitive_data.length
    (max (Int.tdiv (clip_scissor r.scissor d.min_x d.max_x d.min_y d.max_y).1 cfg.TILE_SIZE_X) 0)
    (min (Int.tdiv (clip_scissor r.scissor d.min_x d.max_x d.min_y d.max_y).2.1 cfg.TILE_SIZE_X)
      (((draw_begin cfg r d).tiles_x : Int) - 1))
    (Int.tdiv (clip_scissor r.scissor d.min_x d.max_x d.min_y d.max_y).2.2.1 cfg.TILE_SIZE_Y)
    (Int.tdiv (clip_scissor r.scissor d.min_x d.max_x d.min_y d.max_y).2.2.2 cfg.TILE_SIZE_Y)
    (draw_record cfg (draw_begin cfg r d) d) = binned
    at hbin hflagm hpool hcount
  have hpd : binned.1.primitive_data
      = (draw_record cfg (draw_begin cfg r d) d).1.primitive_data := by rw [hbin]
  have hlog : binned.1.log = (draw_record cfg (draw_begin cfg r d) d).1.log := by rw [hbin]
  have hshape : PoolInv cfg binned.1 := by
    unfold PoolInv at h7 ⊢
    rw [hpd, hplen]
    rw [hplen] at h7
    exact hpool h7
  have hlogb : ∃ es, binned.1.log = r.log ++ es ∧
      ∀ b, Event.flush b ∈ es →
        PoolShape cfg b.nodes b.work b.tile_count b.primitives.length := by
    refine ⟨es4 ++ es7, by rw [hlog, l7, l4, List.append_assoc], ?_⟩
    intro b hb
    rcases List.mem_append.mp hb with hb | hb
    · exact f4 b hb
    · exact f7 b hb
  have hpne : binned.1.primitive_data ≠ [] := by
    intro h0
    have := congrArg List.length (hpd.symm.trans h0)
    rw [hplen] at this
    simp at this
  constructor
  · split_ifs
    · obtain ⟨hi, es, hl, hf⟩ := poolStep_flush_tile_lists cfg binned.1 hshape
      obtain ⟨esb, hlb, hfb⟩ := hlogb
      refine ⟨hi, esb ++ es, by rw [hl, hlb, List.append_assoc], ?_⟩
      intro b hb
      rcases List.mem_append.mp hb with hb | hb
      · exact hfb b hb
      · exact hf b hb
    · exact ⟨hshape, hlogb⟩
  · intro hbd
    -- the bounds before the record is pushed
    have hbd4 : PoolBounded cfg (draw_begin cfg r d) := by
      obtain ⟨_, hcase⟩ := hb4
      rcases hcase with ⟨_, _, ht⟩ | ⟨_, _, ht⟩
      · rcases hc4.1 with ⟨hp, _, _⟩ | hp
        · unfold PoolBounded
          rw [ht, hp]
          exact hbd
        · refine ⟨by rw [ht]; exact hbd.1, fun hne => ?_⟩
          rw [hp]
          rw [ht] at hne
          exact Nat.lt_of_le_of_lt (Nat.zero_le _) (hbd.2 hne)
      · exact ⟨by rw [ht]; exact Nat.zero_le _, fun hne => absurd ht hne⟩
    by_cases hf : binned.2 = true
    · rw [if_pos hf]
      by_cases hw : binned.1.work_data = []
      · rw [flush_tile_lists_idle cfg _ hw]
        have ht0 : binned.1.tile_count = 0 := by
          rw [← hshape.2.1, hw]
          rfl
        exact ⟨by rw [ht0]; exact Nat.zero_le _, fun hne => absurd ht0 hne⟩
      · obtain ⟨r1, hr1⟩ := flush_tile_lists_reset cfg binned.1 hpne hw
        rw [hr1]
        exact ⟨Nat.zero_le _, fun hne => absurd rfl hne⟩
    · rw [if_neg hf]
      have hf0 : (draw_record cfg (draw_begin cfg r d) d).2 = false := by
        cases hc : (draw_record cfg (draw_begin cfg r d) d).2
        · rfl
        · exact absurd (hflagm hc) hf
      have hlt := hflag hf0
      rcases hcount (Or.inr (by rw [htc7]; exact hbd4.1)) with hx | hx
      · exact absurd hx hf
      · refine ⟨hx, fun _ => ?_⟩
        rw [hpd, hplen]
        exact hlt

theorem poolStep_draw_primitive (cfg : Config) (r : Renderer) (d : DrawCall) :
    PoolStep cfg r (draw_primitive cfg r d) :=
  fun h => (pool_draw_primitive cfg r d h).1

theorem poolStep_step (cfg : Config) (r : Renderer) (op : Op) :
    PoolStep cfg r (step cfg r op) := by
  cases op with
  | set_depth_image addr synchronous => exact poolStep_set_depth_image cfg r addr synchronous
  | set_color_image addr format pixel_size width synchronous =>
    exact poolStep_set_color_image cfg r addr format pixel_size width synchronous
  | set_framebuffer_size width height => exact poolStep_set_framebuffer_size cfg r width height
  | draw_primitive d => exact poolStep_draw_primitive cfg r d
  | flush_tile_lists => exact poolStep_flush_tile_lists cfg r
  | complete_frame synchronous => exact poolStep_complete_frame cfg r synchronous
  | sync_full => exact poolStep_sync_full cfg r
  | begin_index index =>
    show PoolStep cfg r (begin_index r index)
    rw [begin_index_eq]
    exact poolStep_of_fields ⟨_, rfl, noFlush_flatMap_copy_back_log _⟩ rfl rfl rfl
      (Nat.le_refl _)
  | check_tmem_feedback addr synchronous =>
    show PoolStep cfg r (check_tmem_feedback cfg r addr synchronous)
    unfold check_tmem_feedback
    split_ifs
    · exact poolStep_complete_frame cfg r synchronous
    · exact poolStep_complete_frame cfg r synchronous
    · exact poolStep_refl cfg r
  | fill_rect_cpu xmin xmax ymin ymax =>
    show PoolStep cfg r (fill_rect_cpu cfg r xmin xmax ymin ymax)
    unfold fill_rect_cpu
    dsimp only
    exact poolStep_of_fields (log_emit _ (by simp) (log_assert _ _ (log_same rfl (log_refl r))))
      (by rw [Renderer.emit, assert_eq]) (by rw [Renderer.emit, assert_eq])
      (by rw [Renderer.emit, assert_eq]) (by rw [Renderer.emit, assert_eq])
  | _ => exact poolStep_of_fields (log_same rfl (log_refl _)) rfl rfl rfl (Nat.le_refl _)

/-- A call that is not a draw binds no tile. -/
theorem bindsNothing_step (cfg : Config) (r : Renderer) (op : Op)
    (h : ∀ d, op ≠ Op.draw_primitive d) : BindsNothing r (step cfg r op) := by
  have same : ∀ r1 r2 : Renderer, BindsNothing r r1 →
      r2.raster_tile_count = r1.raster_tile_count → r2.tile_nodes = r1.tile_nodes →
      r2.work_data = r1.work_data → r2.tile_count = r1.tile_count → BindsNothing r r2 :=
    fun r1 r2 h1 e1 e2 e3 e4 => bindsNothing_trans h1 ⟨e1, Or.inl ⟨e2, e3, e4⟩⟩
  cases op with
  | set_depth_image addr synchronous =>
    show BindsNothing r (set_depth_image cfg r addr synchronous)
    unfold set_depth_image
    split_ifs
    · exact bindsNothing_refl r
    · exact same _ _ (bindsNothing_complete_frame cfg r synchronous) rfl rfl rfl rfl
    · exact same _ _ (bindsNothing_refl r) rfl rfl rfl rfl
  | set_color_image addr format pixel_size width synchronous =>
    show BindsNothing r (set_color_image cfg r addr format pixel_size width synchronous)
    unfold set_color_image
    have h2 : BindsNothing r
        { complete_frame cfg r synchronous with framebuffer :=
          { (complete_frame cfg r synchronous).framebuffer with
            addr := addr, format := format, width := width, pixel_size := pixel_size } } :=
      same _ _ (bindsNothing_complete_frame cfg r synchronous) rfl rfl rfl rfl
    dsimp only
    split_ifs
    all_goals first
      | exact bindsNothing_refl r
      | exact h2
      | exact bindsNothing_trans h2 (bindsNothing_set_framebuffer_size cfg _ _ _)
  | set_framebuffer_size width height => exact bindsNothing_set_framebuffer_size cfg r width height
  | draw_primitive d => exact absurd rfl (h d)
  | flush_tile_lists => exact bindsNothing_flush_tile_lists cfg r
  | complete_frame synchronous => exact bindsNothing_complete_frame cfg r synchronous
  | sync_full => exact bindsNothing_sync_full cfg r
  | begin_index index =>
    show BindsNothing r (begin_index r index)
    rw [begin_index_eq]
    exact same _ _ (bindsNothing_refl r) rfl rfl rfl rfl
  | check_tmem_feedback addr synchronous =>
    show BindsNothing r (check_tmem_feedback cfg r addr synchronous)
    unfold check_tmem_feedback
    split_ifs
    · exact bindsNothing_complete_frame cfg r synchronous
    · exact bindsNothing_complete_frame cfg r synchronous
    · exact bindsNothing_refl r
  | fill_rect_cpu xmin xmax ymin ymax =>
    show BindsNothing r (fill_rect_cpu cfg r xmin xmax ymin ymax)
    unfold fill_rect_cpu
    dsimp only
    rw [Renderer.emit, assert_eq]
    exact same _ _ (bindsNothing_refl r) rfl rfl rfl rfl
  | _ => exact same _ _ (bindsNothing_refl r) rfl rfl rfl rfl

/-- A call that is not a draw keeps `tile_count` or sets it to 0. -/
theorem step_tile_count (cfg : Config) (r : Renderer) (op : Op)
    (h : ∀ d, op ≠ Op.draw_primitive d) :
    (step cfg r op).tile_count = r.tile_count ∨ (step cfg r op).tile_count = 0 := by
  rcases (bindsNothing_step cfg r op h).2 with ⟨_, _, ht⟩ | ⟨_, _, ht⟩
  · exact Or.inl ht
  · exact Or.inr ht

theorem poolBounded_step (cfg : Config) (r : Renderer) (op : Op) (hp : PoolInv cfg r)
    (hb : PoolBounded cfg r) : PoolBounded cfg (step cfg r op) := by
  by_cases hd : ∃ d, op = Op.draw_primitive d
  · obtain ⟨d, rfl⟩ := hd
    exact (pool_draw_primitive cfg r d hp).2 hb
  · have hnd : ∀ d, op ≠ Op.draw_primitive d := fun d hx => hd ⟨d, hx⟩
    rcases step_tile_count cfg r op hnd with ht | ht
    · rcases (cacheStep_step cfg r op hnd).1 with ⟨hpd, _, _⟩ | hpd
      · unfold PoolBounded
        rw [ht, hpd]
        exact hb
      · refine ⟨by rw [ht]; exact hb.1, fun hne => ?_⟩
        rw [hpd]
        rw [ht] at hne
        exact Nat.lt_of_le_of_lt (Nat.zero_le _) (hb.2 hne)
    · exact ⟨by rw [ht]; exact Nat.zero_le _, fun hne => absurd ht hne⟩

theorem poolInv_init (cfg : Config) : PoolInv cfg (Renderer.init cfg) :=
  poolShape_nil cfg _

theorem poolBounded_init (cfg : Config) : PoolBounded cfg (Renderer.init cfg) :=
  ⟨Nat.zero_le _, fun h => absurd rfl h⟩

theorem pool_run (cfg : Config) (ops : List Op) (r : Renderer) (hp : PoolInv cfg r)
    (hb : PoolBounded cfg r) :
    PoolInv cfg (run cfg r ops) ∧ PoolBounded cfg (run cfg r ops) ∧
    ∃ es, (run cfg r ops).log = r.log ++ es ∧
      ∀ b, Event.flush b ∈ es → PoolShape cfg b.nodes b.work b.tile_count b.primitives.length := by
  unfold run
  induction ops generalizing r with
  | nil => exact ⟨hp, hb, [], by simp, by intro b hx; cases hx⟩
  | cons op ops ih =>
    obtain ⟨hp1, es1, l1, f1⟩ := poolStep_step cfg r op hp
    have hb1 := poolBounded_step cfg r op hp hb
    obtain ⟨hp2, hb2, es2, l2, f2⟩ := ih _ hp1 hb1
    refine ⟨hp2, hb2, es1 ++ es2, ?_, ?_⟩
    · rw [List.foldl_cons, l2, l1, List.append_assoc]
    · intro b hx
      rcases List.mem_append.mp hx with hx | hx
      · exact f1 b hx
      · exact f2 b hx

/-! ## The two parts of a packed word -/

theorem packed_word_parts (L P i : Nat) (hP : P < 2 ^ L) :
    (P ||| (i <<< L)) % 2 ^ L = P ∧ (P ||| (i <<< L)) >>> L = i := by
  constructor
  · apply Nat.eq_of_testBit_eq
    intro j
    rw [Nat.testBit_mod_two_pow, Nat.testBit_or, Nat.testBit_shiftLeft]
    by_cases h : j < L
    · simp [h, Nat.not_le.mpr h]
    · have h0 : P.testBit j = false :=
        Nat.testBit_lt_two_pow (Nat.lt_of_lt_of_le hP
          (Nat.pow_le_pow_right (by norm_num) (Nat.le_of_not_lt h)))
      simp [h, h0]
  · apply Nat.eq_of_testBit_eq
    intro j
    rw [Nat.testBit_shiftRight, Nat.testBit_or, Nat.testBit_shiftLeft]
    have h0 : P.testBit (L + j) = false :=
      Nat.testBit_lt_two_pow (Nat.lt_of_lt_of_le hP
        (Nat.pow_le_pow_right (by norm_num) (Nat.le_add_right L j)))
    simp [h0]

/-- The packed words between two calls: in every state reached from the initial state by any
sequence of calls, once the call has returned, with `RDP_MAX_PRIMITIVES` at most
`2 ^ RDP_MAX_PRIMITIVES_LOG2` and a tile capacity whose indices fit above the primitive bits
of a 32-bit word.  The node pool, the work items and `tile_count` have the same length; node
`i` and work item `i` belong together: the primitive index of the work item is the index of a
record, the value of the node is `primitive | (i << RDP_MAX_PRIMITIVES_LOG2)` with that
primitive index, and both parts are recovered from it: the value modulo
`2 ^ RDP_MAX_PRIMITIVES_LOG2` is the primitive index and the value shifted right by
`RDP_MAX_PRIMITIVES_LOG2` is `i`.  Every batch handed to the GPU on the way has the same
counts and the same packed words (on 32 bits); whether its words split back is not stated
here. -/
theorem node_value_packs_primitive_and_tile (cfg : Config) (ops : List Op)
    (hmax : cfg.RDP_MAX_PRIMITIVES ≤ 2 ^ cfg.RDP_MAX_PRIMITIVES_LOG2)
    (hF : cfg.FlushBufferTileCount * 2 ^ cfg.RDP_MAX_PRIMITIVES_LOG2 ≤ 2 ^ 32) :
    (run cfg (Renderer.init cfg) ops).tile_nodes.length
      = (run cfg (Renderer.init cfg) ops).tile_count ∧
    (run cfg (Renderer.init cfg) ops).work_data.length
      = (run cfg (Renderer.init cfg) ops).tile_count ∧
    (∀ (i : Nat) (n : TileNode) (w : BufferWorkDescriptor),
      (run cfg (Renderer.init cfg) ops).tile_nodes[i]? = some n →
      (run cfg (Renderer.init cfg) ops).work_data[i]? = some w →
      w.primitive < (run cfg (Renderer.init cfg) ops).primitive_data.length ∧
      n.value = w.primitive ||| (i <<< cfg.RDP_MAX_PRIMITIVES_LOG2) ∧
      n.value % 2 ^ cfg.RDP_MAX_PRIMITIVES_LOG2 = w.primitive ∧
      n.value >>> cfg.RDP_MAX_PRIMITIVES_LOG2 = i) ∧
    (∀ b, Event.flush b ∈ (run cfg (Renderer.init cfg) ops).log →
      PoolShape cfg b.nodes b.work b.tile_count b.primitives.length) := by
  obtain ⟨⟨h1, h2, h3⟩, ⟨hb1, hb2⟩, es, hl, hf⟩ :=
    pool_run cfg ops _ (poolInv_init cfg) (poolBounded_init cfg)
  refine ⟨h1, h2, ?_, ?_⟩
  · intro i n w hn hw
    obtain ⟨hv, hlt⟩ := h3 i n w hn hw
    have hi : i < (run cfg (Renderer.init cfg) ops).tile_count := by
      rw [← h1]
      exact (List.getElem?_eq_some_iff.mp hn).1
    have hne : (run cfg (Renderer.init cfg) ops).tile_count ≠ 0 := by omega
    have hP : w.primitive < 2 ^ cfg.RDP_MAX_PRIMITIVES_LOG2 :=
      Nat.lt_of_lt_of_le (Nat.lt_trans hlt (hb2 hne)) hmax
    have hpos : 0 < 2 ^ cfg.RDP_MAX_PRIMITIVES_LOG2 := Nat.pow_pos (by norm_num)
    have hiF : i + 1 ≤ cfg.FlushBufferTileCount := by omega
    have hmul : (i + 1) * 2 ^ cfg.RDP_MAX_PRIMITIVES_LOG2 ≤ 2 ^ 32 :=
      Nat.le_trans (Nat.mul_le_mul_right _ hiF) hF
    have hsh : i <<< cfg.RDP_MAX_PRIMITIVES_LOG2 < 2 ^ 32 := by
      rw [Nat.shiftLeft_eq]
      have : i * 2 ^ cfg.RDP_MAX_PRIMITIVES_LOG2
          < (i + 1) * 2 ^ cfg.RDP_MAX_PRIMITIVES_LOG2 :=
        Nat.mul_lt_mul_of_pos_right (Nat.lt_succ_self i) hpos
      omega
    have hP32 : w.primitive < 2 ^ 32 := by
      have : 2 ^ cfg.RDP_MAX_PRIMITIVES_LOG2 ≤ (i + 1) * 2 ^ cfg.RDP_MAX_PRIMITIVES_LOG2 :=
        Nat.le_mul_of_pos_left _ (Nat.succ_pos i)
      omega
    have hval : n.value = w.primitive ||| (i <<< cfg.RDP_MAX_PRIMITIVES_LOG2) := by
      rw [hv]
      unfold u32
      exact Nat.mod_eq_of_lt (Nat.or_lt_two_pow hP32 hsh)
    obtain ⟨p1, p2⟩ := packed_word_parts cfg.RDP_MAX_PRIMITIVES_LOG2 w.primitive i hP
    exact ⟨hlt, hval, by rw [hval]; exact p1, by rw [hval]; exact p2⟩
  · intro b hb
    rw [hl] at hb
    rcases List.mem_append.mp hb with hb | hb
    · simp [Renderer.init] at hb
    · exact hf b hb

set_option maxRecDepth 100000 in
/-- An instance of the packed words between two calls: under the small configuration (2
primitive bits, 100 tiles per batch) two draws are pending, the first on tile 0 and the second
on the tiles 0 and 1.  There are three nodes and three work items; the nodes hold the words 0,
5 and 9, the work items the primitive indices 0, 1 and 1; and node 2 gives back primitive index
1 and tile instance 2. -/
theorem node_value_packs_primitive_and_tile_witness :
    (Config.small.RDP_MAX_PRIMITIVES ≤ 2 ^ Config.small.RDP_MAX_PRIMITIVES_LOG2 ∧
      Config.small.FlushBufferTileCount * 2 ^ Config.small.RDP_MAX_PRIMITIVES_LOG2 ≤ 2 ^ 32) ∧
    (run Config.small (Renderer.init Config.small) two_draw_ops).tile_count = 3 ∧
    (run Config.small (Renderer.init Config.small) two_draw_ops).tile_nodes.map
      (fun n => n.value) = [0, 5, 9] ∧
    (run Config.small (Renderer.init Config.small) two_draw_ops).work_data.map
      (fun w => w.primitive) = [0, 1, 1] ∧
    (9 % 2 ^ Config.small.RDP_MAX_PRIMITIVES_LOG2 = 1 ∧
      9 >>> Config.small.RDP_MAX_PRIMITIVES_LOG2 = 2) ∧
    (run Config.small (Renderer.init Config.small) two_draw_ops).tile_nodes.length
      = (run Config.small (Renderer.init Config.small) two_draw_ops).tile_count ∧
    (run Config.small (Renderer.init Config.small) two_draw_ops).work_data.length
      = (run Config.small (Renderer.init Config.small) two_draw_ops).tile_count :=
  ⟨⟨by decide, by decide⟩, by decide, by decide, by decide, ⟨by decide, by decide⟩,
   (node_value_packs_primitive_and_tile Config.small two_draw_ops (by decide) (by decide)).1,
   (node_value_packs_primitive_and_tile Config.small two_draw_ops (by decide) (by decide)).2.1⟩

end RDP

namespace RDP

/-! ## The combiner table and the resolved states -/

/-- A consistent cache whose map points into the table is faithful. -/
theorem faithful_of_inv (cfg : Config) {r : Renderer} (hc : CombinerCacheInv cfg r)
    (ht : TableInv cfg r) :
    Faithful cfg r.primitive_data r.combiner_data r.ghost_resolved := by
  intro hn i p c hp hg
  obtain ⟨j, hj, hm⟩ := hc.2.2.1 i p c hp hg
  obtain ⟨c', hc', hh⟩ := ht.1 _ j hm
  refine ⟨j, hj, ?_⟩
  rw [hc']
  congr 1
  exact hn c' c (ht.2.1 j c' hc') (List.getElem?_mem hg) hh

theorem resolve_alpha_twice (st st' : RegisterState) (a : Nat) (v : Vec4)
    (hp : st'.prim_color = st.prim_color) (he : st'.env_color = st.env_color) :
    resolve_alpha st' a (resolve_alpha st a v) = resolve_alpha st a v := by
  unfold resolve_alpha
  rw [hp, he]
  split_ifs <;> rfl

theorem resolve_alpha_mul_twice (st st' : RegisterState) (a : Nat) (v : Vec4)
    (hp : st'.prim_color = st.prim_color) (he : st'.env_color = st.env_color)
    (hf : st'.prim_lod_frac = st.prim_lod_frac) :
    resolve_alpha_mul st' a (resolve_alpha_mul st a v) = resolve_alpha_mul st a v := by
  unfold resolve_alpha_mul
  rw [hp, he, hf]
  split_ifs <;> rfl

/-- A second resolution under the same register values gives the same operands, also for the
selectors that write nothing. -/
theorem resolve_cycle_twice (st st' : RegisterState) (color alpha : CombinerInputs)
    (cycle : CombinerCycle)
    (hp : st'.prim_color = st.prim_color) (he : st'.env_color = st.env_color)
    (hf : st'.prim_lod_frac = st.prim_lod_frac) (h4 : st'.k4 = st.k4) (h5 : st'.k5 = st.k5) :
    resolve_cycle st' color alpha (resolve_cycle st color alpha cycle)
      = resolve_cycle st color alpha cycle := by
  unfold resolve_cycle
  dsimp only
  have e1 := resolve_sub_a_registers st' st color.sub_a alpha.sub_a
    (resolve_alpha st alpha.sub_a (resolve_color_sub_a st color.sub_a cycle.sub_a)) cycle.sub_a
    hp he
  have e4 := resolve_add_registers st' st color.add alpha.add
    (resolve_alpha st alpha.add (resolve_color_add st color.add cycle.add)) cycle.add hp he
  have e2 : resolve_alpha st' alpha.sub_b (resolve_color_sub_b st' color.sub_b
      (resolve_alpha st alpha.sub_b (resolve_color_sub_b st color.sub_b cycle.sub_b)))
      = resolve_alpha st alpha.sub_b (resolve_color_sub_b st color.sub_b cycle.sub_b) := by
    by_cases hc : color.sub_b = 6
    · rw [hc, resolve_color_sub_b_key, resolve_color_sub_b_key]
      exact resolve_alpha_twice st st' _ _ hp he
    · exact resolve_sub_b_registers st' st _ _ _ _ hp he h4 hc
  have e3 : resolve_alpha_mul st' alpha.mul (resolve_color_mul st' color.mul
      (resolve_alpha_mul st alpha.mul (resolve_color_mul st color.mul cycle.mul)))
      = resolve_alpha_mul st alpha.mul (resolve_color_mul st color.mul cycle.mul) := by
    by_cases hc : color.mul = 6
    · rw [hc, resolve_color_mul_key, resolve_color_mul_key]
      exact resolve_alpha_mul_twice st st' _ _ hp he hf
    · exact resolve_mul_registers st' st _ _ _ _ hp he hf h5 hc
  rw [e1, e2, e3, e4]

/-- The state after the combiner block has resolved a dirty combiner: a second resolution
gives the same block. -/
theorem update_static_combiner_idem (st : RegisterState) (dirty : Bool)
    (map : List (Nat × Nat)) (last : Nat) :
    update_static_combiner { st with combiners := update_static_combiner st,
                                     combiners_dirty := dirty, last_combiner := last,
                                     combiner_map := map }
      = update_static_combiner st := by
  have e1 := resolve_cycle_twice st
    { st with combiners := update_static_combiner st, combiners_dirty := dirty,
              last_combiner := last, combiner_map := map }
    st.combiners.color.1 st.combiners.alpha.1 st.combiners.cycle.1 rfl rfl rfl rfl rfl
  have e2 := resolve_cycle_twice st
    { st with combiners := update_static_combiner st, combiners_dirty := dirty,
              last_combiner := last, combiner_map := map }
    st.combiners.color.2 st.combiners.alpha.2 st.combiners.cycle.2 rfl rfl rfl rfl rfl
  show ({ (update_static_combiner st) with
    cycle := (resolve_cycle _ (update_static_combiner st).color.1
        (update_static_combiner st).alpha.1 (update_static_combiner st).cycle.1,
      resolve_cycle _ (update_static_combiner st).color.2
        (update_static_combiner st).alpha.2 (update_static_combiner st).cycle.2) } : Combiners)
    = update_static_combiner st
  have c1 : (update_static_combiner st).cycle.1
      = resolve_cycle st st.combiners.color.1 st.combiners.alpha.1 st.combiners.cycle.1 := rfl
  have c2 : (update_static_combiner st).cycle.2
      = resolve_cycle st st.combiners.color.2 st.combiners.alpha.2 st.combiners.cycle.2 := rfl
  have k1 : (update_static_combiner st).color = st.combiners.color := rfl
  have k2 : (update_static_combiner st).alpha = st.combiners.alpha := rfl
  rw [c1, c2, k1, k2, e1, e2]
  rfl

end RDP

namespace RDP

/-! ## The map points into the table, along a run -/

/-- The invariant reads the combiner table, the cache fields of `state`, the resolved states
recorded with the records, and what a resolution of the state gives. -/
theorem tableInv_of_fields (cfg : Config) {r r' : Renderer}
    (h : TableInv cfg r)
    (h1 : r'.combiner_data = r.combiner_data)
    (h2 : r'.state.combiner_map = r.state.combiner_map)
    (h3 : r'.state.combiners_dirty = true ∨
      (r'.state.combiners_dirty = r.state.combiners_dirty ∧
       r'.state.combiners = r.state.combiners ∧
       update_static_combiner r'.state = update_static_combiner r.state))
    (h5 : r'.ghost_resolved = r.ghost_resolved) : TableInv cfg r' := by
  obtain ⟨k1, k2, k3⟩ := h
  refine ⟨?_, ?_, ?_⟩
  · rw [h1, h2]; exact k1
  · rw [h1, h5]; exact k2
  · intro hd
    rcases h3 with h3 | ⟨hd', hc, hu⟩
    · rw [h3] at hd; cases hd
    · rw [hu, hc]; exact k3 (hd'.symm.trans hd)

theorem tableInv_of_residencyOnly (cfg : Config) {r r' : Renderer}
    (h : TableInv cfg r) (hr : ResidencyOnly r r') : TableInv cfg r' :=
  tableInv_of_fields cfg h (by rw [hr]) (by rw [hr])
    (Or.inr ⟨by rw [hr], by rw [hr], by rw [hr]⟩) (by rw [hr])

theorem tableInv_of_binOnly (cfg : Config) {r r' : Renderer}
    (h : TableInv cfg r) (hr : BinOnly r r') : TableInv cfg r' :=
  tableInv_of_fields cfg h (by rw [hr]) (by rw [hr])
    (Or.inr ⟨by rw [hr], by rw [hr], by rw [hr]⟩) (by rw [hr])

theorem tableInv_reset_buffers (cfg : Config) (r : Renderer) :
    TableInv cfg (reset_buffers cfg r) := by
  refine ⟨?_, ?_, ?_⟩
  · intro h j hf; simp [reset_buffers, combiner_map_find] at hf
  · intro j c hj; simp [reset_buffers] at hj
  · intro hd; simp [reset_buffers] at hd

theorem tableInv_flush_tile_lists (cfg : Config) {r : Renderer}
    (h : TableInv cfg r) : TableInv cfg (flush_tile_lists cfg r) := by
  rcases flush_tile_lists_cases cfg r with h1 | ⟨r1, _, h2⟩
  · rw [h1]; exact h
  · rw [h2]; exact tableInv_reset_buffers cfg _

theorem tableInv_sync_full (cfg : Config) {r : Renderer}
    (h : TableInv cfg r) : TableInv cfg (sync_full cfg r) := by
  unfold sync_full
  dsimp only
  refine tableInv_of_residencyOnly cfg ?_
    (residencyOnly_sync_gpu_to_dram true (residencyOnly_refl _))
  apply tableInv_flush_tile_lists
  exact tableInv_of_residencyOnly cfg h
    (residencyOnly_push_ledger _ (residencyOnly_foldl_sync _ (residencyOnly_refl r)))

theorem tableInv_complete_frame (cfg : Config) (synchronous : Bool) {r : Renderer}
    (h : TableInv cfg r) : TableInv cfg (complete_frame cfg r synchronous) := by
  unfold complete_frame
  split_ifs
  · exact tableInv_sync_full cfg h
  · exact tableInv_of_residencyOnly cfg (tableInv_flush_tile_lists cfg h)
      (residencyOnly_sync_gpu_to_dram false (residencyOnly_refl _))

theorem tableInv_set_framebuffer_size (cfg : Config) (width height : Nat) {r : Renderer}
    (h : TableInv cfg r) : TableInv cfg (set_framebuffer_size cfg r width height) := by
  unfold set_framebuffer_size
  have h1 : TableInv cfg
      (if r.framebuffer.color_state = FRAMEBUFFER_GPU ∨ r.framebuffer.depth_state = FRAMEBUFFER_GPU
       then sync_full cfg r else r) := by
    split_ifs
    · exact tableInv_sync_full cfg h
    · exact h
  generalize (if r.framebuffer.color_state = FRAMEBUFFER_GPU ∨
    r.framebuffer.depth_state = FRAMEBUFFER_GPU then sync_full cfg r else r) = r1 at h1
  dsimp only
  rw [assert_eq]
  exact tableInv_of_fields cfg h1 rfl rfl (Or.inr ⟨rfl, rfl, rfl⟩) rfl

theorem tableInv_draw_begin (cfg : Config) (d : DrawCall) {r : Renderer}
    (h : TableInv cfg r) : TableInv cfg (draw_begin cfg r d) := by
  unfold draw_begin
  dsimp only
  rw [assert_eq, assert_eq, update_tiles_frame]
  have h1 : TableInv cfg
      (if (clip_scissor r.scissor d.min_x d.max_x d.min_y d.max_y).2.2.2
          ≥ (r.framebuffer.allocated_height : Int)
       then set_framebuffer_size cfg r r.framebuffer.allocated_width
         ((clip_scissor r.scissor d.min_x d.max_x d.min_y d.max_y).2.2.2 + 1).toNat
       else r) := by
    split_ifs
    · exact tableInv_set_framebuffer_size cfg _ _ h
    · exact h
  exact tableInv_of_fields cfg h1 rfl rfl (Or.inr ⟨rfl, rfl, rfl⟩) rfl

/-- The combiner block of `draw_primitive`.  Afterwards the map points into the table and the
combiner is resolved; a table entry is the resolved state of a record or, when an index is
returned, the block `state.combiners`; the table before is a prefix of the table after; and
when an index is returned the block `state.combiners` is what a resolution of the state
before the block gives. -/
theorem tableInv_draw_combiner (cfg : Config) (cycle_type : Nat) {r : Renderer}
    (h : TableInv cfg r) :
    (∀ (hh j : Nat),
      combiner_map_find (draw_combiner cfg r cycle_type).1.state.combiner_map hh = some j →
      ∃ c, (draw_combiner cfg r cycle_type).1.combiner_data[j]? = some c ∧ cfg.hash64 c = hh) ∧
    (∀ (j : Nat) (c : Combiners), (draw_combiner cfg r cycle_type).1.combiner_data[j]? = some c →
      some c ∈ r.ghost_resolved ∨
      ((draw_combiner cfg r cycle_type).2.1.isSome = true ∧
        c = (draw_combiner cfg r cycle_type).1.state.combiners)) ∧
    ((draw_combiner cfg r cycle_type).1.state.combiners_dirty = false →
      update_static_combiner (draw_combiner cfg r cycle_type).1.state
        = (draw_combiner cfg r cycle_type).1.state.combiners) ∧
    r.combiner_data <+: (draw_combiner cfg r cycle_type).1.combiner_data ∧
    ((draw_combiner cfg r cycle_type).2.1.isSome = true →
      (draw_combiner cfg r cycle_type).1.state.combiners = update_static_combiner r.state) ∧
    ((draw_combiner cfg r cycle_type).2.1.isSome = true ↔
      (cycle_type = cfg.CYCLE_TYPE_1 ∨ cycle_type = cfg.CYCLE_TYPE_2)) ∧
    (r.state.combiners_dirty = false →
      (draw_combiner cfg r cycle_type).1.combiner_data = r.combiner_data ∧
      ((cycle_type = cfg.CYCLE_TYPE_1 ∨ cycle_type = cfg.CYCLE_TYPE_2) →
        (draw_combiner cfg r cycle_type).2.1 = some r.state.last_combiner)) := by
  obtain ⟨k1, k2, k3⟩ := h
  unfold draw_combiner
  dsimp only
  by_cases hc : cycle_type = cfg.CYCLE_TYPE_1 ∨ cycle_type = cfg.CYCLE_TYPE_2
  · rw [if_pos hc]
    simp only [assert_eq]
    by_cases hd : r.state.combiners_dirty = true
    · rw [if_pos hd]
      cases hf : combiner_map_find r.state.combiner_map
          (cfg.hash64 (update_static_combiner r.state)) with
      | some index =>
        dsimp only
        refine ⟨k1, fun j c hj => Or.inl (k2 j c hj), fun _ => ?_, List.prefix_refl _,
          fun _ => rfl, ⟨fun _ => hc, fun _ => rfl⟩, fun hx => ?_⟩
        · exact update_static_combiner_idem r.state false r.state.combiner_map index
        · rw [hd] at hx; cases hx
      | none =>
        dsimp only
        refine ⟨?_, ?_, fun _ => ?_, List.prefix_append _ _, fun _ => rfl,
          ⟨fun _ => hc, fun _ => rfl⟩, fun hx => ?_⟩
        · intro hh j hj
          rw [combiner_map_find_append] at hj
          cases hm : combiner_map_find r.state.combiner_map hh with
          | some v =>
            rw [hm] at hj
            simp only [Option.some.injEq] at hj
            obtain ⟨c, hc1, hc2⟩ := k1 hh v hm
            refine ⟨c, ?_, hc2⟩
            rw [← hj, List.getElem?_append_left (List.getElem?_eq_some_iff.mp hc1).1]
            exact hc1
          | none =>
            rw [hm] at hj
            dsimp only at hj
            split_ifs at hj with he
            simp only [Option.some.injEq] at hj
            refine ⟨update_static_combiner r.state, ?_, he⟩
            rw [← hj]
            simp
        · intro j c hj
          rcases getElem?_snoc_cases _ _ _ _ hj with ⟨_, hj1⟩ | ⟨_, hj1⟩
          · exact Or.inl (k2 j c hj1)
          · exact Or.inr ⟨rfl, hj1⟩
        · exact update_static_combiner_idem r.state false _ _
        · rw [hd] at hx; cases hx
    · rw [if_neg hd]
      have hd' : r.state.combiners_dirty = false := by simpa using hd
      dsimp only
      exact ⟨k1, fun j c hj => Or.inl (k2 j c hj), k3, List.prefix_refl _,
        fun _ => (k3 hd').symm, ⟨fun _ => hc, fun _ => rfl⟩, fun _ => ⟨rfl, fun _ => rfl⟩⟩
  · rw [if_neg hc]
    exact ⟨k1, fun j c hj => Or.inl (k2 j c hj), k3, List.prefix_refl _,
      fun hx => (by cases hx), ⟨fun hx => (by cases hx), fun hx => absurd hx hc⟩,
      fun _ => ⟨rfl, fun hx => absurd hx hc⟩⟩

end RDP

namespace RDP

/-! ## What a resolution reads -/

theorem resolveKept_refl (r : Renderer) : ResolveKept r r := ⟨rfl, rfl, rfl, rfl, rfl, rfl⟩

theorem resolveKept_trans {a b c : Renderer} (h1 : ResolveKept a b) (h2 : ResolveKept b c) :
    ResolveKept a c :=
  ⟨h2.1.trans h1.1, h2.2.1.trans h1.2.1, h2.2.2.1.trans h1.2.2.1,
    h2.2.2.2.1.trans h1.2.2.2.1, h2.2.2.2.2.1.trans h1.2.2.2.2.1,
    h2.2.2.2.2.2.trans h1.2.2.2.2.2⟩

theorem resolve_cycle_congr (st st' : RegisterState) (color alpha : CombinerInputs)
    (cycle : CombinerCycle)
    (hp : st'.prim_color = st.prim_color) (hf : st'.prim_lod_frac = st.prim_lod_frac)
    (he : st'.env_color = st.env_color) (h4 : st'.k4 = st.k4) (h5 : st'.k5 = st.k5) :
    resolve_cycle st' color alpha cycle = resolve_cycle st color alpha cycle := by
  unfold resolve_cycle resolve_alpha resolve_alpha_mul resolve_color_sub_a resolve_color_sub_b
    resolve_color_mul resolve_color_add
  rw [hp, hf, he, h4, h5]

/-- A resolution gives the same block on two renderers with the same registers and the same
block `state.combiners`. -/
theorem update_static_combiner_of_kept {r r' : Renderer} (h : ResolveKept r r') :
    update_static_combiner r'.state = update_static_combiner r.state := by
  obtain ⟨hc, hp, hf, he, h4, h5⟩ := h
  unfold update_static_combiner
  rw [hc, resolve_cycle_congr r.state r'.state _ _ _ hp hf he h4 h5,
    resolve_cycle_congr r.state r'.state _ _ _ hp hf he h4 h5]

theorem resolveKept_of_state {r r' : Renderer} (h : r'.state = r.state) : ResolveKept r r' := by
  unfold ResolveKept
  rw [h]
  exact ⟨rfl, rfl, rfl, rfl, rfl, rfl⟩

theorem resolveKept_of_residencyOnly {r r' : Renderer} (h : ResidencyOnly r r') :
    ResolveKept r r' :=
  resolveKept_of_state (by rw [h])

theorem resolveKept_flush_tile_lists (cfg : Config) (r : Renderer) :
    ResolveKept r (flush_tile_lists cfg r) := by
  rcases flush_tile_lists_cases cfg r with h1 | ⟨r1, hr, h2⟩
  · rw [h1]; exact resolveKept_refl r
  · rw [h2]
    exact resolveKept_trans (resolveKept_of_residencyOnly hr) ⟨rfl, rfl, rfl, rfl, rfl, rfl⟩

theorem resolveKept_sync_full (cfg : Config) (r : Renderer) :
    ResolveKept r (sync_full cfg r) := by
  unfold sync_full
  dsimp only
  exact resolveKept_trans (resolveKept_trans
    (resolveKept_of_residencyOnly
      (residencyOnly_push_ledger _ (residencyOnly_foldl_sync _ (residencyOnly_refl r))))
    (resolveKept_flush_tile_lists cfg _))
    (resolveKept_of_residencyOnly (residencyOnly_sync_gpu_to_dram true (residencyOnly_refl _)))

theorem resolveKept_set_framebuffer_size (cfg : Config) (r : Renderer) (width height : Nat) :
    ResolveKept r (set_framebuffer_size cfg r width height) := by
  unfold set_framebuffer_size
  have h1 : ResolveKept r
      (if r.framebuffer.color_state = FRAMEBUFFER_GPU ∨ r.framebuffer.depth_state = FRAMEBUFFER_GPU
       then sync_full cfg r else r) := by
    split_ifs
    · exact resolveKept_sync_full cfg r
    · exact resolveKept_refl r
  generalize (if r.framebuffer.color_state = FRAMEBUFFER_GPU ∨
    r.framebuffer.depth_state = FRAMEBUFFER_GPU then sync_full cfg r else r) = r1 at h1
  dsimp only
  rw [assert_eq]
  exact resolveKept_trans h1 ⟨rfl, rfl, rfl, rfl, rfl, rfl⟩

theorem resolveKept_draw_begin (cfg : Config) (r : Renderer) (d : DrawCall) :
    ResolveKept r (draw_begin cfg r d) := by
  unfold draw_begin
  dsimp only
  rw [assert_eq, assert_eq, update_tiles_frame]
  have h1 : ResolveKept r
      (if (clip_scissor r.scissor d.min_x d.max_x d.min_y d.max_y).2.2.2
          ≥ (r.framebuffer.allocated_height : Int)
       then set_framebuffer_size cfg r r.framebuffer.allocated_width
         ((clip_scissor r.scissor d.min_x d.max_x d.min_y d.max_y).2.2.2 + 1).toNat
       else r) := by
    split_ifs
    · exact resolveKept_set_framebuffer_size cfg r _ _
    · exact resolveKept_refl r
  exact resolveKept_trans h1 ⟨rfl, rfl, rfl, rfl, rfl, rfl⟩

/-! ## The record a draw pushes -/

theorem draw_combiner_ghost_resolved (cfg : Config) (r : Renderer) (cycle_type : Nat) :
    (draw_combiner cfg r cycle_type).1.ghost_resolved = r.ghost_resolved := by
  unfold draw_combiner
  dsimp only
  split_ifs
  · rw [assert_eq]
    split <;> rfl
  · rw [assert_eq]
  · rfl

/-- The second part of `draw_primitive`: the map still points into the table, the table
before is a prefix of the table after, and one record is pushed.  In 1-cycle and 2-cycle mode
the record stores an index and the state recorded with it is what a resolution of the state at
the call gives; when the combiner is not dirty the index is `last_combiner` and the table is
left as it is. -/
theorem tableInv_draw_record (cfg : Config) (d : DrawCall) {r : Renderer}
    (h : TableInv cfg r) :
    TableInv cfg (draw_record cfg r d).1 ∧
    r.combiner_data <+: (draw_record cfg r d).1.combiner_data ∧
    ∃ p : BufferPrimitive,
      (draw_record cfg r d).1.primitive_data = r.primitive_data ++ [p] ∧
      (draw_record cfg r d).1.ghost_resolved = r.ghost_resolved ++
        [if p.combiner.isSome then some (update_static_combiner r.state) else none] ∧
      (p.combiner.isSome = true ↔
        ((d.prim.flags >>> cfg.RDP_FLAG_CYCLE_TYPE_SHIFT) &&& 3 = cfg.CYCLE_TYPE_1 ∨
          (d.prim.flags >>> cfg.RDP_FLAG_CYCLE_TYPE_SHIFT) &&& 3 = cfg.CYCLE_TYPE_2)) ∧
      (r.state.combiners_dirty = false →
        (draw_record cfg r d).1.combiner_data = r.combiner_data ∧
        (((d.prim.flags >>> cfg.RDP_FLAG_CYCLE_TYPE_SHIFT) &&& 3 = cfg.CYCLE_TYPE_1 ∨
          (d.prim.flags >>> cfg.RDP_FLAG_CYCLE_TYPE_SHIFT) &&& 3 = cfg.CYCLE_TYPE_2) →
          p.combiner = some r.state.last_combiner)) := by
  unfold draw_record
  dsimp only
  have h5 : ResidencyOnly r
      (if r.framebuffer.color_state = FRAMEBUFFER_CPU then r.set_color_state FRAMEBUFFER_STALE_GPU
       else r) := by
    split_ifs
    · exact residencyOnly_set_color_state _ (residencyOnly_refl r)
    · exact residencyOnly_refl r
  generalize (if r.framebuffer.color_state = FRAMEBUFFER_CPU
    then r.set_color_state FRAMEBUFFER_STALE_GPU else r) = r5 at h5
  have h6 : ResidencyOnly r
      (if r5.framebuffer.depth_state = FRAMEBUFFER_CPU ∧
          (build_attr cfg d.prim d.attr r.state.primitive_z).2.1 &&&
            (cfg.RDP_FLAG_Z_UPDATE ||| cfg.RDP_FLAG_Z_COMPARE) ≠ 0
       then r5.set_depth_state FRAMEBUFFER_STALE_GPU else r5) := by
    split_ifs
    · exact residencyOnly_set_depth_state _ h5
    · exact h5
  generalize (if r5.framebuffer.depth_state = FRAMEBUFFER_CPU ∧
          (build_attr cfg d.prim d.attr r.state.primitive_z).2.1 &&&
            (cfg.RDP_FLAG_Z_UPDATE ||| cfg.RDP_FLAG_Z_COMPARE) ≠ 0
       then r5.set_depth_state FRAMEBUFFER_STALE_GPU else r5) = r6 at h6
  have e1 : r6.state = r.state := by rw [h6]
  have e2 : r6.combiner_data = r.combiner_data := by rw [h6]
  have e3 : r6.ghost_resolved = r.ghost_resolved := by rw [h6]
  have e4 : r6.primitive_data = r.primitive_data := by rw [h6]
  obtain ⟨k1, k2, k3, kpre, kres, kmode, kclean⟩ :=
    tableInv_draw_combiner cfg ((d.prim.flags >>> cfg.RDP_FLAG_CYCLE_TYPE_SHIFT) &&& 3)
      (tableInv_of_residencyOnly cfg h h6)
  have hg := draw_combiner_ghost_resolved cfg r6
    ((d.prim.flags >>> cfg.RDP_FLAG_CYCLE_TYPE_SHIFT) &&& 3)
  have hp := (draw_combiner_batch cfg r6
    ((d.prim.flags >>> cfg.RDP_FLAG_CYCLE_TYPE_SHIFT) &&& 3)).2.2.2.2
  rw [e1] at kres kclean
  rw [e2] at kpre kclean
  rw [e3] at k2 hg
  rw [e4] at hp
  generalize draw_combiner cfg r6 ((d.prim.flags >>> cfg.RDP_FLAG_CYCLE_TYPE_SHIFT) &&& 3) = comb
    at k1 k2 k3 kpre kres kmode kclean hg hp
  refine ⟨⟨k1, ?_, k3⟩, kpre, _, by rw [hp], ?_, kmode, ?_⟩
  · intro j c hj
    dsimp only at hj ⊢
    rw [hg]
    rcases k2 j c hj with hm | ⟨hs, hc⟩
    · exact List.mem_append_left _ hm
    · refine List.mem_append_right _ ?_
      rw [hs, hc]
      simp
  · dsimp only
    rw [hg]
    by_cases hs : comb.2.1.isSome = true
    · rw [if_pos hs, if_pos hs, kres hs]
    · rw [if_neg hs, if_neg hs]
  · intro hd
    exact ⟨(kclean hd).1, (kclean hd).2⟩

end RDP

namespace RDP

/-! ## The map points into the table: draws, calls, runs -/

theorem tableInv_draw_primitive (cfg : Config) (d : DrawCall) {r : Renderer}
    (h : TableInv cfg r) : TableInv cfg (draw_primitive cfg r d) := by
  unfold draw_primitive
  dsimp only
  have hb := tableInv_of_binOnly cfg
    (tableInv_draw_record cfg d (tableInv_draw_begin cfg d h)).1
    (binOnly_bin_tiles cfg d.prim
      (clip_scissor r.scissor d.min_x d.max_x d.min_y d.max_y).1
      (clip_scissor r.scissor d.min_x d.max_x d.min_y d.max_y).2.1
      (clip_scissor r.scissor d.min_x d.max_x d.min_y d.max_y).2.2.1
      (clip_scissor r.scissor d.min_x d.max_x d.min_y d.max_y).2.2.2
      (draw_begin cfg r d).primitive_data.length
      (max (Int.tdiv (clip_scissor r.scissor d.min_x d.max_x d.min_y d.max_y).1 cfg.TILE_SIZE_X) 0)
      (min (Int.tdiv (clip_scissor r.scissor d.min_x d.max_x d.min_y d.max_y).2.1 cfg.TILE_SIZE_X)
        (((draw_begin cfg r d).tiles_x : Int) - 1))
      (Int.tdiv (clip_scissor r.scissor d.min_x d.max_x d.min_y d.max_y).2.2.1 cfg.TILE_SIZE_Y)
      (Int.tdiv (clip_scissor r.scissor d.min_x d.max_x d.min_y d.max_y).2.2.2 cfg.TILE_SIZE_Y)
      (draw_record cfg (draw_begin cfg r d) d))
  split_ifs
  · exact tableInv_flush_tile_lists cfg hb
  · exact hb

theorem tableInv_step (cfg : Config) (op : Op) {r : Renderer}
    (h : TableInv cfg r) : TableInv cfg (step cfg r op) := by
  cases op with
  | set_scissor xh yh xl yl =>
    exact tableInv_of_fields cfg h rfl rfl (Or.inr ⟨rfl, rfl, rfl⟩) rfl
  | set_combine w1 w2 => exact tableInv_of_fields cfg h rfl rfl (Or.inl rfl) rfl
  | set_primitive_z w2 =>
    exact tableInv_of_fields cfg h rfl rfl (Or.inr ⟨rfl, rfl, rfl⟩) rfl
  | set_prim_color w1 w2 => exact tableInv_of_fields cfg h rfl rfl (Or.inl rfl) rfl
  | set_env_color w2 => exact tableInv_of_fields cfg h rfl rfl (Or.inl rfl) rfl
  | set_fog_color w2 =>
    exact tableInv_of_fields cfg h rfl rfl (Or.inr ⟨rfl, rfl, rfl⟩) rfl
  | set_convert w1 w2 => exact tableInv_of_fields cfg h rfl rfl (Or.inl rfl) rfl
  | set_depth_image addr synchronous =>
    simp only [step, set_depth_image]
    split_ifs
    · exact h
    · exact tableInv_of_fields cfg (tableInv_complete_frame cfg synchronous h)
        rfl rfl (Or.inr ⟨rfl, rfl, rfl⟩) rfl
    · exact tableInv_of_fields cfg h rfl rfl (Or.inr ⟨rfl, rfl, rfl⟩) rfl
  | set_color_image addr format pixel_size width synchronous =>
    simp only [step, set_color_image]
    have h2 : TableInv cfg
        { complete_frame cfg r synchronous with framebuffer :=
          { (complete_frame cfg r synchronous).framebuffer with
            addr := addr, format := format, width := width, pixel_size := pixel_size } } :=
      tableInv_of_fields cfg (tableInv_complete_frame cfg synchronous h)
        rfl rfl (Or.inr ⟨rfl, rfl, rfl⟩) rfl
    repeat' split
    all_goals first
      | exact h
      | exact h2
      | exact tableInv_set_framebuffer_size cfg _ _ h2
  | set_framebuffer_size width height => exact tableInv_set_framebuffer_size cfg _ _ h
  | draw_primitive d => exact tableInv_draw_primitive cfg d h
  | flush_tile_lists => exact tableInv_flush_tile_lists cfg h
  | complete_frame synchronous => exact tableInv_complete_frame cfg synchronous h
  | sync_full => exact tableInv_sync_full cfg h
  | begin_index index =>
    exact tableInv_of_residencyOnly cfg h (residencyOnly_begin_index _ (residencyOnly_refl r))
  | check_tmem_feedback addr synchronous =>
    simp only [step, check_tmem_feedback]
    split_ifs
    · exact tableInv_complete_frame cfg synchronous h
    · exact tableInv_complete_frame cfg synchronous h
    · exact h
  | fill_rect_cpu xmin xmax ymin ymax =>
    simp only [step, fill_rect_cpu]
    rw [assert_eq]
    exact tableInv_of_fields cfg h rfl rfl (Or.inr ⟨rfl, rfl, rfl⟩) rfl

theorem tableInv_run (cfg : Config) (ops : List Op) {r : Renderer}
    (h : TableInv cfg r) : TableInv cfg (run cfg r ops) := by
  unfold run
  induction ops generalizing r with
  | nil => exact h
  | cons op ops ih => exact ih (tableInv_step cfg op h)

theorem tableInv_init (cfg : Config) : TableInv cfg (Renderer.init cfg) := by
  refine ⟨?_, ?_, ?_⟩
  · intro h j hf; simp [Renderer.init, combiner_map_find] at hf
  · intro j c hj; simp [Renderer.init] at hj
  · intro hd; simp [Renderer.init] at hd

/-! ## The uploaded batches are faithful -/

theorem faithful_batch (cfg : Config) {r : Renderer} (hc : CombinerCacheInv cfg r)
    (ht : TableInv cfg r) (b : FlushedBatch) (hp : b.primitives = r.primitive_data)
    (hcb : b.combiners = r.combiner_data) (hg : b.resolved = r.ghost_resolved) :
    Faithful cfg b.primitives b.combiners b.resolved := by
  rw [hp, hcb, hg]
  exact faithful_of_inv cfg hc ht

theorem faithfulBatches_of_cacheStep (cfg : Config) {r r' : Renderer}
    (hc : CombinerCacheInv cfg r) (ht : TableInv cfg r)
    (hl : ∀ b, Event.flush b ∈ r.log → Faithful cfg b.primitives b.combiners b.resolved)
    (hs : CacheStep r r') :
    ∀ b, Event.flush b ∈ r'.log → Faithful cfg b.primitives b.combiners b.resolved := by
  obtain ⟨_, es, e1, f1⟩ := hs
  intro b hb
  rw [e1] at hb
  rcases List.mem_append.mp hb with h1 | h1
  · exact hl b h1
  · obtain ⟨_, hp, hcb, hg⟩ := f1 b h1
    exact faithful_batch cfg hc ht b hp hcb hg

/-- The renderer after the binning loops is related to the renderer after the second part of
the draw as a renderer is to itself, as far as the records, the table and the log go. -/
theorem cacheStep_draw_rest (cfg : Config) (r : Renderer) (d : DrawCall) :
    CacheStep (draw_record cfg (draw_begin cfg r d) d).1 (draw_primitive cfg r d) := by
  unfold draw_primitive
  dsimp only
  have hbin := binOnly_bin_tiles cfg d.prim
      (clip_scissor r.scissor d.min_x d.max_x d.min_y d.max_y).1
      (clip_scissor r.scissor d.min_x d.max_x d.min_y d.max_y).2.1
      (clip_scissor r.scissor d.min_x d.max_x d.min_y d.max_y).2.2.1
      (clip_scissor r.scissor d.min_x d.max_x d.min_y d.max_y).2.2.2
      (draw_begin cfg r d).primitive_data.length
      (max (Int.tdiv (clip_scissor r.scissor d.min_x d.max_x d.min_y d.max_y).1 cfg.TILE_SIZE_X) 0)
      (min (Int.tdiv (clip_scissor r.scissor d.min_x d.max_x d.min_y d.max_y).2.1 cfg.TILE_SIZE_X)
        (((draw_begin cfg r d).tiles_x : Int) - 1))
      (Int.tdiv (clip_scissor r.scissor d.min_x d.max_x d.min_y d.max_y).2.2.1 cfg.TILE_SIZE_Y)
      (Int.tdiv (clip_scissor r.scissor d.min_x d.max_x d.min_y d.max_y).2.2.2 cfg.TILE_SIZE_Y)
      (draw_record cfg (draw_begin cfg r d) d)
  generalize (bin_tiles cfg d.prim _ _ _ _ _ _ _ _ _ (draw_record cfg (draw_begin cfg r d) d))
    = binned at hbin ⊢
  have hb : CacheStep (draw_record cfg (draw_begin cfg r d) d).1 binned.1 :=
    cacheStep_of_eq (log_same (by rw [hbin]) (log_refl _)) (by rw [hbin]) (by rw [hbin])
      (by rw [hbin])
  split_ifs
  · exact cacheStep_trans hb (cacheStep_flush_tile_lists cfg _)
  · exact hb

theorem faithfulBatches_draw_primitive (cfg : Config) (d : DrawCall) {r : Renderer}
    (hc : CombinerCacheInv cfg r) (ht : TableInv cfg r)
    (hl : ∀ b, Event.flush b ∈ r.log → Faithful cfg b.primitives b.combiners b.resolved) :
    ∀ b, Event.flush b ∈ (draw_primitive cfg r d).log →
      Faithful cfg b.primitives b.combiners b.resolved := by
  have l4 := faithfulBatches_of_cacheStep cfg hc ht hl (cacheStep_draw_begin cfg r d)
  have hc7 := combinerCacheInv_draw_record cfg d (combinerCacheInv_draw_begin cfg d hc)
  have ht7 := (tableInv_draw_record cfg d (tableInv_draw_begin cfg d ht)).1
  obtain ⟨es, hle, hes⟩ := log_draw_record cfg (draw_begin cfg r d) d
  have l7 : ∀ b, Event.flush b ∈ (draw_record cfg (draw_begin cfg r d) d).1.log →
      Faithful cfg b.primitives b.combiners b.resolved := by
    intro b hb
    rw [hle] at hb
    rcases List.mem_append.mp hb with h1 | h1
    · exact l4 b h1
    · exact absurd rfl (hes _ h1 b)
  exact faithfulBatches_of_cacheStep cfg hc7 ht7 l7 (cacheStep_draw_rest cfg r d)

theorem faithfulBatches_run (cfg : Config) (ops : List Op) (r : Renderer)
    (hc : CombinerCacheInv cfg r) (ht : TableInv cfg r)
    (hl : ∀ b, Event.flush b ∈ r.log → Faithful cfg b.primitives b.combiners b.resolved) :
    ∀ b, Event.flush b ∈ (run cfg r ops).log →
      Faithful cfg b.primitives b.combiners b.resolved := by
  unfold run
  induction ops generalizing r with
  | nil => exact hl
  | cons op ops ih =>
    refine ih _ (combinerCacheInv_step cfg op hc) (tableInv_step cfg op ht) ?_
    by_cases hd : ∃ d, op = Op.draw_primitive d
    · obtain ⟨d, rfl⟩ := hd
      exact faithfulBatches_draw_primitive cfg d hc ht hl
    · exact faithfulBatches_of_cacheStep cfg hc ht hl
        (cacheStep_step cfg r op (fun d hop => hd ⟨d, hop⟩))

/-! ## The table only grows within a batch -/

theorem tableGrows_refl (r : Renderer) : TableGrows r r :=
  ⟨[], by simp, Or.inr (List.prefix_refl _)⟩

theorem tableGrows_trans {a b c : Renderer} (h1 : TableGrows a b) (h2 : TableGrows b c) :
    TableGrows a c := by
  obtain ⟨es1, e1, f1⟩ := h1
  obtain ⟨es2, e2, f2⟩ := h2
  refine ⟨es1 ++ es2, by rw [e2, e1, List.append_assoc], ?_⟩
  rcases f1 with ⟨x, hx⟩ | p1
  · exact Or.inl ⟨x, List.mem_append_left _ hx⟩
  · rcases f2 with ⟨x, hx⟩ | p2
    · exact Or.inl ⟨x, List.mem_append_right _ hx⟩
    · exact Or.inr (List.IsPrefix.trans p1 p2)

/-- A change after which the old table is a prefix of the new one. -/
theorem tableGrows_of_prefix {r r' : Renderer} (h : ∃ es, r'.log = r.log ++ es ∧ NoFlush es)
    (hp : r.combiner_data <+: r'.combiner_data) : TableGrows r r' := by
  obtain ⟨es, hl, _⟩ := h
  exact ⟨es, hl, Or.inr hp⟩

theorem tableGrows_of_eq {r r' : Renderer} (h : ∃ es, r'.log = r.log ++ es ∧ NoFlush es)
    (hc : r'.combiner_data = r.combiner_data) : TableGrows r r' :=
  tableGrows_of_prefix h (by rw [hc])

theorem tableGrows_of_residencyOnly {r r' : Renderer} (h : ResidencyOnly r r')
    (hl : ∃ es, r'.log = r.log ++ es ∧ NoFlush es) : TableGrows r r' :=
  tableGrows_of_eq hl (by rw [h])

theorem tableGrows_flush_tile_lists (cfg : Config) (r : Renderer) :
    TableGrows r (flush_tile_lists cfg r) := by
  by_cases he : (r.primitive_data.isEmpty || r.work_data.isEmpty) = true
  · rw [flush_tile_lists_skipped cfg r he]; exact tableGrows_refl r
  · have hp : r.primitive_data ≠ [] := by
      intro hp; apply he; simp [hp]
    have hw : r.work_data ≠ [] := by
      intro hw; apply he; simp [hw]
    obtain ⟨r1, _, ⟨es, b, hl⟩, e⟩ := flush_tile_lists_completed cfg r hp hw
    refine ⟨es ++ [Event.flush b], ?_, Or.inl ⟨b, by simp⟩⟩
    rw [e]
    show r1.log = _
    rw [hl, List.append_assoc]

theorem tableGrows_sync_gpu_to_dram (r : Renderer) (blocking : Bool) :
    TableGrows r (sync_gpu_to_dram r blocking) :=
  tableGrows_of_residencyOnly (residencyOnly_sync_gpu_to_dram blocking (residencyOnly_refl r))
    (log_sync_gpu_to_dram blocking (log_refl r))

theorem tableGrows_sync_full (cfg : Config) (r : Renderer) : TableGrows r (sync_full cfg r) := by
  unfold sync_full
  dsimp only
  refine tableGrows_trans ?_ (tableGrows_sync_gpu_to_dram _ _)
  refine tableGrows_trans ?_ (tableGrows_flush_tile_lists cfg _)
  exact tableGrows_of_residencyOnly
    (residencyOnly_push_ledger _ (residencyOnly_foldl_sync _ (residencyOnly_refl r)))
    (log_foldl_sync r.async_transfers (log_refl r))

theorem tableGrows_complete_frame (cfg : Config) (r : Renderer) (synchronous : Bool) :
    TableGrows r (complete_frame cfg r synchronous) := by
  unfold complete_frame
  split_ifs
  · exact tableGrows_sync_full cfg r
  · exact tableGrows_trans (tableGrows_flush_tile_lists cfg r) (tableGrows_sync_gpu_to_dram _ _)

theorem tableGrows_set_framebuffer_size (cfg : Config) (r : Renderer) (width height : Nat) :
    TableGrows r (set_framebuffer_size cfg r width height) := by
  unfold set_framebuffer_size
  have h1 : TableGrows r
      (if r.framebuffer.color_state = FRAMEBUFFER_GPU ∨ r.framebuffer.depth_state = FRAMEBUFFER_GPU
       then sync_full cfg r else r) := by
    split_ifs
    · exact tableGrows_sync_full cfg r
    · exact tableGrows_refl r
  refine tableGrows_trans h1 ?_
  generalize (if r.framebuffer.color_state = FRAMEBUFFER_GPU ∨
    r.framebuffer.depth_state = FRAMEBUFFER_GPU then sync_full cfg r else r) = r1
  dsimp only
  exact tableGrows_of_eq (log_assert _ _ (log_same rfl (log_refl r1)))
    (by rw [assert_eq])

theorem tableGrows_draw_begin (cfg : Config) (r : Renderer) (d : DrawCall) :
    TableGrows r (draw_begin cfg r d) := by
  unfold draw_begin
  dsimp only
  have h1 : TableGrows r
      (if (clip_scissor r.scissor d.min_x d.max_x d.min_y d.max_y).2.2.2
          ≥ (r.framebuffer.allocated_height : Int)
       then set_framebuffer_size cfg r r.framebuffer.allocated_width
         ((clip_scissor r.scissor d.min_x d.max_x d.min_y d.max_y).2.2.2 + 1).toNat
       else r) := by
    split_ifs
    · exact tableGrows_set_framebuffer_size cfg r _ _
    · exact tableGrows_refl r
  refine tableGrows_trans h1 (tableGrows_of_eq
    (log_assert _ _ (log_assert _ _ (log_same ?_ (log_refl _)))) ?_)
  · rw [update_tiles_frame]
  · rw [assert_eq, assert_eq, update_tiles_frame]

theorem tableGrows_draw_primitive (cfg : Config) (r : Renderer) (d : DrawCall)
    (h : TableInv cfg r) : TableGrows r (draw_primitive cfg r d) := by
  have h4 := tableGrows_draw_begin cfg r d
  have h7 : TableGrows (draw_begin cfg r d) (draw_record cfg (draw_begin cfg r d) d).1 :=
    tableGrows_of_prefix (log_draw_record cfg _ d)
      (tableInv_draw_record cfg d (tableInv_draw_begin cfg d h)).2.1
  refine tableGrows_trans (tableGrows_trans h4 h7) ?_
  unfold draw_primitive
  dsimp only
  have hbin := binOnly_bin_tiles cfg d.prim
      (clip_scissor r.scissor d.min_x d.max_x d.min_y d.max_y).1
      (clip_scissor r.scissor d.min_x d.max_x d.min_y d.max_y).2.1
      (clip_scissor r.scissor d.min_x d.max_x d.min_y d.max_y).2.2.1
      (clip_scissor r.scissor d.min_x d.max_x d.min_y d.max_y).2.2.2
      (draw_begin cfg r d).primitive_data.length
      (max (Int.tdiv (clip_scissor r.scissor d.min_x d.max_x d.min_y d.max_y).1 cfg.TILE_SIZE_X) 0)
      (min (Int.tdiv (clip_scissor r.scissor d.min_x d.max_x d.min_y d.max_y).2.1 cfg.TILE_SIZE_X)
        (((draw_begin cfg r d).tiles_x : Int) - 1))
      (Int.tdiv (clip_scissor r.scissor d.min_x d.max_x d.min_y d.max_y).2.2.1 cfg.TILE_SIZE_Y)
      (Int.tdiv (clip_scissor r.scissor d.min_x d.max_x d.min_y d.max_y).2.2.2 cfg.TILE_SIZE_Y)
      (draw_record cfg (draw_begin cfg r d) d)
  generalize (bin_tiles cfg d.prim _ _ _ _ _ _ _ _ _ (draw_record cfg (draw_begin cfg r d) d))
    = binned at hbin ⊢
  have hb : TableGrows (draw_record cfg (draw_begin cfg r d) d).1 binned.1 :=
    tableGrows_of_eq (log_same (by rw [hbin]) (log_refl _)) (by rw [hbin])
  split_ifs
  · exact tableGrows_trans hb (tableGrows_flush_tile_lists cfg _)
  · exact hb

theorem tableGrows_step (cfg : Config) (r : Renderer) (op : Op) (h : TableInv cfg r) :
    TableGrows r (step cfg r op) := by
  cases op with
  | set_depth_image addr synchronous =>
    show TableGrows r (set_depth_image cfg r addr synchronous)
    unfold set_depth_image
    split_ifs
    · exact tableGrows_refl r
    · exact tableGrows_trans (tableGrows_complete_frame cfg r synchronous)
        (tableGrows_of_eq (log_same rfl (log_refl _)) rfl)
    · exact tableGrows_of_eq (log_same rfl (log_refl _)) rfl
  | set_color_image addr format pixel_size width synchronous =>
    show TableGrows r (set_color_image cfg r addr format pixel_size width synchronous)
    unfold set_color_image
    have h2 : TableGrows r
        { complete_frame cfg r synchronous with framebuffer :=
          { (complete_frame cfg r synchronous).framebuffer with
            addr := addr, format := format, width := width, pixel_size := pixel_size } } :=
      tableGrows_trans (tableGrows_complete_frame cfg r synchronous)
        (tableGrows_of_eq (log_same rfl (log_refl _)) rfl)
    dsimp only
    split_ifs
    all_goals first
      | exact tableGrows_refl r
      | exact h2
      | exact tableGrows_trans h2 (tableGrows_set_framebuffer_size cfg _ _ _)
  | set_framebuffer_size width height => exact tableGrows_set_framebuffer_size cfg r width height
  | draw_primitive d => exact tableGrows_draw_primitive cfg r d h
  | flush_tile_lists => exact tableGrows_flush_tile_lists cfg r
  | complete_frame synchronous => exact tableGrows_complete_frame cfg r synchronous
  | sync_full => exact tableGrows_sync_full cfg r
  | begin_index index =>
    show TableGrows r (begin_index r index)
    rw [begin_index_eq]
    exact tableGrows_of_eq ⟨_, rfl, noFlush_flatMap_copy_back_log _⟩ rfl
  | check_tmem_feedback addr synchronous =>
    show TableGrows r (check_tmem_feedback cfg r addr synchronous)
    unfold check_tmem_feedback
    split_ifs
    · exact tableGrows_complete_frame cfg r synchronous
    · exact tableGrows_complete_frame cfg r synchronous
    · exact tableGrows_refl r
  | fill_rect_cpu xmin xmax ymin ymax =>
    show TableGrows r (fill_rect_cpu cfg r xmin xmax ymin ymax)
    unfold fill_rect_cpu
    dsimp only
    exact tableGrows_of_eq
      (log_emit _ (by simp) (log_assert _ _ (log_same rfl (log_refl r))))
      (by rw [Renderer.emit, assert_eq])
  | _ => exact tableGrows_of_eq (log_same rfl (log_refl r)) rfl

/-! ## The table entry of a record is the resolved state -/

/-- C28: for every state `r` reached from the initial state by any sequence of calls.
The pending batch is faithful: provided `hash64` does not collide on the states resolved for
the records of the batch, every record pushed in 1-cycle or 2-cycle mode stores an index and
the table entry at that index is the state that was resolved for the record; the same holds
of every batch handed to the GPU on the way.  For every draw made in `r`: one record is
pushed; in 1-cycle or 2-cycle mode (and in no other mode) it stores an index, and the state
recorded with it is what `update_static_combiner` gives on the registers of `r`; provided
`hash64` does not collide on the states resolved in the batch, the table entry at the stored
index is that state; when the combiner is not dirty at the push, the table is left as it is
and the stored index is `last_combiner`; the table before the push is a prefix of the table
after it; and after the binning loops the call leaves the records, the table and the
resolved states as the push left them, or it has uploaded exactly them and starts a new
batch.  For every call made in `r`, the table of `r` is a prefix of the table after the call
unless a batch was uploaded during the call: the entries of a batch are never modified. -/
theorem combiner_entry_is_resolved_state (cfg : Config) (ops : List Op) (r : Renderer)
    (hr : r = run cfg (Renderer.init cfg) ops) :
    Faithful cfg r.primitive_data r.combiner_data r.ghost_resolved ∧
    (∀ b, Event.flush b ∈ r.log → Faithful cfg b.primitives b.combiners b.resolved) ∧
    (∀ d : DrawCall, ∃ p : BufferPrimitive,
      (draw_record cfg (draw_begin cfg r d) d).1.primitive_data
        = (draw_begin cfg r d).primitive_data ++ [p] ∧
      (draw_record cfg (draw_begin cfg r d) d).1.ghost_resolved
        = (draw_begin cfg r d).ghost_resolved ++
          [if p.combiner.isSome then some (update_static_combiner r.state) else none] ∧
      (p.combiner.isSome = true ↔
        ((d.prim.flags >>> cfg.RDP_FLAG_CYCLE_TYPE_SHIFT) &&& 3 = cfg.CYCLE_TYPE_1 ∨
          (d.prim.flags >>> cfg.RDP_FLAG_CYCLE_TYPE_SHIFT) &&& 3 = cfg.CYCLE_TYPE_2)) ∧
      (p.combiner.isSome = true →
        NoCollision cfg (draw_record cfg (draw_begin cfg r d) d).1.ghost_resolved →
        ∃ j, p.combiner = some j ∧
          (draw_record cfg (draw_begin cfg r d) d).1.combiner_data[j]?
            = some (update_static_combiner r.state)) ∧
      ((draw_begin cfg r d).state.combiners_dirty = false →
        (draw_record cfg (draw_begin cfg r d) d).1.combiner_data
          = (draw_begin cfg r d).combiner_data ∧
        (p.combiner.isSome = true → p.combiner = some (draw_begin cfg r d).state.last_combiner)) ∧
      (draw_begin cfg r d).combiner_data
        <+: (draw_record cfg (draw_begin cfg r d) d).1.combiner_data ∧
      CacheStep (draw_record cfg (draw_begin cfg r d) d).1 (draw_primitive cfg r d)) ∧
    (∀ op : Op, TableGrows r (step cfg r op)) := by
  have hc : CombinerCacheInv cfg r := by
    rw [hr]; exact combinerCacheInv_run cfg ops (combinerCacheInv_init cfg)
  have ht : TableInv cfg r := by
    rw [hr]; exact tableInv_run cfg ops (tableInv_init cfg)
  refine ⟨faithful_of_inv cfg hc ht, ?_, ?_, fun op => tableGrows_step cfg r op ht⟩
  · rw [hr]
    exact faithfulBatches_run cfg ops (Renderer.init cfg) (combinerCacheInv_init cfg)
      (tableInv_init cfg) (by intro b hb; simp [Renderer.init] at hb)
  · intro d
    have hc4 := combinerCacheInv_draw_begin cfg d hc
    have ht4 := tableInv_draw_begin cfg d ht
    have hc7 := combinerCacheInv_draw_record cfg d hc4
    obtain ⟨ht7, hpre, p, hp, hg, hmode, hclean⟩ := tableInv_draw_record cfg d ht4
    rw [update_static_combiner_of_kept (resolveKept_draw_begin cfg r d)] at hg
    refine ⟨p, hp, hg, hmode, ?_, ?_, hpre, cacheStep_draw_rest cfg r d⟩
    · intro hs hn
      have hlast : (draw_record cfg (draw_begin cfg r d) d).1.primitive_data[
          (draw_begin cfg r d).primitive_data.length]? = some p := by
        rw [hp]; simp
      have hglast : (draw_record cfg (draw_begin cfg r d) d).1.ghost_resolved[
          (draw_begin cfg r d).primitive_data.length]?
            = some (some (update_static_combiner r.state)) := by
        rw [hg, ← hc4.2.2.2, if_pos hs]; simp
      exact faithful_of_inv cfg hc7 ht7 hn _ p _ hlast hglast
    · intro hd
      exact ⟨(hclean hd).1, fun hs => (hclean hd).2 (hmode.mp hs)⟩

end RDP

namespace RDP

/-! ## A hash without collisions -/

theorem vec4_code_injective (a b : Vec4) (h : a.code = b.code) : a = b := by
  unfold Vec4.code at h
  rw [Nat.pair_eq_pair, Nat.pair_eq_pair, Nat.pair_eq_pair] at h
  obtain ⟨⟨h0, h1⟩, h2, h3⟩ := h
  exact vec4_eq a b h0 h1 h2 h3

theorem combinerInputs_code_injective (a b : CombinerInputs) (h : a.code = b.code) : a = b := by
  unfold CombinerInputs.code at h
  rw [Nat.pair_eq_pair, Nat.pair_eq_pair, Nat.pair_eq_pair] at h
  obtain ⟨⟨h0, h1⟩, h2, h3⟩ := h
  cases a; cases b
  simp only at h0 h1 h2 h3
  rw [h0, h1, h2, h3]

theorem combinerCycle_code_injective (a b : CombinerCycle) (h : a.code = b.code) : a = b := by
  unfold CombinerCycle.code at h
  rw [Nat.pair_eq_pair, Nat.pair_eq_pair, Nat.pair_eq_pair] at h
  obtain ⟨⟨h0, h1⟩, h2, h3⟩ := h
  have e0 := vec4_code_injective _ _ h0
  have e1 := vec4_code_injective _ _ h1
  have e2 := vec4_code_injective _ _ h2
  have e3 := vec4_code_injective _ _ h3
  cases a; cases b
  simp only at e0 e1 e2 e3
  rw [e0, e1, e2, e3]

theorem combiners_code_injective (a b : Combiners) (h : a.code = b.code) : a = b := by
  unfold Combiners.code at h
  simp only [Nat.pair_eq_pair] at h
  obtain ⟨⟨h0, h1⟩, ⟨h2, h3⟩, h4, h5⟩ := h
  have e0 := combinerCycle_code_injective _ _ h0
  have e1 := combinerCycle_code_injective _ _ h1
  have e2 := combinerInputs_code_injective _ _ h2
  have e3 := combinerInputs_code_injective _ _ h3
  have e4 := combinerInputs_code_injective _ _ h4
  have e5 := combinerInputs_code_injective _ _ h5
  obtain ⟨⟨c1, c2⟩, ⟨k1, k2⟩, ⟨a1, a2⟩⟩ := a
  obtain ⟨⟨c1', c2'⟩, ⟨k1', k2'⟩, ⟨a1', a2'⟩⟩ := b
  simp only at e0 e1 e2 e3 e4 e5
  rw [e0, e1, e2, e3, e4, e5]

/-- Under the sample configuration the hash collides on no list of resolved states. -/
theorem noCollision_sample (resolved : List (Option Combiners)) :
    NoCollision Config.sample resolved :=
  fun c1 c2 _ _ h => combiners_code_injective c1 c2 h

set_option maxRecDepth 100000 in
/-- C28, instance: three draws under the sample configuration (a hash without collisions) with
the environment colours 256, 512 and 256 again.  The records store the indices 0, 1 and 0; the
table holds two entries; the state resolved for each record is the table entry at its index;
and a fourth draw with the environment colour 512 pushes a record whose table entry is the
state resolved from the registers at that draw, without touching the two entries. -/
theorem combiner_entry_is_resolved_state_witness :
    NoCollision Config.sample
      (run Config.sample (Renderer.init Config.sample) shared_combiner_ops).ghost_resolved ∧
    (run Config.sample (Renderer.init Config.sample) shared_combiner_ops).primitive_data.map
      (fun p => p.combiner) = [some 0, some 1, some 0] ∧
    (run Config.sample (Renderer.init Config.sample) shared_combiner_ops).ghost_resolved =
      [(run Config.sample (Renderer.init Config.sample) shared_combiner_ops).combiner_data[0]?,
       (run Config.sample (Renderer.init Config.sample) shared_combiner_ops).combiner_data[1]?,
       (run Config.sample (Renderer.init Config.sample) shared_combiner_ops).combiner_data[0]?] ∧
    Faithful Config.sample
      (run Config.sample (Renderer.init Config.sample) shared_combiner_ops).primitive_data
      (run Config.sample (Renderer.init Config.sample) shared_combiner_ops).combiner_data
      (run Config.sample (Renderer.init Config.sample) shared_combiner_ops).ghost_resolved ∧
    TableGrows (run Config.sample (Renderer.init Config.sample) shared_combiner_ops)
      (step Config.sample (run Config.sample (Renderer.init Config.sample) shared_combiner_ops)
        (Op.draw_primitive (rect_draw 0 3 0 3))) :=
  ⟨noCollision_sample _, by decide, by decide,
   (combiner_entry_is_resolved_state Config.sample shared_combiner_ops _ rfl).1,
   (combiner_entry_is_resolved_state Config.sample shared_combiner_ops _ rfl).2.2.2 _⟩

end RDP

namespace RDP

/-! ## Flushes that are asked for and do nothing -/

theorem mem_flushed_batches (b : FlushedBatch) (es : List Event) :
    b ∈ flushed_batches es ↔ Event.flush b ∈ es := by
  induction es with
  | nil => simp [flushed_batches]
  | cons e es ih =>
    cases e <;> simp [flushed_batches, ih]

set_option maxRecDepth 100000 in
/-- C6: under a table of two entries, three 1-cycle draws with three environment colours whose
boxes lie to the right of the image, so that none binds a tile.  Each draw adds a combiner
entry; the second and the third raise the local flag `flush` ("Flushing due to combiners"),
and the flush they ask for returns at once because the batch has no work item.  After the
third draw the table holds three entries, one more than the maximum, the records hold the
indices 0, 1 and 2, and no batch was handed to the GPU. -/
theorem combiner_table_exceeds_maximum :
    Config.small.RDP_MAX_COMBINERS = 2 ∧
    (run Config.small (Renderer.init Config.small) combiner_overflow_ops).combiner_data.length
      = 3 ∧
    (run Config.small (Renderer.init Config.small) combiner_overflow_ops).primitive_data.map
      (fun p => p.combiner) = [some 0, some 1, some 2] ∧
    (run Config.small (Renderer.init Config.small) combiner_overflow_ops).work_data = [] ∧
    flushed_batches (run Config.small (Renderer.init Config.small) combiner_overflow_ops).log
      = [] ∧
    (draw_record Config.small
      (draw_begin Config.small
        (run Config.small (Renderer.init Config.small) combiner_overflow_ops.dropLast)
        (rect_draw 400 410 0 3))
      (rect_draw 400 410 0 3)).2 = true := by
  refine ⟨by decide, by decide, by decide, by decide, by decide, by decide⟩

set_option maxRecDepth 100000 in
/-- C27: under the small configuration (4 records per batch, 2 primitive bits in a node word)
four draws that bind no tile leave four records pending and no work item: the flush the fourth
asks for returns at once.  The fifth draw binds the tile instance 0 with the primitive index 4
and uploads the batch.  In that batch the node pool, the work items and `tile_count` have the
length 1, node 0 holds the word `4 | (0 << 2) = 4` and work item 0 the primitive index 4; the
word modulo `2 ^ 2` is 0, not the primitive index, and the word shifted right by 2 is 1, not
the tile instance 0. -/
theorem node_value_loses_primitive_index :
    (Config.small.RDP_MAX_PRIMITIVES = 4 ∧ Config.small.RDP_MAX_PRIMITIVES_LOG2 = 2) ∧
    ((run Config.small (Renderer.init Config.small) unbound_draws_ops).primitive_data.length = 4 ∧
      (run Config.small (Renderer.init Config.small) unbound_draws_ops).work_data = [] ∧
      flushed_batches (run Config.small (Renderer.init Config.small) unbound_draws_ops).log
        = []) ∧
    (flushed_batches
        (run Config.small (Renderer.init Config.small) primitive_overflow_ops).log).map
      (fun b => (b.primitives.length, b.tile_count, b.nodes.map (fun n => n.value),
        b.work.map (fun w => w.primitive))) = [(5, 1, [4], [4])] ∧
    ∃ (b : FlushedBatch) (n : TileNode) (w : BufferWorkDescriptor),
      Event.flush b ∈ (run Config.small (Renderer.init Config.small) primitive_overflow_ops).log ∧
      b.nodes.length = b.tile_count ∧ b.work.length = b.tile_count ∧
      b.nodes[0]? = some n ∧ b.work[0]? = some w ∧
      n.value = u32 (w.primitive ||| (0 <<< Config.small.RDP_MAX_PRIMITIVES_LOG2)) ∧
      w.primitive = 4 ∧
      n.value % 2 ^ Config.small.RDP_MAX_PRIMITIVES_LOG2 = 0 ∧
      n.value % 2 ^ Config.small.RDP_MAX_PRIMITIVES_LOG2 ≠ w.primitive ∧
      n.value >>> Config.small.RDP_MAX_PRIMITIVES_LOG2 = 1 ∧
      n.value >>> Config.small.RDP_MAX_PRIMITIVES_LOG2 ≠ 0 := by
  have hlist : (flushed_batches
        (run Config.small (Renderer.init Config.small) primitive_overflow_ops).log).map
      (fun b => (b.primitives.length, b.tile_count, b.nodes.map (fun n => n.value),
        b.work.map (fun w => w.primitive))) = [(5, 1, [4], [4])] := by decide
  refine ⟨⟨by decide, by decide⟩, ⟨by decide, by decide, by decide⟩, hlist, ?_⟩
  generalize hbs : flushed_batches
    (run Config.small (Renderer.init Config.small) primitive_overflow_ops).log = bs at hlist
  match bs, hbs, hlist with
  | [b], hbs, hlist =>
    simp only [List.map_cons, List.map_nil, List.cons.injEq, Prod.mk.injEq, and_true] at hlist
    obtain ⟨_, htc, hn, hw⟩ := hlist
    have hmem : Event.flush b ∈
        (run Config.small (Renderer.init Config.small) primitive_overflow_ops).log :=
      (mem_flushed_batches b _).mp (by rw [hbs]; exact List.mem_singleton_self b)
    match hnodes : b.nodes, hwork : b.work with
    | [n], [w] =>
      rw [hnodes] at hn
      rw [hwork] at hw
      simp only [List.map_cons, List.map_nil, List.cons.injEq, and_true] at hn hw
      refine ⟨b, n, w, hmem, by rw [hnodes, htc]; rfl, by rw [hwork, htc]; rfl,
        by rw [hnodes]; rfl, by rw [hwork]; rfl, ?_, hw, ?_, ?_, ?_, ?_⟩
      · rw [hn, hw]; decide
      · rw [hn]; decide
      · rw [hn, hw]; decide
      · rw [hn]; decide
      · rw [hn]; decide
    | [], _ => rw [hnodes] at hn; simp at hn
    | _ :: _ :: _, _ => rw [hnodes] at hn; simp at hn
    | [_], [] => rw [hwork] at hw; simp at hw
    | [_], _ :: _ :: _ => rw [hwork] at hw; simp at hw
  | [], _, hlist => simp at hlist
  | _ :: _ :: _, _, hlist => simp at hlist

end RDP
